import Mathlib

/-!
# The debugging subsystem of `gst/gstinfo.c`

A shallow embedding of the category registry, the threshold rules, the
handler chain, the log contexts, the rendering of a log line, the ring buffer
logger and the choice of the stack trace backend of
`subprojects/gstreamer/gst/gstinfo.c`.

Conventions of the embedding:

* a C string is a `List Char` (the bytes before the terminating NUL); a
  pointer that may be `NULL` is an `Option`;
* a `GstDebugLevel` is a natural number (the enumeration has no negative
  enumerator; values read from a string are reduced modulo `2 ^ 32`);
* the file-scope variables are the fields of `GstDebugState`, and a function
  that writes through a `GstDebugCategory *` returns the updated record next
  to the updated state;
* the embedding is sequential: the mutexes and the reader/writer lock are not
  represented, and a log function is taken not to call back into the
  functions modelled here.
-/

namespace GstInfo

/-! ## What the file takes from GLib and from `gstinfo.h` -/

/-- The two `GPatternSpec` operations of GLib the file calls. A compiled
pattern is represented by the string it was compiled from, so
`match_string pat s` stands for
`g_pattern_spec_match_string (g_pattern_spec_new (pat), s)` and `equal a b`
for `g_pattern_spec_equal (g_pattern_spec_new (a), g_pattern_spec_new (b))`. -/
structure GPatternOps where
  match_string : List Char → List Char → Bool
  equal : List Char → List Char → Bool

/-- The enumerators of `GstDebugLevel` and the macro `GST_LEVEL_DEFAULT`,
declared in `gstinfo.h`, which is not part of the sources at hand. -/
structure GstDebugLevelDecl where
  GST_LEVEL_NONE : Nat
  GST_LEVEL_ERROR : Nat
  GST_LEVEL_WARNING : Nat
  GST_LEVEL_FIXME : Nat
  GST_LEVEL_INFO : Nat
  GST_LEVEL_DEBUG : Nat
  GST_LEVEL_LOG : Nat
  GST_LEVEL_TRACE : Nat
  GST_LEVEL_MEMDUMP : Nat
  GST_LEVEL_DEFAULT : Nat

/-! ## Data model -/

/-- The record `struct _GstDebugCategory`. -/
structure GstDebugCategory where
  threshold : Nat
  color : Nat
  name : List Char
  description : List Char
deriving DecidableEq, Repr

/-- The record `LevelNameEntry`: a pattern and the level it assigns. -/
structure LevelNameEntry where
  pat : List Char
  level : Nat
deriving DecidableEq, Repr

/-- The identity of a log function (a `GstLogFunction` pointer). -/
inductive GstLogFunction where
  | gst_debug_log_default
  | gst_ring_buffer_logger_log
  | user (id : Nat)
deriving DecidableEq, Repr

/-- The record `LogFuncEntry`; `notify` is `none` for a `NULL` callback. -/
structure LogFuncEntry where
  func : GstLogFunction
  user_data : Nat
  notify : Option Nat
deriving DecidableEq, Repr

/-- The file-scope variables of the category registry and handler chain. -/
structure GstDebugState where
  _gst_debug_enabled : Bool
  _gst_debug_min : Nat
  __default_level : Nat
  __level_name : List LevelNameEntry
  __categories : List GstDebugCategory
  __log_functions : List LogFuncEntry
  add_default_log_func : Bool := true
deriving DecidableEq, Repr

/-! ## Thresholds -/

/-- The function `gst_debug_category_set_threshold` for a category that is not
`NULL`: raises the process-wide tracker when `level` exceeds it and stores
`level` in the category. -/
def gst_debug_category_set_threshold (s : GstDebugState)
    (category : GstDebugCategory) (level : Nat) :
    GstDebugState × GstDebugCategory :=
  let s1 :=
    if level > s._gst_debug_min then
      { s with _gst_debug_enabled := true, _gst_debug_min := level }
    else s
  (s1, { category with threshold := level })

/-- The function `gst_debug_category_get_threshold`. -/
def gst_debug_category_get_threshold (category : GstDebugCategory) : Nat :=
  category.threshold

/-- The function `gst_debug_get_default_threshold`. -/
def gst_debug_get_default_threshold (s : GstDebugState) : Nat :=
  s.__default_level

/-- The function `gst_debug_apply_entry`: when the entry's pattern matches the
category name the category gets the entry's level and the result is `TRUE`.
(The `GST_LOG` line it prints when the library is initialised writes none of
the variables of `GstDebugState`.) -/
def gst_debug_apply_entry (P : GPatternOps) (s : GstDebugState)
    (cat : GstDebugCategory) (entry : LevelNameEntry) :
    GstDebugState × GstDebugCategory × Bool :=
  if !P.match_string entry.pat cat.name then (s, cat, false)
  else
    let r := gst_debug_category_set_threshold s cat entry.level
    (r.1, r.2, true)

/-- The `for` loop of `gst_debug_reset_threshold` from the list node `walk` on;
the last component tells whether the loop left through `break`
(`walk != NULL` after the loop). -/
def gst_debug_reset_threshold_walk (P : GPatternOps) :
    List LevelNameEntry → GstDebugState → GstDebugCategory →
    GstDebugState × GstDebugCategory × Bool
  | [], s, cat => (s, cat, false)
  | entry :: walk, s, cat =>
    let r := gst_debug_apply_entry P s cat entry
    if r.2.2 then (r.1, r.2.1, true)
    else gst_debug_reset_threshold_walk P walk r.1 r.2.1

/-- The function `gst_debug_reset_threshold`: the first entry of
`__level_name` that applies sets the threshold, and when the walk reaches the
end of the list the default threshold is set. -/
def gst_debug_reset_threshold (P : GPatternOps) (s : GstDebugState)
    (cat : GstDebugCategory) : GstDebugState × GstDebugCategory :=
  let r := gst_debug_reset_threshold_walk P s.__level_name s cat
  if r.2.2 then (r.1, r.2.1)
  else gst_debug_category_set_threshold r.1 r.2.1
    (gst_debug_get_default_threshold r.1)

/-- The call `g_slist_foreach (list, func, ...)` on a list of categories: `func`
runs on every element in list order; each run may update the state and the
element it was given. -/
def g_slist_foreach
    (func : GstDebugState → GstDebugCategory → GstDebugState × GstDebugCategory) :
    List GstDebugCategory → GstDebugState → GstDebugState × List GstDebugCategory
  | [], s => (s, [])
  | cat :: rest, s =>
    let r := func s cat
    let r2 := g_slist_foreach func rest r.1
    (r2.1, r.2 :: r2.2)

/-- The function `gst_debug_reset_all_thresholds`. -/
def gst_debug_reset_all_thresholds (P : GPatternOps) (s : GstDebugState) :
    GstDebugState :=
  let r := g_slist_foreach (gst_debug_reset_threshold P) s.__categories s
  { r.1 with __categories := r.2 }

/-- The function `gst_debug_set_default_threshold`. -/
def gst_debug_set_default_threshold (P : GPatternOps) (s : GstDebugState)
    (level : Nat) : GstDebugState :=
  gst_debug_reset_all_thresholds P { s with __default_level := level }

/-- The callback `for_each_threshold_by_entry`. -/
def for_each_threshold_by_entry (P : GPatternOps) (entry : LevelNameEntry)
    (s : GstDebugState) (cat : GstDebugCategory) :
    GstDebugState × GstDebugCategory :=
  let r := gst_debug_apply_entry P s cat entry
  (r.1, r.2.1)

/-- The function `gst_debug_set_threshold_for_name`: a `NULL` name returns
at once; otherwise the new entry is prepended to `__level_name` and applied,
alone, to every category. -/
def gst_debug_set_threshold_for_name (P : GPatternOps) (s : GstDebugState)
    (name : Option (List Char)) (level : Nat) : GstDebugState :=
  match name with
  | none => s
  | some name =>
    let entry : LevelNameEntry := { pat := name, level := level }
    let s1 := { s with __level_name := entry :: s.__level_name }
    let r := g_slist_foreach (for_each_threshold_by_entry P entry) s1.__categories s1
    { r.1 with __categories := r.2 }

/-- The `while (walk)` loop of `gst_debug_unset_threshold_for_name`. The list
`__level_name` is `before ++ walk`, `walk` being the part from the current
node on. An entry whose pattern equals `pat` is unlinked and the walk starts
again from the head of the shortened list; any other entry is stepped over. -/
def gst_debug_unset_threshold_for_name_walk (P : GPatternOps) (pat : List Char)
    (before walk : List LevelNameEntry) : List LevelNameEntry :=
  match walk with
  | [] => before
  | entry :: next =>
    if P.equal entry.pat pat then
      gst_debug_unset_threshold_for_name_walk P pat [] (before ++ next)
    else
      gst_debug_unset_threshold_for_name_walk P pat (before ++ [entry]) next
termination_by (before.length + walk.length, walk.length)
decreasing_by
  · simp_wf
    exact Prod.Lex.left _ _ (by omega)
  · simp_wf
    have h : before.length + 1 + next.length = before.length + (next.length + 1) := by
      omega
    rw [h]
    exact Prod.Lex.right _ (by omega)

/-- The function `gst_debug_unset_threshold_for_name`. -/
def gst_debug_unset_threshold_for_name (P : GPatternOps) (s : GstDebugState)
    (name : Option (List Char)) : GstDebugState :=
  match name with
  | none => s
  | some name =>
    let s1 := { s with __level_name :=
      gst_debug_unset_threshold_for_name_walk P name [] s.__level_name }
    gst_debug_reset_all_thresholds P s1

/-- The function `_gst_debug_get_category_locked`: the first category of the
list whose name is `name`. -/
def _gst_debug_get_category_locked (s : GstDebugState) (name : List Char) :
    Option GstDebugCategory :=
  s.__categories.find? (fun ret => decide (name = ret.name))

/-- The function `_gst_debug_category_new`. A fresh record is filled in and
its threshold reset against the rules; when a category of that name is already
listed the fresh record is dropped and the listed one returned, otherwise the
fresh record is prepended to `__categories`. `NULL` is returned for a `NULL`
name. -/
def _gst_debug_category_new (P : GPatternOps) (s : GstDebugState)
    (name : Option (List Char)) (color : Nat) (description : Option (List Char)) :
    GstDebugState × Option GstDebugCategory :=
  match name with
  | none => (s, none)
  | some name =>
    let cat : GstDebugCategory :=
      { name := name, color := color,
        description := description.getD "no description".toList,
        threshold := 0 }
    let r := gst_debug_reset_threshold P s cat
    match _gst_debug_get_category_locked r.1 name with
    | some catfound => (r.1, some catfound)
    | none => ({ r.1 with __categories := r.2 :: r.1.__categories }, some r.2)

/-- A call `gst_debug_category_set_threshold (cat, level)` in which `cat` points
to the element at position `i` of `__categories`: the record is read from the
list and the updated record is written back in place. -/
def gst_debug_category_set_threshold_at (s : GstDebugState) (i : Nat) (level : Nat) :
    GstDebugState :=
  match s.__categories[i]? with
  | none => s
  | some cat =>
    let r := gst_debug_category_set_threshold s cat level
    { r.1 with __categories := r.1.__categories.set i r.2 }

/-- The function `gst_debug_category_reset_threshold`. -/
def gst_debug_category_reset_threshold (P : GPatternOps) (s : GstDebugState)
    (category : GstDebugCategory) : GstDebugState × GstDebugCategory :=
  gst_debug_reset_threshold P s category

/-- A call `gst_debug_category_reset_threshold (cat)` in which `cat` points to
the element at position `i` of `__categories`. -/
def gst_debug_category_reset_threshold_at (P : GPatternOps) (s : GstDebugState)
    (i : Nat) : GstDebugState :=
  match s.__categories[i]? with
  | none => s
  | some cat =>
    let r := gst_debug_category_reset_threshold P s cat
    { r.1 with __categories := r.1.__categories.set i r.2 }

/-- The function `clear_level_names`. -/
def clear_level_names (s : GstDebugState) : GstDebugState :=
  { s with __level_name := [] }

/-! ## The handler chain -/

/-- The record `struct _GstDebugMessage` without its scratch buffer; the
argument list is kept as a list of machine words. -/
structure GstDebugMessage where
  message : Option (List Char)
  format : Option (List Char)
  arguments : List Nat
  object : Nat
  object_id : Option (List Char)
  free_object_id : Bool
deriving DecidableEq, Repr

/-- One run of a log function by the dispatch loop:
`entry->func (category, level, file, function, line, object, &message,
entry->user_data)`. -/
structure LogCall where
  func : GstLogFunction
  category : GstDebugCategory
  level : Nat
  file : List Char
  function : List Char
  line : Int
  object : Nat
  message : GstDebugMessage
  user_data : Nat
deriving DecidableEq, Repr

/-- The function `gst_debug_log_full_valist`, returning the runs of log
functions it makes, in order. `ctx` is `none` for a `NULL` context and
otherwise carries the result of `_gst_log_ctx_check_id_valist` on the context.
A `NULL` category, file, function or format makes the function return
without a run. -/
def gst_debug_log_full_valist (s : GstDebugState) (category : Option GstDebugCategory)
    (ctx : Option Bool) (level : Nat) (file function : Option (List Char)) (line : Int)
    (object : Nat) (object_id : Option (List Char)) (format : Option (List Char))
    (args : List Nat) : List LogCall :=
  match category with
  | none => []
  | some category =>
    if level > gst_debug_category_get_threshold category then []
    else if ctx = some false then []
    else
      match file, function, format with
      | some file, some function, some format =>
        let message : GstDebugMessage :=
          { message := none, format := some format, arguments := args, object := object,
            object_id := object_id, free_object_id := false }
        s.__log_functions.map (fun entry =>
          { func := entry.func, category := category, level := level, file := file,
            function := function, line := line, object := object, message := message,
            user_data := entry.user_data })
      | _, _, _ => []

/-- The function `gst_debug_log_literal_full`, returning the runs of log
functions it makes, in order. `ctx` is `none` for a `NULL` context and
otherwise carries the result of `_gst_log_ctx_check_id_literal`. -/
def gst_debug_log_literal_full (s : GstDebugState) (category : Option GstDebugCategory)
    (ctx : Option Bool) (level : Nat) (file function : Option (List Char)) (line : Int)
    (object : Nat) (id : Option (List Char)) (message_string : Option (List Char)) :
    List LogCall :=
  match category with
  | none => []
  | some category =>
    if level > gst_debug_category_get_threshold category then []
    else if ctx = some false then []
    else
      match file, function, message_string with
      | some file, some function, some message_string =>
        let message : GstDebugMessage :=
          { message := some message_string, format := none, arguments := [],
            object := object, object_id := id, free_object_id := false }
        s.__log_functions.map (fun entry =>
          { func := entry.func, category := category, level := level, file := file,
            function := function, line := line, object := object, message := message,
            user_data := entry.user_data })
      | _, _, _ => []

/-- The function `gst_debug_add_log_function`: a `NULL` function stands for
`gst_debug_log_default`, and the new entry is prepended to `__log_functions`.
(Its last statement, the `GST_DEBUG` line of an initialised library, writes
none of the variables of `GstDebugState`; the runs of log functions it makes
are `gst_debug_add_log_function_message`.) -/
def gst_debug_add_log_function (s : GstDebugState) (func : Option GstLogFunction)
    (user_data : Nat) (notify : Option Nat) : GstDebugState :=
  let func := match func with
    | none => GstLogFunction.gst_debug_log_default
    | some f => f
  let entry : LogFuncEntry := { func := func, user_data := user_data, notify := notify }
  { s with __log_functions := entry :: s.__log_functions }

/-- The comparison `gst_debug_compare_log_function_by_func (entry, func) == 0`.
(The source returns -1 or 1 by the order of the two addresses when they
differ; `g_slist_find_custom` only tests the result against 0.) -/
def gst_debug_compare_log_function_by_func (entry : LogFuncEntry) (func : GstLogFunction) :
    Bool :=
  decide (entry.func = func)

/-- The comparison `gst_debug_compare_log_function_by_data (entry, data) == 0`. -/
def gst_debug_compare_log_function_by_data (entry : LogFuncEntry) (data : Nat) : Bool :=
  decide (entry.user_data = data)

/-- The pair `g_slist_find_custom` / `g_slist_delete_link` of the removal loop:
the data of the first node on which the comparison gives 0, and the list
without that node; `none` when no node is found. -/
def g_slist_find_custom_delete_link (is_zero : LogFuncEntry → Bool) :
    List LogFuncEntry → Option (LogFuncEntry × List LogFuncEntry)
  | [] => none
  | entry :: rest =>
    if is_zero entry then some (entry, rest)
    else
      match g_slist_find_custom_delete_link is_zero rest with
      | some found => some (found.1, entry :: found.2)
      | none => none

/-- The first `while` loop of `gst_debug_remove_with_compare_func`: as long as
a matching node is found, its entry is prepended to `cleanup`, the node is
deleted from `__log_functions` and `removals` is counted up. -/
def gst_debug_remove_with_compare_func_find (is_zero : LogFuncEntry → Bool)
    (log_functions cleanup : List LogFuncEntry) (removals : Nat) :
    List LogFuncEntry × List LogFuncEntry × Nat :=
  match h : g_slist_find_custom_delete_link is_zero log_functions with
  | none => (log_functions, cleanup, removals)
  | some found =>
    gst_debug_remove_with_compare_func_find is_zero found.2 (found.1 :: cleanup)
      (removals + 1)
termination_by log_functions.length
decreasing_by
  have key : ∀ (l : List LogFuncEntry) (f : LogFuncEntry × List LogFuncEntry),
      g_slist_find_custom_delete_link is_zero l = some f → f.2.length < l.length := by
    intro l
    induction l with
    | nil => intro f hf; simp [g_slist_find_custom_delete_link] at hf
    | cons e rest ih =>
      intro f hf
      unfold g_slist_find_custom_delete_link at hf
      by_cases hz : is_zero e = true
      · simp only [hz, if_true, Option.some.injEq] at hf
        rw [← hf]
        simp
      · simp only [hz, Bool.false_eq_true, if_false] at hf
        cases hr : g_slist_find_custom_delete_link is_zero rest with
        | none => rw [hr] at hf; exact Option.noConfusion hf
        | some f2 =>
          rw [hr] at hf
          simp only [Option.some.injEq] at hf
          rw [← hf]
          have := ih f2 hr
          simp
          omega
  exact key log_functions found h

/-- The second `while` loop of `gst_debug_remove_with_compare_func`: the
calls `entry->notify (entry->user_data)` it makes, in order, each written as
the pair of the callback and its argument. -/
def gst_debug_remove_with_compare_func_cleanup :
    List LogFuncEntry → List (Nat × Nat)
  | [] => []
  | entry :: cleanup =>
    match entry.notify with
    | some notify => (notify, entry.user_data) :: gst_debug_remove_with_compare_func_cleanup cleanup
    | none => gst_debug_remove_with_compare_func_cleanup cleanup

/-- The function `gst_debug_remove_with_compare_func`: the new state, the
value returned (`removals`; a `guint`, the list being far shorter than
`2 ^ 32`) and the destroy-notify calls made. -/
def gst_debug_remove_with_compare_func (s : GstDebugState) (is_zero : LogFuncEntry → Bool) :
    GstDebugState × Nat × List (Nat × Nat) :=
  let r := gst_debug_remove_with_compare_func_find is_zero s.__log_functions [] 0
  ({ s with __log_functions := r.1 }, r.2.2, gst_debug_remove_with_compare_func_cleanup r.2.1)

/-- The function `gst_debug_remove_log_function`; `initialized` is the value of
`gst_is_initialized ()`. Before initialisation the removal of the default log
function also clears `add_default_log_func` and counts one more removal. -/
def gst_debug_remove_log_function (s : GstDebugState) (initialized : Bool)
    (func : Option GstLogFunction) : GstDebugState × Nat × List (Nat × Nat) :=
  let func := match func with
    | none => GstLogFunction.gst_debug_log_default
    | some f => f
  let r := gst_debug_remove_with_compare_func s
    (fun entry => gst_debug_compare_log_function_by_func entry func)
  if initialized then r
  else if func = GstLogFunction.gst_debug_log_default then
    ({ r.1 with add_default_log_func := false }, r.2.1 + 1, r.2.2)
  else r

/-- The function `gst_debug_remove_log_function_by_data`. -/
def gst_debug_remove_log_function_by_data (s : GstDebugState) (data : Nat) :
    GstDebugState × Nat × List (Nat × Nat) :=
  gst_debug_remove_with_compare_func s
    (fun entry => gst_debug_compare_log_function_by_data entry data)

/-! ## Lazy rendering of the message -/

/-- The function `gst_debug_message_get`; `vasprintf format arguments` stands
for `__gst_vasprintf`, `none` for a negative length. The last component tells
whether `__gst_vasprintf` was called. -/
def gst_debug_message_get
    (vasprintf : Option (List Char) → List Nat → Option (List Char))
    (message : GstDebugMessage) : GstDebugMessage × Option (List Char) × Bool :=
  match message.message with
  | none =>
    let text := vasprintf message.format message.arguments
    ({ message with message := text }, text, true)
  | some text => (message, some text, false)

/-- One run of a log function on the message of a dispatch. The struct is
private to `gstinfo.c`, so a log function reads the text only through
`gst_debug_message_get`; `gets` is the number of times it calls it. The result
is the message after the run, the texts returned and the number of calls of
`__gst_vasprintf`. -/
def log_function_run (vasprintf : Option (List Char) → List Nat → Option (List Char)) :
    Nat → GstDebugMessage → GstDebugMessage × List (Option (List Char)) × Nat
  | 0, message => (message, [], 0)
  | gets + 1, message =>
    let r := gst_debug_message_get vasprintf message
    let rest := log_function_run vasprintf gets r.1
    (rest.1, r.2.1 :: rest.2.1, (if r.2.2 then 1 else 0) + rest.2.2)

/-- The handler loop of `gst_debug_log_full_valist` seen from the message: the
log functions run one after the other on the same `GstDebugMessage`, the
`i`-th of them calling `gst_debug_message_get` `gets[i]` times. -/
def gst_debug_log_full_valist_render
    (vasprintf : Option (List Char) → List Nat → Option (List Char)) :
    List Nat → GstDebugMessage → GstDebugMessage × List (Option (List Char)) × Nat
  | [], message => (message, [], 0)
  | gets :: handlers, message =>
    let r := log_function_run vasprintf gets message
    let rest := gst_debug_log_full_valist_render vasprintf handlers r.1
    (rest.1, r.2.1 ++ rest.2.1, r.2.2 + rest.2.2)

/-- The message record `gst_debug_log_full_valist` sets up before the handler
loop: no text yet, the format and the arguments kept for later. -/
def gst_debug_log_full_valist_message (object : Nat) (object_id : Option (List Char))
    (format : List Char) (args : List Nat) : GstDebugMessage :=
  { message := none, format := some format, arguments := args, object := object,
    object_id := object_id, free_object_id := false }

/-! ## Log contexts -/

/-- What the log-context code takes from outside `gstinfo.c`: the flag values
of `GstLogContextHashFlags` and `GstLogContextFlags` and the constant
`GST_CLOCK_TIME_NONE`, declared in headers that are not part of the sources at
hand, the conversion `%p` of the C library, and GLib's `g_strdup_vprintf`
(`none` for a `NULL` result). -/
structure GstLogContextDecl where
  GST_LOG_CONTEXT_DEFAULT : Nat
  GST_LOG_CONTEXT_USE_LINE_NUMBER : Nat
  GST_LOG_CONTEXT_IGNORE_OBJECT : Nat
  GST_LOG_CONTEXT_IGNORE_FORMAT : Nat
  GST_LOG_CONTEXT_IGNORE_FILE : Nat
  GST_LOG_CONTEXT_USE_STRING_ARGS : Nat
  GST_LOG_CONTEXT_FLAG_THROTTLE : Nat
  GST_CLOCK_TIME_NONE : Nat
  printf_p : Nat → List Char
  g_strdup_vprintf : Option (List Char) → List Nat → Option (List Char)

/-- The record `struct _GstLogContext` without its lock; `logged_messages`
holds the keys of the hash table. -/
structure GstLogContext where
  hash_flags : Nat
  flags : Nat
  interval : Nat
  category : Option GstDebugCategory
  logged_messages : List (List Char)
  last_reset_time : Nat
deriving DecidableEq, Repr

/-- The record `struct _GstLogContextBuilder`. -/
structure GstLogContextBuilder where
  hash_flags : Nat
  flags : Nat
  category : Option GstDebugCategory
  interval : Nat
deriving DecidableEq, Repr

/-- The C test `flags & flag` used as a condition. -/
def flag_test (flags flag : Nat) : Bool :=
  (flags &&& flag) != 0

/-- The function `gst_log_context_builder_new`; `NULL` for a `NULL` category. -/
def gst_log_context_builder_new (D : GstLogContextDecl) (category : Option GstDebugCategory)
    (flags : Nat) : Option GstLogContextBuilder :=
  match category with
  | none => none
  | some category =>
    some { hash_flags := D.GST_LOG_CONTEXT_DEFAULT, flags := flags, interval := 0,
           category := some category }

/-- The function `gst_log_context_builder_set_category`, for a builder that is
not `NULL`. -/
def gst_log_context_builder_set_category (builder : GstLogContextBuilder)
    (category : Option GstDebugCategory) : GstLogContextBuilder :=
  { builder with category := category }

/-- The function `gst_log_context_builder_set_hash_flags`, for a builder that
is not `NULL`. -/
def gst_log_context_builder_set_hash_flags (builder : GstLogContextBuilder) (flags : Nat) :
    GstLogContextBuilder :=
  { builder with hash_flags := flags }

/-- The function `gst_log_context_builder_set_interval`, for a builder that is
not `NULL`. -/
def gst_log_context_builder_set_interval (builder : GstLogContextBuilder) (interval : Nat) :
    GstLogContextBuilder :=
  { builder with interval := interval }

/-- The function `gst_log_context_builder_build`: an empty table of logged
messages and no reset time yet. (The registration of the context for cleanup
is not represented.) -/
def gst_log_context_builder_build (D : GstLogContextDecl) (builder : GstLogContextBuilder) :
    GstLogContext :=
  { hash_flags := builder.hash_flags, flags := builder.flags, interval := builder.interval,
    logged_messages := [], last_reset_time := D.GST_CLOCK_TIME_NONE,
    category := builder.category }

/-- The conversion `%s` of `g_strdup_printf`; a `NULL` argument prints as
`(null)`. -/
def printf_s (str : Option (List Char)) : List Char :=
  match str with
  | some str => str
  | none => "(null)".toList

/-- The conversion `%d` of `g_strdup_printf`. -/
def printf_d (i : Int) : List Char :=
  if i < 0 then '-' :: Nat.toDigits 10 i.natAbs else Nat.toDigits 10 i.toNat

/-- The function `_gst_log_ctx_get_id_literal`: the text
`"%s:%d/%p/%s/%s"` of the file, line, object, object id and message, each
replaced by a fixed value when the hash flags exclude it. -/
def _gst_log_ctx_get_id_literal (D : GstLogContextDecl) (ctx : GstLogContext)
    (file : Option (List Char)) (line : Int) (object : Nat)
    (object_id : Option (List Char)) (message : Option (List Char)) : List Char :=
  printf_s (if flag_test ctx.hash_flags D.GST_LOG_CONTEXT_IGNORE_FILE then some [] else file)
    ++ ':' :: printf_d
      (if flag_test ctx.hash_flags D.GST_LOG_CONTEXT_USE_LINE_NUMBER then line else -1)
    ++ '/' :: D.printf_p
      (if flag_test ctx.hash_flags D.GST_LOG_CONTEXT_IGNORE_OBJECT then 0 else object)
    ++ '/' :: printf_s
      (if flag_test ctx.hash_flags D.GST_LOG_CONTEXT_IGNORE_OBJECT then some [] else object_id)
    ++ '/' :: printf_s
      (if flag_test ctx.hash_flags D.GST_LOG_CONTEXT_IGNORE_FORMAT then some [] else message)

/-- The function `_gst_log_ctx_get_id_valist`; `none` when the `g_assert`
fails, which it does when `GST_LOG_CONTEXT_USE_STRING_ARGS` is combined with
`GST_LOG_CONTEXT_IGNORE_FORMAT`. -/
def _gst_log_ctx_get_id_valist (D : GstLogContextDecl) (ctx : GstLogContext)
    (file : Option (List Char)) (line : Int) (object : Nat)
    (object_id : Option (List Char)) (format : Option (List Char)) (args : List Nat) :
    Option (List Char) :=
  if flag_test ctx.hash_flags D.GST_LOG_CONTEXT_USE_STRING_ARGS then
    if flag_test ctx.hash_flags D.GST_LOG_CONTEXT_IGNORE_FORMAT then none
    else
      match D.g_strdup_vprintf format args with
      | some full_message =>
        some (_gst_log_ctx_get_id_literal D ctx file line object object_id
          (some full_message))
      | none => some (_gst_log_ctx_get_id_literal D ctx file line object object_id format)
  else some (_gst_log_ctx_get_id_literal D ctx file line object object_id format)

/-- The function `_gst_log_ctx_check_id`: `TRUE` without throttling;
otherwise the result of `g_hash_table_add`, which is `TRUE` when the key was
not in the table yet. -/
def _gst_log_ctx_check_id (D : GstLogContextDecl) (ctx : GstLogContext) (id : List Char) :
    GstLogContext × Bool :=
  if !flag_test ctx.flags D.GST_LOG_CONTEXT_FLAG_THROTTLE then (ctx, true)
  else if id ∈ ctx.logged_messages then (ctx, false)
  else ({ ctx with logged_messages := id :: ctx.logged_messages }, true)

/-- The function `_gst_log_context_reset_unlocked`; `now` is the value
`gst_util_get_timestamp ()` returns to it. -/
def _gst_log_context_reset_unlocked (ctx : GstLogContext) (now : Nat) : GstLogContext :=
  { ctx with logged_messages := [], last_reset_time := now }

/-- Modelled from the spec: the macro `GST_CLOCK_DIFF (s, e)` of `gstclock.h`,
which is not among the sources, gives the time elapsed from `s` to `e`; here
the 64-bit difference `e - s`, as the comparison with the unsigned interval
reads it. -/
def GST_CLOCK_DIFF (s e : Nat) : Nat :=
  (e + (2 ^ 64 - s % 2 ^ 64)) % 2 ^ 64

/-- The function `_gst_log_ctx_check_periodic_reset`. `now` is the value of
its own call of `gst_util_get_timestamp ()` and `now_reset` the value the call
inside `_gst_log_context_reset_unlocked` returns. The result is `FALSE` exactly
when the interval is not 0, a reset time is recorded and the interval has not
elapsed since. -/
def _gst_log_ctx_check_periodic_reset (D : GstLogContextDecl) (ctx : GstLogContext)
    (now now_reset : Nat) : GstLogContext × Bool :=
  if ctx.interval = 0 then (ctx, true)
  else if ctx.last_reset_time = D.GST_CLOCK_TIME_NONE then
    ({ ctx with last_reset_time := now }, true)
  else if GST_CLOCK_DIFF ctx.last_reset_time now ≥ ctx.interval then
    (_gst_log_context_reset_unlocked ctx now_reset, true)
  else (ctx, false)

/-- The function `_gst_log_ctx_check_id_literal` for a context that is not
`NULL`: the updated context and the result. -/
def _gst_log_ctx_check_id_literal (D : GstLogContextDecl) (ctx : GstLogContext)
    (now now_reset : Nat) (file : Option (List Char)) (line : Int) (object : Nat)
    (id : Option (List Char)) (message : Option (List Char)) : GstLogContext × Bool :=
  let r := _gst_log_ctx_check_periodic_reset D ctx now now_reset
  if !r.2 then (r.1, false)
  else _gst_log_ctx_check_id D r.1
    (_gst_log_ctx_get_id_literal D r.1 file line object id message)

/-- The function `_gst_log_ctx_check_id_valist` for a context that is not
`NULL`; `none` when the assertion of `_gst_log_ctx_get_id_valist` fails. -/
def _gst_log_ctx_check_id_valist (D : GstLogContextDecl) (ctx : GstLogContext)
    (now now_reset : Nat) (file : Option (List Char)) (line : Int) (object : Nat)
    (object_id : Option (List Char)) (format : Option (List Char)) (args : List Nat) :
    Option (GstLogContext × Bool) :=
  let r := _gst_log_ctx_check_periodic_reset D ctx now now_reset
  if !r.2 then some (r.1, false)
  else
    match _gst_log_ctx_get_id_valist D r.1 file line object object_id format args with
    | some id => some (_gst_log_ctx_check_id D r.1 id)
    | none => none

/-- The function `gst_log_context_reset` for a context that is not `NULL`. -/
def gst_log_context_reset (ctx : GstLogContext) (now : Nat) : GstLogContext :=
  _gst_log_context_reset_unlocked ctx now

/-- One check of a literal message on a context: the two clock readings and
the arguments of `_gst_log_ctx_check_id_literal`. -/
structure LogCheck where
  now : Nat
  now_reset : Nat
  file : Option (List Char)
  line : Int
  object : Nat
  id : Option (List Char)
  message : Option (List Char)
deriving DecidableEq, Repr

/-- The check `c` run on a context. -/
def LogCheck.run (D : GstLogContextDecl) (ctx : GstLogContext) (c : LogCheck) :
    GstLogContext × Bool :=
  _gst_log_ctx_check_id_literal D ctx c.now c.now_reset c.file c.line c.object c.id c.message

/-- A sequence of checks run one after the other: the final context and the
results in order. -/
def run_checks (D : GstLogContextDecl) : GstLogContext → List LogCheck →
    GstLogContext × List Bool
  | ctx, [] => (ctx, [])
  | ctx, c :: cs =>
    let r := c.run D ctx
    let rest := run_checks D r.1 cs
    (rest.1, r.2 :: rest.2)

/-- The two checks agree in file, object, object id and message text; their
line numbers and times may differ. -/
def LogCheck.same_but_line (a b : LogCheck) : Bool :=
  decide (a.file = b.file ∧ a.object = b.object ∧ a.id = b.id ∧ a.message = b.message)

/-- A periodic reset is due on the context at time `now`: the third branch of
`_gst_log_ctx_check_periodic_reset`, the one that clears the table. -/
def reset_due (D : GstLogContextDecl) (ctx : GstLogContext) (now : Nat) : Bool :=
  decide (ctx.interval ≠ 0 ∧ ctx.last_reset_time ≠ D.GST_CLOCK_TIME_NONE ∧
    GST_CLOCK_DIFF ctx.last_reset_time now ≥ ctx.interval)

/-- The checks all fall into the reset window the context is in: none of them
finds a periodic reset due. -/
def in_reset_window (D : GstLogContextDecl) : GstLogContext → List LogCheck → Prop
  | _, [] => True
  | ctx, c :: cs => reset_due D ctx c.now = false ∧ in_reset_window D (c.run D ctx).1 cs

/-- The key of the check `c` on a context. -/
def LogCheck.key (D : GstLogContextDecl) (ctx : GstLogContext) (c : LogCheck) : List Char :=
  _gst_log_ctx_get_id_literal D ctx c.file c.line c.object c.id c.message

/-- The number of checks of a run that returned `TRUE` among those that agree
with `m` in everything but the line number. -/
def accepted_like (m : LogCheck) : List Bool → List LogCheck → Nat
  | r :: results, c :: checks =>
    (if r && c.same_but_line m then 1 else 0) + accepted_like m results checks
  | _, _ => 0

/-- Modelled from the spec: the flags of a log context, one bit each, in the
order the data model lists them (line number, subject identity, format, file,
rendered text) and the throttle flag; `GST_CLOCK_TIME_NONE` is the all-ones
64-bit value; `%p` prints `(nil)` for a null pointer and the address in
hexadecimal otherwise; `g_strdup_vprintf` is represented by a function that
returns the format unchanged. -/
def spec_context_decl : GstLogContextDecl :=
  { GST_LOG_CONTEXT_DEFAULT := 0, GST_LOG_CONTEXT_USE_LINE_NUMBER := 1,
    GST_LOG_CONTEXT_IGNORE_OBJECT := 2, GST_LOG_CONTEXT_IGNORE_FORMAT := 4,
    GST_LOG_CONTEXT_IGNORE_FILE := 8, GST_LOG_CONTEXT_USE_STRING_ARGS := 16,
    GST_LOG_CONTEXT_FLAG_THROTTLE := 1, GST_CLOCK_TIME_NONE := 2 ^ 64 - 1,
    printf_p := fun p => if p = 0 then "(nil)".toList else '0' :: 'x' :: Nat.toDigits 16 p,
    g_strdup_vprintf := fun format _ => format }

/-! ## Logging through a log context -/

/-- What the rendering of a log line takes from outside `gstinfo.c`: the
directory separator of GLib, the text of `"%" GST_TIME_FORMAT` for
`GST_TIME_ARGS (t)` (`gstclock.h`), the conversion `%p` of the C library, the
enumerator `GST_DEBUG_COLOR_MODE_OFF` and the colour masks of `gstinfo.h`, the
object description of `_get_object_id` (which reads the GObject type system)
with its `allocated` flag, the renderer `__gst_vasprintf`, and the start time
`_priv_gst_start_time`. -/
structure GstLineDecl where
  G_DIR_SEPARATOR : Char
  GST_TIME : Nat → List Char
  printf_p : Nat → List Char
  GST_DEBUG_COLOR_MODE_OFF : Nat
  GST_DEBUG_BOLD : Nat
  GST_DEBUG_UNDERLINE : Nat
  GST_DEBUG_FG_MASK : Nat
  GST_DEBUG_BG_MASK : Nat
  _get_object_id : Nat → List Char × Bool
  __gst_vasprintf : Option (List Char) → List Nat → Option (List Char)
  _priv_gst_start_time : Nat

/-- The terminating NUL of a C string, read when an index is at its end. -/
def NUL : Char := Char.ofNat 0

/-- The function `strrchr`: the position of the last occurrence of `c`. -/
def strrchr : List Char → Char → Option Nat
  | [], _ => none
  | x :: rest, c =>
    match strrchr rest c with
    | some i => some (i + 1)
    | none => if x = c then some 0 else none

/-- The function `g_ascii_isalpha`. -/
def g_ascii_isalpha (c : Char) : Bool :=
  ('a'.toNat ≤ c.toNat && c.toNat ≤ 'z'.toNat) || ('A'.toNat ≤ c.toNat && c.toNat ≤ 'Z'.toNat)

/-- The function `gst_path_basename`: what follows the last `G_DIR_SEPARATOR`
or `/`, whichever comes later; without either, what follows a drive prefix
(a letter and a colon); else the name itself. -/
def gst_path_basename (G_DIR_SEPARATOR : Char) (file_name : List Char) : List Char :=
  let base := strrchr file_name G_DIR_SEPARATOR
  let q := strrchr file_name '/'
  let base :=
    match base, q with
    | none, _ => q
    | some b, some q => if q > b then some q else some b
    | some b, none => some b
  match base with
  | some b => file_name.drop (b + 1)
  | none =>
    if g_ascii_isalpha (file_name.headD NUL) && file_name.getD 1 NUL == ':' then
      file_name.drop 2
    else file_name

/-- The function `gst_debug_message_get_id`: the object id is produced from the
object on the first call when the message has none and the object is not
`NULL` (0). -/
def gst_debug_message_get_id (get_object_id : Nat → List Char × Bool)
    (message : GstDebugMessage) : GstDebugMessage × Option (List Char) :=
  if message.object_id = none ∧ message.object ≠ 0 then
    ({ message with
        object_id := some (get_object_id message.object).1,
        free_object_id := (get_object_id message.object).2 },
      some (get_object_id message.object).1)
  else (message, message.object_id)

/-- The function `gst_debug_level_get_name`; a value that is no enumerator
gives the empty name (and a warning). -/
def gst_debug_level_get_name (L : GstDebugLevelDecl) (level : Nat) : List Char :=
  if level = L.GST_LEVEL_NONE then []
  else if level = L.GST_LEVEL_ERROR then "ERROR  ".toList
  else if level = L.GST_LEVEL_WARNING then "WARN   ".toList
  else if level = L.GST_LEVEL_INFO then "INFO   ".toList
  else if level = L.GST_LEVEL_DEBUG then "DEBUG  ".toList
  else if level = L.GST_LEVEL_LOG then "LOG    ".toList
  else if level = L.GST_LEVEL_FIXME then "FIXME  ".toList
  else if level = L.GST_LEVEL_TRACE then "TRACE  ".toList
  else if level = L.GST_LEVEL_MEMDUMP then "MEMDUMP".toList
  else []

/-- The function `gst_debug_category_get_name`. -/
def gst_debug_category_get_name (category : GstDebugCategory) : List Char :=
  category.name

/-- The function `gst_debug_category_get_color`. -/
def gst_debug_category_get_color (category : GstDebugCategory) : Nat :=
  category.color

/-- A conversion with a minimum field width (`%5d`, `%14p`, `%20s`, `%02d`):
the text is padded on the left up to the width. -/
def printf_width (width : Nat) (pad : Char) (text : List Char) : List Char :=
  List.replicate (width - text.length) pad ++ text

/-- The text `printf` gives for `CAT_FMT`, `"%20s %s:%d:%s:%s"`. -/
def CAT_FMT (category_name file : List Char) (line : Int) (function tail : List Char) :
    List Char :=
  printf_width 20 ' ' category_name ++ " ".toList ++ file ++ ":".toList ++ printf_d line
    ++ ":".toList ++ function ++ ":".toList ++ tail

/-- The text `printf` gives for `CAT_FMT_ID`, `"%20s %s:%d:%s:<%s>"`. -/
def CAT_FMT_ID (category_name file : List Char) (line : Int) (function object_id : List Char) :
    List Char :=
  printf_width 20 ' ' category_name ++ " ".toList ++ file ++ ":".toList ++ printf_d line
    ++ ":".toList ++ function ++ ":<".toList ++ object_id ++ ">".toList

/-- The text `printf` gives for `"%" GST_TIME_FORMAT NOCOLOR_PRINT_FMT`, that is
for `GST_TIME_FORMAT " " PID_FMT " " PTR_FMT " %s " CAT_FMT " %s\n"` with
`PID_FMT` being `"%5d"` and `PTR_FMT` being `"%14p"` (the text outside
Windows, for pointers of 8 bytes). -/
def NOCOLOR_PRINT_FMT (E : GstLineDecl) (elapsed : Nat) (pid : Int) (thread : Nat)
    (level_name category_name file : List Char) (line : Int) (function tail : List Char)
    (message_str : Option (List Char)) : List Char :=
  E.GST_TIME elapsed ++ " ".toList ++ printf_width 5 ' ' (printf_d pid) ++ " ".toList
    ++ printf_width 14 ' ' (E.printf_p thread) ++ " ".toList ++ level_name ++ " ".toList
    ++ CAT_FMT category_name file line function tail ++ " ".toList ++ printf_s message_str
    ++ "\n".toList

/-- The text `printf` gives for `"%" GST_TIME_FORMAT NOCOLOR_PRINT_FMT_ID`. -/
def NOCOLOR_PRINT_FMT_ID (E : GstLineDecl) (elapsed : Nat) (pid : Int) (thread : Nat)
    (level_name category_name file : List Char) (line : Int) (function object_id : List Char)
    (message_str : Option (List Char)) : List Char :=
  E.GST_TIME elapsed ++ " ".toList ++ printf_width 5 ' ' (printf_d pid) ++ " ".toList
    ++ printf_width 14 ' ' (E.printf_p thread) ++ " ".toList ++ level_name ++ " ".toList
    ++ CAT_FMT_ID category_name file line function object_id ++ " ".toList
    ++ printf_s message_str ++ "\n".toList

/-- The function `_gst_debug_log_preamble`: the message after the text and the
object id were fetched, the file name (shortened when it starts with `.`, `/`
or a backslash, or has a colon in second place), the text, the object id and
the elapsed time. `timestamp` is the value of `gst_util_get_timestamp ()`. -/
def _gst_debug_log_preamble (E : GstLineDecl) (message : GstDebugMessage) (file : List Char)
    (timestamp : Nat) :
    GstDebugMessage × List Char × Option (List Char) × Option (List Char) × Nat :=
  let m := gst_debug_message_get E.__gst_vasprintf message
  let c := file.headD NUL
  let file :=
    if c = '.' ∨ c = '/' ∨ c = '\\' ∨ (c ≠ NUL ∧ file.getD 1 NUL = ':') then
      gst_path_basename E.G_DIR_SEPARATOR file
    else file
  let i := gst_debug_message_get_id E._get_object_id m.1
  (i.1, file, m.2.1, i.2, GST_CLOCK_DIFF E._priv_gst_start_time timestamp)

/-- The function `gst_debug_log_get_line`: the returned string. `timestamp`,
`pid` and `thread` are the values of `gst_util_get_timestamp ()`,
`_gst_getpid ()` and `g_thread_self ()`. -/
def gst_debug_log_get_line (E : GstLineDecl) (L : GstDebugLevelDecl)
    (category : GstDebugCategory) (level : Nat) (file function : List Char) (line : Int)
    (_object : Nat) (message : GstDebugMessage) (timestamp : Nat) (pid : Int) (thread : Nat) :
    List Char :=
  let p := _gst_debug_log_preamble E message file timestamp
  let file := p.2.1
  let message_str := p.2.2.1
  let elapsed := p.2.2.2.2
  match p.2.2.2.1 with
  | some object_id =>
    NOCOLOR_PRINT_FMT_ID E elapsed pid thread (gst_debug_level_get_name L level)
      (gst_debug_category_get_name category) file line function object_id message_str
  | none =>
    NOCOLOR_PRINT_FMT E elapsed pid thread (gst_debug_level_get_name L level)
      (gst_debug_category_get_name category) file line function [] message_str

/-- The function `_construct_term_color`: the escape sequence written to the
20-byte area. -/
def _construct_term_color (E : GstLineDecl) (colorinfo : Nat) : List Char :=
  [Char.ofNat 27] ++ "[00".toList
    ++ (if colorinfo &&& E.GST_DEBUG_BOLD ≠ 0 then ";01".toList else [])
    ++ (if colorinfo &&& E.GST_DEBUG_UNDERLINE ≠ 0 then ";04".toList else [])
    ++ (if colorinfo &&& E.GST_DEBUG_FG_MASK ≠ 0 then
          ";3".toList ++ [Char.ofNat (('0'.toNat + (colorinfo &&& E.GST_DEBUG_FG_MASK)) % 256)]
        else [])
    ++ (if colorinfo &&& E.GST_DEBUG_BG_MASK ≠ 0 then
          ";4".toList
            ++ [Char.ofNat (('0'.toNat + ((colorinfo &&& E.GST_DEBUG_BG_MASK) >>> 4)) % 256)]
        else [])
    ++ "m".toList

/-- The table `levelcolormap`, indexed by the level. -/
def levelcolormap : List (List Char) :=
  [[Char.ofNat 27] ++ "[37m".toList, [Char.ofNat 27] ++ "[31;01m".toList,
    [Char.ofNat 27] ++ "[33;01m".toList, [Char.ofNat 27] ++ "[32;01m".toList,
    [Char.ofNat 27] ++ "[36m".toList, [Char.ofNat 27] ++ "[37m".toList,
    [Char.ofNat 27] ++ "[33;01m".toList, [Char.ofNat 27] ++ "[37m".toList,
    [Char.ofNat 27] ++ "[37m".toList, [Char.ofNat 27] ++ "[37m".toList]

/-- The function `gst_debug_log_default`: the text written to the log file.
`color_mode` is the value of `gst_debug_get_color_mode ()`; the branches
compiled on Windows only are not represented. With colours the formats are
`PRINT_FMT_ID` and `PRINT_FMT`,
`" %s" PID_FMT "%s " PTR_FMT " %s%s%s %s" CAT_FMT "%s %s\n"`. -/
def gst_debug_log_default (E : GstLineDecl) (L : GstDebugLevelDecl) (color_mode : Nat)
    (category : GstDebugCategory) (level : Nat) (file function : List Char) (line : Int)
    (_object : Nat) (message : GstDebugMessage) (timestamp : Nat) (pid : Int) (thread : Nat) :
    List Char :=
  let p := _gst_debug_log_preamble E message file timestamp
  let file := p.2.1
  let message_str := p.2.2.1
  let object_id := p.2.2.2.1
  let elapsed := p.2.2.2.2
  if color_mode ≠ E.GST_DEBUG_COLOR_MODE_OFF then
    let color := _construct_term_color E (gst_debug_category_get_color category)
    let clear := [Char.ofNat 27] ++ "[00m".toList
    let pidcolor :=
      [Char.ofNat 27] ++ "[".toList ++ printf_width 2 '0' (printf_d (pid.tmod 6 + 31))
        ++ "m".toList
    let levelcolor := levelcolormap.getD level []
    match object_id with
    | some object_id =>
      E.GST_TIME elapsed ++ " ".toList ++ pidcolor ++ printf_width 5 ' ' (printf_d pid) ++ clear
        ++ " ".toList ++ printf_width 14 ' ' (E.printf_p thread) ++ " ".toList ++ levelcolor
        ++ gst_debug_level_get_name L level ++ clear ++ " ".toList ++ color
        ++ CAT_FMT_ID (gst_debug_category_get_name category) file line function object_id
        ++ clear ++ " ".toList ++ printf_s message_str ++ "\n".toList
    | none =>
      E.GST_TIME elapsed ++ " ".toList ++ pidcolor ++ printf_width 5 ' ' (printf_d pid) ++ clear
        ++ " ".toList ++ printf_width 14 ' ' (E.printf_p thread) ++ " ".toList ++ levelcolor
        ++ gst_debug_level_get_name L level ++ clear ++ " ".toList ++ color
        ++ CAT_FMT (gst_debug_category_get_name category) file line function []
        ++ clear ++ " ".toList ++ printf_s message_str ++ "\n".toList
  else
    match object_id with
    | some object_id =>
      NOCOLOR_PRINT_FMT_ID E elapsed pid thread (gst_debug_level_get_name L level)
        (gst_debug_category_get_name category) file line function object_id message_str
    | none =>
      NOCOLOR_PRINT_FMT E elapsed pid thread (gst_debug_level_get_name L level)
        (gst_debug_category_get_name category) file line function [] message_str

/-! ## The colour escape sequence in its work area -/

/-- The call `memcpy (area + offset, src, n)` with `n` the length of `src`:
the area after the copy, `none` when the copy would run past the end of the
area. -/
def memcpy (area : List Char) (offset : Nat) (src : List Char) : Option (List Char) :=
  if offset + src.length ≤ area.length then
    some (area.take offset ++ src ++ area.drop (offset + src.length))
  else none

/-- The call `strncpy (area + offset, src, n)`: at most `n` characters of the
string `src` are copied and the rest of the `n` bytes is filled with NUL. -/
def strncpy (area : List Char) (offset : Nat) (src : List Char) (n : Nat) :
    Option (List Char) :=
  memcpy area offset (src.take n ++ List.replicate (n - src.length) NUL)

/-- The function `g_strdup` on the bytes of an area: the characters before the
first NUL, `none` when the area holds no NUL and the read runs past its end. -/
def g_strdup (str : List Char) : Option (List Char) :=
  if NUL ∈ str then some (str.takeWhile (fun c => c ≠ NUL)) else none

/-- The function `_construct_term_color` as the writes it makes to
`write_area`, whose bytes on entry are the argument `write_area`: the area on
return, `none` when a write would run past its end. The character stored by
`write_area[offset + 2] = '0' + ...` is the sum cut to a `gchar`. -/
def _construct_term_color_write_area (E : GstLineDecl) (colorinfo : Nat)
    (write_area : List Char) : Option (List Char) :=
  (memcpy write_area 0 ([Char.ofNat 27] ++ "[00".toList)).bind fun area0 =>
  (if colorinfo &&& E.GST_DEBUG_BOLD ≠ 0 then
    (memcpy area0 4 ";01".toList).map (fun area => (area, 4 + 3))
  else some (area0, 4)).bind fun s1 =>
  (if colorinfo &&& E.GST_DEBUG_UNDERLINE ≠ 0 then
    (memcpy s1.1 s1.2 ";04".toList).map (fun area => (area, s1.2 + 3))
  else some s1).bind fun s2 =>
  (if colorinfo &&& E.GST_DEBUG_FG_MASK ≠ 0 then
    ((memcpy s2.1 s2.2 ";3".toList).bind (fun area =>
      memcpy area (s2.2 + 2)
        [Char.ofNat (('0'.toNat + (colorinfo &&& E.GST_DEBUG_FG_MASK)) % 256)])).map
      (fun area => (area, s2.2 + 3))
  else some s2).bind fun s3 =>
  (if colorinfo &&& E.GST_DEBUG_BG_MASK ≠ 0 then
    ((memcpy s3.1 s3.2 ";4".toList).bind (fun area =>
      memcpy area (s3.2 + 2)
        [Char.ofNat (('0'.toNat + ((colorinfo &&& E.GST_DEBUG_BG_MASK) >>> 4)) % 256)])).map
      (fun area => (area, s3.2 + 3))
  else some s3).bind fun s4 =>
  strncpy s4.1 s4.2 "m".toList 2

/-- The function `gst_debug_construct_term_color`; `tmp_color` is what the 20
bytes of the local array hold on entry. -/
def gst_debug_construct_term_color (E : GstLineDecl) (colorinfo : Nat)
    (tmp_color : List Char) : Option (List Char) :=
  (_construct_term_color_write_area E colorinfo tmp_color).bind g_strdup

/-! ## Shortening buffer values in a serialized structure -/

/-- The constant `MAX_BUFFER_DUMP_STRING_LEN`. -/
def MAX_BUFFER_DUMP_STRING_LEN : Nat := 100

/-- The function `strstr`: the index at which `needle` first occurs in
`haystack`. -/
def strstr : List Char → List Char → Option Nat
  | [], needle => if needle = [] then some 0 else none
  | c :: cs, needle =>
    if needle.isPrefixOf (c :: cs) then some 0 else (strstr cs needle).map (fun i => i + 1)

/-- The call `memcpy (area + dst, area + src, n)` between two places of one
area: the area after the copy. C leaves the behaviour undefined when the two
ranges overlap or leave the area, which is the result `none`. -/
def memcpy_within (area : List Char) (dst src n : Nat) : Option (List Char) :=
  if src + n ≤ area.length ∧ dst + n ≤ area.length ∧ (src + n ≤ dst ∨ dst + n ≤ src) then
    some (area.take dst ++ (area.drop src).take n ++ area.drop (dst + n))
  else none

/-- A `memcpy (area + dst, area + src, n)` that copies byte by byte from the
first byte to the last, one of the ways a C library may copy. -/
def memcpy_ascending : List Char → Nat → Nat → Nat → List Char
  | area, _, _, 0 => area
  | area, dst, src, n + 1 =>
    memcpy_ascending (area.set dst (area.getD src NUL)) (dst + 1) (src + 1) n

/-- A `memcpy (area + dst, area + src, n)` that copies byte by byte from the
last byte to the first, another way a C library may copy. -/
def memcpy_descending : List Char → Nat → Nat → Nat → List Char
  | area, _, _, 0 => area
  | area, dst, src, n + 1 =>
    memcpy_descending (area.set (dst + n) (area.getD (src + n) NUL)) dst src n

/-- The loop of `prettify_structure_string`, run for at most `fuel` rounds on
the string `str` with the index `pos` into it. The outer `none` says that the
rounds ran out, the inner one that a `memcpy` had no defined result. `count`
is a `guint`. The `memmove` of the rest of the string with its NUL to
`pos + 100` leaves the first `pos + 100` characters and those from
`pos + count` on. -/
def prettify_structure_string_loop : Nat → List Char → Nat → Option (Option (List Char))
  | 0, _, _ => none
  | fuel + 1, str, pos =>
    match strstr (str.drop pos) "(buffer)".toList with
    | none => some (some str)
    | some i =>
      let pos := pos + i + "(buffer)".length
      let count :=
        ((str.drop pos).takeWhile (fun c => c ≠ NUL ∧ c ≠ ';' ∧ c ≠ ' ')).length % 2 ^ 32
      if count > MAX_BUFFER_DUMP_STRING_LEN then
        match memcpy str (pos + MAX_BUFFER_DUMP_STRING_LEN - 6) "..".toList with
        | none => some none
        | some str1 =>
          match memcpy_within str1 (pos + MAX_BUFFER_DUMP_STRING_LEN - 4) (pos + count - 4) 4 with
          | none => some none
          | some str2 =>
            prettify_structure_string_loop fuel
              (str2.take (pos + MAX_BUFFER_DUMP_STRING_LEN) ++ str2.drop (pos + count))
              (pos + MAX_BUFFER_DUMP_STRING_LEN)
      else prettify_structure_string_loop fuel str pos

/-- The function `prettify_structure_string`; every round of its loop moves
`pos` on, so the length of the string bounds the rounds. -/
def prettify_structure_string (str : List Char) : Option (Option (List Char)) :=
  prettify_structure_string_loop (str.length + 1) str 0

/-! ## The ring buffer logger -/

/-- The record `GstRingBufferLog`: the lines of one thread, oldest first. The
field `link` (the node of the record in the thread queue) is given by the
position of the record in `GstRingBufferLogger.threads`. -/
structure GstRingBufferLog where
  last_use : Int
  thread : Nat
  log : List (List Char)
  log_size : Nat
deriving DecidableEq, Repr

/-- The record `GstRingBufferLogger`. The queue `threads` is written head
first. The hash table `thread_index` maps a thread to its record in the queue;
it is represented by the list of its keys, and the value of a key is the
record of that thread in the queue. -/
structure GstRingBufferLogger where
  max_size_per_thread : Nat
  thread_timeout : Nat
  threads : List GstRingBufferLog
  thread_index : List Nat
deriving DecidableEq, Repr

/-- One call of `gst_ring_buffer_logger_log`: its arguments and the values it
reads from its surroundings, `now` from `g_get_monotonic_time ()`,
`timestamp` from `gst_util_get_timestamp ()`, `pid` from `_gst_getpid ()` and
`thread` from `g_thread_self ()`. -/
structure RingLogCall where
  category : GstDebugCategory
  level : Nat
  file : List Char
  function : List Char
  line : Int
  object : Nat
  message : GstDebugMessage
  now : Int
  timestamp : Nat
  pid : Int
  thread : Nat
deriving DecidableEq, Repr

/-- The first part of `gst_ring_buffer_logger_log`, up to `output_len`: the
value of `file` after the shortening and the line `output`. -/
def gst_ring_buffer_logger_log_line (E : GstLineDecl) (L : GstDebugLevelDecl)
    (call : RingLogCall) : List Char × List Char :=
  let m := gst_debug_message_get E.__gst_vasprintf call.message
  let message_str := m.2.1
  let object_id := (gst_debug_message_get_id E._get_object_id m.1).2
  let c := call.file.headD NUL
  let file :=
    if c = '.' ∨ c = '/' ∨ c = '\\' ∨ (c ≠ NUL ∧ call.file.getD 1 NUL = ':') then
      gst_path_basename E.G_DIR_SEPARATOR call.file
    else call.file
  let elapsed := GST_CLOCK_DIFF E._priv_gst_start_time call.timestamp
  match object_id with
  | some object_id =>
    (file, NOCOLOR_PRINT_FMT_ID E elapsed call.pid call.thread
      (gst_debug_level_get_name L call.level) (gst_debug_category_get_name call.category)
      file call.line call.function object_id message_str)
  | none =>
    (file, NOCOLOR_PRINT_FMT E elapsed call.pid call.thread
      (gst_debug_level_get_name L call.level) (gst_debug_category_get_name call.category)
      file call.line call.function [] message_str)

/-- The loop of `gst_ring_buffer_logger_log` over the tail of the thread queue;
the queue is given tail first. A record is dropped, and its thread removed
from the index, until one satisfies
`log->last_use + logger->thread_timeout * G_USEC_PER_SEC >= now`. The product
has the type `guint`, as `G_USEC_PER_SEC` is an `int` constant of GLib, and is
reduced modulo `2 ^ 32`; the sum is a 64-bit sum of a time in microseconds and
a number below `2 ^ 32`. -/
def gst_ring_buffer_logger_log_timeout (G_USEC_PER_SEC thread_timeout : Nat) (now : Int) :
    List GstRingBufferLog → List Nat → List GstRingBufferLog × List Nat
  | [], thread_index => ([], thread_index)
  | log :: rest, thread_index =>
    if log.last_use + ((thread_timeout * G_USEC_PER_SEC % 2 ^ 32 : Nat) : Int) ≥ now then
      (log :: rest, thread_index)
    else
      gst_ring_buffer_logger_log_timeout G_USEC_PER_SEC thread_timeout now rest
        (thread_index.erase log.thread)

/-- The call `g_hash_table_lookup (logger->thread_index, thread)`. -/
def thread_index_lookup (threads : List GstRingBufferLog) (thread_index : List Nat)
    (thread : Nat) : Option GstRingBufferLog :=
  if thread ∈ thread_index then threads.find? (fun log => log.thread = thread) else none

/-- The loop `while (log->log_size + output_len > logger->max_size_per_thread)`
of `gst_ring_buffer_logger_log`: the oldest line is popped and its length
taken off `log_size` (arithmetic of `gsize`, 64 bits). `none` stands for the
`strlen (NULL)` the loop comes to when the queue of lines is empty. -/
def gst_ring_buffer_logger_log_evict (max_size_per_thread output_len : Nat) :
    List (List Char) → Nat → Option (List (List Char) × Nat)
  | [], log_size =>
    if (log_size + output_len) % 2 ^ 64 > max_size_per_thread then none
    else some ([], log_size)
  | buf :: rest, log_size =>
    if (log_size + output_len) % 2 ^ 64 > max_size_per_thread then
      gst_ring_buffer_logger_log_evict max_size_per_thread output_len rest
        ((log_size + 2 ^ 64 - buf.length % 2 ^ 64) % 2 ^ 64)
    else some (buf :: rest, log_size)

/-- The part of `gst_ring_buffer_logger_log` under `if (logger->thread_timeout
> 0)`: the thread queue and the thread index after the threads that timed out
were dropped from the tail of the queue. -/
def gst_ring_buffer_logger_log_drop (G_USEC_PER_SEC : Nat) (logger : GstRingBufferLogger)
    (now : Int) : List GstRingBufferLog × List Nat :=
  if logger.thread_timeout > 0 then
    let r := gst_ring_buffer_logger_log_timeout G_USEC_PER_SEC logger.thread_timeout now
      logger.threads.reverse logger.thread_index
    (r.1.reverse, r.2)
  else (logger.threads, logger.thread_index)

/-- The part of `gst_ring_buffer_logger_log` that gets the record of the
thread and puts it at the head of the queue: the record, with `last_use` set
to `now`, the rest of the queue behind it, and the index. A thread that is not
in the index gets a new record and a key in the index; the record of a thread
that is in the index is unlinked from its place in the queue. -/
def gst_ring_buffer_logger_log_find (threads : List GstRingBufferLog)
    (thread_index : List Nat) (thread : Nat) (now : Int) :
    GstRingBufferLog × List GstRingBufferLog × List Nat :=
  match thread_index_lookup threads thread_index thread with
  | none =>
    ({ last_use := now, thread := thread, log := [], log_size := 0 }, threads,
      if thread ∈ thread_index then thread_index else thread :: thread_index)
  | some log =>
    ({ log with last_use := now }, threads.eraseP (fun l => l.thread = thread), thread_index)

/-- The part of `gst_ring_buffer_logger_log` under
`if (output_len < logger->max_size_per_thread)`: the record of the thread
after the line was stored, or, in the `else` branch, after all its lines were
dropped. `none` as in `gst_ring_buffer_logger_log_evict`. -/
def gst_ring_buffer_logger_log_append (max_size_per_thread : Nat) (log : GstRingBufferLog)
    (output : List Char) : Option GstRingBufferLog :=
  let output_len := output.length
  if output_len < max_size_per_thread then
    match gst_ring_buffer_logger_log_evict max_size_per_thread output_len log.log
        log.log_size with
    | none => none
    | some r =>
      some { log with log := r.1 ++ [output], log_size := (r.2 + output_len) % 2 ^ 64 }
  else some { log with log := [], log_size := 0 }

/-- The function `gst_ring_buffer_logger_log`, from `G_LOCK` on, for the line
`output` written by `thread` at the time `now`: threads that timed out are
dropped from the tail of the queue, the record of the thread is looked up or
made and put at the head of the queue, and the line is stored if it is
shorter than `max_size_per_thread`. -/
def gst_ring_buffer_logger_log_store (G_USEC_PER_SEC : Nat) (logger : GstRingBufferLogger)
    (thread : Nat) (now : Int) (output : List Char) : Option GstRingBufferLogger :=
  let dropped := gst_ring_buffer_logger_log_drop G_USEC_PER_SEC logger now
  let found := gst_ring_buffer_logger_log_find dropped.1 dropped.2 thread now
  match gst_ring_buffer_logger_log_append logger.max_size_per_thread found.1 output with
  | none => none
  | some log => some { logger with threads := log :: found.2.1, thread_index := found.2.2 }

/-- The function `gst_ring_buffer_logger_log`; `logger` is the record its
`user_data` points to. -/
def gst_ring_buffer_logger_log (E : GstLineDecl) (L : GstDebugLevelDecl)
    (G_USEC_PER_SEC : Nat) (logger : GstRingBufferLogger) (call : RingLogCall) :
    Option GstRingBufferLogger :=
  gst_ring_buffer_logger_log_store G_USEC_PER_SEC logger call.thread call.now
    (gst_ring_buffer_logger_log_line E L call).2

/-- The string `gst_debug_ring_buffer_logger_get_logs` builds for one thread:
a zeroed area of `log_size + 1` bytes into which the lines are copied one
after the other; `none` when the copies would run past the area. -/
def gst_debug_ring_buffer_logger_get_logs_thread (log : GstRingBufferLog) :
    Option (List Char) :=
  if log.log.flatten.length ≤ log.log_size then some log.log.flatten else none

/-- The outer loop of `gst_debug_ring_buffer_logger_get_logs` over the thread
queue, from the head on. -/
def gst_debug_ring_buffer_logger_get_logs_walk :
    List GstRingBufferLog → Option (List (List Char))
  | [] => some []
  | log :: rest =>
    match gst_debug_ring_buffer_logger_get_logs_thread log,
      gst_debug_ring_buffer_logger_get_logs_walk rest with
    | some text, some texts => some (text :: texts)
    | _, _ => none

/-- The function `gst_debug_ring_buffer_logger_get_logs`: the strings of the
returned array, one for each record of the thread queue from the head on.
`none` is the `NULL` returned when there is no ring buffer logger (and stands
also for a copy that would run past its area). -/
def gst_debug_ring_buffer_logger_get_logs (ring_buffer_logger : Option GstRingBufferLogger) :
    Option (List (List Char)) :=
  match ring_buffer_logger with
  | none => none
  | some logger => gst_debug_ring_buffer_logger_get_logs_walk logger.threads

/-- The function `gst_ring_buffer_logger_free`; the file-scope pointer
`ring_buffer_logger` is written as the address of the record and the record,
and `logger` is the address the function is called with. -/
def gst_ring_buffer_logger_free (ring_buffer_logger : Option (Nat × GstRingBufferLogger))
    (logger : Nat) : Option (Nat × GstRingBufferLogger) :=
  match ring_buffer_logger with
  | some r => if r.1 = logger then none else some r
  | none => none

/-- Modelled from the spec: the logging macro `GST_DEBUG` of `gstinfo.h`, which
is not among the sources. After the fast-path check of the level
`GST_LEVEL_DEBUG` against `_gst_debug_min` it calls `gst_debug_log` on the
category `GST_CAT_DEFAULT` without an object; `gst_debug_log` passes the call
through `gst_debug_log_valist` to `gst_debug_log_full_valist` without a context
and without an object id. The result is the runs of log functions the line
makes, in order. `GST_CAT_DEFAULT` stands for the record the pointer of that
name points to at the time of the call, `none` for `NULL`. -/
def GST_DEBUG (L : GstDebugLevelDecl) (s : GstDebugState)
    (GST_CAT_DEFAULT : Option GstDebugCategory) (file function : List Char) (line : Int)
    (format : List Char) (args : List Nat) : List LogCall :=
  if L.GST_LEVEL_DEBUG ≤ s._gst_debug_min then
    gst_debug_log_full_valist s GST_CAT_DEFAULT none L.GST_LEVEL_DEBUG (some file)
      (some function) line 0 none (some format) args
  else []

/-- The last statement of `gst_debug_add_log_function`, which follows the
prepend and runs on the list with the new entry:
`if (gst_is_initialized ()) GST_DEBUG ("prepended log function %p (user data
%p) to log functions", func, user_data)`. `initialized` is the value of
`gst_is_initialized ()`, `file` and `line` are `__FILE__` and `__LINE__` at
that statement, and `func` is the address of the function. -/
def gst_debug_add_log_function_message (L : GstDebugLevelDecl) (s : GstDebugState)
    (initialized : Bool) (GST_CAT_DEFAULT : Option GstDebugCategory) (file : List Char)
    (line : Int) (func user_data : Nat) : List LogCall :=
  if initialized then
    GST_DEBUG L s GST_CAT_DEFAULT file "gst_debug_add_log_function".toList line
      "prepended log function %p (user data %p) to log functions".toList [func, user_data]
  else []

/-- The function `gst_debug_add_ring_buffer_logger`. `address` is the address
`g_new0` gives to the new record, `free_notify` the address of
`gst_ring_buffer_logger_free` and `func` that of `gst_ring_buffer_logger_log`;
`initialized`, `GST_CAT_DEFAULT`, `file` and `line` are those of
`gst_debug_add_log_function_message`. With a logger in place the function
returns at once. Otherwise it calls `gst_debug_add_log_function` while it
holds `G_LOCK (ring_buffer_logger)`: when the message of that function runs
the log functions, the entry just prepended runs `gst_ring_buffer_logger_log`,
which takes `G_LOCK (ring_buffer_logger)` in the thread that holds it. GLib
gives a second lock of a `GMutex` by its owner no defined result (the thread
waits for itself), which is the result `none`. -/
def gst_debug_add_ring_buffer_logger (L : GstDebugLevelDecl) (address free_notify : Nat)
    (s : GstDebugState) (ring_buffer_logger : Option (Nat × GstRingBufferLogger))
    (max_size_per_thread thread_timeout : Nat) (initialized : Bool)
    (GST_CAT_DEFAULT : Option GstDebugCategory) (file : List Char) (line : Int)
    (func : Nat) : Option (GstDebugState × Option (Nat × GstRingBufferLogger)) :=
  match ring_buffer_logger with
  | some r => some (s, some r)
  | none =>
    let logger : GstRingBufferLogger :=
      { max_size_per_thread := max_size_per_thread, thread_timeout := thread_timeout,
        threads := [], thread_index := [] }
    let s1 := gst_debug_add_log_function s (some GstLogFunction.gst_ring_buffer_logger_log)
      address (some free_notify)
    let runs := gst_debug_add_log_function_message L s1 initialized GST_CAT_DEFAULT file line
      func address
    if runs.any (fun run => decide (run.func = GstLogFunction.gst_ring_buffer_logger_log)) then
      none
    else some (s1, some (address, logger))

/-- The destroy-notify calls of a removal, run on the ring buffer logger: a
call of `gst_ring_buffer_logger_free` frees it, and a callback of the
application is taken not to touch it. -/
def run_notify_calls (free_notify : Nat) :
    Option (Nat × GstRingBufferLogger) → List (Nat × Nat) → Option (Nat × GstRingBufferLogger)
  | ring_buffer_logger, [] => ring_buffer_logger
  | ring_buffer_logger, call :: calls =>
    run_notify_calls free_notify
      (if call.1 = free_notify then gst_ring_buffer_logger_free ring_buffer_logger call.2
        else ring_buffer_logger)
      calls

/-- The function `gst_debug_remove_ring_buffer_logger`: the removal of the log
function `gst_ring_buffer_logger_log`, with the destroy-notify calls it
makes. (It holds no lock itself, and the `GST_DEBUG` line of
`gst_debug_remove_log_function` runs after the entries of the function have
left the list.) -/
def gst_debug_remove_ring_buffer_logger (free_notify : Nat) (s : GstDebugState)
    (ring_buffer_logger : Option (Nat × GstRingBufferLogger)) (initialized : Bool) :
    GstDebugState × Option (Nat × GstRingBufferLogger) :=
  let r := gst_debug_remove_log_function s initialized
    (some GstLogFunction.gst_ring_buffer_logger_log)
  (r.1, run_notify_calls free_notify ring_buffer_logger r.2.2)

/-- A run of calls of `gst_ring_buffer_logger_log`, one after the other, on the
same logger. -/
def run_ring_calls (E : GstLineDecl) (L : GstDebugLevelDecl) (G_USEC_PER_SEC : Nat) :
    GstRingBufferLogger → List RingLogCall → Option GstRingBufferLogger
  | logger, [] => some logger
  | logger, call :: calls =>
    match gst_ring_buffer_logger_log E L G_USEC_PER_SEC logger call with
    | none => none
    | some logger => run_ring_calls E L G_USEC_PER_SEC logger calls

/-- The logger `gst_debug_add_ring_buffer_logger` makes. -/
def ring_buffer_logger_new (max_size_per_thread thread_timeout : Nat) : GstRingBufferLogger :=
  { max_size_per_thread := max_size_per_thread, thread_timeout := thread_timeout,
    threads := [], thread_index := [] }

/-! ## Memory dumps -/

/-- The GLib function `g_ascii_isprint` on a byte. -/
def g_ascii_isprint (c : Nat) : Bool :=
  decide (32 ≤ c ∧ c ≤ 126)

/-- One digit of the conversion `%x`. -/
def printf_x_digit (d : Nat) : Char :=
  "0123456789abcdef".toList.getD d '0'

/-- The conversion `%02x` of a `guint8`. -/
def printf_02x (byte : Nat) : List Char :=
  [printf_x_digit (byte % 256 / 16), printf_x_digit (byte % 16)]

/-- The conversion `%08x` of a `guint`, which has at most eight digits. -/
def printf_08x (n : Nat) : List Char :=
  [printf_x_digit (n / 16 ^ 7 % 16), printf_x_digit (n / 16 ^ 6 % 16),
    printf_x_digit (n / 16 ^ 5 % 16), printf_x_digit (n / 16 ^ 4 % 16),
    printf_x_digit (n / 16 ^ 3 % 16), printf_x_digit (n / 16 ^ 2 % 16),
    printf_x_digit (n / 16 % 16), printf_x_digit (n % 16)]

/-- The conversion `%-W.Ps` of a string: cut to `precision` characters and
filled with blanks on the right up to `width`. -/
def printf_left (width precision : Nat) (text : List Char) : List Char :=
  text.take precision ++ List.replicate (width - (text.take precision).length) ' '

/-- The GLib function `g_strlcat` into a destination of `dest_size` bytes. -/
def g_strlcat (dest src : List Char) (dest_size : Nat) : List Char :=
  (dest ++ src).take (dest_size - 1)

/-- The function `gst_info_dump_mem_line`: the text written to `linebuf`.
`mem` is `none` for NULL and else the bytes at the pointer, a byte behind
their end reading as 0; `mem_size` and `mem_offset` are `gsize`. -/
def gst_info_dump_mem_line (linebuf_size : Nat) (mem : Option (List Nat))
    (mem_offset mem_size : Nat) : List Char :=
  let mem_size := if mem_size > 16 then 16 else mem_size
  let strs : List Char × List Char :=
    match mem with
    | none => ([], [])
    | some mem =>
      (List.range mem_size).foldl
        (fun strs i =>
          let byte := mem.getD (mem_offset + i) 0
          (g_strlcat strs.1 (printf_02x byte ++ " ".toList) 50,
            strs.2 ++ [if g_ascii_isprint byte then Char.ofNat byte else '.']))
        ([], [])
  (printf_08x (mem_offset % 2 ^ 32) ++ ": ".toList ++ printf_left 48 48 strs.1 ++ " ".toList
    ++ printf_left 16 16 strs.2).take (linebuf_size - 1)

/-- The loop `while (off < length)` of `_gst_debug_dump_mem_full`, run for at
most `fuel` rounds from the offset `off`: the texts logged in order, `none`
when the loop has not ended after these rounds. `off` and `length` are
`guint`. -/
def _gst_debug_dump_mem_full_loop (data : Option (List Nat)) (length : Nat) :
    Nat → Nat → Option (List (List Char))
  | 0, _ => none
  | fuel + 1, off =>
    if off < length then
      (_gst_debug_dump_mem_full_loop data length fuel ((off + 16) % 2 ^ 32)).map
        (fun lines => gst_info_dump_mem_line 128 data off ((length - off) % 2 ^ 32) :: lines)
    else some []

/-- The function `_gst_debug_dump_mem_full`: the texts it passes to
`gst_debug_log_id`, in order, all for the same category, level
`GST_LEVEL_MEMDUMP`, place and object; `none` when its loop has not ended
after `fuel` rounds. -/
def _gst_debug_dump_mem_full (fuel : Nat) (msg : Option (List Char))
    (data : Option (List Nat)) (length : Nat) : Option (List (List Char)) :=
  let rule := "--------".toList
    ++ "-------------------------------------------------------------------".toList
  let head := if msg ≠ none ∧ msg ≠ some [] then [printf_s msg] else []
  (_gst_debug_dump_mem_full_loop data length fuel 0).map
    (fun lines => [rule] ++ head ++ lines ++ [rule])

/-! ## Stack traces -/

/-- One frame the unwinder steps to (`unw_step (&cursor) > 0`): the value
`unw_get_reg` returns, the text `append_debug_info` appends for the frame
(it returns `TRUE` on every path), and the name and offset
`unw_get_proc_name` gives. -/
structure UnwindFrame where
  unw_get_reg : Int
  debug_info : List Char
  proc_name : List Char
  offset : Nat
deriving DecidableEq, Repr

/-- What `gst_debug_get_stack_trace` takes from outside `gstinfo.c`: the flag
`GST_STACK_TRACE_SHOW_FULL` of `gstinfo.h`, the configuration macros, and the
answers of libunwind, libdw, `backtrace_symbols` and DbgHelp. `get_global_dwfl`
tells whether the handle is not `NULL`, `dwfl_linux_proc_report` is given that
fact for its handle, `backtrace_symbols` is `none` for `NULL`, and
`generate_dbghelp_trace` is the whole result of that Windows function. -/
structure GstStackTraceDecl where
  GST_STACK_TRACE_SHOW_FULL : Nat
  HAVE_UNWIND : Bool
  HAVE_DW : Bool
  HAVE_BACKTRACE : Bool
  HAVE_DBGHELP : Bool
  get_global_dwfl : Bool
  unw_getcontext : Int
  unw_init_local : Int
  dwfl_linux_proc_report : Bool → Int
  frames : List UnwindFrame
  printf_gsize : Nat → List Char
  backtrace_symbols : Option (List (List Char))
  generate_dbghelp_trace : Option (List Char)

/-- The loop `while (unw_step (&cursor) > 0)` of `generate_unwind_trace`:
`dwfl` tells whether `HAVE_DW` is defined and the handle is not `NULL`. -/
def generate_unwind_trace_loop (T : GstStackTraceDecl) (dwfl : Bool) :
    List UnwindFrame → Bool → List Char → List Char
  | [], _, trace => trace
  | frame :: rest, use_libunwind, trace =>
    if dwfl then
      if frame.unw_get_reg ≠ 0 then trace
      else
        generate_unwind_trace_loop T dwfl rest false
          (trace ++ frame.debug_info ++ ")\n".toList)
    else if use_libunwind then
      generate_unwind_trace_loop T dwfl rest use_libunwind
        (trace ++ frame.proc_name ++ " (0x".toList ++ T.printf_gsize frame.offset
          ++ ")\n".toList)
    else generate_unwind_trace_loop T dwfl rest use_libunwind trace

/-- The function `generate_unwind_trace`: the string of the `GString`, which
is empty when the function leaves early and never `NULL`. -/
def generate_unwind_trace (T : GstStackTraceDecl) (flags : Nat) : List Char :=
  if T.HAVE_DW = true ∧ flag_test flags T.GST_STACK_TRACE_SHOW_FULL = true
      ∧ T.get_global_dwfl = false then []
  else
    let dwfl := T.HAVE_DW && flag_test flags T.GST_STACK_TRACE_SHOW_FULL
    if T.unw_getcontext ≠ 0 then []
    else if T.unw_init_local ≠ 0 then []
    else if T.HAVE_DW = true ∧ T.dwfl_linux_proc_report dwfl ≠ 0 then []
    else generate_unwind_trace_loop T dwfl T.frames true []

/-- The function `generate_backtrace_trace`, and the macro of that name, which
is `NULL`, when `HAVE_BACKTRACE` is not defined. -/
def generate_backtrace_trace (T : GstStackTraceDecl) : Option (List Char) :=
  if T.HAVE_BACKTRACE then
    match T.backtrace_symbols with
    | none => none
    | some strings => some (strings.map (fun s => s ++ "\n".toList)).flatten
  else none

/-- The function `gst_debug_get_stack_trace`. -/
def gst_debug_get_stack_trace (T : GstStackTraceDecl) (flags : Nat) : Option (List Char) :=
  let have_backtrace := T.HAVE_BACKTRACE
  let trace : Option (List Char) :=
    if T.HAVE_UNWIND then
      if flag_test flags T.GST_STACK_TRACE_SHOW_FULL || !have_backtrace then
        some (generate_unwind_trace T flags)
      else none
    else if T.HAVE_DBGHELP then T.generate_dbghelp_trace
    else none
  match trace with
  | some trace => some trace
  | none => if have_backtrace then generate_backtrace_trace T else none

/-! ## Reading thresholds from a string -/

/-- The GLib predicate `g_ascii_isspace`. -/
def g_ascii_isspace (c : Char) : Bool :=
  c = ' ' || c = '\t' || c = '\n' || c = Char.ofNat 11 || c = Char.ofNat 12 || c = '\r'

/-- The GLib predicate `g_ascii_isdigit`. -/
def g_ascii_isdigit (c : Char) : Bool :=
  decide ('0'.toNat ≤ c.toNat ∧ c.toNat ≤ '9'.toNat)

/-- The GLib macro `g_strstrip`: leading and trailing white space removed. -/
def g_strstrip (str : List Char) : List Char :=
  ((str.dropWhile g_ascii_isspace).reverse.dropWhile g_ascii_isspace).reverse

/-- The digits at the start of a string read as a decimal number, and the rest
of the string. -/
def strtoul_digits : List Char → Nat → Nat × List Char
  | [], acc => (acc, [])
  | c :: cs, acc =>
    if g_ascii_isdigit c then strtoul_digits cs (10 * acc + (c.toNat - '0'.toNat))
    else (acc, c :: cs)

/-- The largest `unsigned long` (64 bits wide). -/
def ULONG_MAX : Nat := 2 ^ 64 - 1

/-- The C function `strtoul (str, &endptr, 10)` on a string that starts with a
digit: the value, `ULONG_MAX` when it is out of range, and the text `endptr`
points to. -/
def strtoul (str : List Char) : Nat × List Char :=
  let r := strtoul_digits str 0
  (min r.1 ULONG_MAX, r.2)

/-- The splitting loop of `g_strsplit` for a one-character delimiter: `cur`
holds the current token reversed and `splits` the number of cuts still
allowed. -/
def g_strsplit_tokens (delimiter : Char) : List Char → List Char → Nat → List (List Char)
  | [], cur, _ => [cur.reverse]
  | c :: cs, cur, splits =>
    if c = delimiter ∧ 0 < splits then
      cur.reverse :: g_strsplit_tokens delimiter cs [] (splits - 1)
    else g_strsplit_tokens delimiter cs (c :: cur) splits

/-- The GLib function `g_strsplit (string, delimiter, max_tokens)` for a
one-character delimiter: an empty string gives no token, `max_tokens < 1`
stands for `G_MAXINT`, and the last token takes the remainder of the string. -/
def g_strsplit (string : List Char) (delimiter : Char) (max_tokens : Nat) :
    List (List Char) :=
  if string = [] then []
  else g_strsplit_tokens delimiter string []
    ((if max_tokens < 1 then 2 ^ 31 - 1 else max_tokens) - 1)

/-- The function `parse_debug_category`: the stripped text when it is not
empty. -/
def parse_debug_category (str : Option (List Char)) : Option (List Char) :=
  match str with
  | none => none
  | some str =>
    let str := g_strstrip str
    if str ≠ [] then some str else none

/-- The function `parse_debug_level`: a decimal number (converted to
`GstDebugLevel`, 32 bits wide) or one of the level names. -/
def parse_debug_level (L : GstDebugLevelDecl) (str : Option (List Char)) : Option Nat :=
  match str with
  | none => none
  | some str =>
    let str := g_strstrip str
    if (match str with
        | [] => false
        | c :: _ => g_ascii_isdigit c) then
      let r := strtoul str
      if r.2 = [] then some (r.1 % 2 ^ 32) else none
    else if str = "NONE".toList then some L.GST_LEVEL_NONE
    else if str = "ERROR".toList then some L.GST_LEVEL_ERROR
    else if str.take 4 = "WARN".toList then some L.GST_LEVEL_WARNING
    else if str = "FIXME".toList then some L.GST_LEVEL_FIXME
    else if str = "INFO".toList then some L.GST_LEVEL_INFO
    else if str = "DEBUG".toList then some L.GST_LEVEL_DEBUG
    else if str = "LOG".toList then some L.GST_LEVEL_LOG
    else if str = "TRACE".toList then some L.GST_LEVEL_TRACE
    else if str = "MEMDUMP".toList then some L.GST_LEVEL_MEMDUMP
    else none

/-- The body of the `for` loop of `gst_debug_set_threshold_from_string` for
one element `*walk` of the split list. -/
def gst_debug_set_threshold_from_string_walk (P : GPatternOps) (L : GstDebugLevelDecl)
    (s : GstDebugState) (walk : List Char) : GstDebugState :=
  if ':' ∈ walk then
    match g_strsplit walk ':' 2 with
    | v0 :: v1 :: _ =>
      match parse_debug_category (some v0), parse_debug_level L (some v1) with
      | some category, some level =>
        let s1 := gst_debug_set_threshold_for_name P s (some category) level
        if level > s1._gst_debug_min then { s1 with _gst_debug_min := level } else s1
      | _, _ => s
    | _ => s
  else
    match parse_debug_level L (some walk) with
    | some level => gst_debug_set_default_threshold P s level
    | none => s

/-- The function `gst_debug_set_threshold_from_string`. -/
def gst_debug_set_threshold_from_string (P : GPatternOps) (L : GstDebugLevelDecl)
    (s : GstDebugState) (list : List Char) (reset : Bool) : GstDebugState :=
  let s1 :=
    if reset then gst_debug_set_default_threshold P (clear_level_names s) L.GST_LEVEL_DEFAULT
    else s
  (g_strsplit list ',' 0).foldl (gst_debug_set_threshold_from_string_walk P L) s1

/-- The function `gst_debug_log_valist`: no context and no object id. -/
def gst_debug_log_valist (s : GstDebugState) (category : Option GstDebugCategory)
    (level : Nat) (file function : Option (List Char)) (line : Int) (object : Nat)
    (format : Option (List Char)) (args : List Nat) : List LogCall :=
  gst_debug_log_full_valist s category none level file function line object none format args

/-- The function `gst_debug_log_literal`: no context and no object id. -/
def gst_debug_log_literal (s : GstDebugState) (category : Option GstDebugCategory)
    (level : Nat) (file function : Option (List Char)) (line : Int) (object : Nat)
    (message_string : Option (List Char)) : List LogCall :=
  gst_debug_log_literal_full s category none level file function line object none
    message_string

/-! ## A model of GLib's glob patterns -/

/-- Glob matching as the GLib manual describes it: `*` matches any string,
the empty one included, `?` matches any one character, every other character
matches itself. -/
def glob_match : List Char → List Char → Bool
  | [], s => s.isEmpty
  | p :: ps, s =>
    if p = '*' then s.tails.any (glob_match ps)
    else
      match s with
      | [] => false
      | c :: cs => (p = '?' || p = c) && glob_match ps cs

/-- The normal form `g_pattern_spec_new` keeps of a pattern: every run of
wildcards becomes one `*` (when the run has one) followed by its `?`s.
`star` and `jokers` describe the run being read. -/
def glob_canon : List Char → Bool → Nat → List Char
  | [], star, jokers => (if star then ['*'] else []) ++ List.replicate jokers '?'
  | c :: cs, star, jokers =>
    if c = '*' then glob_canon cs true jokers
    else if c = '?' then glob_canon cs star (jokers + 1)
    else (if star then ['*'] else []) ++ List.replicate jokers '?' ++ c :: glob_canon cs false 0

/-- The pattern operations of GLib, on the model above: two compiled patterns
are equal when their normal forms are. -/
def glib_pattern : GPatternOps :=
  { match_string := glob_match,
    equal := fun a b => decide (glob_canon a false 0 = glob_canon b false 0) }

/-! ## Sequences of rule and category operations -/

/-- The operations on the rule list and the category list: a call of
`gst_debug_set_threshold_for_name`, of `gst_debug_unset_threshold_for_name`, or
of `_gst_debug_category_new`. -/
inductive RuleOp where
  | set_threshold_for_name (name : Option (List Char)) (level : Nat)
  | unset_threshold_for_name (name : Option (List Char))
  | category_new (name : Option (List Char)) (color : Nat)
      (description : Option (List Char))
deriving DecidableEq, Repr

/-- One operation run on a state. -/
def RuleOp.run (P : GPatternOps) (s : GstDebugState) : RuleOp → GstDebugState
  | .set_threshold_for_name name level => gst_debug_set_threshold_for_name P s name level
  | .unset_threshold_for_name name => gst_debug_unset_threshold_for_name P s name
  | .category_new name color description =>
    (_gst_debug_category_new P s name color description).1

/-- A sequence of operations run from left to right. -/
def run_ops (P : GPatternOps) (ops : List RuleOp) (s : GstDebugState) : GstDebugState :=
  ops.foldl (RuleOp.run P) s

/-- The operations that act on categories: creation, an explicit threshold
for the category at a position of the list, its reset, a rule added or
removed, and a new default threshold. -/
inductive CategoryOp where
  | category_new (name : Option (List Char)) (color : Nat)
      (description : Option (List Char))
  | category_set_threshold (i : Nat) (level : Nat)
  | category_reset_threshold (i : Nat)
  | set_threshold_for_name (name : Option (List Char)) (level : Nat)
  | unset_threshold_for_name (name : Option (List Char))
  | set_default_threshold (level : Nat)
deriving DecidableEq, Repr

/-- One category operation run on a state. -/
def CategoryOp.run (P : GPatternOps) (s : GstDebugState) : CategoryOp → GstDebugState
  | .category_new name color description =>
    (_gst_debug_category_new P s name color description).1
  | .category_set_threshold i level => gst_debug_category_set_threshold_at s i level
  | .category_reset_threshold i => gst_debug_category_reset_threshold_at P s i
  | .set_threshold_for_name name level => gst_debug_set_threshold_for_name P s name level
  | .unset_threshold_for_name name => gst_debug_unset_threshold_for_name P s name
  | .set_default_threshold level => gst_debug_set_default_threshold P s level

/-- The operations through which thresholds change, `gst_debug_set_active`
left out: the category operations and `gst_debug_set_threshold_from_string`. -/
inductive ThresholdOp where
  | category (op : CategoryOp)
  | set_threshold_from_string (list : List Char) (reset : Bool)
deriving DecidableEq, Repr

/-- One threshold operation run on a state. -/
def ThresholdOp.run (P : GPatternOps) (L : GstDebugLevelDecl) (s : GstDebugState) :
    ThresholdOp → GstDebugState
  | .category op => op.run P s
  | .set_threshold_from_string list reset => gst_debug_set_threshold_from_string P L s list reset

/-! ## Specification-side definitions -/

/-- The level the rules prescribe for a category name, in the words of the
specification: the level of the first rule of the list whose pattern matches
the name, else the default threshold. -/
def spec_rule_level (P : GPatternOps) (rules : List LevelNameEntry) (default_level : Nat)
    (name : List Char) : Nat :=
  match rules.find? (fun e => P.match_string e.pat name) with
  | some e => e.level
  | none => default_level

/-- The effect of one operation on the rule list, in the words of the
specification: an addition puts its rule in front of the older ones, a removal
drops every rule with an equal pattern, a category creation changes nothing. -/
def spec_rules_step (P : GPatternOps) (rules : List LevelNameEntry) :
    RuleOp → List LevelNameEntry
  | .set_threshold_for_name (some name) level => { pat := name, level := level } :: rules
  | .unset_threshold_for_name (some name) => rules.filter (fun e => !P.equal e.pat name)
  | _ => rules

/-- The rule list a sequence of operations leaves when it starts from the
empty rule list. -/
def spec_rules (P : GPatternOps) (ops : List RuleOp) : List LevelNameEntry :=
  ops.foldl (spec_rules_step P) []

/-- Every category of the state has the threshold the rules prescribe for its
name. -/
def ThresholdsFollowRules (P : GPatternOps) (s : GstDebugState) : Prop :=
  ∀ c ∈ s.__categories,
    c.threshold = spec_rule_level P s.__level_name s.__default_level c.name

/-- The program's variables as their initialisers leave them, for a given
value of `GST_LEVEL_NONE`, of `GST_LEVEL_DEFAULT` and of the handler list. -/
def gst_debug_initial (level_none level_default : Nat) (handlers : List LogFuncEntry) :
    GstDebugState :=
  { _gst_debug_enabled := false, _gst_debug_min := level_none,
    __default_level := level_default, __level_name := [], __categories := [],
    __log_functions := handlers }

/-- A well-formed `pattern:level` element of the list, in the words of the
specification: the text before the first colon, stripped, is a pattern that is
not empty, and the text after it is a level. -/
def spec_pattern_entry (L : GstDebugLevelDecl) (entry : List Char) : Option LevelNameEntry :=
  if ':' ∈ entry then
    match parse_debug_category (some (entry.takeWhile (fun c => c != ':'))),
      parse_debug_level L (some ((entry.dropWhile (fun c => c != ':')).drop 1)) with
    | some pat, some level => some { pat := pat, level := level }
    | _, _ => none
  else none

/-- A well-formed bare-level element of the list: no colon, and a level. -/
def spec_bare_entry (L : GstDebugLevelDecl) (entry : List Char) : Option Nat :=
  if ':' ∈ entry then none else parse_debug_level L (some entry)

/-- The threshold a list string prescribes for a category name, in the words
of the specification: the level of the rightmost well-formed `pattern:level`
element whose pattern matches the name; else the level of the last well-formed
bare-level element; else `GST_LEVEL_DEFAULT`. -/
def spec_string_level (P : GPatternOps) (L : GstDebugLevelDecl) (list : List Char)
    (name : List Char) : Nat :=
  match ((g_strsplit list ',' 0).filterMap (spec_pattern_entry L)).reverse.find?
      (fun e => P.match_string e.pat name) with
  | some e => e.level
  | none =>
    match ((g_strsplit list ',' 0).filterMap (spec_bare_entry L)).getLast? with
    | some level => level
    | none => L.GST_LEVEL_DEFAULT

/-- The state `s2` differs from `s1` at most in the pair `_gst_debug_enabled`,
`_gst_debug_min`, and there only upwards. -/
def TrackerRaised (s1 s2 : GstDebugState) : Prop :=
  s2.__default_level = s1.__default_level ∧ s2.__level_name = s1.__level_name ∧
  s2.__categories = s1.__categories ∧ s2.__log_functions = s1.__log_functions ∧
  (s1._gst_debug_enabled = true → s2._gst_debug_enabled = true) ∧
  s1._gst_debug_min ≤ s2._gst_debug_min

/-- Modelled from the spec: the header `gstinfo.h`, which declares the
enumeration `GstDebugLevel`, is not among the sources. The enumerators follow
the total order the specification gives, NONE < ERROR < WARNING < INFO < DEBUG
< LOG < FIXME < TRACE < MEMDUMP, numbered from 0 with 8 left out (the colour
table of `gstinfo.c` has a placeholder for level 8); the default level is
NONE, debugging being disabled by default. -/
def spec_levels : GstDebugLevelDecl :=
  { GST_LEVEL_NONE := 0, GST_LEVEL_ERROR := 1, GST_LEVEL_WARNING := 2, GST_LEVEL_INFO := 3,
    GST_LEVEL_DEBUG := 4, GST_LEVEL_LOG := 5, GST_LEVEL_FIXME := 6, GST_LEVEL_TRACE := 7,
    GST_LEVEL_MEMDUMP := 9, GST_LEVEL_DEFAULT := 0 }

/-- The state in which the categories "bar" and "foosrc" were created and the
rule `bar:9` added. -/
def src_and_bar : GstDebugState :=
  run_ops glib_pattern
    [.category_new (some "foosrc".toList) 0 none, .category_new (some "bar".toList) 0 none,
     .set_threshold_for_name (some "bar".toList) 9]
    (gst_debug_initial 0 0 [])

/-- A short run: the category "net" is created, a rule for `n*` is added and
removed again. -/
def net_ops : List RuleOp :=
  [.category_new (some "net".toList) 0 none,
   .set_threshold_for_name (some "n*".toList) 5,
   .unset_threshold_for_name (some "n*".toList)]

/-- The state in which the category "net" was created and then given the
threshold 7 by an explicit `gst_debug_category_set_threshold`. -/
def net_overridden : GstDebugState :=
  gst_debug_category_set_threshold_at
    (_gst_debug_category_new glib_pattern (gst_debug_initial 0 0 []) (some "net".toList) 0
      none).1 0 7

/-- The state in which the category "net" was created and the rule `n*:5`
added. -/
def net_with_rule : GstDebugState :=
  run_ops glib_pattern (net_ops.take 2) (gst_debug_initial 0 0 [])

/-- The scenario of the specification, first step: from `s0` the category
"net" is created. -/
def net_created (s0 : GstDebugState) : GstDebugState :=
  (_gst_debug_category_new glib_pattern s0 (some "net".toList) 0 none).1

/-- The scenario, second step: `gst_debug_set_threshold_for_name ("net", level)`. -/
def net_raised (s0 : GstDebugState) (level : Nat) : GstDebugState :=
  gst_debug_set_threshold_for_name glib_pattern (net_created s0) (some "net".toList) level

/-- The scenario, third step: `gst_debug_unset_threshold_for_name ("net")`. -/
def net_unset (s0 : GstDebugState) (level : Nat) : GstDebugState :=
  gst_debug_unset_threshold_for_name glib_pattern (net_raised s0 level) (some "net".toList)

/-- A message logged at `level` on the category "net" as the state lists it
(`_gst_debug_get_category`), through `gst_debug_log_literal`. -/
def net_log (s : GstDebugState) (level : Nat) : List LogCall :=
  gst_debug_log_literal s (_gst_debug_get_category_locked s "net".toList) level
    (some "net.c".toList) (some "net_send".toList) 1 0 (some "sent".toList)

/-- A context without the throttle flag and with the reset interval 10, as
`gst_log_context_builder_build` makes it. -/
def ctx_plain_10 : GstLogContext :=
  gst_log_context_builder_build spec_context_decl
    { hash_flags := 0, flags := 0, category := none, interval := 10 }

/-- A throttling context with the reset interval 10, as
`gst_log_context_builder_build` makes it. -/
def ctx_throttle_10 : GstLogContext :=
  gst_log_context_builder_build spec_context_decl
    { hash_flags := 0, flags := 1, category := none, interval := 10 }

/-- A throttling context without periodic reset, as
`gst_log_context_builder_build` makes it. -/
def ctx_throttle_0 : GstLogContext :=
  gst_log_context_builder_build spec_context_decl
    { hash_flags := 0, flags := 1, category := none, interval := 0 }

/-- The literal check of the text `text`, logged from line `line` of `net.c`
at time `now`. -/
def net_check (now : Nat) (line : Int) (text : String) : LogCheck :=
  { now := now, now_reset := now, file := some "net.c".toList, line := line, object := 0,
    id := none, message := some text.toList }

/-- The size recorded for each thread of the logger is the total length of the
lines stored for it, and is within the budget. -/
def ring_sizes_ok (logger : GstRingBufferLogger) : Prop :=
  ∀ log ∈ logger.threads,
    log.log_size = log.log.flatten.length ∧ log.log_size ≤ logger.max_size_per_thread

/-- The thread queue and the thread index list the same threads, each of them
once. -/
def ring_index_ok (logger : GstRingBufferLogger) : Prop :=
  (logger.threads.map (fun log => log.thread)).Nodup ∧ logger.thread_index.Nodup ∧
    ∀ t, t ∈ logger.thread_index ↔ t ∈ logger.threads.map (fun log => log.thread)

/-- The thread queue is in recency order: from the head to the tail the time
of last use does not grow. -/
def ring_recency_ok (logger : GstRingBufferLogger) : Prop :=
  logger.threads.Pairwise (fun a b => b.last_use ≤ a.last_use)

/-- The threads of a run of calls with the most recently used first: each call
puts its thread in front of the threads that were used before it. `before`
lists the threads used before the run. -/
def threads_by_recency : List RingLogCall → List Nat → List Nat
  | [], before => before
  | call :: calls, before =>
    threads_by_recency calls (call.thread :: before.filter (fun t => t ≠ call.thread))

/-- An instance of `GstLineDecl` for the examples: the separator `/`, the time
written as hours, minutes, seconds and nanoseconds (`99:99:99.999999999` for
`GST_CLOCK_TIME_NONE`), pointers as in `spec_context_decl`, the colour mode
"off" being 0, the colour bits `0x100` (bold), `0x200` (underline), `0x0F`
(foreground) and `0xF0` (background), an object described by its address, a
renderer that returns the format unchanged, and the start time 0. -/
def unix_line_decl : GstLineDecl :=
  { G_DIR_SEPARATOR := '/',
    GST_TIME := (fun t =>
      if t = 2 ^ 64 - 1 then "99:99:99.999999999".toList
      else printf_d ((t / 3600000000000 : Nat) : Int) ++ ":".toList
        ++ printf_width 2 '0' (printf_d ((t / 60000000000 % 60 : Nat) : Int)) ++ ":".toList
        ++ printf_width 2 '0' (printf_d ((t / 1000000000 % 60 : Nat) : Int)) ++ ".".toList
        ++ printf_width 9 '0' (printf_d ((t % 1000000000 : Nat) : Int))),
    printf_p := spec_context_decl.printf_p,
    GST_DEBUG_COLOR_MODE_OFF := 0, GST_DEBUG_BOLD := 256, GST_DEBUG_UNDERLINE := 512,
    GST_DEBUG_FG_MASK := 15, GST_DEBUG_BG_MASK := 240,
    _get_object_id := (fun object => (spec_context_decl.printf_p object, true)),
    __gst_vasprintf := (fun format _ => format),
    _priv_gst_start_time := 0 }

/-- The category "net" of the examples. -/
def net_category : GstDebugCategory :=
  { threshold := 9, color := 0, name := "net".toList, description := [] }

/-- A literal message with the text `text` and the object id `id`. -/
def net_message (id : Option String) (text : String) : GstDebugMessage :=
  { message := some text.toList, format := none, arguments := [], object := 0,
    object_id := id.map String.toList, free_object_id := false }

/-- The call of `gst_ring_buffer_logger_log` for the text `text`, logged by
`thread` at the monotonic time `now` from line 12 of `file`, function
`net_send`, at level 3 on the category "net", one second after the start, in
the process 7. -/
def ring_call (thread : Nat) (now : Int) (file : String) (text : String) : RingLogCall :=
  { category := net_category, level := 3, file := file.toList, function := "net_send".toList,
    line := 12, object := 0, message := net_message none text, now := now,
    timestamp := 1000000000, pid := 7, thread := thread }

/-- A build with libunwind (without libdw) and with `backtrace`, for the
examples: `GST_STACK_TRACE_SHOW_FULL` is the bit 1, the unwinder steps to the
frames `main` and `start`, and `backtrace_symbols` gives two raw frame
descriptions. -/
def unwind_and_backtrace : GstStackTraceDecl :=
  { GST_STACK_TRACE_SHOW_FULL := 1, HAVE_UNWIND := true, HAVE_DW := false,
    HAVE_BACKTRACE := true, HAVE_DBGHELP := false, get_global_dwfl := false,
    unw_getcontext := 0, unw_init_local := 0, dwfl_linux_proc_report := (fun _ => 0),
    frames := [{ unw_get_reg := 0, debug_info := [], proc_name := "main".toList, offset := 16 },
      { unw_get_reg := 0, debug_info := [], proc_name := "start".toList, offset := 4 }],
    printf_gsize := (fun n => Nat.toDigits 10 n),
    backtrace_symbols := some ["./app(+0x10) [0x400010]".toList, "./app(+0x4) [0x400004]".toList],
    generate_dbghelp_trace := none }

/-- The escape sequence as the specification words it: ESC `[00`, then `;01`
for bold, `;04` for underline, `;3` and the character `'0' + fg` for a
foreground `fg` other than 0, `;4` and the character `'0' + bg` for a
background `bg` other than 0, then `m`. -/
def term_color_spec (bold underline : Bool) (fg bg : Nat) : List Char :=
  [Char.ofNat 27] ++ "[00".toList
    ++ (if bold then ";01".toList else [])
    ++ (if underline then ";04".toList else [])
    ++ (if fg ≠ 0 then ";3".toList ++ [Char.ofNat ('0'.toNat + fg)] else [])
    ++ (if bg ≠ 0 then ";4".toList ++ [Char.ofNat ('0'.toNat + bg)] else [])
    ++ "m".toList

/-- The state of an initialised library in which only the category
"GST_DEBUG" of `gstinfo.c` is registered, with the threshold 0, and the
handler list holds the default log function. -/
def debug_category_state : GstDebugState :=
  CategoryOp.run glib_pattern
    (gst_debug_initial 0 0
      [{ func := GstLogFunction.gst_debug_log_default, user_data := 0, notify := none }])
    (.category_new (some "GST_DEBUG".toList) 0 (some "debugging subsystem".toList))

/-- A ring buffer logger with the budget 4096 and the timeout 60 that has
stored one line of the thread 1. -/
def logger_with_line : GstRingBufferLogger :=
  { max_size_per_thread := 4096, thread_timeout := 60,
    threads := [{ last_use := 0, thread := 1, log := ["sent\n".toList], log_size := 5 }],
    thread_index := [1] }

/-! ## Lemmas on the threshold functions -/

theorem TrackerRaised.refl (s : GstDebugState) : TrackerRaised s s :=
  ⟨rfl, rfl, rfl, rfl, id, le_refl _⟩

theorem TrackerRaised.trans {s1 s2 s3 : GstDebugState} (h12 : TrackerRaised s1 s2)
    (h23 : TrackerRaised s2 s3) : TrackerRaised s1 s3 := by
  obtain ⟨a1, a2, a3, a4, a5, a6⟩ := h12
  obtain ⟨b1, b2, b3, b4, b5, b6⟩ := h23
  exact ⟨b1.trans a1, b2.trans a2, b3.trans a3, b4.trans a4, fun h => b5 (a5 h),
    le_trans a6 b6⟩

theorem set_threshold_raised (s : GstDebugState) (c : GstDebugCategory) (level : Nat) :
    TrackerRaised s (gst_debug_category_set_threshold s c level).1 := by
  unfold gst_debug_category_set_threshold
  by_cases h : level > s._gst_debug_min
  · simp only [h, if_true]
    exact ⟨rfl, rfl, rfl, rfl, fun _ => rfl, le_of_lt h⟩
  · simp only [h, if_false]
    exact TrackerRaised.refl s

theorem set_threshold_snd (s : GstDebugState) (c : GstDebugCategory) (level : Nat) :
    (gst_debug_category_set_threshold s c level).2 = { c with threshold := level } := rfl

theorem set_threshold_min (s : GstDebugState) (c : GstDebugCategory) (level : Nat) :
    (gst_debug_category_set_threshold s c level).1._gst_debug_min
      = max s._gst_debug_min level := by
  unfold gst_debug_category_set_threshold
  by_cases h : level > s._gst_debug_min
  · simp only [h, if_true]
    exact (max_eq_right (le_of_lt h)).symm
  · simp only [h, if_false]
    exact (max_eq_left (not_lt.mp h)).symm

theorem apply_entry_raised (P : GPatternOps) (s : GstDebugState) (c : GstDebugCategory)
    (e : LevelNameEntry) : TrackerRaised s (gst_debug_apply_entry P s c e).1 := by
  unfold gst_debug_apply_entry
  cases hm : P.match_string e.pat c.name
  · simpa using TrackerRaised.refl s
  · simpa using set_threshold_raised s c e.level

theorem apply_entry_cat (P : GPatternOps) (s : GstDebugState) (c : GstDebugCategory)
    (e : LevelNameEntry) :
    (gst_debug_apply_entry P s c e).2.1
      = (if P.match_string e.pat c.name then { c with threshold := e.level } else c) ∧
    (gst_debug_apply_entry P s c e).2.2 = P.match_string e.pat c.name := by
  unfold gst_debug_apply_entry
  cases hm : P.match_string e.pat c.name <;> simp [set_threshold_snd]

theorem reset_walk_raised (P : GPatternOps) (rules : List LevelNameEntry) :
    ∀ (s : GstDebugState) (c : GstDebugCategory),
      TrackerRaised s (gst_debug_reset_threshold_walk P rules s c).1 := by
  induction rules with
  | nil => intro s c; exact TrackerRaised.refl s
  | cons e rest ih =>
    intro s c
    simp only [gst_debug_reset_threshold_walk]
    split
    · exact apply_entry_raised P s c e
    · exact (apply_entry_raised P s c e).trans (ih _ _)

theorem reset_walk_cat (P : GPatternOps) (rules : List LevelNameEntry) :
    ∀ (s : GstDebugState) (c : GstDebugCategory),
      (gst_debug_reset_threshold_walk P rules s c).2
        = match rules.find? (fun e => P.match_string e.pat c.name) with
          | some e => ({ c with threshold := e.level }, true)
          | none => (c, false) := by
  induction rules with
  | nil => intro s c; rfl
  | cons e rest ih =>
    intro s c
    obtain ⟨h1, h2⟩ := apply_entry_cat P s c e
    simp only [gst_debug_reset_threshold_walk, List.find?_cons]
    cases hm : P.match_string e.pat c.name
    · rw [hm] at h2 h1
      simp only [h2, Bool.false_eq_true, if_false] at h1 ⊢
      rw [ih, h1]
    · rw [hm] at h2 h1
      simp only [h2, if_true] at h1 ⊢
      rw [h1]

theorem reset_threshold_raised (P : GPatternOps) (s : GstDebugState) (c : GstDebugCategory) :
    TrackerRaised s (gst_debug_reset_threshold P s c).1 := by
  unfold gst_debug_reset_threshold
  simp only
  split
  · exact reset_walk_raised P _ s c
  · exact (reset_walk_raised P _ s c).trans (set_threshold_raised _ _ _)

theorem reset_threshold_cat (P : GPatternOps) (s : GstDebugState) (c : GstDebugCategory) :
    (gst_debug_reset_threshold P s c).2
      = { c with threshold := spec_rule_level P s.__level_name s.__default_level c.name } := by
  have hw := reset_walk_cat P s.__level_name s c
  have hr := reset_walk_raised P s.__level_name s c
  unfold gst_debug_reset_threshold spec_rule_level
  simp only
  cases hf : s.__level_name.find? (fun e => P.match_string e.pat c.name) with
  | none =>
    rw [hf] at hw
    simp only [hw, Bool.false_eq_true, if_false, set_threshold_snd,
      gst_debug_get_default_threshold, hr.1]
  | some e =>
    rw [hf] at hw
    simp only [hw, if_true]

theorem foreach_spec
    (func : GstDebugState → GstDebugCategory → GstDebugState × GstDebugCategory)
    (g : GstDebugCategory → GstDebugCategory) (s0 : GstDebugState)
    (hf : ∀ s c, TrackerRaised s0 s →
      TrackerRaised s (func s c).1 ∧ (func s c).2 = g c) :
    ∀ (cats : List GstDebugCategory) (s : GstDebugState), TrackerRaised s0 s →
      TrackerRaised s (g_slist_foreach func cats s).1 ∧
      (g_slist_foreach func cats s).2 = cats.map g := by
  intro cats
  induction cats with
  | nil => intro s _; exact ⟨TrackerRaised.refl s, rfl⟩
  | cons c rest ih =>
    intro s hs
    obtain ⟨h1, h2⟩ := hf s c hs
    obtain ⟨h3, h4⟩ := ih (func s c).1 (hs.trans h1)
    simp only [g_slist_foreach, List.map_cons]
    exact ⟨h1.trans h3, by rw [h2, h4]⟩

/-- What `gst_debug_reset_all_thresholds` does: every category gets the level
the rules prescribe for its name, and nothing else changes but the tracker,
which is only raised. -/
theorem reset_all_spec (P : GPatternOps) (s : GstDebugState) :
    (gst_debug_reset_all_thresholds P s).__categories
      = s.__categories.map (fun c =>
          { c with threshold := spec_rule_level P s.__level_name s.__default_level c.name }) ∧
    (gst_debug_reset_all_thresholds P s).__level_name = s.__level_name ∧
    (gst_debug_reset_all_thresholds P s).__default_level = s.__default_level ∧
    (gst_debug_reset_all_thresholds P s).__log_functions = s.__log_functions ∧
    (s._gst_debug_enabled = true →
      (gst_debug_reset_all_thresholds P s)._gst_debug_enabled = true) ∧
    s._gst_debug_min ≤ (gst_debug_reset_all_thresholds P s)._gst_debug_min := by
  have h := foreach_spec (gst_debug_reset_threshold P)
    (fun c =>
      { c with threshold := spec_rule_level P s.__level_name s.__default_level c.name }) s
    (fun s1 c hs => ⟨reset_threshold_raised P s1 c, by
      rw [reset_threshold_cat, hs.1, hs.2.1]⟩)
    s.__categories s (TrackerRaised.refl s)
  obtain ⟨⟨a1, a2, _, a4, a5, a6⟩, hc⟩ := h
  unfold gst_debug_reset_all_thresholds
  exact ⟨hc, a2, a1, a4, a5, a6⟩

/-- What `gst_debug_set_threshold_for_name` does for a name that is not
`NULL`: the rule is put in front, the categories it matches get its level, the
other categories keep their threshold. -/
theorem set_for_name_spec (P : GPatternOps) (s : GstDebugState) (name : List Char)
    (level : Nat) :
    (gst_debug_set_threshold_for_name P s (some name) level).__level_name
      = { pat := name, level := level } :: s.__level_name ∧
    (gst_debug_set_threshold_for_name P s (some name) level).__categories
      = s.__categories.map (fun c =>
          if P.match_string name c.name then { c with threshold := level } else c) ∧
    (gst_debug_set_threshold_for_name P s (some name) level).__default_level
      = s.__default_level ∧
    (gst_debug_set_threshold_for_name P s (some name) level).__log_functions
      = s.__log_functions ∧
    (s._gst_debug_enabled = true →
      (gst_debug_set_threshold_for_name P s (some name) level)._gst_debug_enabled = true) ∧
    s._gst_debug_min ≤
      (gst_debug_set_threshold_for_name P s (some name) level)._gst_debug_min := by
  have h := foreach_spec
    (for_each_threshold_by_entry P { pat := name, level := level })
    (fun c => if P.match_string name c.name then { c with threshold := level } else c)
    { s with __level_name := { pat := name, level := level } :: s.__level_name }
    (fun s1 c _ => ⟨apply_entry_raised P s1 c _, (apply_entry_cat P s1 c _).1⟩)
    s.__categories _ (TrackerRaised.refl _)
  obtain ⟨⟨a1, a2, _, a4, a5, a6⟩, hc⟩ := h
  unfold gst_debug_set_threshold_for_name
  exact ⟨a2, hc, a1, a4, a5, a6⟩

theorem unset_walk_eq_filter (P : GPatternOps) (pat : List Char) :
    ∀ (n : Nat) (before walk : List LevelNameEntry),
      before.length + walk.length ≤ n →
      (∀ e ∈ before, P.equal e.pat pat = false) →
      gst_debug_unset_threshold_for_name_walk P pat before walk
        = before ++ walk.filter (fun e => !P.equal e.pat pat) := by
  intro n
  induction n using Nat.strong_induction_on with
  | _ n ihn =>
    intro before walk
    induction walk generalizing before with
    | nil =>
      intro _ _
      rw [gst_debug_unset_threshold_for_name_walk]
      simp
    | cons e next ihw =>
      intro hlen hb
      rw [gst_debug_unset_threshold_for_name_walk]
      cases he : P.equal e.pat pat
      · simp only [Bool.false_eq_true, if_false]
        rw [ihw (before ++ [e]) (by simp at hlen ⊢; omega)
          (by
            intro x hx
            rcases List.mem_append.mp hx with h | h
            · exact hb x h
            · rw [List.mem_singleton.mp h]; exact he)]
        simp [List.filter_cons, he]
      · simp only [if_true]
        rw [ihn (before.length + next.length) (by simp at hlen; omega) [] (before ++ next)
          (by simp) (by simp)]
        have hfb : before.filter (fun e => !P.equal e.pat pat) = before := by
          rw [List.filter_eq_self]
          intro x hx
          simp [hb x hx]
        simp [List.filter_cons, he, List.filter_append, hfb]

/-- What `gst_debug_unset_threshold_for_name` does for a name that is not
`NULL`: the rules with an equal pattern are dropped, the others stay in
order, and every category is reset against the remaining rules. -/
theorem unset_for_name_spec (P : GPatternOps) (s : GstDebugState) (name : List Char) :
    (gst_debug_unset_threshold_for_name P s (some name)).__level_name
      = s.__level_name.filter (fun e => !P.equal e.pat name) ∧
    (gst_debug_unset_threshold_for_name P s (some name)).__categories
      = s.__categories.map (fun c =>
          { c with threshold := (spec_rule_level P
              (s.__level_name.filter (fun e => !P.equal e.pat name))
              s.__default_level c.name) }) ∧
    (gst_debug_unset_threshold_for_name P s (some name)).__default_level
      = s.__default_level ∧
    (gst_debug_unset_threshold_for_name P s (some name)).__log_functions
      = s.__log_functions ∧
    (s._gst_debug_enabled = true →
      (gst_debug_unset_threshold_for_name P s (some name))._gst_debug_enabled = true) ∧
    s._gst_debug_min ≤ (gst_debug_unset_threshold_for_name P s (some name))._gst_debug_min := by
  have hw := unset_walk_eq_filter P name _ [] s.__level_name (le_refl _) (by simp)
  simp only [List.nil_append] at hw
  obtain ⟨a1, a2, a3, a4, a5, a6⟩ := reset_all_spec P
    { s with __level_name := (gst_debug_unset_threshold_for_name_walk P name []
        s.__level_name) }
  unfold gst_debug_unset_threshold_for_name
  simp only [hw] at a1 a2 a3 a4 a5 a6 ⊢
  exact ⟨a2, a1, a3, a4, a5, a6⟩

/-- What `_gst_debug_category_new` does for a name that is not `NULL`: a listed
category of that name is returned as it is; otherwise a record with the level
the rules prescribe is put in front of the list and returned. -/
theorem category_new_spec (P : GPatternOps) (s : GstDebugState) (name : List Char)
    (color : Nat) (description : Option (List Char)) :
    (match _gst_debug_get_category_locked s name with
      | some catfound =>
        (_gst_debug_category_new P s (some name) color description).1.__categories
          = s.__categories ∧
        (_gst_debug_category_new P s (some name) color description).2 = some catfound
      | none =>
        (_gst_debug_category_new P s (some name) color description).1.__categories
          = { name := name, color := color,
              description := description.getD "no description".toList,
              threshold := spec_rule_level P s.__level_name s.__default_level name }
            :: s.__categories ∧
        (_gst_debug_category_new P s (some name) color description).2
          = some
            { name := name, color := color,
              description := description.getD "no description".toList,
              threshold := spec_rule_level P s.__level_name s.__default_level name }) ∧
    (_gst_debug_category_new P s (some name) color description).1.__level_name
      = s.__level_name ∧
    (_gst_debug_category_new P s (some name) color description).1.__default_level
      = s.__default_level ∧
    (_gst_debug_category_new P s (some name) color description).1.__log_functions
      = s.__log_functions ∧
    (s._gst_debug_enabled = true →
      (_gst_debug_category_new P s (some name) color description).1._gst_debug_enabled
        = true) ∧
    s._gst_debug_min ≤
      (_gst_debug_category_new P s (some name) color description).1._gst_debug_min := by
  obtain ⟨a1, a2, a3, a4, a5, a6⟩ := reset_threshold_raised P s
    { name := name, color := color,
      description := description.getD "no description".toList, threshold := 0 }
  have hc := reset_threshold_cat P s
    { name := name, color := color,
      description := description.getD "no description".toList, threshold := 0 }
  have hl : ∀ s2 : GstDebugState, s2.__categories = s.__categories →
      _gst_debug_get_category_locked s2 name = _gst_debug_get_category_locked s name := by
    intro s2 h2
    unfold _gst_debug_get_category_locked
    rw [h2]
  unfold _gst_debug_category_new
  simp only
  rw [hl _ a3]
  cases hf : _gst_debug_get_category_locked s name with
  | some catfound => exact ⟨⟨a3, rfl⟩, a2, a1, a4, a5, a6⟩
  | none =>
    rw [hc, a3]
    exact ⟨⟨rfl, rfl⟩, a2, a1, a4, a5, a6⟩

theorem spec_rule_level_cons (P : GPatternOps) (e : LevelNameEntry)
    (rules : List LevelNameEntry) (d : Nat) (name : List Char) :
    spec_rule_level P (e :: rules) d name
      = if P.match_string e.pat name then e.level else spec_rule_level P rules d name := by
  unfold spec_rule_level
  cases hm : P.match_string e.pat name <;> simp [List.find?_cons, hm]

theorem set_for_name_follows (P : GPatternOps) (s : GstDebugState)
    (name : Option (List Char)) (level : Nat) (h : ThresholdsFollowRules P s) :
    ThresholdsFollowRules P (gst_debug_set_threshold_for_name P s name level) := by
  cases name with
  | none => exact h
  | some name =>
    obtain ⟨a1, a2, a3, _⟩ := set_for_name_spec P s name level
    intro c hc
    rw [a1, a3, spec_rule_level_cons]
    rw [a2] at hc
    obtain ⟨c0, hc0, rfl⟩ := List.mem_map.mp hc
    cases hm : P.match_string name c0.name
    · simp [hm, h c0 hc0]
    · simp [hm]

theorem reset_all_follows (P : GPatternOps) (s : GstDebugState) :
    ThresholdsFollowRules P (gst_debug_reset_all_thresholds P s) := by
  obtain ⟨a1, a2, a3, _⟩ := reset_all_spec P s
  intro c hc
  rw [a2, a3]
  rw [a1] at hc
  obtain ⟨c0, _, rfl⟩ := List.mem_map.mp hc
  rfl

theorem unset_for_name_follows (P : GPatternOps) (s : GstDebugState)
    (name : Option (List Char)) (h : ThresholdsFollowRules P s) :
    ThresholdsFollowRules P (gst_debug_unset_threshold_for_name P s name) := by
  cases name with
  | none => exact h
  | some name => exact reset_all_follows P _

theorem category_new_follows (P : GPatternOps) (s : GstDebugState)
    (name : Option (List Char)) (color : Nat) (description : Option (List Char))
    (h : ThresholdsFollowRules P s) :
    ThresholdsFollowRules P (_gst_debug_category_new P s name color description).1 := by
  cases name with
  | none => exact h
  | some name =>
    obtain ⟨a0, a1, a2, _⟩ := category_new_spec P s name color description
    intro c hc
    rw [a1, a2]
    cases hf : _gst_debug_get_category_locked s name with
    | some catfound =>
      rw [hf] at a0
      rw [a0.1] at hc
      exact h c hc
    | none =>
      rw [hf] at a0
      rw [a0.1] at hc
      rcases List.mem_cons.mp hc with rfl | hc
      · rfl
      · exact h c hc

theorem run_ops_follows (P : GPatternOps) (ops : List RuleOp) :
    ∀ s : GstDebugState, ThresholdsFollowRules P s →
      ThresholdsFollowRules P (run_ops P ops s) ∧
      (run_ops P ops s).__level_name = ops.foldl (spec_rules_step P) s.__level_name ∧
      (run_ops P ops s).__default_level = s.__default_level := by
  induction ops with
  | nil => intro s h; exact ⟨h, rfl, rfl⟩
  | cons op rest ih =>
    intro s h
    have hstep : ThresholdsFollowRules P (RuleOp.run P s op) ∧
        (RuleOp.run P s op).__level_name = spec_rules_step P s.__level_name op ∧
        (RuleOp.run P s op).__default_level = s.__default_level := by
      cases op with
      | set_threshold_for_name name level =>
        refine ⟨set_for_name_follows P s name level h, ?_, ?_⟩
        · cases name with
          | none => rfl
          | some name => exact (set_for_name_spec P s name level).1
        · cases name with
          | none => rfl
          | some name => exact (set_for_name_spec P s name level).2.2.1
      | unset_threshold_for_name name =>
        refine ⟨unset_for_name_follows P s name h, ?_, ?_⟩
        · cases name with
          | none => rfl
          | some name => exact (unset_for_name_spec P s name).1
        · cases name with
          | none => rfl
          | some name => exact (unset_for_name_spec P s name).2.2.1
      | category_new name color description =>
        refine ⟨category_new_follows P s name color description h, ?_, ?_⟩
        · cases name with
          | none => rfl
          | some name => exact (category_new_spec P s name color description).2.1
        · cases name with
          | none => rfl
          | some name => exact (category_new_spec P s name color description).2.2.1
    obtain ⟨h1, h2, h3⟩ := hstep
    obtain ⟨i1, i2, i3⟩ := ih (RuleOp.run P s op) h1
    simp only [run_ops, List.foldl_cons] at i1 i2 i3 ⊢
    exact ⟨i1, by rw [i2, h2], by rw [i3, h3]⟩

theorem get_category_map (f : GstDebugCategory → GstDebugCategory)
    (hf : ∀ c, (f c).name = c.name) (s1 s2 : GstDebugState)
    (h : s2.__categories = s1.__categories.map f) (name : List Char) :
    _gst_debug_get_category_locked s2 name
      = (_gst_debug_get_category_locked s1 name).map f := by
  unfold _gst_debug_get_category_locked
  rw [h, List.find?_map]
  have : ((fun ret : GstDebugCategory => decide (name = ret.name)) ∘ f)
      = (fun ret : GstDebugCategory => decide (name = ret.name)) := by
    funext c
    simp [hf c]
  rw [this]

theorem get_category_name (s : GstDebugState) (name : List Char) (c : GstDebugCategory)
    (h : _gst_debug_get_category_locked s name = some c) :
    c.name = name ∧ c ∈ s.__categories := by
  unfold _gst_debug_get_category_locked at h
  have h1 := List.find?_some h
  exact ⟨(of_decide_eq_true h1).symm, List.mem_of_find?_eq_some h⟩

theorem category_new_listed (P : GPatternOps) (s : GstDebugState) (name : List Char)
    (color : Nat) (description : Option (List Char)) :
    ∃ cat, (_gst_debug_category_new P s (some name) color description).2 = some cat ∧
      _gst_debug_get_category_locked
        (_gst_debug_category_new P s (some name) color description).1 name = some cat := by
  obtain ⟨a0, _⟩ := category_new_spec P s name color description
  cases hf : _gst_debug_get_category_locked s name with
  | some catfound =>
    rw [hf] at a0
    refine ⟨catfound, a0.2, ?_⟩
    unfold _gst_debug_get_category_locked at hf ⊢
    rw [a0.1]
    exact hf
  | none =>
    rw [hf] at a0
    refine ⟨_, a0.2, ?_⟩
    unfold _gst_debug_get_category_locked
    rw [a0.1]
    simp [List.find?_cons]

theorem net_scenario (s0 : GstDebugState) (info debug : Nat)
    (h_rules : s0.__level_name = []) (h_default : s0.__default_level = info)
    (h_lt : info < debug) :
    (_gst_debug_get_category_locked (net_raised s0 debug) "net".toList).map
        (fun c => c.threshold) = some debug ∧
    (net_log (net_raised s0 debug) debug).map (fun c => (c.func, c.user_data))
      = s0.__log_functions.map (fun e => (e.func, e.user_data)) ∧
    (_gst_debug_get_category_locked (net_unset s0 debug) "net".toList).map
        (fun c => c.threshold) = some info ∧
    net_log (net_unset s0 debug) debug = [] := by
  have hm : glob_match "net".toList "net".toList = true := by decide
  have he : glib_pattern.equal "net".toList "net".toList = true := by decide
  obtain ⟨c1, _, hc1⟩ := category_new_listed glib_pattern s0 "net".toList 0 none
  obtain ⟨_, n1, n2, n3, _⟩ := category_new_spec glib_pattern s0 "net".toList 0 none
  have hname := (get_category_name _ _ _ hc1).1
  obtain ⟨r1, r2, r3, r4, _⟩ := set_for_name_spec glib_pattern (net_created s0)
    "net".toList debug
  obtain ⟨u1, u2, u3, u4, _⟩ := unset_for_name_spec glib_pattern (net_raised s0 debug)
    "net".toList
  have hc1' : _gst_debug_get_category_locked (net_created s0) "net".toList = some c1 := hc1
  have hmc : glib_pattern.match_string "net".toList c1.name = true := by
    rw [hname]; exact hm
  have g2 := get_category_map
    (fun c => if glib_pattern.match_string "net".toList c.name
      then { c with threshold := debug } else c)
    (fun c => by
      show (if _ then _ else _ : GstDebugCategory).name = _
      split <;> rfl) (net_created s0) (net_raised s0 debug) r2 "net".toList
  rw [hc1'] at g2
  simp only [Option.map_some', hmc, if_true] at g2
  have hrules : (net_raised s0 debug).__level_name
      = [{ pat := "net".toList, level := debug }] := by
    rw [show (net_raised s0 debug).__level_name = _ from r1]
    rw [show (net_created s0).__level_name = _ from n1, h_rules]
  have hdef : (net_raised s0 debug).__default_level = info := by
    rw [show (net_raised s0 debug).__default_level = _ from r3]
    rw [show (net_created s0).__default_level = _ from n2, h_default]
  have hfil : List.filter (fun e : LevelNameEntry => !glib_pattern.equal e.pat "net".toList)
      [{ pat := "net".toList, level := debug }] = [] := by
    rw [List.filter_cons]
    simp only [he, Bool.not_true, Bool.false_eq_true, if_false, List.filter_nil]
  rw [hrules, hdef, hfil] at u2
  have g3 := get_category_map
    (fun c => { c with threshold := spec_rule_level glib_pattern [] info c.name })
    (fun _ => rfl) (net_raised s0 debug) (net_unset s0 debug) u2 "net".toList
  rw [g2] at g3
  simp only [Option.map_some'] at g3
  have hl2 : (net_raised s0 debug).__log_functions = s0.__log_functions := by
    rw [show (net_raised s0 debug).__log_functions = _ from r4]
    exact n3
  refine ⟨by rw [g2]; rfl, ?_, by rw [g3]; rfl, ?_⟩
  · unfold net_log gst_debug_log_literal gst_debug_log_literal_full
    rw [g2]
    simp [gst_debug_category_get_threshold, hl2, List.map_map, Function.comp_def]
  · unfold net_log gst_debug_log_literal gst_debug_log_literal_full
    rw [g3]
    simp [gst_debug_category_get_threshold, spec_rule_level, h_lt]

theorem set_threshold_at_spec (s : GstDebugState) (i : Nat) (level : Nat)
    (cat : GstDebugCategory) (h : s.__categories[i]? = some cat) :
    (gst_debug_category_set_threshold_at s i level).__categories
      = s.__categories.set i { cat with threshold := level } ∧
    (gst_debug_category_set_threshold_at s i level)._gst_debug_min
      = max s._gst_debug_min level ∧
    (gst_debug_category_set_threshold_at s i level).__level_name = s.__level_name ∧
    (gst_debug_category_set_threshold_at s i level).__default_level = s.__default_level ∧
    (gst_debug_category_set_threshold_at s i level).__log_functions = s.__log_functions ∧
    (s._gst_debug_enabled = true →
      (gst_debug_category_set_threshold_at s i level)._gst_debug_enabled = true) := by
  obtain ⟨a1, a2, a3, a4, a5, _⟩ := set_threshold_raised s cat level
  have hm := set_threshold_min s cat level
  unfold gst_debug_category_set_threshold_at
  rw [h]
  simp only
  rw [a3, set_threshold_snd]
  exact ⟨rfl, hm, a2, a1, a4, a5⟩

theorem reset_threshold_at_raised (P : GPatternOps) (s : GstDebugState) (i : Nat) :
    (s._gst_debug_enabled = true →
      (gst_debug_category_reset_threshold_at P s i)._gst_debug_enabled = true) ∧
    s._gst_debug_min ≤ (gst_debug_category_reset_threshold_at P s i)._gst_debug_min := by
  unfold gst_debug_category_reset_threshold_at
  cases h : s.__categories[i]? with
  | none => exact ⟨id, le_refl _⟩
  | some cat =>
    obtain ⟨_, _, _, _, a5, a6⟩ := reset_threshold_raised P s cat
    exact ⟨a5, a6⟩

theorem category_op_raised (P : GPatternOps) (s : GstDebugState) (op : CategoryOp) :
    (s._gst_debug_enabled = true → (op.run P s)._gst_debug_enabled = true) ∧
    s._gst_debug_min ≤ (op.run P s)._gst_debug_min := by
  cases op with
  | category_new name color description =>
    cases name with
    | none => exact ⟨id, le_refl _⟩
    | some name => exact (category_new_spec P s name color description).2.2.2.2
  | category_set_threshold i level =>
    show (_ → (gst_debug_category_set_threshold_at s i level)._gst_debug_enabled = true) ∧
      _ ≤ (gst_debug_category_set_threshold_at s i level)._gst_debug_min
    unfold gst_debug_category_set_threshold_at
    cases h : s.__categories[i]? with
    | none => exact ⟨id, le_refl _⟩
    | some cat =>
      obtain ⟨_, _, _, _, a5, a6⟩ := set_threshold_raised s cat level
      exact ⟨a5, a6⟩
  | category_reset_threshold i => exact reset_threshold_at_raised P s i
  | set_threshold_for_name name level =>
    cases name with
    | none => exact ⟨id, le_refl _⟩
    | some name => exact (set_for_name_spec P s name level).2.2.2.2
  | unset_threshold_for_name name =>
    cases name with
    | none => exact ⟨id, le_refl _⟩
    | some name => exact (unset_for_name_spec P s name).2.2.2.2
  | set_default_threshold level =>
    exact (reset_all_spec P { s with __default_level := level }).2.2.2.2

theorem category_ops_raised (P : GPatternOps) (ops : List CategoryOp) :
    ∀ s : GstDebugState,
      (s._gst_debug_enabled = true →
        (ops.foldl (CategoryOp.run P) s)._gst_debug_enabled = true) ∧
      s._gst_debug_min ≤ (ops.foldl (CategoryOp.run P) s)._gst_debug_min := by
  induction ops with
  | nil => intro s; exact ⟨id, le_refl _⟩
  | cons op rest ih =>
    intro s
    obtain ⟨h1, h2⟩ := category_op_raised P s op
    obtain ⟨h3, h4⟩ := ih (op.run P s)
    exact ⟨fun h => h3 (h1 h), le_trans h2 h4⟩

theorem strsplit_tokens_zero (d : Char) (w : List Char) :
    ∀ cur : List Char, g_strsplit_tokens d w cur 0 = [cur.reverse ++ w] := by
  induction w with
  | nil => intro cur; simp [g_strsplit_tokens]
  | cons c cs ih =>
    intro cur
    simp [g_strsplit_tokens, ih]

theorem strsplit_tokens_one (d : Char) (w : List Char) :
    ∀ cur : List Char, d ∈ w →
      g_strsplit_tokens d w cur 1
        = [cur.reverse ++ w.takeWhile (fun c => c != d),
           (w.dropWhile (fun c => c != d)).drop 1] := by
  induction w with
  | nil => intro cur h; simp at h
  | cons c cs ih =>
    intro cur h
    by_cases hc : c = d
    · subst hc
      simp [g_strsplit_tokens, strsplit_tokens_zero, List.takeWhile_cons, List.dropWhile_cons]
    · have hin : d ∈ cs := by
        rcases List.mem_cons.mp h with h1 | h1
        · exact absurd h1.symm hc
        · exact h1
      simp [g_strsplit_tokens, hc, ih _ hin, List.takeWhile_cons, List.dropWhile_cons]

theorem strsplit_colon (w : List Char) (h : ':' ∈ w) :
    g_strsplit w ':' 2
      = [w.takeWhile (fun c => c != ':'), (w.dropWhile (fun c => c != ':')).drop 1] := by
  unfold g_strsplit
  have hne : w ≠ [] := by
    intro h0
    rw [h0] at h
    simp at h
  simp only [hne, if_false]
  have := strsplit_tokens_one ':' w [] h
  simpa using this
theorem rules_foldl_eq (f : List Char → Option LevelNameEntry) (es : List (List Char)) :
    ∀ r0 : List LevelNameEntry,
      es.foldl (fun r w => (f w).toList ++ r) r0 = (es.filterMap f).reverse ++ r0 := by
  induction es with
  | nil => intro r0; rfl
  | cons w rest ih =>
    intro r0
    rw [List.foldl_cons, ih]
    cases hf : f w with
    | none => simp [List.filterMap_cons_none hf]
    | some e => simp [List.filterMap_cons_some hf]

theorem default_foldl_eq (f : List Char → Option Nat) (es : List (List Char)) :
    ∀ d0 : Nat,
      es.foldl (fun d w => (f w).getD d) d0 = ((es.filterMap f).getLast?).getD d0 := by
  induction es with
  | nil => intro d0; rfl
  | cons w rest ih =>
    intro d0
    rw [List.foldl_cons, ih]
    cases hf : f w with
    | none => simp [List.filterMap_cons_none hf]
    | some x => simp [List.filterMap_cons_some hf, List.getLast?_cons]

theorem set_for_name_shape (P : GPatternOps) (s : GstDebugState) (name : List Char)
    (level : Nat) :
    (gst_debug_set_threshold_for_name P s (some name) level).__categories.map
        (fun c => (c.name, c.color, c.description))
      = s.__categories.map (fun c => (c.name, c.color, c.description)) := by
  rw [(set_for_name_spec P s name level).2.1, List.map_map]
  apply List.map_congr_left
  intro c _
  show (fun c : GstDebugCategory => (c.name, c.color, c.description))
    (if P.match_string name c.name then { c with threshold := level } else c) = _
  split <;> rfl

theorem reset_all_shape (P : GPatternOps) (s : GstDebugState) :
    (gst_debug_reset_all_thresholds P s).__categories.map
        (fun c => (c.name, c.color, c.description))
      = s.__categories.map (fun c => (c.name, c.color, c.description)) := by
  rw [(reset_all_spec P s).1, List.map_map]
  rfl

/-- One element of the list handled by `gst_debug_set_threshold_from_string`:
a well-formed `pattern:level` element adds its rule in front, a well-formed
bare level becomes the default threshold, anything else changes nothing; the
thresholds keep following the rules. -/
theorem from_string_walk_spec (P : GPatternOps) (L : GstDebugLevelDecl)
    (s : GstDebugState) (w : List Char) (h : ThresholdsFollowRules P s) :
    ThresholdsFollowRules P (gst_debug_set_threshold_from_string_walk P L s w) ∧
    (gst_debug_set_threshold_from_string_walk P L s w).__level_name
      = (spec_pattern_entry L w).toList ++ s.__level_name ∧
    (gst_debug_set_threshold_from_string_walk P L s w).__default_level
      = (spec_bare_entry L w).getD s.__default_level ∧
    (gst_debug_set_threshold_from_string_walk P L s w).__categories.map
        (fun c => (c.name, c.color, c.description))
      = s.__categories.map (fun c => (c.name, c.color, c.description)) := by
  unfold gst_debug_set_threshold_from_string_walk spec_pattern_entry spec_bare_entry
  by_cases hc : ':' ∈ w
  · simp only [hc, if_true]
    rw [strsplit_colon w hc]
    simp only
    cases hcat : parse_debug_category (some (w.takeWhile (fun c => c != ':'))) with
    | none => exact ⟨h, rfl, rfl, rfl⟩
    | some category =>
      cases hlev : parse_debug_level L
          (some ((w.dropWhile (fun c => c != ':')).drop 1)) with
      | none => exact ⟨h, rfl, rfl, rfl⟩
      | some level =>
        simp only
        have hf := set_for_name_follows P s (some category) level h
        obtain ⟨a1, _, a3, _⟩ := set_for_name_spec P s category level
        have hs := set_for_name_shape P s category level
        split
        · exact ⟨hf, a1, a3, hs⟩
        · exact ⟨hf, a1, a3, hs⟩
  · simp only [hc, if_false]
    cases hlev : parse_debug_level L (some w) with
    | none => exact ⟨h, rfl, rfl, rfl⟩
    | some level =>
      simp only
      obtain ⟨_, a2, a3, _⟩ := reset_all_spec P { s with __default_level := level }
      exact ⟨reset_all_follows P _, a2, a3, reset_all_shape P _⟩

theorem from_string_fold_spec (P : GPatternOps) (L : GstDebugLevelDecl)
    (es : List (List Char)) :
    ∀ s : GstDebugState, ThresholdsFollowRules P s →
      ThresholdsFollowRules P
        (es.foldl (gst_debug_set_threshold_from_string_walk P L) s) ∧
      (es.foldl (gst_debug_set_threshold_from_string_walk P L) s).__level_name
        = (es.filterMap (spec_pattern_entry L)).reverse ++ s.__level_name ∧
      (es.foldl (gst_debug_set_threshold_from_string_walk P L) s).__default_level
        = ((es.filterMap (spec_bare_entry L)).getLast?).getD s.__default_level ∧
      (es.foldl (gst_debug_set_threshold_from_string_walk P L) s).__categories.map
          (fun c => (c.name, c.color, c.description))
        = s.__categories.map (fun c => (c.name, c.color, c.description)) := by
  induction es with
  | nil => intro s h; exact ⟨h, rfl, rfl, rfl⟩
  | cons w rest ih =>
    intro s h
    obtain ⟨h1, h2, h3, h4⟩ := from_string_walk_spec P L s w h
    obtain ⟨i1, i2, i3, i4⟩ := ih _ h1
    rw [List.foldl_cons]
    refine ⟨i1, ?_, ?_, i4.trans h4⟩
    · rw [i2, h2, ← rules_foldl_eq, ← rules_foldl_eq]
      rfl
    · rw [i3, h3, ← default_foldl_eq, ← default_foldl_eq]
      rfl

theorem categories_of_shape (g : List Char → Nat) :
    ∀ (l2 l1 : List GstDebugCategory),
      l2.map (fun c => (c.name, c.color, c.description))
        = l1.map (fun c => (c.name, c.color, c.description)) →
      (∀ c ∈ l2, c.threshold = g c.name) →
      l2 = l1.map (fun c => { c with threshold := g c.name }) := by
  intro l2
  induction l2 with
  | nil =>
    intro l1 h _
    cases l1 with
    | nil => rfl
    | cons a t => simp at h
  | cons c2 t2 ih =>
    intro l1 h ht
    cases l1 with
    | nil => simp at h
    | cons c1 t1 =>
      simp only [List.map_cons, List.cons.injEq, Prod.mk.injEq] at h
      obtain ⟨⟨hn, hcol, hd⟩, htl⟩ := h
      have h2 := ht c2 (List.mem_cons_self _ _)
      rw [List.map_cons, ← ih t1 htl (fun c hc => ht c (List.mem_cons_of_mem _ hc))]
      congr 1
      cases c2
      cases c1
      simp only at hn hcol hd h2
      simp [hn, hcol, hd, h2]

theorem glob_match_star (name : List Char) : glob_match ['*'] name = true := by
  simp only [glob_match, if_true, List.any_eq_true]
  exact ⟨[], by simp, rfl⟩
theorem spec_string_level_eq (P : GPatternOps) (L : GstDebugLevelDecl) (list : List Char)
    (name : List Char) :
    spec_rule_level P
        (((g_strsplit list ',' 0).filterMap (spec_pattern_entry L)).reverse ++ [])
        ((((g_strsplit list ',' 0).filterMap (spec_bare_entry L)).getLast?).getD
          L.GST_LEVEL_DEFAULT) name
      = spec_string_level P L list name := by
  unfold spec_rule_level spec_string_level
  rw [List.append_nil]
  cases ((g_strsplit list ',' 0).filterMap (spec_pattern_entry L)).reverse.find?
      (fun e => P.match_string e.pat name) with
  | some e => rfl
  | none =>
    cases ((g_strsplit list ',' 0).filterMap (spec_bare_entry L)).getLast? <;> rfl

theorem from_string_reset_spec (P : GPatternOps) (L : GstDebugLevelDecl)
    (s : GstDebugState) (list : List Char) :
    (gst_debug_set_threshold_from_string P L s list true).__categories
      = s.__categories.map (fun c =>
          { c with threshold := spec_string_level P L list c.name }) := by
  have hs1 : ThresholdsFollowRules P
      (gst_debug_set_default_threshold P (clear_level_names s) L.GST_LEVEL_DEFAULT) :=
    reset_all_follows P _
  obtain ⟨_, a2, a3, _⟩ := reset_all_spec P
    { clear_level_names s with __default_level := L.GST_LEVEL_DEFAULT }
  have hshape := reset_all_shape P
    { clear_level_names s with __default_level := L.GST_LEVEL_DEFAULT }
  obtain ⟨f1, f2, f3, f4⟩ := from_string_fold_spec P L (g_strsplit list ',' 0)
    (gst_debug_set_default_threshold P (clear_level_names s) L.GST_LEVEL_DEFAULT) hs1
  have hr : (gst_debug_set_default_threshold P (clear_level_names s)
      L.GST_LEVEL_DEFAULT).__level_name = [] := a2
  have hd : (gst_debug_set_default_threshold P (clear_level_names s)
      L.GST_LEVEL_DEFAULT).__default_level = L.GST_LEVEL_DEFAULT := a3
  rw [hr] at f2
  rw [hd] at f3
  have hfin : gst_debug_set_threshold_from_string P L s list true
      = (g_strsplit list ',' 0).foldl (gst_debug_set_threshold_from_string_walk P L)
          (gst_debug_set_default_threshold P (clear_level_names s) L.GST_LEVEL_DEFAULT) := rfl
  rw [hfin]
  apply categories_of_shape
  · exact f4.trans hshape
  · intro c hc
    rw [f1 c hc, f2, f3, spec_string_level_eq]

theorem spec_string_level_example (L : GstDebugLevelDecl) (name : List Char) :
    spec_string_level glib_pattern L "foosrc:6,*src:3,*:2".toList name = 2 := by
  have h : (g_strsplit "foosrc:6,*src:3,*:2".toList ',' 0).filterMap (spec_pattern_entry L)
      = [{ pat := "foosrc".toList, level := 6 }, { pat := "*src".toList, level := 3 },
         { pat := "*".toList, level := 2 }] := rfl
  unfold spec_string_level
  rw [h]
  have hm : glib_pattern.match_string ['*'] name = true := glob_match_star name
  have hf : List.find? (fun e : LevelNameEntry => glib_pattern.match_string e.pat name)
      [{ pat := "foosrc".toList, level := 6 }, { pat := "*src".toList, level := 3 },
        { pat := "*".toList, level := 2 }].reverse
      = some { pat := "*".toList, level := 2 } := by
    show List.find? _ (({ pat := ['*'], level := 2 } : LevelNameEntry) :: _) = _
    rw [List.find?_cons, hm]
    rfl
  rw [hf]

theorem find_delete_none (p : LogFuncEntry → Bool) :
    ∀ l : List LogFuncEntry, g_slist_find_custom_delete_link p l = none →
      l.filter p = [] ∧ l.filter (fun e => !p e) = l := by
  intro l
  induction l with
  | nil => intro _; exact ⟨rfl, rfl⟩
  | cons e rest ih =>
    intro h
    unfold g_slist_find_custom_delete_link at h
    by_cases hz : p e = true
    · simp [hz] at h
    · simp only [hz, Bool.false_eq_true, if_false] at h
      cases hr : g_slist_find_custom_delete_link p rest with
      | some f => rw [hr] at h; exact Option.noConfusion h
      | none =>
        obtain ⟨h1, h2⟩ := ih hr
        simp [List.filter_cons, hz, h1, h2]

theorem find_delete_some (p : LogFuncEntry → Bool) :
    ∀ (l : List LogFuncEntry) (found : LogFuncEntry × List LogFuncEntry),
      g_slist_find_custom_delete_link p l = some found →
      l.filter p = found.1 :: found.2.filter p ∧
      l.filter (fun e => !p e) = found.2.filter (fun e => !p e) ∧
      found.2.length < l.length := by
  intro l
  induction l with
  | nil => intro found h; simp [g_slist_find_custom_delete_link] at h
  | cons e rest ih =>
    intro found h
    unfold g_slist_find_custom_delete_link at h
    by_cases hz : p e = true
    · simp only [hz, if_true, Option.some.injEq] at h
      rw [← h]
      simp [List.filter_cons, hz]
    · simp only [hz, Bool.false_eq_true, if_false] at h
      cases hr : g_slist_find_custom_delete_link p rest with
      | none => rw [hr] at h; exact Option.noConfusion h
      | some f =>
        rw [hr] at h
        simp only [Option.some.injEq] at h
        obtain ⟨h1, h2, h3⟩ := ih f hr
        rw [← h]
        simp only [List.filter_cons, hz, Bool.false_eq_true, if_false, Bool.not_false,
          if_true, List.length_cons]
        exact ⟨h1, by rw [h2], by omega⟩

/-- The removal loop in closed form: the entries that match are taken out, the
others stay in order, the matching ones are collected in reverse order and
counted. -/
theorem remove_find_spec (p : LogFuncEntry → Bool) :
    ∀ (n : Nat) (l cleanup : List LogFuncEntry) (removals : Nat), l.length ≤ n →
      gst_debug_remove_with_compare_func_find p l cleanup removals
        = (l.filter (fun e => !p e), (l.filter p).reverse ++ cleanup,
            removals + (l.filter p).length) := by
  intro n
  induction n with
  | zero =>
    intro l cleanup removals hl
    have : l = [] := List.length_eq_zero.mp (Nat.le_zero.mp hl)
    subst this
    rw [gst_debug_remove_with_compare_func_find]
    simp [g_slist_find_custom_delete_link]
  | succ n ih =>
    intro l cleanup removals hl
    rw [gst_debug_remove_with_compare_func_find]
    split
    · rename_i hnone
      obtain ⟨h1, h2⟩ := find_delete_none p l hnone
      simp [h1, h2]
    · rename_i found hsome
      obtain ⟨h1, h2, h3⟩ := find_delete_some p l found hsome
      rw [ih found.2 (found.1 :: cleanup) (removals + 1) (by omega), h1, h2]
      simp
      omega

theorem remove_cleanup_spec :
    ∀ cleanup : List LogFuncEntry,
      gst_debug_remove_with_compare_func_cleanup cleanup
        = cleanup.filterMap (fun e => e.notify.map (fun n => (n, e.user_data))) := by
  intro cleanup
  induction cleanup with
  | nil => rfl
  | cons e rest ih =>
    unfold gst_debug_remove_with_compare_func_cleanup
    cases hn : e.notify with
    | none => simp [List.filterMap_cons, hn, ih]
    | some n => simp [List.filterMap_cons, hn, ih]

/-- What `gst_debug_remove_with_compare_func` does, in closed form. -/
theorem remove_with_compare_func_spec (s : GstDebugState) (p : LogFuncEntry → Bool) :
    gst_debug_remove_with_compare_func s p
      = ({ s with __log_functions := s.__log_functions.filter (fun e => !p e) },
          (s.__log_functions.filter p).length,
          ((s.__log_functions.filter p).reverse).filterMap
            (fun e => e.notify.map (fun n => (n, e.user_data)))) := by
  unfold gst_debug_remove_with_compare_func
  rw [remove_find_spec p _ s.__log_functions [] 0 (le_refl _)]
  simp only [remove_cleanup_spec, List.append_nil, Nat.zero_add]
theorem notify_calls_count (n d : Nat) :
    ∀ l : List LogFuncEntry,
      (l.filterMap (fun e => e.notify.map (fun m => (m, e.user_data)))).count (n, d)
        = (l.filter (fun e => decide (e.notify = some n ∧ e.user_data = d))).length := by
  intro l
  induction l with
  | nil => rfl
  | cons e rest ih =>
    cases hn : e.notify with
    | none => simp [List.filterMap_cons, List.filter_cons, hn, ih]
    | some m =>
      by_cases h : m = n ∧ e.user_data = d
      · obtain ⟨h1, h2⟩ := h
        simp [List.filterMap_cons, List.filter_cons, hn, ih, h1, h2]
      · have h3 : ¬ ((m, e.user_data) = (n, d)) := by
          intro hc
          exact h ⟨(Prod.mk.inj hc).1, (Prod.mk.inj hc).2⟩
        have h4 : ¬ (m = n ∧ e.user_data = d) := h
        simp [List.filterMap_cons, List.filter_cons, hn, ih, List.count_cons, h3, h4]

/-- What `gst_debug_remove_log_function` does, in closed form. -/
theorem remove_log_function_spec (s : GstDebugState) (initialized : Bool)
    (func : Option GstLogFunction) :
    gst_debug_remove_log_function s initialized func
      = (if initialized = false ∧
            func.getD GstLogFunction.gst_debug_log_default
              = GstLogFunction.gst_debug_log_default then
          ({ s with
              __log_functions := (s.__log_functions.filter (fun e =>
                !decide (e.func = func.getD GstLogFunction.gst_debug_log_default))),
              add_default_log_func := false },
            (s.__log_functions.filter (fun e =>
              decide (e.func = func.getD GstLogFunction.gst_debug_log_default))).length + 1,
            ((s.__log_functions.filter (fun e =>
              decide (e.func = func.getD GstLogFunction.gst_debug_log_default))).reverse).filterMap
              (fun e => e.notify.map (fun n => (n, e.user_data))))
        else
          ({ s with
              __log_functions := (s.__log_functions.filter (fun e =>
                !decide (e.func = func.getD GstLogFunction.gst_debug_log_default))) },
            (s.__log_functions.filter (fun e =>
              decide (e.func = func.getD GstLogFunction.gst_debug_log_default))).length,
            ((s.__log_functions.filter (fun e =>
              decide (e.func = func.getD GstLogFunction.gst_debug_log_default))).reverse).filterMap
              (fun e => e.notify.map (fun n => (n, e.user_data))))) := by
  have hf : (match func with
      | none => GstLogFunction.gst_debug_log_default
      | some f => f) = func.getD GstLogFunction.gst_debug_log_default := by
    cases func <;> rfl
  simp only [gst_debug_remove_log_function, hf, remove_with_compare_func_spec,
    gst_debug_compare_log_function_by_func]
  cases initialized
  · by_cases hd : func.getD GstLogFunction.gst_debug_log_default
        = GstLogFunction.gst_debug_log_default
    · simp [hd]
    · simp [hd]
  · simp

theorem message_eta (m : GstDebugMessage) (h : m.message = none) :
    { m with message := none } = m := by
  cases m
  simp only at h
  simp [h]

theorem log_function_run_stored
    (vasprintf : Option (List Char) → List Nat → Option (List Char)) (text : List Char) :
    ∀ (gets : Nat) (m : GstDebugMessage), m.message = some text →
      log_function_run vasprintf gets m = (m, List.replicate gets (some text), 0) := by
  intro gets
  induction gets with
  | zero => intro m _; rfl
  | succ n ih =>
    intro m h
    simp only [log_function_run, gst_debug_message_get, h]
    rw [ih m h]
    simp [List.replicate_succ]

theorem render_stored
    (vasprintf : Option (List Char) → List Nat → Option (List Char)) (text : List Char) :
    ∀ (gets : List Nat) (m : GstDebugMessage), m.message = some text →
      gst_debug_log_full_valist_render vasprintf gets m
        = (m, List.replicate gets.sum (some text), 0) := by
  intro gets
  induction gets with
  | nil => intro m _; rfl
  | cons g rest ih =>
    intro m h
    simp only [gst_debug_log_full_valist_render]
    rw [log_function_run_stored vasprintf text g m h, ih m h]
    simp only [List.sum_cons, List.replicate_add, Nat.add_zero]

theorem log_function_run_success
    (vasprintf : Option (List Char) → List Nat → Option (List Char)) (text : List Char)
    (gets : Nat) (m : GstDebugMessage) (h : m.message = none)
    (hv : vasprintf m.format m.arguments = some text) :
    log_function_run vasprintf (gets + 1) m
      = ({ m with message := some text }, List.replicate (gets + 1) (some text), 1) := by
  simp only [log_function_run, gst_debug_message_get, h, hv]
  rw [log_function_run_stored vasprintf text gets _ rfl]
  simp [List.replicate_succ]

theorem render_success
    (vasprintf : Option (List Char) → List Nat → Option (List Char)) (text : List Char) :
    ∀ (gets : List Nat) (m : GstDebugMessage), m.message = none →
      vasprintf m.format m.arguments = some text → 0 < gets.sum →
      gst_debug_log_full_valist_render vasprintf gets m
        = ({ m with message := some text }, List.replicate gets.sum (some text), 1) := by
  intro gets
  induction gets with
  | nil => intro m _ _ hpos; simp at hpos
  | cons g rest ih =>
    intro m h hv hpos
    cases g with
    | zero =>
      simp only [gst_debug_log_full_valist_render, log_function_run]
      rw [ih m h hv (by simpa using hpos)]
      simp
    | succ n =>
      simp only [gst_debug_log_full_valist_render]
      rw [log_function_run_success vasprintf text n m h hv,
        render_stored vasprintf text rest _ rfl]
      simp only [List.sum_cons, List.replicate_add, Nat.add_zero]

theorem log_function_run_failure
    (vasprintf : Option (List Char) → List Nat → Option (List Char)) :
    ∀ (gets : Nat) (m : GstDebugMessage), m.message = none →
      vasprintf m.format m.arguments = none →
      log_function_run vasprintf gets m = (m, List.replicate gets none, gets) := by
  intro gets
  induction gets with
  | zero => intro m _ _; rfl
  | succ n ih =>
    intro m h hv
    simp only [log_function_run, gst_debug_message_get, h, hv]
    rw [message_eta m h, ih m h hv]
    simp [List.replicate_succ]
    omega

theorem render_failure
    (vasprintf : Option (List Char) → List Nat → Option (List Char)) :
    ∀ (gets : List Nat) (m : GstDebugMessage), m.message = none →
      vasprintf m.format m.arguments = none →
      gst_debug_log_full_valist_render vasprintf gets m
        = (m, List.replicate gets.sum none, gets.sum) := by
  intro gets
  induction gets with
  | nil => intro m _ _; rfl
  | cons g rest ih =>
    intro m h hv
    simp only [gst_debug_log_full_valist_render]
    rw [log_function_run_failure vasprintf g m h hv, ih m h hv]
    simp only [List.sum_cons, List.replicate_add]

theorem render_no_get
    (vasprintf : Option (List Char) → List Nat → Option (List Char)) :
    ∀ (gets : List Nat) (m : GstDebugMessage), gets.sum = 0 →
      gst_debug_log_full_valist_render vasprintf gets m = (m, [], 0) := by
  intro gets
  induction gets with
  | nil => intro m _; rfl
  | cons g rest ih =>
    intro m h
    have hg : g = 0 := by simp at h; exact h.1
    have hr : rest.sum = 0 := by simp at h; exact h.2
    subst hg
    simp only [gst_debug_log_full_valist_render, log_function_run]
    rw [ih m hr]
    simp

theorem periodic_reset_cases (D : GstLogContextDecl) (ctx : GstLogContext)
    (now now_reset : Nat) :
    (ctx.interval = 0 ∧ _gst_log_ctx_check_periodic_reset D ctx now now_reset = (ctx, true)) ∨
    (ctx.interval ≠ 0 ∧ ctx.last_reset_time = D.GST_CLOCK_TIME_NONE ∧
      _gst_log_ctx_check_periodic_reset D ctx now now_reset
        = ({ ctx with last_reset_time := now }, true)) ∨
    (reset_due D ctx now = true ∧
      _gst_log_ctx_check_periodic_reset D ctx now now_reset
        = (_gst_log_context_reset_unlocked ctx now_reset, true)) ∨
    (ctx.interval ≠ 0 ∧ ctx.last_reset_time ≠ D.GST_CLOCK_TIME_NONE ∧
      GST_CLOCK_DIFF ctx.last_reset_time now < ctx.interval ∧
      _gst_log_ctx_check_periodic_reset D ctx now now_reset = (ctx, false)) := by
  unfold _gst_log_ctx_check_periodic_reset reset_due
  by_cases h0 : ctx.interval = 0
  · left
    simp [h0]
  · by_cases h1 : ctx.last_reset_time = D.GST_CLOCK_TIME_NONE
    · right; left
      simp [h0, h1]
    · by_cases h2 : GST_CLOCK_DIFF ctx.last_reset_time now ≥ ctx.interval
      · right; right; left
        simp [h0, h1, h2]
      · right; right; right
        simp [h0, h1, h2]
        omega

theorem periodic_reset_keeps (D : GstLogContextDecl) (ctx : GstLogContext)
    (now now_reset : Nat) :
    (_gst_log_ctx_check_periodic_reset D ctx now now_reset).1.hash_flags = ctx.hash_flags ∧
    (_gst_log_ctx_check_periodic_reset D ctx now now_reset).1.flags = ctx.flags ∧
    (_gst_log_ctx_check_periodic_reset D ctx now now_reset).1.interval = ctx.interval ∧
    (_gst_log_ctx_check_periodic_reset D ctx now now_reset).1.category = ctx.category := by
  rcases periodic_reset_cases D ctx now now_reset with h | h | h | h
  · rw [h.2]; exact ⟨rfl, rfl, rfl, rfl⟩
  · rw [h.2.2]; exact ⟨rfl, rfl, rfl, rfl⟩
  · rw [h.2]; exact ⟨rfl, rfl, rfl, rfl⟩
  · rw [h.2.2.2]; exact ⟨rfl, rfl, rfl, rfl⟩

theorem periodic_reset_not_due (D : GstLogContextDecl) (ctx : GstLogContext)
    (now now_reset : Nat) (h : reset_due D ctx now = false) :
    (_gst_log_ctx_check_periodic_reset D ctx now now_reset).1.logged_messages
      = ctx.logged_messages := by
  rcases periodic_reset_cases D ctx now now_reset with h1 | h1 | h1 | h1
  · rw [h1.2]
  · rw [h1.2.2]
  · rw [h1.1] at h; exact Bool.noConfusion h
  · rw [h1.2.2.2]

theorem check_id_keeps (D : GstLogContextDecl) (ctx : GstLogContext) (id : List Char) :
    (_gst_log_ctx_check_id D ctx id).1.hash_flags = ctx.hash_flags ∧
    (_gst_log_ctx_check_id D ctx id).1.flags = ctx.flags ∧
    (_gst_log_ctx_check_id D ctx id).1.interval = ctx.interval ∧
    (_gst_log_ctx_check_id D ctx id).1.category = ctx.category ∧
    (_gst_log_ctx_check_id D ctx id).1.last_reset_time = ctx.last_reset_time := by
  unfold _gst_log_ctx_check_id
  split
  · exact ⟨rfl, rfl, rfl, rfl, rfl⟩
  · split <;> exact ⟨rfl, rfl, rfl, rfl, rfl⟩

theorem check_id_throttled (D : GstLogContextDecl) (ctx : GstLogContext) (id : List Char)
    (ht : flag_test ctx.flags D.GST_LOG_CONTEXT_FLAG_THROTTLE = true) :
    (_gst_log_ctx_check_id D ctx id).2 = decide (id ∉ ctx.logged_messages) ∧
    id ∈ (_gst_log_ctx_check_id D ctx id).1.logged_messages ∧
    (∀ k, k ∈ ctx.logged_messages → k ∈ (_gst_log_ctx_check_id D ctx id).1.logged_messages) ∧
    (∀ k, k ∈ (_gst_log_ctx_check_id D ctx id).1.logged_messages →
      k ∈ ctx.logged_messages ∨ k = id) := by
  unfold _gst_log_ctx_check_id
  simp only [ht, Bool.not_true, Bool.false_eq_true, if_false]
  by_cases hm : id ∈ ctx.logged_messages
  · rw [if_pos hm]
    exact ⟨by simp [hm], hm, fun k hk => hk, fun k hk => Or.inl hk⟩
  · rw [if_neg hm]
    refine ⟨by simp [hm], List.mem_cons_self _ _, fun k hk => List.mem_cons_of_mem _ hk, ?_⟩
    intro k hk
    rcases List.mem_cons.mp hk with h | h
    · exact Or.inr h
    · exact Or.inl h

theorem check_id_unthrottled (D : GstLogContextDecl) (ctx : GstLogContext) (id : List Char)
    (ht : flag_test ctx.flags D.GST_LOG_CONTEXT_FLAG_THROTTLE = false) :
    _gst_log_ctx_check_id D ctx id = (ctx, true) := by
  unfold _gst_log_ctx_check_id
  simp [ht]

theorem key_of_hash_flags (D : GstLogContextDecl) (ctx1 ctx2 : GstLogContext)
    (h : ctx1.hash_flags = ctx2.hash_flags) (file : Option (List Char)) (line : Int)
    (object : Nat) (id : Option (List Char)) (message : Option (List Char)) :
    _gst_log_ctx_get_id_literal D ctx1 file line object id message
      = _gst_log_ctx_get_id_literal D ctx2 file line object id message := by
  unfold _gst_log_ctx_get_id_literal
  rw [h]

/-- A literal check in closed form: the periodic reset first, then, unless it
answered `FALSE`, the check of the key against the table. -/
theorem check_literal_unfold (D : GstLogContextDecl) (ctx : GstLogContext) (c : LogCheck) :
    c.run D ctx
      = (if (_gst_log_ctx_check_periodic_reset D ctx c.now c.now_reset).2 = false then
          ((_gst_log_ctx_check_periodic_reset D ctx c.now c.now_reset).1, false)
        else _gst_log_ctx_check_id D
          (_gst_log_ctx_check_periodic_reset D ctx c.now c.now_reset).1 (c.key D ctx)) := by
  unfold LogCheck.run _gst_log_ctx_check_id_literal LogCheck.key
  simp only
  rw [key_of_hash_flags D _ ctx (periodic_reset_keeps D ctx c.now c.now_reset).1]
  cases (_gst_log_ctx_check_periodic_reset D ctx c.now c.now_reset).2 <;> simp

theorem run_keeps (D : GstLogContextDecl) (ctx : GstLogContext) (c : LogCheck) :
    (c.run D ctx).1.hash_flags = ctx.hash_flags ∧ (c.run D ctx).1.flags = ctx.flags ∧
    (c.run D ctx).1.interval = ctx.interval ∧ (c.run D ctx).1.category = ctx.category := by
  obtain ⟨p1, p2, p3, p4⟩ := periodic_reset_keeps D ctx c.now c.now_reset
  rw [check_literal_unfold]
  split
  · exact ⟨p1, p2, p3, p4⟩
  · obtain ⟨q1, q2, q3, q4, _⟩ := check_id_keeps D
      (_gst_log_ctx_check_periodic_reset D ctx c.now c.now_reset).1 (c.key D ctx)
    exact ⟨q1.trans p1, q2.trans p2, q3.trans p3, q4.trans p4⟩

theorem run_true_inserts (D : GstLogContextDecl) (ctx : GstLogContext) (c : LogCheck)
    (ht : flag_test ctx.flags D.GST_LOG_CONTEXT_FLAG_THROTTLE = true)
    (hr : (c.run D ctx).2 = true) :
    c.key D ctx ∈ (c.run D ctx).1.logged_messages := by
  have p2 := (periodic_reset_keeps D ctx c.now c.now_reset).2.1
  rw [check_literal_unfold] at hr ⊢
  split at hr
  · exact Bool.noConfusion hr
  · rename_i hp
    simp only [hp, if_false]
    exact (check_id_throttled D _ (c.key D ctx) (by rw [p2]; exact ht)).2.1

theorem run_in_window (D : GstLogContextDecl) (ctx : GstLogContext) (c : LogCheck)
    (ht : flag_test ctx.flags D.GST_LOG_CONTEXT_FLAG_THROTTLE = true)
    (hw : reset_due D ctx c.now = false) :
    (∀ k, k ∈ ctx.logged_messages → k ∈ (c.run D ctx).1.logged_messages) ∧
    (c.key D ctx ∈ ctx.logged_messages → (c.run D ctx).2 = false) ∧
    (∀ k, k ∈ (c.run D ctx).1.logged_messages → k ∈ ctx.logged_messages ∨ k = c.key D ctx) := by
  have p2 := (periodic_reset_keeps D ctx c.now c.now_reset).2.1
  have pl := periodic_reset_not_due D ctx c.now c.now_reset hw
  rw [check_literal_unfold]
  split
  · rw [pl]
    exact ⟨fun k hk => hk, fun _ => rfl, fun k hk => Or.inl hk⟩
  · obtain ⟨q1, _, q3, q4⟩ := check_id_throttled D
      (_gst_log_ctx_check_periodic_reset D ctx c.now c.now_reset).1 (c.key D ctx)
      (by rw [p2]; exact ht)
    rw [pl] at q1 q3 q4
    refine ⟨q3, fun hk => ?_, q4⟩
    rw [q1]
    simp [hk]

theorem key_same_but_line (D : GstLogContextDecl) (ctx : GstLogContext) (c m : LogCheck)
    (hl : flag_test ctx.hash_flags D.GST_LOG_CONTEXT_USE_LINE_NUMBER = false)
    (hs : c.same_but_line m = true) : c.key D ctx = m.key D ctx := by
  unfold LogCheck.same_but_line at hs
  obtain ⟨h1, h2, h3, h4⟩ := of_decide_eq_true hs
  unfold LogCheck.key _gst_log_ctx_get_id_literal
  rw [h1, h2, h3, h4, hl]
  simp
theorem clock_diff_eq (s e : Nat) (hse : s ≤ e) (he : e < 2 ^ 64) :
    GST_CLOCK_DIFF s e = e - s := by
  unfold GST_CLOCK_DIFF
  have hs : s % 2 ^ 64 = s := Nat.mod_eq_of_lt (lt_of_le_of_lt hse he)
  rw [hs]
  have h1 : e + (2 ^ 64 - s) = (e - s) + 2 ^ 64 := by omega
  rw [h1, Nat.add_mod_right]
  exact Nat.mod_eq_of_lt (by omega)

theorem fresh_periodic_reset (D : GstLogContextDecl) (ctx : GstLogContext)
    (now now_reset : Nat) (hl : ctx.logged_messages = [])
    (hr : ctx.last_reset_time = D.GST_CLOCK_TIME_NONE) :
    (_gst_log_ctx_check_periodic_reset D ctx now now_reset).2 = true ∧
    (_gst_log_ctx_check_periodic_reset D ctx now now_reset).1.logged_messages = [] := by
  rcases periodic_reset_cases D ctx now now_reset with h | h | h | h
  · rw [h.2]; exact ⟨rfl, hl⟩
  · rw [h.2.2]; exact ⟨rfl, hl⟩
  · rw [h.2]; exact ⟨rfl, rfl⟩
  · exact absurd hr h.2.1

theorem check_id_empty (D : GstLogContextDecl) (ctx : GstLogContext) (id : List Char)
    (hl : ctx.logged_messages = []) : (_gst_log_ctx_check_id D ctx id).2 = true := by
  unfold _gst_log_ctx_check_id
  split
  · rfl
  · rw [hl]
    simp

/-- A formatted check whose assertion holds is the literal check of the text
`_gst_log_ctx_get_id_valist` hands on: the rendered text when
`GST_LOG_CONTEXT_USE_STRING_ARGS` is set and the rendering gives one, the
format otherwise. -/
theorem check_valist_eq_literal (D : GstLogContextDecl) (ctx : GstLogContext)
    (now now_reset : Nat) (file : Option (List Char)) (line : Int) (object : Nat)
    (object_id : Option (List Char)) (format : Option (List Char)) (args : List Nat)
    (h : (flag_test ctx.hash_flags D.GST_LOG_CONTEXT_USE_STRING_ARGS &&
      flag_test ctx.hash_flags D.GST_LOG_CONTEXT_IGNORE_FORMAT) = false) :
    _gst_log_ctx_check_id_valist D ctx now now_reset file line object object_id format args
      = some (_gst_log_ctx_check_id_literal D ctx now now_reset file line object object_id
          (if flag_test ctx.hash_flags D.GST_LOG_CONTEXT_USE_STRING_ARGS then
            (match D.g_strdup_vprintf format args with
              | some full_message => some full_message
              | none => format)
          else format)) := by
  have p1 := (periodic_reset_keeps D ctx now now_reset).1
  unfold _gst_log_ctx_check_id_valist _gst_log_ctx_check_id_literal _gst_log_ctx_get_id_valist
  simp only [p1]
  cases (_gst_log_ctx_check_periodic_reset D ctx now now_reset).2
  · simp
  · cases hu : flag_test ctx.hash_flags D.GST_LOG_CONTEXT_USE_STRING_ARGS
    · simp
    · rw [hu] at h
      simp only [Bool.true_and] at h
      simp only [h, Bool.not_true, Bool.false_eq_true, if_false, if_true]
      cases D.g_strdup_vprintf format args <;> rfl

theorem check_valist_asserts (D : GstLogContextDecl) (ctx : GstLogContext)
    (now now_reset : Nat) (file : Option (List Char)) (line : Int) (object : Nat)
    (object_id : Option (List Char)) (format : Option (List Char)) (args : List Nat)
    (h : (flag_test ctx.hash_flags D.GST_LOG_CONTEXT_USE_STRING_ARGS &&
      flag_test ctx.hash_flags D.GST_LOG_CONTEXT_IGNORE_FORMAT) = true)
    (hp : (_gst_log_ctx_check_periodic_reset D ctx now now_reset).2 = true) :
    _gst_log_ctx_check_id_valist D ctx now now_reset file line object object_id format args
      = none := by
  have p1 := (periodic_reset_keeps D ctx now now_reset).1
  simp only [Bool.and_eq_true] at h
  unfold _gst_log_ctx_check_id_valist _gst_log_ctx_get_id_valist
  simp only [p1, hp, h.1, h.2, Bool.not_true, Bool.false_eq_true, if_false, if_true]

theorem first_literal_check (D : GstLogContextDecl) (ctx : GstLogContext)
    (now now_reset : Nat) (file : Option (List Char)) (line : Int) (object : Nat)
    (id : Option (List Char)) (message : Option (List Char))
    (hl : ctx.logged_messages = []) (hr : ctx.last_reset_time = D.GST_CLOCK_TIME_NONE) :
    (_gst_log_ctx_check_id_literal D ctx now now_reset file line object id message).2
      = true := by
  obtain ⟨f1, f2⟩ := fresh_periodic_reset D ctx now now_reset hl hr
  unfold _gst_log_ctx_check_id_literal
  simp only [f1, Bool.not_true, Bool.false_eq_true, if_false]
  exact check_id_empty D _ _ f2

theorem run_checks_append (D : GstLogContextDecl) :
    ∀ (a b : List LogCheck) (ctx : GstLogContext),
      run_checks D ctx (a ++ b)
        = ((run_checks D (run_checks D ctx a).1 b).1,
            (run_checks D ctx a).2 ++ (run_checks D (run_checks D ctx a).1 b).2) := by
  intro a
  induction a with
  | nil => intro b ctx; rfl
  | cons c cs ih =>
    intro b ctx
    have e := ih b (c.run D ctx).1
    show ((run_checks D (c.run D ctx).1 (cs ++ b)).1,
        (c.run D ctx).2 :: (run_checks D (c.run D ctx).1 (cs ++ b)).2) = _
    rw [e]
    rfl

theorem run_checks_keeps (D : GstLogContextDecl) :
    ∀ (checks : List LogCheck) (ctx : GstLogContext),
      (run_checks D ctx checks).1.hash_flags = ctx.hash_flags ∧
      (run_checks D ctx checks).1.flags = ctx.flags ∧
      (run_checks D ctx checks).1.interval = ctx.interval ∧
      (run_checks D ctx checks).1.category = ctx.category := by
  intro checks
  induction checks with
  | nil => intro ctx; exact ⟨rfl, rfl, rfl, rfl⟩
  | cons c cs ih =>
    intro ctx
    obtain ⟨a1, a2, a3, a4⟩ := run_keeps D ctx c
    obtain ⟨b1, b2, b3, b4⟩ := ih (c.run D ctx).1
    simp only [run_checks]
    exact ⟨b1.trans a1, b2.trans a2, b3.trans a3, b4.trans a4⟩

theorem in_window_of_interval_zero (D : GstLogContextDecl) :
    ∀ (checks : List LogCheck) (ctx : GstLogContext), ctx.interval = 0 →
      in_reset_window D ctx checks := by
  intro checks
  induction checks with
  | nil => intro ctx _; trivial
  | cons c cs ih =>
    intro ctx h0
    refine ⟨?_, ih _ ((run_keeps D ctx c).2.2.1.trans h0)⟩
    unfold reset_due
    simp [h0]

/-- Within a reset window, once the key of `m` is in the table no check that
agrees with `m` apart from the line number returns `TRUE`, and the key stays
in the table. -/
theorem window_after_insert (D : GstLogContextDecl) (m : LogCheck) :
    ∀ (checks : List LogCheck) (ctx : GstLogContext),
      flag_test ctx.flags D.GST_LOG_CONTEXT_FLAG_THROTTLE = true →
      flag_test ctx.hash_flags D.GST_LOG_CONTEXT_USE_LINE_NUMBER = false →
      in_reset_window D ctx checks → m.key D ctx ∈ ctx.logged_messages →
      accepted_like m (run_checks D ctx checks).2 checks = 0 ∧
      m.key D ctx ∈ (run_checks D ctx checks).1.logged_messages := by
  intro checks
  induction checks with
  | nil => intro ctx _ _ _ hk; exact ⟨rfl, hk⟩
  | cons c cs ih =>
    intro ctx ht hl hw hk
    obtain ⟨hw1, hw2⟩ := hw
    obtain ⟨r1, r2, _⟩ := run_in_window D ctx c ht hw1
    obtain ⟨k1, k2, _, _⟩ := run_keeps D ctx c
    have hkey : m.key D (c.run D ctx).1 = m.key D ctx :=
      key_of_hash_flags D _ _ k1 _ _ _ _ _
    obtain ⟨i1, i2⟩ := ih (c.run D ctx).1 (by rw [k2]; exact ht) (by rw [k1]; exact hl)
      hw2 (by rw [hkey]; exact r1 _ hk)
    rw [hkey] at i2
    have hhead : c.same_but_line m = true → (c.run D ctx).2 = false := by
      intro hs
      apply r2
      rw [key_same_but_line D ctx c m hl hs]
      exact hk
    refine ⟨?_, i2⟩
    simp only [run_checks, accepted_like]
    rw [i1]
    cases hs : c.same_but_line m
    · simp
    · simp [hhead hs]

theorem window_at_most_one (D : GstLogContextDecl) (m : LogCheck) :
    ∀ (checks : List LogCheck) (ctx : GstLogContext),
      flag_test ctx.flags D.GST_LOG_CONTEXT_FLAG_THROTTLE = true →
      flag_test ctx.hash_flags D.GST_LOG_CONTEXT_USE_LINE_NUMBER = false →
      in_reset_window D ctx checks →
      accepted_like m (run_checks D ctx checks).2 checks ≤ 1 := by
  intro checks
  induction checks with
  | nil => intro ctx _ _ _; exact Nat.zero_le _
  | cons c cs ih =>
    intro ctx ht hl hw
    obtain ⟨_, hw2⟩ := hw
    obtain ⟨k1, k2, _, _⟩ := run_keeps D ctx c
    have hkey : m.key D (c.run D ctx).1 = m.key D ctx :=
      key_of_hash_flags D _ _ k1 _ _ _ _ _
    simp only [run_checks, accepted_like]
    by_cases hacc : ((c.run D ctx).2 && c.same_but_line m) = true
    · simp only [Bool.and_eq_true] at hacc
      have hin := run_true_inserts D ctx c ht hacc.1
      rw [key_same_but_line D ctx c m hl hacc.2, ← hkey] at hin
      have h0 := (window_after_insert D m cs (c.run D ctx).1 (by rw [k2]; exact ht)
        (by rw [k1]; exact hl) hw2 hin).1
      rw [h0]
      simp [hacc.1, hacc.2]
    · have := ih (c.run D ctx).1 (by rw [k2]; exact ht) (by rw [k1]; exact hl) hw2
      simp only [hacc, Bool.false_eq_true, if_false]
      omega

theorem run_interval_zero (D : GstLogContextDecl) (ctx : GstLogContext) (c : LogCheck)
    (ht : flag_test ctx.flags D.GST_LOG_CONTEXT_FLAG_THROTTLE = true)
    (h0 : ctx.interval = 0) :
    (c.run D ctx).2 = decide (c.key D ctx ∉ ctx.logged_messages) ∧
    c.key D ctx ∈ (c.run D ctx).1.logged_messages ∧
    (c.run D ctx).1.last_reset_time = ctx.last_reset_time := by
  have hp : _gst_log_ctx_check_periodic_reset D ctx c.now c.now_reset = (ctx, true) := by
    unfold _gst_log_ctx_check_periodic_reset
    simp [h0]
  rw [check_literal_unfold, hp]
  simp only [Bool.true_eq_false, if_false]
  exact ⟨(check_id_throttled D ctx _ ht).1, (check_id_throttled D ctx _ ht).2.1,
    (check_id_keeps D ctx _).2.2.2.2⟩

theorem window_other_keys (D : GstLogContextDecl) (k : List Char) :
    ∀ (checks : List LogCheck) (ctx : GstLogContext),
      flag_test ctx.flags D.GST_LOG_CONTEXT_FLAG_THROTTLE = true →
      in_reset_window D ctx checks → (∀ c ∈ checks, c.key D ctx ≠ k) →
      k ∉ ctx.logged_messages → k ∉ (run_checks D ctx checks).1.logged_messages := by
  intro checks
  induction checks with
  | nil => intro ctx _ _ _ hk; exact hk
  | cons c cs ih =>
    intro ctx ht hw hne hk
    obtain ⟨hw1, hw2⟩ := hw
    obtain ⟨_, _, r3⟩ := run_in_window D ctx c ht hw1
    obtain ⟨k1, k2, _, _⟩ := run_keeps D ctx c
    simp only [run_checks]
    apply ih (c.run D ctx).1 (by rw [k2]; exact ht) hw2
    · intro c2 hc2
      have : c2.key D (c.run D ctx).1 = c2.key D ctx :=
        key_of_hash_flags D _ _ k1 _ _ _ _ _
      rw [this]
      exact hne c2 (List.mem_cons_of_mem _ hc2)
    · intro hin
      rcases r3 k hin with h | h
      · exact hk h
      · exact hne c (List.mem_cons_self _ _) h.symm

theorem rejected_in_window (D : GstLogContextDecl) (ctx : GstLogContext) (x : LogCheck)
    (hI : ctx.interval ≠ 0) (hv : ctx.last_reset_time ≠ D.GST_CLOCK_TIME_NONE)
    (hle : ctx.last_reset_time ≤ x.now) (hx : x.now < 2 ^ 64)
    (hlt : x.now - ctx.last_reset_time < ctx.interval) :
    x.run D ctx = (ctx, false) := by
  have hd := clock_diff_eq ctx.last_reset_time x.now hle hx
  rw [check_literal_unfold]
  rcases periodic_reset_cases D ctx x.now x.now_reset with h | h | h | h
  · exact absurd h.1 hI
  · exact absurd h.2.1 hv
  · have h1 := of_decide_eq_true h.1
    rw [hd] at h1
    omega
  · rw [h.2.2.2]
    rfl

theorem rejected_in_window_all (D : GstLogContextDecl) (ctx : GstLogContext)
    (hI : ctx.interval ≠ 0) (hv : ctx.last_reset_time ≠ D.GST_CLOCK_TIME_NONE) :
    ∀ later : List LogCheck,
      (∀ x ∈ later, ctx.last_reset_time ≤ x.now ∧ x.now < 2 ^ 64 ∧
        x.now - ctx.last_reset_time < ctx.interval) →
      run_checks D ctx later = (ctx, List.replicate later.length false) := by
  intro later
  induction later with
  | nil => intro _; rfl
  | cons x xs ih =>
    intro h
    obtain ⟨h1, h2, h3⟩ := h x (List.mem_cons_self _ _)
    simp only [run_checks]
    rw [rejected_in_window D ctx x hI hv h1 h2 h3]
    simp only
    rw [ih (fun y hy => h y (List.mem_cons_of_mem _ hy))]
    rfl

/-- The table after `_gst_log_ctx_check_id`: as before, or with the new key in
front. -/
theorem check_id_set (D : GstLogContextDecl) (ctx : GstLogContext) (key : List Char) :
    (_gst_log_ctx_check_id D ctx key).1.logged_messages = ctx.logged_messages ∨
    (key ∉ ctx.logged_messages ∧
      (_gst_log_ctx_check_id D ctx key).1.logged_messages = key :: ctx.logged_messages) := by
  unfold _gst_log_ctx_check_id
  by_cases ht : flag_test ctx.flags D.GST_LOG_CONTEXT_FLAG_THROTTLE = true
  · by_cases hm : key ∈ ctx.logged_messages
    · left; simp [ht, hm]
    · right; simp [ht, hm]
  · left; simp [ht]

/-- The table after `_gst_log_ctx_check_periodic_reset`: as before, or empty. -/
theorem periodic_reset_set (D : GstLogContextDecl) (ctx : GstLogContext)
    (now now_reset : Nat) :
    (_gst_log_ctx_check_periodic_reset D ctx now now_reset).1.logged_messages
      = ctx.logged_messages ∨
    (_gst_log_ctx_check_periodic_reset D ctx now now_reset).1.logged_messages = [] := by
  rcases periodic_reset_cases D ctx now now_reset with h | h | h | h
  · left; rw [h.2]
  · left; rw [h.2.2]
  · right; rw [h.2]; rfl
  · left; rw [h.2.2.2]

/-- The table after a literal check: the periodic reset leaves it or empties
it, and the check of the key then adds at most the key. -/
theorem check_literal_set (D : GstLogContextDecl) (ctx : GstLogContext) (c : LogCheck) :
    (c.run D ctx).1.logged_messages = ctx.logged_messages ∨
    (c.key D ctx ∉ ctx.logged_messages ∧
      (c.run D ctx).1.logged_messages = c.key D ctx :: ctx.logged_messages) ∨
    (c.run D ctx).1.logged_messages = [] ∨
    (c.run D ctx).1.logged_messages = [c.key D ctx] := by
  rw [check_literal_unfold]
  by_cases hp : (_gst_log_ctx_check_periodic_reset D ctx c.now c.now_reset).2 = false
  · rw [if_pos hp]
    rcases periodic_reset_set D ctx c.now c.now_reset with h | h
    · left; exact h
    · right; right; left; exact h
  · rw [if_neg hp]
    rcases check_id_set D (_gst_log_ctx_check_periodic_reset D ctx c.now c.now_reset).1
      (c.key D ctx) with h | h <;>
    rcases periodic_reset_set D ctx c.now c.now_reset with g | g
    · left; rw [h, g]
    · right; right; left; rw [h, g]
    · right; left
      rw [g] at h
      exact h
    · right; right; right
      rw [h.2, g]

/-- The table after a formatted check that returns: as after a literal check,
for some key. -/
theorem check_valist_set (D : GstLogContextDecl) (ctx : GstLogContext)
    (now now_reset : Nat) (file : Option (List Char)) (line : Int) (object : Nat)
    (object_id : Option (List Char)) (format : Option (List Char)) (args : List Nat)
    (r : GstLogContext × Bool)
    (hr : _gst_log_ctx_check_id_valist D ctx now now_reset file line object object_id
      format args = some r) :
    r.1.logged_messages = ctx.logged_messages ∨
    (∃ key, key ∉ ctx.logged_messages ∧ r.1.logged_messages = key :: ctx.logged_messages) ∨
    r.1.logged_messages = [] ∨
    (∃ key, r.1.logged_messages = [key]) := by
  by_cases h : (flag_test ctx.hash_flags D.GST_LOG_CONTEXT_USE_STRING_ARGS &&
      flag_test ctx.hash_flags D.GST_LOG_CONTEXT_IGNORE_FORMAT) = false
  · rw [check_valist_eq_literal D ctx now now_reset file line object object_id format args h]
      at hr
    simp only [Option.some.injEq] at hr
    rw [← hr]
    rcases check_literal_set D ctx
      { now := now, now_reset := now_reset, file := file, line := line, object := object,
        id := object_id,
        message := (if flag_test ctx.hash_flags D.GST_LOG_CONTEXT_USE_STRING_ARGS then
            (match D.g_strdup_vprintf format args with
              | some full_message => some full_message
              | none => format)
          else format) } with g | g | g | g
    · left; exact g
    · right; left; exact ⟨_, g⟩
    · right; right; left; exact g
    · right; right; right; exact ⟨_, g⟩
  · simp only [Bool.not_eq_false] at h
    by_cases hp : (_gst_log_ctx_check_periodic_reset D ctx now now_reset).2 = true
    · rw [check_valist_asserts D ctx now now_reset file line object object_id format args h hp]
        at hr
      exact Option.noConfusion hr
    · simp only [Bool.not_eq_true] at hp
      unfold _gst_log_ctx_check_id_valist at hr
      simp only [hp, Bool.not_false, if_true, Option.some.injEq] at hr
      rw [← hr]
      rcases periodic_reset_set D ctx now now_reset with g | g
      · left; exact g
      · right; right; left; exact g

/-- The timeout loop keeps part of the queue and keeps the index in step with
it. -/
theorem timeout_keeps_index (U t : Nat) (now : Int) :
    ∀ (r : List GstRingBufferLog) (idx : List Nat),
      (r.map (fun log => log.thread)).Nodup → idx.Nodup →
      (∀ x, x ∈ idx ↔ x ∈ r.map (fun log => log.thread)) →
      (gst_ring_buffer_logger_log_timeout U t now r idx).1.Sublist r ∧
      (gst_ring_buffer_logger_log_timeout U t now r idx).2.Nodup ∧
      (∀ x, x ∈ (gst_ring_buffer_logger_log_timeout U t now r idx).2 ↔
        x ∈ (gst_ring_buffer_logger_log_timeout U t now r idx).1.map (fun log => log.thread)) := by
  intro r
  induction r with
  | nil =>
    intro idx _ h2 h3
    exact ⟨List.Sublist.refl _, h2, h3⟩
  | cons log rest ih =>
    intro idx h1 h2 h3
    unfold gst_ring_buffer_logger_log_timeout
    by_cases hc : log.last_use + ((t * U % 2 ^ 32 : Nat) : Int) ≥ now
    · rw [if_pos hc]
      exact ⟨List.Sublist.refl _, h2, h3⟩
    · rw [if_neg hc]
      rw [List.map_cons, List.nodup_cons] at h1
      have h3' : ∀ x, x ∈ idx.erase log.thread ↔ x ∈ rest.map (fun log => log.thread) := by
        intro x
        rw [h2.mem_erase_iff, h3 x, List.map_cons, List.mem_cons]
        constructor
        · rintro ⟨hne, h | h⟩
          · exact absurd h hne
          · exact h
        · intro h
          refine ⟨?_, Or.inr h⟩
          intro he
          rw [he] at h
          exact h1.1 h
      obtain ⟨a, b, c⟩ := ih (idx.erase log.thread) h1.2 (h2.erase _) h3'
      exact ⟨List.Sublist.cons _ a, b, c⟩

/-- The record `find?` gives splits the queue, and `eraseP` takes just that
record out. -/
theorem find_splits (thread : Nat) :
    ∀ (l : List GstRingBufferLog) (log : GstRingBufferLog),
      l.find? (fun x => decide (x.thread = thread)) = some log →
      log.thread = thread ∧ ∃ l1 l2, l = l1 ++ log :: l2 ∧
        l.eraseP (fun x => decide (x.thread = thread)) = l1 ++ l2 := by
  intro l
  induction l with
  | nil => intro log h; simp at h
  | cons x rest ih =>
    intro log h
    by_cases hx : x.thread = thread
    · simp only [List.find?_cons, hx, decide_True, Option.some.injEq] at h
      subst h
      refine ⟨hx, [], rest, rfl, ?_⟩
      simp [List.eraseP_cons, hx]
    · simp only [List.find?_cons, hx, decide_False] at h
      obtain ⟨h1, l1, l2, h2, h3⟩ := ih log h
      refine ⟨h1, x :: l1, l2, by rw [h2]; rfl, ?_⟩
      simp [List.eraseP_cons, hx, h3]

/-- The eviction loop, on a queue of lines whose size is recorded rightly and
within the budget: it returns, with a part of the queue from some line on to
the newest, the size recorded rightly, and room for the new line. -/
theorem evict_spec (max n : Nat) (hmax : max < 2 ^ 32) (hn : n < max) :
    ∀ (q : List (List Char)) (size : Nat), size = q.flatten.length → size ≤ max →
      ∃ q1 q2, q = q1 ++ q2 ∧
        gst_ring_buffer_logger_log_evict max n q size = some (q2, q2.flatten.length) ∧
        q2.flatten.length + n ≤ max ∧
        (∀ buf ∈ q1.getLast?, buf.length + q2.flatten.length + n > max) := by
  intro q
  induction q with
  | nil =>
    intro size hs _
    refine ⟨[], [], rfl, ?_, ?_, ?_⟩
    · simp only [List.flatten_nil, List.length_nil] at hs
      subst hs
      unfold gst_ring_buffer_logger_log_evict
      have : ¬ ((0 + n) % 2 ^ 64 > max) := by omega
      rw [if_neg this]
      rfl
    · simp; omega
    · simp
  | cons buf rest ih =>
    intro size hs hle
    simp only [List.flatten_cons, List.length_append] at hs
    unfold gst_ring_buffer_logger_log_evict
    by_cases hc : (size + n) % 2 ^ 64 > max
    · rw [if_pos hc]
      have e : (size + 2 ^ 64 - buf.length % 2 ^ 64) % 2 ^ 64 = rest.flatten.length := by omega
      rw [e]
      obtain ⟨q1, q2, h1, h2, h3, h4⟩ := ih rest.flatten.length rfl (by omega)
      refine ⟨buf :: q1, q2, by rw [h1]; rfl, h2, h3, ?_⟩
      cases q1 with
      | nil =>
        simp only [List.nil_append] at h1
        subst h1
        intro b hb
        simp only [List.getLast?_singleton, Option.mem_def, Option.some.injEq] at hb
        subst hb
        omega
      | cons y ys =>
        intro b hb
        rw [List.getLast?_cons_cons] at hb
        exact h4 b hb
    · rw [if_neg hc]
      refine ⟨[], buf :: rest, rfl, ?_, ?_, ?_⟩
      · simp only [List.flatten_cons, List.length_append]
        rw [hs]
      · simp only [List.flatten_cons, List.length_append]
        omega
      · simp

/-- The queue and index after the timed-out threads were dropped: a part of
the queue, and an index in step with it. -/
theorem drop_spec (U : Nat) (logger : GstRingBufferLogger) (now : Int)
    (hi : ring_index_ok logger) :
    (gst_ring_buffer_logger_log_drop U logger now).1.Sublist logger.threads ∧
    ((gst_ring_buffer_logger_log_drop U logger now).1.map (fun log => log.thread)).Nodup ∧
    (gst_ring_buffer_logger_log_drop U logger now).2.Nodup ∧
    (∀ x, x ∈ (gst_ring_buffer_logger_log_drop U logger now).2 ↔
      x ∈ (gst_ring_buffer_logger_log_drop U logger now).1.map (fun log => log.thread)) := by
  obtain ⟨h1, h2, h3⟩ := hi
  unfold gst_ring_buffer_logger_log_drop
  by_cases ht : logger.thread_timeout > 0
  · rw [if_pos ht]
    have hr1 : (logger.threads.reverse.map (fun log => log.thread)).Nodup := by
      rw [List.map_reverse]
      exact List.nodup_reverse.mpr h1
    have hr3 : ∀ x, x ∈ logger.thread_index ↔
        x ∈ logger.threads.reverse.map (fun log => log.thread) := by
      intro x
      rw [List.map_reverse, List.mem_reverse]
      exact h3 x
    obtain ⟨a, b, c⟩ := timeout_keeps_index U logger.thread_timeout now
      logger.threads.reverse logger.thread_index hr1 h2 hr3
    have hsub : (gst_ring_buffer_logger_log_timeout U logger.thread_timeout now
        logger.threads.reverse logger.thread_index).1.reverse.Sublist logger.threads := by
      have := a.reverse
      rwa [List.reverse_reverse] at this
    refine ⟨hsub, hsub.map _ |>.nodup h1, b, ?_⟩
    intro x
    show x ∈ _ ↔ x ∈ List.map _ (List.reverse _)
    rw [List.map_reverse, List.mem_reverse]
    exact c x
  · rw [if_neg ht]
    exact ⟨List.Sublist.refl _, h1, h2, h3⟩

/-- The record put at the head of the queue and what stays behind it. -/
theorem find_spec (threads : List GstRingBufferLog) (idx : List Nat) (thread : Nat)
    (now : Int) (h1 : (threads.map (fun log => log.thread)).Nodup) (h2 : idx.Nodup)
    (h3 : ∀ x, x ∈ idx ↔ x ∈ threads.map (fun log => log.thread)) :
    (gst_ring_buffer_logger_log_find threads idx thread now).1.thread = thread ∧
    (gst_ring_buffer_logger_log_find threads idx thread now).1.last_use = now ∧
    (gst_ring_buffer_logger_log_find threads idx thread now).2.1.Sublist threads ∧
    thread ∉ (gst_ring_buffer_logger_log_find threads idx thread now).2.1.map
      (fun log => log.thread) ∧
    (gst_ring_buffer_logger_log_find threads idx thread now).2.2.Nodup ∧
    (∀ x, x ∈ (gst_ring_buffer_logger_log_find threads idx thread now).2.2 ↔
      x = thread ∨ x ∈ (gst_ring_buffer_logger_log_find threads idx thread now).2.1.map
        (fun log => log.thread)) ∧
    (((gst_ring_buffer_logger_log_find threads idx thread now).1.log = [] ∧
        (gst_ring_buffer_logger_log_find threads idx thread now).1.log_size = 0) ∨
      ∃ log ∈ threads, log.thread = thread ∧
        (gst_ring_buffer_logger_log_find threads idx thread now).1.log = log.log ∧
        (gst_ring_buffer_logger_log_find threads idx thread now).1.log_size = log.log_size) := by
  unfold gst_ring_buffer_logger_log_find
  cases hl : thread_index_lookup threads idx thread with
  | none =>
    have hnot : thread ∉ idx := by
      intro hin
      unfold thread_index_lookup at hl
      rw [if_pos hin] at hl
      have hmem := (h3 thread).mp hin
      rw [List.mem_map] at hmem
      obtain ⟨log, hlog, hth⟩ := hmem
      have := List.find?_eq_none.mp hl log hlog
      simp [hth] at this
    simp only [if_neg hnot]
    refine ⟨by trivial, by trivial, List.Sublist.refl _, fun h => hnot ((h3 thread).mpr h),
      List.nodup_cons.mpr ⟨hnot, h2⟩, ?_, by simp⟩
    intro x
    rw [List.mem_cons, h3 x]
  | some log =>
    have hf : threads.find? (fun x => decide (x.thread = thread)) = some log := by
      unfold thread_index_lookup at hl
      by_cases hin : thread ∈ idx
      · rw [if_pos hin] at hl; exact hl
      · rw [if_neg hin] at hl; exact Option.noConfusion hl
    obtain ⟨hth, l1, l2, e1, e2⟩ := find_splits thread threads log hf
    simp only
    rw [e2]
    have hnd := h1
    rw [e1, List.map_append, List.map_cons] at hnd
    have hnot : thread ∉ (l1 ++ l2).map (fun log => log.thread) := by
      rw [List.map_append, List.mem_append]
      have hp := List.nodup_middle.mp hnd
      rw [List.nodup_cons, hth] at hp
      intro h
      exact hp.1 (List.mem_append.mpr h)
    refine ⟨hth, by trivial, ?_, hnot, h2, ?_,
      Or.inr ⟨log, ?_, hth, by trivial, by trivial⟩⟩
    · rw [e1]
      exact List.Sublist.append (List.Sublist.refl _) (List.sublist_cons_self _ _)
    · intro x
      rw [h3 x, e1]
      simp only [List.map_append, List.map_cons, List.mem_append, List.mem_cons, hth]
      tauto
    · rw [e1]
      exact List.mem_append_right _ (List.mem_cons_self _ _)

/-- The record of the thread after the line was handled. -/
theorem append_spec (max : Nat) (log : GstRingBufferLog) (output : List Char)
    (hmax : max < 2 ^ 32) (h1 : log.log_size = log.log.flatten.length)
    (h2 : log.log_size ≤ max) :
    ∃ lines, gst_ring_buffer_logger_log_append max log output
        = some { log with log := lines, log_size := lines.flatten.length } ∧
      lines.flatten.length ≤ max ∧
      (output.length < max →
        ∃ q1 q2, log.log = q1 ++ q2 ∧ lines = q2 ++ [output] ∧
          ∀ buf ∈ q1.getLast?, buf.length + q2.flatten.length + output.length > max) ∧
      (¬ output.length < max → lines = []) := by
  unfold gst_ring_buffer_logger_log_append
  by_cases hn : output.length < max
  · obtain ⟨q1, q2, e1, e2, e3, e4⟩ := evict_spec max output.length hmax hn log.log
      log.log_size h1 h2
    refine ⟨q2 ++ [output], ?_, ?_, fun _ => ⟨q1, q2, e1, rfl, e4⟩, fun h => absurd hn h⟩
    · simp only [hn, if_true, e2]
      have : (q2.flatten.length + output.length) % 2 ^ 64
          = (q2 ++ [output]).flatten.length := by
        simp only [List.flatten_append, List.flatten_cons, List.flatten_nil, List.append_nil,
          List.length_append]
        omega
      rw [this]
    · simp only [List.flatten_append, List.flatten_cons, List.flatten_nil, List.append_nil,
        List.length_append]
      exact e3
  · refine ⟨[], ?_, by simp, fun h => absurd h hn, fun _ => rfl⟩
    simp only [hn, if_false]
    rfl

/-- The shape of the logger after one call of the storing part of
`gst_ring_buffer_logger_log`, on a logger whose sizes and index are in order:
the call returns; the record of the calling thread is at the head of the queue
with the time of the call; the records behind it are records of the queue
before the call, none of them of the calling thread; the index lists the
threads of the queue; and the lines of the calling thread are, for a line
shorter than the budget, the longest run of newest lines that fits together
with the new line, followed by the new line, and none otherwise. -/
theorem store_shape (U : Nat) (logger : GstRingBufferLogger) (thread : Nat) (now : Int)
    (output : List Char) (hmax : logger.max_size_per_thread < 2 ^ 32)
    (hs : ring_sizes_ok logger) (hi : ring_index_ok logger) :
    ∃ (old lines : List (List Char)) (rest : List GstRingBufferLog) (idx : List Nat),
      gst_ring_buffer_logger_log_store U logger thread now output
        = some { logger with
            threads := ({ last_use := now, thread := thread, log := lines,
                          log_size := lines.flatten.length } :: rest)
            thread_index := idx } ∧
      rest.Sublist logger.threads ∧ thread ∉ rest.map (fun log => log.thread) ∧
      idx.Nodup ∧ (∀ x, x ∈ idx ↔ x = thread ∨ x ∈ rest.map (fun log => log.thread)) ∧
      lines.flatten.length ≤ logger.max_size_per_thread ∧
      (old = [] ∨ ∃ log ∈ logger.threads, log.thread = thread ∧ old = log.log) ∧
      (output.length < logger.max_size_per_thread →
        ∃ q1 q2, old = q1 ++ q2 ∧ lines = q2 ++ [output] ∧
          ∀ buf ∈ q1.getLast?,
            buf.length + q2.flatten.length + output.length > logger.max_size_per_thread) ∧
      (¬ output.length < logger.max_size_per_thread → lines = []) := by
  obtain ⟨d1, d2, d3, d4⟩ := drop_spec U logger now hi
  obtain ⟨f1, f2, f3, f4, f5, f6, f7⟩ := find_spec
    (gst_ring_buffer_logger_log_drop U logger now).1
    (gst_ring_buffer_logger_log_drop U logger now).2 thread now d2 d3 d4
  have hsz : (gst_ring_buffer_logger_log_find (gst_ring_buffer_logger_log_drop U logger now).1
        (gst_ring_buffer_logger_log_drop U logger now).2 thread now).1.log_size
      = (gst_ring_buffer_logger_log_find (gst_ring_buffer_logger_log_drop U logger now).1
        (gst_ring_buffer_logger_log_drop U logger now).2 thread now).1.log.flatten.length ∧
      (gst_ring_buffer_logger_log_find (gst_ring_buffer_logger_log_drop U logger now).1
        (gst_ring_buffer_logger_log_drop U logger now).2 thread now).1.log_size
      ≤ logger.max_size_per_thread := by
    rcases f7 with h | ⟨log, hl, _, h1, h2⟩
    · rw [h.1, h.2]
      exact ⟨rfl, Nat.zero_le _⟩
    · rw [h1, h2]
      exact hs log (d1.subset hl)
  obtain ⟨lines, a1, a2, a3, a4⟩ := append_spec logger.max_size_per_thread _ output hmax
    hsz.1 hsz.2
  refine ⟨(gst_ring_buffer_logger_log_find (gst_ring_buffer_logger_log_drop U logger now).1
      (gst_ring_buffer_logger_log_drop U logger now).2 thread now).1.log, lines, _, _, ?_,
    f3.trans d1, f4, f5, f6, a2, ?_, a3, a4⟩
  · unfold gst_ring_buffer_logger_log_store
    simp only [a1, f1, f2]
  · rcases f7 with h | ⟨log, hl, ht, h1, _⟩
    · exact Or.inl h.1
    · exact Or.inr ⟨log, d1.subset hl, ht, h1⟩

/-- One call keeps the sizes and the index of the logger in order, and puts
the record of the calling thread at the head of the queue. -/
theorem store_ok (U : Nat) (logger : GstRingBufferLogger) (thread : Nat) (now : Int)
    (output : List Char) (hmax : logger.max_size_per_thread < 2 ^ 32)
    (hs : ring_sizes_ok logger) (hi : ring_index_ok logger) :
    ∃ logger1, gst_ring_buffer_logger_log_store U logger thread now output = some logger1 ∧
      logger1.max_size_per_thread = logger.max_size_per_thread ∧
      logger1.thread_timeout = logger.thread_timeout ∧
      ring_sizes_ok logger1 ∧ ring_index_ok logger1 ∧
      (∃ log rest, logger1.threads = log :: rest ∧ log.thread = thread ∧ log.last_use = now ∧
        rest.Sublist logger.threads) := by
  obtain ⟨old, lines, rest, idx, e, h1, h2, h3, h4, h5, _, _, _⟩ :=
    store_shape U logger thread now output hmax hs hi
  refine ⟨_, e, rfl, rfl, ?_, ?_, ⟨_, rest, rfl, rfl, rfl, h1⟩⟩
  · intro log hl
    rcases List.mem_cons.mp hl with h | h
    · rw [h]
      exact ⟨rfl, h5⟩
    · exact hs log (h1.subset h)
  · refine ⟨?_, h3, ?_⟩
    · show (List.map (fun log => log.thread) (_ :: rest)).Nodup
      rw [List.map_cons, List.nodup_cons]
      exact ⟨h2, (h1.map _).nodup hi.1⟩
    · intro x
      show x ∈ idx ↔ x ∈ List.map (fun log => log.thread) (_ :: rest)
      rw [List.map_cons, List.mem_cons]
      exact h4 x

/-- A run of calls returns and keeps the sizes and the index in order. -/
theorem run_ring_ok (E : GstLineDecl) (L : GstDebugLevelDecl) (U : Nat) :
    ∀ (calls : List RingLogCall) (logger : GstRingBufferLogger),
      logger.max_size_per_thread < 2 ^ 32 → ring_sizes_ok logger → ring_index_ok logger →
      ∃ logger1, run_ring_calls E L U logger calls = some logger1 ∧
        logger1.max_size_per_thread = logger.max_size_per_thread ∧
        logger1.thread_timeout = logger.thread_timeout ∧
        ring_sizes_ok logger1 ∧ ring_index_ok logger1 := by
  intro calls
  induction calls with
  | nil => intro logger _ hs hi; exact ⟨logger, rfl, rfl, rfl, hs, hi⟩
  | cons call calls ih =>
    intro logger hmax hs hi
    obtain ⟨l1, e, m1, t1, s1, i1, _⟩ := store_ok U logger call.thread call.now
      (gst_ring_buffer_logger_log_line E L call).2 hmax hs hi
    obtain ⟨l2, e2, m2, t2, s2, i2⟩ := ih l1 (by rw [m1]; exact hmax) s1 i1
    refine ⟨l2, ?_, by rw [m2, m1], by rw [t2, t1], s2, i2⟩
    unfold run_ring_calls gst_ring_buffer_logger_log
    rw [e]
    exact e2

/-- With times that do not run backwards, a call keeps the queue in recency
order. -/
theorem store_recency (U : Nat) (logger : GstRingBufferLogger) (thread : Nat) (now : Int)
    (output : List Char) (hmax : logger.max_size_per_thread < 2 ^ 32)
    (hs : ring_sizes_ok logger) (hi : ring_index_ok logger) (hr : ring_recency_ok logger)
    (hb : ∀ log ∈ logger.threads, log.last_use ≤ now) :
    ∃ logger1, gst_ring_buffer_logger_log_store U logger thread now output = some logger1 ∧
      ring_recency_ok logger1 ∧ (∀ log ∈ logger1.threads, log.last_use ≤ now) := by
  obtain ⟨l1, e, _, _, _, _, log, rest, e1, _, e3, e4⟩ :=
    store_ok U logger thread now output hmax hs hi
  refine ⟨l1, e, ?_, ?_⟩
  · unfold ring_recency_ok
    rw [e1, List.pairwise_cons]
    refine ⟨fun b hb2 => ?_, hr.sublist e4⟩
    rw [e3]
    exact hb b (e4.subset hb2)
  · intro b hb2
    rw [e1] at hb2
    rcases List.mem_cons.mp hb2 with h | h
    · rw [h, e3]
    · exact hb b (e4.subset h)

/-- A run of calls whose times do not run backwards returns and leaves the
logger in order, the queue in recency order. -/
theorem run_ring_recency (E : GstLineDecl) (L : GstDebugLevelDecl) (U : Nat) :
    ∀ (calls : List RingLogCall) (logger : GstRingBufferLogger) (bound : Int),
      logger.max_size_per_thread < 2 ^ 32 → ring_sizes_ok logger → ring_index_ok logger →
      ring_recency_ok logger → (∀ log ∈ logger.threads, log.last_use ≤ bound) →
      (∀ c ∈ calls, bound ≤ c.now) → calls.Pairwise (fun a b => a.now ≤ b.now) →
      ∃ logger1, run_ring_calls E L U logger calls = some logger1 ∧
        logger1.max_size_per_thread = logger.max_size_per_thread ∧
        logger1.thread_timeout = logger.thread_timeout ∧
        ring_sizes_ok logger1 ∧ ring_index_ok logger1 ∧ ring_recency_ok logger1 ∧
        (∀ log ∈ logger1.threads, ∀ b, bound ≤ b → (∀ c ∈ calls, c.now ≤ b) →
          log.last_use ≤ b) := by
  intro calls
  induction calls with
  | nil =>
    intro logger bound _ hs hi hr hb _ _
    exact ⟨logger, rfl, rfl, rfl, hs, hi, hr, fun log hl b h1 _ => le_trans (hb log hl) h1⟩
  | cons call calls ih =>
    intro logger bound hmax hs hi hr hb hc hp
    rw [List.pairwise_cons] at hp
    have hb1 : ∀ log ∈ logger.threads, log.last_use ≤ call.now :=
      fun log hl => le_trans (hb log hl) (hc call (List.mem_cons_self _ _))
    obtain ⟨l1, e, m1, t1, s1, i1, _⟩ := store_ok U logger call.thread call.now
      (gst_ring_buffer_logger_log_line E L call).2 hmax hs hi
    obtain ⟨l1b, eb, r1, b1⟩ := store_recency U logger call.thread call.now
      (gst_ring_buffer_logger_log_line E L call).2 hmax hs hi hr hb1
    rw [e] at eb
    simp only [Option.some.injEq] at eb
    subst eb
    obtain ⟨l2, e2, m2, t2, s2, i2, r2, b2⟩ := ih l1 call.now (by rw [m1]; exact hmax) s1 i1
      r1 b1 hp.1 hp.2
    refine ⟨l2, ?_, by rw [m2, m1], by rw [t2, t1], s2, i2, r2, ?_⟩
    · unfold run_ring_calls gst_ring_buffer_logger_log
      rw [e]
      exact e2
    · intro log hl b _ h2
      exact b2 log hl b (h2 call (List.mem_cons_self _ _))
        (fun c hc2 => h2 c (List.mem_cons_of_mem _ hc2))

/-- A run over a list put together from two is the run over the first
followed by the run over the second. -/
theorem run_ring_calls_append (E : GstLineDecl) (L : GstDebugLevelDecl) (U : Nat) :
    ∀ (a b : List RingLogCall) (logger : GstRingBufferLogger),
      run_ring_calls E L U logger (a ++ b)
        = (run_ring_calls E L U logger a).bind (fun l => run_ring_calls E L U l b) := by
  intro a
  induction a with
  | nil => intro b logger; rfl
  | cons call a ih =>
    intro b logger
    rw [show run_ring_calls E L U logger (call :: a ++ b)
        = (match gst_ring_buffer_logger_log E L U logger call with
          | none => none
          | some l => run_ring_calls E L U l (a ++ b)) from rfl,
      show run_ring_calls E L U logger (call :: a)
        = (match gst_ring_buffer_logger_log E L U logger call with
          | none => none
          | some l => run_ring_calls E L U l a) from rfl]
    cases gst_ring_buffer_logger_log E L U logger call with
    | none => rfl
    | some l => exact ih b l

/-- The new logger is in order. -/
theorem ring_buffer_logger_new_ok (max timeout : Nat) :
    ring_sizes_ok (ring_buffer_logger_new max timeout) ∧
    ring_index_ok (ring_buffer_logger_new max timeout) ∧
    ring_recency_ok (ring_buffer_logger_new max timeout) := by
  refine ⟨fun log hl => ?_, ⟨List.nodup_nil, List.nodup_nil, fun x => Iff.rfl⟩,
    List.Pairwise.nil⟩
  exact absurd hl (List.not_mem_nil _)

/-- From the new logger, a run of calls whose times do not run backwards
returns and leaves the logger in order. -/
theorem run_new_recency (E : GstLineDecl) (L : GstDebugLevelDecl) (U max timeout : Nat)
    (hmax : max < 2 ^ 32) (calls : List RingLogCall)
    (hmono : calls.Pairwise (fun a b => a.now ≤ b.now)) :
    ∃ logger, run_ring_calls E L U (ring_buffer_logger_new max timeout) calls = some logger ∧
      logger.max_size_per_thread = max ∧ logger.thread_timeout = timeout ∧
      ring_sizes_ok logger ∧ ring_index_ok logger ∧ ring_recency_ok logger := by
  obtain ⟨h1, h2, h3⟩ := ring_buffer_logger_new_ok max timeout
  cases calls with
  | nil => exact ⟨_, rfl, rfl, rfl, h1, h2, h3⟩
  | cons x xs =>
    obtain ⟨l, e, m, t, s, i, r, _⟩ := run_ring_recency E L U (x :: xs)
      (ring_buffer_logger_new max timeout) x.now hmax h1 h2 h3
      (fun log hl => absurd hl (List.not_mem_nil _))
      (fun c hc => by
        rcases List.mem_cons.mp hc with h | h
        · rw [h]
        · exact (List.pairwise_cons.mp hmono).1 c h)
      hmono
    exact ⟨l, e, m, t, s, i, r⟩

/-- The strings of `gst_debug_ring_buffer_logger_get_logs` when the recorded
sizes are right. -/
theorem get_logs_walk_spec :
    ∀ threads : List GstRingBufferLog,
      (∀ log ∈ threads, log.log_size = log.log.flatten.length) →
      gst_debug_ring_buffer_logger_get_logs_walk threads
        = some (threads.map (fun log => log.log.flatten)) := by
  intro threads
  induction threads with
  | nil => intro _; rfl
  | cons log rest ih =>
    intro h
    unfold gst_debug_ring_buffer_logger_get_logs_walk
    rw [ih (fun l hl => h l (List.mem_cons_of_mem _ hl))]
    unfold gst_debug_ring_buffer_logger_get_logs_thread
    rw [if_pos (le_of_eq (h log (List.mem_cons_self _ _)).symm)]
    rfl

/-- The line of `gst_debug_log_get_line` in closed form: the format
`NOCOLOR_PRINT_FMT` with the tag `<id>` or nothing in the place of its last but
one conversion. -/
theorem get_line_closed (E : GstLineDecl) (L : GstDebugLevelDecl)
    (category : GstDebugCategory) (level : Nat) (file function : List Char) (line : Int)
    (object : Nat) (message : GstDebugMessage) (timestamp : Nat) (pid : Int) (thread : Nat) :
    gst_debug_log_get_line E L category level file function line object message timestamp
        pid thread
      = NOCOLOR_PRINT_FMT E (GST_CLOCK_DIFF E._priv_gst_start_time timestamp) pid thread
          (gst_debug_level_get_name L level) (gst_debug_category_get_name category)
          (_gst_debug_log_preamble E message file timestamp).2.1 line function
          (match (gst_debug_message_get_id E._get_object_id
              (gst_debug_message_get E.__gst_vasprintf message).1).2 with
            | some object_id => "<".toList ++ object_id ++ ">".toList
            | none => [])
          (gst_debug_message_get E.__gst_vasprintf message).2.1 := by
  unfold gst_debug_log_get_line
  simp only [_gst_debug_log_preamble]
  cases (gst_debug_message_get_id E._get_object_id
      (gst_debug_message_get E.__gst_vasprintf message).1).2 with
  | none => rfl
  | some object_id =>
    simp only [NOCOLOR_PRINT_FMT_ID, NOCOLOR_PRINT_FMT, CAT_FMT_ID, CAT_FMT,
      List.append_assoc]
    rfl

/-- The queue after a run lists its threads in the order of their last calls,
the latest first. -/
theorem run_ring_by_recency (E : GstLineDecl) (L : GstDebugLevelDecl) (U : Nat) :
    ∀ (calls : List RingLogCall) (logger : GstRingBufferLogger) (before : List Nat),
      logger.max_size_per_thread < 2 ^ 32 → ring_sizes_ok logger → ring_index_ok logger →
      (logger.threads.map (fun log => log.thread)).Sublist before →
      ∃ logger1, run_ring_calls E L U logger calls = some logger1 ∧
        (logger1.threads.map (fun log => log.thread)).Sublist
          (threads_by_recency calls before) := by
  intro calls
  induction calls with
  | nil => intro logger before _ _ _ h; exact ⟨logger, rfl, h⟩
  | cons call calls ih =>
    intro logger before hmax hs hi h
    obtain ⟨l1, e, m1, _, s1, i1, log, rest, e1, e2, _, e4⟩ := store_ok U logger call.thread
      call.now (gst_ring_buffer_logger_log_line E L call).2 hmax hs hi
    have hnot : call.thread ∉ rest.map (fun log => log.thread) := by
      have hn := i1.1
      rw [e1, List.map_cons, List.nodup_cons, e2] at hn
      exact hn.1
    have hsub : (l1.threads.map (fun log => log.thread)).Sublist
        (call.thread :: before.filter (fun t => t ≠ call.thread)) := by
      rw [e1, List.map_cons, e2]
      refine List.Sublist.cons₂ _ ?_
      have h5 := ((e4.map (fun log => log.thread)).trans h).filter
        (fun t => decide (t ≠ call.thread))
      rwa [List.filter_eq_self.mpr (fun t ht => by
        simp only [ne_eq, decide_not, Bool.not_eq_true', decide_eq_false_iff_not]
        intro hc
        rw [hc] at ht
        exact hnot ht)] at h5
    obtain ⟨l2, e5, h6⟩ := ih l1 _ (by rw [m1]; exact hmax) s1 i1 hsub
    refine ⟨l2, ?_, h6⟩
    unfold run_ring_calls gst_ring_buffer_logger_log
    rw [e]
    exact e5

/-- After `gst_debug_category_set_threshold` the tracker is not lower than
before, the category list of the state is the same, and the threshold of the
category is within the tracker. -/
theorem set_threshold_within (s : GstDebugState) (c : GstDebugCategory) (level : Nat) :
    s._gst_debug_min ≤ (gst_debug_category_set_threshold s c level).1._gst_debug_min ∧
    (gst_debug_category_set_threshold s c level).1.__categories = s.__categories ∧
    (gst_debug_category_set_threshold s c level).2.threshold
      ≤ (gst_debug_category_set_threshold s c level).1._gst_debug_min := by
  unfold gst_debug_category_set_threshold
  by_cases h : level > s._gst_debug_min
  · simp only [h, if_true]
    exact ⟨by omega, by trivial, le_refl _⟩
  · simp only [h, if_false]
    exact ⟨le_refl _, by trivial, by omega⟩

/-- The same for `gst_debug_apply_entry`, for a category that was within the
tracker. -/
theorem apply_entry_within (P : GPatternOps) (s : GstDebugState) (c : GstDebugCategory)
    (entry : LevelNameEntry) (hc : c.threshold ≤ s._gst_debug_min) :
    s._gst_debug_min ≤ (gst_debug_apply_entry P s c entry).1._gst_debug_min ∧
    (gst_debug_apply_entry P s c entry).1.__categories = s.__categories ∧
    (gst_debug_apply_entry P s c entry).2.1.threshold
      ≤ (gst_debug_apply_entry P s c entry).1._gst_debug_min := by
  unfold gst_debug_apply_entry
  by_cases h : P.match_string entry.pat c.name = true
  · simp only [h, Bool.not_true, Bool.false_eq_true, if_false]
    exact set_threshold_within s c entry.level
  · simp only [h, Bool.not_false, if_true]
    exact ⟨le_refl _, by trivial, hc⟩

/-- After `gst_debug_reset_threshold` the threshold of the category is within
the tracker, whatever it was. -/
theorem reset_threshold_within (P : GPatternOps) (s : GstDebugState) (c : GstDebugCategory) :
    s._gst_debug_min ≤ (gst_debug_reset_threshold P s c).1._gst_debug_min ∧
    (gst_debug_reset_threshold P s c).1.__categories = s.__categories ∧
    (gst_debug_reset_threshold P s c).2.threshold
      ≤ (gst_debug_reset_threshold P s c).1._gst_debug_min := by
  have key : ∀ (rules : List LevelNameEntry) (s1 : GstDebugState) (c1 : GstDebugCategory),
      s1._gst_debug_min ≤ (gst_debug_reset_threshold_walk P rules s1 c1).1._gst_debug_min ∧
      (gst_debug_reset_threshold_walk P rules s1 c1).1.__categories = s1.__categories ∧
      ((gst_debug_reset_threshold_walk P rules s1 c1).2.2 = true →
        (gst_debug_reset_threshold_walk P rules s1 c1).2.1.threshold
          ≤ (gst_debug_reset_threshold_walk P rules s1 c1).1._gst_debug_min) := by
    intro rules
    induction rules with
    | nil =>
      intro s1 c1
      refine ⟨le_refl _, rfl, fun h => ?_⟩
      simp [gst_debug_reset_threshold_walk] at h
    | cons entry walk ih =>
      intro s1 c1
      unfold gst_debug_reset_threshold_walk
      by_cases h : (gst_debug_apply_entry P s1 c1 entry).2.2 = true
      · simp only [h, if_true]
        have hm : P.match_string entry.pat c1.name = true := by
          by_contra hn
          simp [gst_debug_apply_entry, hn] at h
        have e : gst_debug_apply_entry P s1 c1 entry
            = ((gst_debug_category_set_threshold s1 c1 entry.level).1,
              (gst_debug_category_set_threshold s1 c1 entry.level).2, true) := by
          simp [gst_debug_apply_entry, hm]
        rw [e]
        obtain ⟨a1, a2, a3⟩ := set_threshold_within s1 c1 entry.level
        exact ⟨a1, a2, fun _ => a3⟩
      · simp only [h, if_false]
        have hm : P.match_string entry.pat c1.name = false := by
          by_contra hn
          simp only [Bool.not_eq_false] at hn
          simp [gst_debug_apply_entry, hn] at h
        have e : gst_debug_apply_entry P s1 c1 entry = (s1, c1, false) := by
          simp [gst_debug_apply_entry, hm]
        rw [e]
        exact ih s1 c1
  obtain ⟨k1, k2, k3⟩ := key s.__level_name s c
  unfold gst_debug_reset_threshold
  by_cases h : (gst_debug_reset_threshold_walk P s.__level_name s c).2.2 = true
  · simp only [h, if_true]
    exact ⟨k1, k2, k3 h⟩
  · simp only [h, Bool.false_eq_true, if_false]
    obtain ⟨a1, a2, a3⟩ := set_threshold_within
      (gst_debug_reset_threshold_walk P s.__level_name s c).1
      (gst_debug_reset_threshold_walk P s.__level_name s c).2.1
      (gst_debug_get_default_threshold (gst_debug_reset_threshold_walk P s.__level_name s c).1)
    exact ⟨le_trans k1 a1, by rw [a2, k2], a3⟩

/-- A `g_slist_foreach` with a function that keeps categories within the
tracker and does not lower it leaves every category within the tracker. -/
theorem foreach_within
    (func : GstDebugState → GstDebugCategory → GstDebugState × GstDebugCategory)
    (hf : ∀ s c, c.threshold ≤ s._gst_debug_min →
      s._gst_debug_min ≤ (func s c).1._gst_debug_min ∧
      (func s c).2.threshold ≤ (func s c).1._gst_debug_min) :
    ∀ (cats : List GstDebugCategory) (s : GstDebugState),
      (∀ c ∈ cats, c.threshold ≤ s._gst_debug_min) →
      s._gst_debug_min ≤ (g_slist_foreach func cats s).1._gst_debug_min ∧
      ∀ c ∈ (g_slist_foreach func cats s).2,
        c.threshold ≤ (g_slist_foreach func cats s).1._gst_debug_min := by
  intro cats
  induction cats with
  | nil => intro s _; exact ⟨le_refl _, fun _ hc => absurd hc (List.not_mem_nil _)⟩
  | cons cat rest ih =>
    intro s h
    obtain ⟨a1, a2⟩ := hf s cat (h cat (List.mem_cons_self _ _))
    obtain ⟨b1, b2⟩ := ih (func s cat).1
      (fun c hc => le_trans (h c (List.mem_cons_of_mem _ hc)) a1)
    unfold g_slist_foreach
    refine ⟨le_trans a1 b1, fun c hc => ?_⟩
    rcases List.mem_cons.mp hc with e | e
    · rw [e]
      exact le_trans a2 b1
    · exact b2 c e

/-- The function `gst_debug_reset_all_thresholds` keeps every category within
the tracker. -/
theorem reset_all_within (P : GPatternOps) (s : GstDebugState)
    (h : ∀ c ∈ s.__categories, c.threshold ≤ s._gst_debug_min) :
    s._gst_debug_min ≤ (gst_debug_reset_all_thresholds P s)._gst_debug_min ∧
    ∀ c ∈ (gst_debug_reset_all_thresholds P s).__categories,
      c.threshold ≤ (gst_debug_reset_all_thresholds P s)._gst_debug_min :=
  foreach_within (gst_debug_reset_threshold P)
    (fun s1 c1 _ => ⟨(reset_threshold_within P s1 c1).1, (reset_threshold_within P s1 c1).2.2⟩)
    s.__categories s h

/-- The function `gst_debug_set_threshold_for_name` keeps every category within
the tracker. -/
theorem set_for_name_within (P : GPatternOps) (s : GstDebugState)
    (name : Option (List Char)) (level : Nat)
    (h : ∀ c ∈ s.__categories, c.threshold ≤ s._gst_debug_min) :
    s._gst_debug_min ≤ (gst_debug_set_threshold_for_name P s name level)._gst_debug_min ∧
    ∀ c ∈ (gst_debug_set_threshold_for_name P s name level).__categories,
      c.threshold ≤ (gst_debug_set_threshold_for_name P s name level)._gst_debug_min := by
  cases name with
  | none => exact ⟨le_refl _, h⟩
  | some name =>
    exact foreach_within (for_each_threshold_by_entry P { pat := name, level := level })
      (fun s1 c1 h1 =>
        ⟨(apply_entry_within P s1 c1 _ h1).1, (apply_entry_within P s1 c1 _ h1).2.2⟩)
      s.__categories { s with __level_name := { pat := name, level := level } :: s.__level_name }
      h

/-- Each category operation keeps every category within the tracker. -/
theorem category_op_within (P : GPatternOps) (s : GstDebugState) (op : CategoryOp)
    (h : ∀ c ∈ s.__categories, c.threshold ≤ s._gst_debug_min) :
    ∀ c ∈ (op.run P s).__categories, c.threshold ≤ (op.run P s)._gst_debug_min := by
  cases op with
  | category_new name color description =>
    cases name with
    | none => exact h
    | some name =>
      obtain ⟨a1, a2, a3⟩ := reset_threshold_within P s
        { name := name, color := color,
          description := description.getD "no description".toList, threshold := 0 }
      simp only [CategoryOp.run, _gst_debug_category_new]
      split
      · intro c hc
        rw [a2] at hc
        exact le_trans (h c hc) a1
      · intro c hc
        rcases List.mem_cons.mp hc with e | e
        · rw [e]
          exact a3
        · rw [a2] at e
          exact le_trans (h c e) a1
  | category_set_threshold i level =>
    simp only [CategoryOp.run, gst_debug_category_set_threshold_at]
    cases hi : s.__categories[i]? with
    | none => exact h
    | some cat =>
      obtain ⟨a1, a2, a3⟩ := set_threshold_within s cat level
      intro c hc
      simp only at hc
      rcases List.mem_or_eq_of_mem_set hc with e | e
      · rw [a2] at e
        exact le_trans (h c e) a1
      · rw [e]
        exact a3
  | category_reset_threshold i =>
    simp only [CategoryOp.run, gst_debug_category_reset_threshold_at,
      gst_debug_category_reset_threshold]
    cases hi : s.__categories[i]? with
    | none => exact h
    | some cat =>
      obtain ⟨a1, a2, a3⟩ := reset_threshold_within P s cat
      intro c hc
      simp only at hc
      rcases List.mem_or_eq_of_mem_set hc with e | e
      · rw [a2] at e
        exact le_trans (h c e) a1
      · rw [e]
        exact a3
  | set_threshold_for_name name level => exact (set_for_name_within P s name level h).2
  | unset_threshold_for_name name =>
    cases name with
    | none => exact h
    | some name =>
      exact (reset_all_within P
        { s with __level_name :=
            gst_debug_unset_threshold_for_name_walk P name [] s.__level_name } h).2
  | set_default_threshold level =>
    exact (reset_all_within P { s with __default_level := level } h).2

/-- The function `gst_debug_set_default_threshold` keeps every category within
the tracker. -/
theorem set_default_within (P : GPatternOps) (s : GstDebugState) (level : Nat)
    (h : ∀ c ∈ s.__categories, c.threshold ≤ s._gst_debug_min) :
    ∀ c ∈ (gst_debug_set_default_threshold P s level).__categories,
      c.threshold ≤ (gst_debug_set_default_threshold P s level)._gst_debug_min :=
  (reset_all_within P { s with __default_level := level } h).2

/-- One element of the list of `gst_debug_set_threshold_from_string` keeps every
category within the tracker. -/
theorem from_string_walk_within (P : GPatternOps) (L : GstDebugLevelDecl) (s : GstDebugState)
    (walk : List Char) (h : ∀ c ∈ s.__categories, c.threshold ≤ s._gst_debug_min) :
    ∀ c ∈ (gst_debug_set_threshold_from_string_walk P L s walk).__categories,
      c.threshold ≤ (gst_debug_set_threshold_from_string_walk P L s walk)._gst_debug_min := by
  unfold gst_debug_set_threshold_from_string_walk
  by_cases hc : ':' ∈ walk
  · rw [if_pos hc]
    split
    · split
      · rename_i category level _ _
        have hw := (set_for_name_within P s (some category) level h).2
        simp only
        split
        · intro c hc2
          have := hw c hc2
          show c.threshold ≤ level
          omega
        · exact hw
      · exact h
    · exact h
  · rw [if_neg hc]
    split
    · exact set_default_within P s _ h
    · exact h

/-- The function `gst_debug_set_threshold_from_string` keeps every category
within the tracker. -/
theorem from_string_within (P : GPatternOps) (L : GstDebugLevelDecl) (s : GstDebugState)
    (list : List Char) (reset : Bool)
    (h : ∀ c ∈ s.__categories, c.threshold ≤ s._gst_debug_min) :
    ∀ c ∈ (gst_debug_set_threshold_from_string P L s list reset).__categories,
      c.threshold ≤ (gst_debug_set_threshold_from_string P L s list reset)._gst_debug_min := by
  have key : ∀ (tokens : List (List Char)) (s1 : GstDebugState),
      (∀ c ∈ s1.__categories, c.threshold ≤ s1._gst_debug_min) →
      ∀ c ∈ (tokens.foldl (gst_debug_set_threshold_from_string_walk P L) s1).__categories,
        c.threshold
          ≤ (tokens.foldl (gst_debug_set_threshold_from_string_walk P L) s1)._gst_debug_min := by
    intro tokens
    induction tokens with
    | nil => intro s1 h1; exact h1
    | cons t rest ih =>
      intro s1 h1
      exact ih _ (from_string_walk_within P L s1 t h1)
  unfold gst_debug_set_threshold_from_string
  apply key
  cases reset with
  | false => exact h
  | true => exact set_default_within P (clear_level_names s) L.GST_LEVEL_DEFAULT h

/-- In a queue given tail first in which the time of last use does not fall
from one record to the next, the timeout loop drops every record whose time of
last use plus the timeout is before `now`. -/
theorem timeout_drops_stale (U t : Nat) (now : Int) :
    ∀ (r : List GstRingBufferLog) (idx : List Nat),
      (r.map (fun log => log.thread)).Nodup →
      r.Pairwise (fun a b => a.last_use ≤ b.last_use) →
      ∀ x ∈ r, x.last_use + ((t * U % 2 ^ 32 : Nat) : Int) < now →
        x.thread ∉ (gst_ring_buffer_logger_log_timeout U t now r idx).1.map
          (fun log => log.thread) := by
  intro r
  induction r with
  | nil => intro idx _ _ x hx; exact absurd hx (List.not_mem_nil _)
  | cons log rest ih =>
    intro idx hn hp x hx hs
    rw [List.map_cons, List.nodup_cons] at hn
    rw [List.pairwise_cons] at hp
    unfold gst_ring_buffer_logger_log_timeout
    by_cases hc : log.last_use + ((t * U % 2 ^ 32 : Nat) : Int) ≥ now
    · exfalso
      rcases List.mem_cons.mp hx with e | e
      · rw [e] at hs
        omega
      · have := hp.1 x e
        omega
    · rw [if_neg hc]
      rcases List.mem_cons.mp hx with e | e
      · rw [e]
        intro hm
        have hsub : ((gst_ring_buffer_logger_log_timeout U t now rest
            (idx.erase log.thread)).1.map (fun log => log.thread)).Sublist
            (rest.map (fun log => log.thread)) := by
          have key : ∀ (l : List GstRingBufferLog) (i : List Nat),
              (gst_ring_buffer_logger_log_timeout U t now l i).1.Sublist l := by
            intro l
            induction l with
            | nil => intro i; exact List.Sublist.refl _
            | cons a l ih2 =>
              intro i
              unfold gst_ring_buffer_logger_log_timeout
              split
              · exact List.Sublist.refl _
              · exact List.Sublist.cons _ (ih2 _)
          exact (key rest _).map _
        exact hn.1 (hsub.subset hm)
      · exact ih (idx.erase log.thread) hn.2 hp.2 x e hs

/-- On a logger in order, a call by a thread whose record has timed out finds
no record for the thread after the timeout loop and starts a new one. -/
theorem stale_caller_store (U : Nat) (logger : GstRingBufferLogger) (thread : Nat)
    (now : Int) (output : List Char) (log0 : GstRingBufferLog)
    (hmax : logger.max_size_per_thread < 2 ^ 32) (hi : ring_index_ok logger)
    (hr : ring_recency_ok logger) (ht : logger.thread_timeout > 0)
    (h0 : log0 ∈ logger.threads) (h1 : log0.thread = thread)
    (hstale : log0.last_use + ((logger.thread_timeout * U : Nat) : Int) < now) :
    gst_ring_buffer_logger_log_store U logger thread now output
      = some { logger with
          threads :=
            ({ last_use := now, thread := thread,
               log := (if output.length < logger.max_size_per_thread then [output] else []),
               log_size :=
                 (if output.length < logger.max_size_per_thread then output.length else 0) }
              :: (gst_ring_buffer_logger_log_drop U logger now).1)
          thread_index := thread :: (gst_ring_buffer_logger_log_drop U logger now).2 } ∧
    thread ∉ (gst_ring_buffer_logger_log_drop U logger now).1.map (fun log => log.thread) := by
  obtain ⟨_, _, _, d4⟩ := drop_spec U logger now hi
  have hs2 : log0.last_use + ((logger.thread_timeout * U % 2 ^ 32 : Nat) : Int) < now := by
    have : logger.thread_timeout * U % 2 ^ 32 ≤ logger.thread_timeout * U := Nat.mod_le _ _
    omega
  have hnot : thread ∉ (gst_ring_buffer_logger_log_drop U logger now).2 := by
    rw [d4]
    unfold gst_ring_buffer_logger_log_drop
    rw [if_pos ht]
    show thread ∉ List.map _ (List.reverse _)
    rw [List.map_reverse, List.mem_reverse, ← h1]
    refine timeout_drops_stale U logger.thread_timeout now logger.threads.reverse
      logger.thread_index ?_ ?_ log0 (List.mem_reverse.mpr h0) hs2
    · rw [List.map_reverse]
      exact List.nodup_reverse.mpr hi.1
    · rw [List.pairwise_reverse]
      exact hr
  have hfind : gst_ring_buffer_logger_log_find (gst_ring_buffer_logger_log_drop U logger now).1
      (gst_ring_buffer_logger_log_drop U logger now).2 thread now
      = ({ last_use := now, thread := thread, log := [], log_size := 0 },
        (gst_ring_buffer_logger_log_drop U logger now).1,
        thread :: (gst_ring_buffer_logger_log_drop U logger now).2) := by
    unfold gst_ring_buffer_logger_log_find thread_index_lookup
    rw [if_neg hnot]
    simp only [if_neg hnot]
  refine ⟨?_, by rw [← d4]; exact hnot⟩
  unfold gst_ring_buffer_logger_log_store
  simp only [hfind]
  unfold gst_ring_buffer_logger_log_append
  by_cases hn : output.length < logger.max_size_per_thread
  · have he : gst_ring_buffer_logger_log_evict logger.max_size_per_thread output.length [] 0
        = some ([], 0) := by
      unfold gst_ring_buffer_logger_log_evict
      have : ¬ ((0 + output.length) % 2 ^ 64 > logger.max_size_per_thread) := by omega
      rw [if_neg this]
    have hm : (0 + output.length) % 2 ^ 64 = output.length := by omega
    simp only [hn, if_true, he, List.nil_append, hm]
  · simp only [hn, if_false]

/-- A list of 20 bytes, written out. -/
theorem list_of_length_20 (l : List Char) (h : l.length = 20) :
    ∃ c0 c1 c2 c3 c4 c5 c6 c7 c8 c9 d0 d1 d2 d3 d4 d5 d6 d7 d8 d9,
      l = [c0, c1, c2, c3, c4, c5, c6, c7, c8, c9, d0, d1, d2, d3, d4, d5, d6, d7, d8, d9] := by
  match l, h with
  | [c0, c1, c2, c3, c4, c5, c6, c7, c8, c9, d0, d1, d2, d3, d4, d5, d6, d7, d8, d9], _ =>
    exact ⟨c0, c1, c2, c3, c4, c5, c6, c7, c8, c9, d0, d1, d2, d3, d4, d5, d6, d7, d8, d9, rfl⟩

/-- A digit character stored by `_construct_term_color` is the character
`'0' + x` and is not NUL. -/
theorem color_digit (x : Nat) (h : x ≤ 15) :
    Char.ofNat (('0'.toNat + x) % 256) = Char.ofNat ('0'.toNat + x) ∧
    Char.ofNat ('0'.toNat + x) ≠ NUL := by
  interval_cases x <;> exact ⟨by decide, by decide⟩

/-- A mask without its four low bits leaves them clear. -/
theorem and_low_bits_clear (a b : Nat) (h : b % 16 = 0) : (a &&& b) % 16 = 0 := by
  have e1 := Nat.and_pow_two_sub_one_eq_mod (a &&& b) 4
  have e2 := Nat.and_pow_two_sub_one_eq_mod b 4
  have h16 : (2 : Nat) ^ 4 = 16 := by norm_num
  rw [h16] at e1 e2
  rw [← e1, Nat.and_assoc, e2, h]
  simp

/-- The sequence of `_construct_term_color` is at most 17 characters long. -/
theorem construct_term_color_length (E : GstLineDecl) (colorinfo : Nat) :
    (_construct_term_color E colorinfo).length ≤ 17 := by
  unfold _construct_term_color
  by_cases h1 : colorinfo &&& E.GST_DEBUG_BOLD ≠ 0 <;>
  by_cases h2 : colorinfo &&& E.GST_DEBUG_UNDERLINE ≠ 0 <;>
  by_cases h3 : colorinfo &&& E.GST_DEBUG_FG_MASK ≠ 0 <;>
  by_cases h4 : colorinfo &&& E.GST_DEBUG_BG_MASK ≠ 0 <;>
  simp [h1, h2, h3, h4]

/-- Whatever the work area of 20 bytes holds on entry, the writes of
`_construct_term_color` stay inside it and leave the sequence, a NUL and the
old bytes behind them. -/
theorem construct_term_color_write_area_closed (E : GstLineDecl) (colorinfo : Nat)
    (write_area : List Char) (hlen : write_area.length = 20) :
    _construct_term_color_write_area E colorinfo write_area
      = some (_construct_term_color E colorinfo
          ++ NUL :: write_area.drop ((_construct_term_color E colorinfo).length + 1)) := by
  obtain ⟨c0, c1, c2, c3, c4, c5, c6, c7, c8, c9, d0, d1, d2, d3, d4, d5, d6, d7, d8, d9, rfl⟩ :=
    list_of_length_20 write_area hlen
  unfold _construct_term_color_write_area _construct_term_color
  by_cases h1 : colorinfo &&& E.GST_DEBUG_BOLD ≠ 0 <;>
  by_cases h2 : colorinfo &&& E.GST_DEBUG_UNDERLINE ≠ 0 <;>
  by_cases h3 : colorinfo &&& E.GST_DEBUG_FG_MASK ≠ 0 <;>
  by_cases h4 : colorinfo &&& E.GST_DEBUG_BG_MASK ≠ 0 <;>
  simp [h1, h2, h3, h4, memcpy, strncpy]

/-- The function `g_strdup` on a string, its NUL and what follows. -/
theorem g_strdup_terminated (w rest : List Char) (h : NUL ∉ w) :
    g_strdup (w ++ NUL :: rest) = some w := by
  unfold g_strdup
  rw [if_pos (List.mem_append_right _ (List.mem_cons_self _ _))]
  congr 1
  induction w with
  | nil => simp [List.takeWhile]
  | cons c cs ih =>
    have hc : c ≠ NUL := fun e => h (by rw [e]; exact List.mem_cons_self _ _)
    have hcs : NUL ∉ cs := fun e => h (List.mem_cons_of_mem _ e)
    show List.takeWhile _ (c :: (cs ++ NUL :: rest)) = _
    rw [List.takeWhile_cons]
    simp only [hc, ne_eq, not_false_eq_true, decide_True, if_true]
    rw [ih hcs]

/-- With the masks of the two colour fields, the sequence of
`_construct_term_color` is the one the specification words and holds no NUL. -/
theorem construct_term_color_spec (E : GstLineDecl) (colorinfo : Nat)
    (hfg : E.GST_DEBUG_FG_MASK ≤ 15) (hbg : E.GST_DEBUG_BG_MASK ≤ 255)
    (hlow : E.GST_DEBUG_BG_MASK % 16 = 0) :
    _construct_term_color E colorinfo
      = term_color_spec (decide (colorinfo &&& E.GST_DEBUG_BOLD ≠ 0))
          (decide (colorinfo &&& E.GST_DEBUG_UNDERLINE ≠ 0))
          (colorinfo &&& E.GST_DEBUG_FG_MASK) ((colorinfo &&& E.GST_DEBUG_BG_MASK) >>> 4) ∧
    NUL ∉ _construct_term_color E colorinfo := by
  have hf : colorinfo &&& E.GST_DEBUG_FG_MASK ≤ 15 := le_trans Nat.and_le_right hfg
  have hb0 : colorinfo &&& E.GST_DEBUG_BG_MASK ≤ 255 := le_trans Nat.and_le_right hbg
  have hb1 := and_low_bits_clear colorinfo E.GST_DEBUG_BG_MASK hlow
  have hb : (colorinfo &&& E.GST_DEBUG_BG_MASK) >>> 4 ≤ 15 := by
    rw [Nat.shiftRight_eq_div_pow]
    omega
  have hz : ((colorinfo &&& E.GST_DEBUG_BG_MASK) >>> 4 ≠ 0)
      = (colorinfo &&& E.GST_DEBUG_BG_MASK ≠ 0) := by
    rw [Nat.shiftRight_eq_div_pow]
    apply propext
    constructor <;> intro h <;> omega
  obtain ⟨f1, f2⟩ := color_digit _ hf
  obtain ⟨b1, b2⟩ := color_digit _ hb
  unfold _construct_term_color term_color_spec
  rw [f1, b1]
  simp only [hz]
  generalize Char.ofNat ('0'.toNat + (colorinfo &&& E.GST_DEBUG_FG_MASK)) = f at f2
  generalize Char.ofNat ('0'.toNat + (colorinfo &&& E.GST_DEBUG_BG_MASK) >>> 4) = b at b2
  have f3 : (Char.ofNat 0 = f) = False := eq_false (fun e => f2 e.symm)
  have b3 : (Char.ofNat 0 = b) = False := eq_false (fun e => b2 e.symm)
  by_cases h1 : colorinfo &&& E.GST_DEBUG_BOLD ≠ 0 <;>
  by_cases h2 : colorinfo &&& E.GST_DEBUG_UNDERLINE ≠ 0 <;>
  by_cases h3 : colorinfo &&& E.GST_DEBUG_FG_MASK ≠ 0 <;>
  by_cases h4 : colorinfo &&& E.GST_DEBUG_BG_MASK ≠ 0 <;>
  simp [h1, h2, h3, h4, NUL, f3, b3]

/-- An occurrence found by `strstr` lies inside the string. -/
theorem strstr_bound (haystack needle : List Char) (i : Nat)
    (h : strstr haystack needle = some i) : i + needle.length ≤ haystack.length := by
  induction haystack generalizing i with
  | nil =>
    unfold strstr at h
    by_cases hn : needle = []
    · rw [if_pos hn] at h
      simp only [Option.some.injEq] at h
      rw [hn, ← h]
      simp
    · rw [if_neg hn] at h
      exact absurd h (by simp)
  | cons c cs ih =>
    unfold strstr at h
    by_cases hp : needle.isPrefixOf (c :: cs) = true
    · rw [if_pos hp] at h
      simp only [Option.some.injEq] at h
      have := (List.isPrefixOf_iff_prefix.mp hp).length_le
      omega
    · rw [if_neg hp] at h
      cases hs : strstr cs needle with
      | none => rw [hs] at h; exact absurd h (by simp)
      | some j =>
        rw [hs] at h
        simp only [Option.map_some', Option.some.injEq] at h
        have := ih j hs
        simp only [List.length_cons]
        omega

/-- The call `memcpy` keeps the length of the area. -/
theorem memcpy_length (area src out : List Char) (offset : Nat)
    (h : memcpy area offset src = some out) : out.length = area.length := by
  unfold memcpy at h
  by_cases hb : offset + src.length ≤ area.length
  · rw [if_pos hb] at h
    simp only [Option.some.injEq] at h
    rw [← h]
    simp only [List.length_append, List.length_take, List.length_drop]
    omega
  · rw [if_neg hb] at h
    exact absurd h (by simp)

/-- The call `memcpy` inside one area keeps the length of the area. -/
theorem memcpy_within_length (area out : List Char) (dst src n : Nat)
    (h : memcpy_within area dst src n = some out) : out.length = area.length := by
  unfold memcpy_within at h
  by_cases hb : src + n ≤ area.length ∧ dst + n ≤ area.length ∧ (src + n ≤ dst ∨ dst + n ≤ src)
  · rw [if_pos hb] at h
    simp only [Option.some.injEq] at h
    rw [← h]
    simp only [List.length_append, List.length_take, List.length_drop]
    omega
  · rw [if_neg hb] at h
    exact absurd h (by simp)

/-- The loop of `prettify_structure_string` ends within as many rounds as the
string has characters behind `pos`, and one more. -/
theorem prettify_loop_returns (fuel : Nat) :
    ∀ (str : List Char) (pos : Nat), str.length - pos < fuel →
      prettify_structure_string_loop fuel str pos ≠ none := by
  induction fuel with
  | zero => intro str pos h; omega
  | succ fuel ih =>
    intro str pos h
    unfold prettify_structure_string_loop
    cases hs : strstr (str.drop pos) "(buffer)".toList with
    | none => simp
    | some i =>
      have hb := strstr_bound _ _ i hs
      have h8 : "(buffer)".toList.length = 8 := rfl
      have h8s : "(buffer)".length = 8 := rfl
      rw [h8, List.length_drop] at hb
      simp only [h8s]
      have hc : ((str.drop (pos + i + 8)).takeWhile
          (fun c => c ≠ NUL ∧ c ≠ ';' ∧ c ≠ ' ')).length % 2 ^ 32
          ≤ str.length - (pos + i + 8) := by
        refine le_trans (Nat.mod_le _ _) ?_
        have : ((str.drop (pos + i + 8)).takeWhile
            (fun c => c ≠ NUL ∧ c ≠ ';' ∧ c ≠ ' ')).length
            ≤ (str.drop (pos + i + 8)).length := (List.takeWhile_prefix _).length_le
        rw [List.length_drop] at this
        exact this
      generalize ((str.drop (pos + i + 8)).takeWhile
          (fun c => c ≠ NUL ∧ c ≠ ';' ∧ c ≠ ' ')).length % 2 ^ 32 = count at hc
      by_cases hgt : count > MAX_BUFFER_DUMP_STRING_LEN
      · rw [if_pos hgt]
        cases h1 : memcpy str (pos + i + 8 + MAX_BUFFER_DUMP_STRING_LEN - 6) "..".toList with
        | none => simp
        | some str1 =>
          cases h2 : memcpy_within str1 (pos + i + 8 + MAX_BUFFER_DUMP_STRING_LEN - 4)
              (pos + i + 8 + count - 4) 4 with
          | none => simp [h2]
          | some str2 =>
            simp only [h2]
            have l1 := memcpy_length _ _ _ _ h1
            have l2 := memcpy_within_length _ _ _ _ _ h2
            apply ih
            unfold MAX_BUFFER_DUMP_STRING_LEN at hgt ⊢
            simp only [List.length_append, List.length_take, List.length_drop]
            omega
      · rw [if_neg hgt]
        apply ih
        omega

/-- The function `prettify_structure_string` returns on every string. -/
theorem prettify_structure_string_returns (str : List Char) :
    prettify_structure_string str ≠ none :=
  prettify_loop_returns _ str 0 (by omega)
/-- Whether a needle starts a string is settled by as many characters as the
needle has. -/
theorem isPrefixOf_append (needle l x : List Char) (h : needle.length ≤ l.length) :
    needle.isPrefixOf (l ++ x) = needle.isPrefixOf l := by
  induction needle generalizing l with
  | nil => simp
  | cons a as ih =>
    cases l with
    | nil => simp at h
    | cons b bs =>
      simp only [List.cons_append, List.isPrefixOf_cons₂]
      rw [ih bs (by simpa using h)]

/-- An occurrence found by `strstr` is found there in every longer string. -/
theorem strstr_append_found (pre needle x : List Char) (hn : needle ≠ [])
    (h : strstr (pre ++ needle) needle = some pre.length) :
    strstr (pre ++ needle ++ x) needle = some pre.length := by
  induction pre with
  | nil =>
    cases needle with
    | nil => exact absurd rfl hn
    | cons c cs =>
      show strstr (c :: (cs ++ x)) (c :: cs) = some 0
      unfold strstr
      rw [if_pos]
      rw [← List.cons_append, isPrefixOf_append _ _ _ (le_refl _)]
      exact List.isPrefixOf_iff_prefix.mpr (List.prefix_refl _)
  | cons p ps ih =>
    have e1 : strstr (p :: (ps ++ needle)) needle = some (ps.length + 1) := h
    unfold strstr at e1
    by_cases hp : needle.isPrefixOf (p :: (ps ++ needle)) = true
    · rw [if_pos hp] at e1
      exact absurd e1 (by simp)
    · rw [if_neg hp] at e1
      have e2 : strstr (ps ++ needle) needle = some ps.length := by
        cases hs : strstr (ps ++ needle) needle with
        | none => rw [hs] at e1; exact absurd e1 (by simp)
        | some j =>
          rw [hs] at e1
          simp only [Option.map_some', Option.some.injEq, add_left_inj] at e1
          rw [e1]
      show strstr (p :: (ps ++ needle ++ x)) needle = some (ps.length + 1)
      unfold strstr
      have hp2 : ¬ needle.isPrefixOf (p :: (ps ++ needle ++ x)) = true := by
        have := isPrefixOf_append needle (p :: (ps ++ needle)) x (by simp; omega)
        rw [List.cons_append] at this
        rw [this]
        exact hp
      rw [if_neg hp2, ih e2]
      rfl

/-- No occurrence in a string, none in its end. -/
theorem strstr_append_none (a b needle : List Char) (h : strstr (a ++ b) needle = none) :
    strstr b needle = none := by
  induction a with
  | nil => exact h
  | cons c cs ih =>
    have e1 : strstr (c :: (cs ++ b)) needle = none := h
    unfold strstr at e1
    by_cases hp : needle.isPrefixOf (c :: (cs ++ b)) = true
    · rw [if_pos hp] at e1
      exact absurd e1 (by simp)
    · rw [if_neg hp] at e1
      apply ih
      cases hs : strstr (cs ++ b) needle with
      | none => rfl
      | some j => rw [hs] at e1; exact absurd e1 (by simp)

/-- The first part of a string that is two parts. -/
theorem take_of_append (l a b : List Char) (n : Nat) (h : l = a ++ b) (hn : a.length = n) :
    l.take n = a := by
  rw [h, ← hn, List.take_left]

/-- The second part of a string that is two parts. -/
theorem drop_of_append (l a b : List Char) (n : Nat) (h : l = a ++ b) (hn : a.length = n) :
    l.drop n = b := by
  rw [h, ← hn, List.drop_left]

/-- The scan of `prettify_structure_string` for the end of a value stops where
the value stops. -/
theorem value_scan (value rest : List Char)
    (hval : ∀ c ∈ value, c ≠ NUL ∧ c ≠ ';' ∧ c ≠ ' ')
    (hrest : ∀ c ∈ rest.head?, c = NUL ∨ c = ';' ∨ c = ' ') :
    (value ++ rest).takeWhile (fun c => c ≠ NUL ∧ c ≠ ';' ∧ c ≠ ' ') = value := by
  induction value with
  | nil =>
    cases rest with
    | nil => rfl
    | cons c cs =>
      have := hrest c rfl
      show List.takeWhile _ (c :: cs) = []
      rw [List.takeWhile_cons]
      have hd : decide (c ≠ NUL ∧ c ≠ ';' ∧ c ≠ ' ') = false := by
        rw [decide_eq_false_iff_not]
        intro hc
        rcases this with h | h | h
        · exact hc.1 h
        · exact hc.2.1 h
        · exact hc.2.2 h
      rw [hd]
      rfl
  | cons v vs ih =>
    show List.takeWhile _ (v :: (vs ++ rest)) = v :: vs
    rw [List.takeWhile_cons]
    have hd : decide (v ≠ NUL ∧ v ≠ ';' ∧ v ≠ ' ') = true :=
      decide_eq_true (hval v (List.mem_cons_self _ _))
    rw [hd]
    simp only [if_true]
    rw [ih (fun c hc => hval c (List.mem_cons_of_mem _ hc))]
/-- One round of the loop of `prettify_structure_string` on a string whose
first `(buffer)` at or behind `pos` is followed by `value` and then by `rest`:
the scan finds the tag and the length of the value. -/
theorem prettify_round (fuel : Nat) (pre value rest : List Char)
    (hpre : strstr (pre ++ "(buffer)".toList) "(buffer)".toList = some pre.length)
    (hval : ∀ c ∈ value, c ≠ NUL ∧ c ≠ ';' ∧ c ≠ ' ')
    (hrest : ∀ c ∈ rest.head?, c = NUL ∨ c = ';' ∨ c = ' ')
    (hlen : value.length < 2 ^ 32) :
    prettify_structure_string_loop (fuel + 1) (pre ++ "(buffer)".toList ++ value ++ rest) 0
      = if value.length > 100 then
          match memcpy (pre ++ "(buffer)".toList ++ value ++ rest)
              ((pre ++ "(buffer)".toList).length + 94) "..".toList with
          | none => some none
          | some str1 =>
            match memcpy_within str1 ((pre ++ "(buffer)".toList).length + 96)
                ((pre ++ "(buffer)".toList).length + value.length - 4) 4 with
            | none => some none
            | some str2 =>
              prettify_structure_string_loop fuel
                (str2.take ((pre ++ "(buffer)".toList).length + 100)
                  ++ str2.drop ((pre ++ "(buffer)".toList).length + value.length))
                ((pre ++ "(buffer)".toList).length + 100)
        else
          prettify_structure_string_loop fuel (pre ++ "(buffer)".toList ++ value ++ rest)
            ((pre ++ "(buffer)".toList).length) := by
  have hf : strstr (pre ++ "(buffer)".toList ++ (value ++ rest)) "(buffer)".toList
      = some pre.length := strstr_append_found pre _ _ (by decide) hpre
  have hpos : 0 + pre.length + "(buffer)".length = (pre ++ "(buffer)".toList).length := by
    rw [List.length_append]
    show 0 + pre.length + 8 = pre.length + 8
    omega
  have hd : (pre ++ "(buffer)".toList ++ value ++ rest).drop (pre ++ "(buffer)".toList).length
      = value ++ rest :=
    drop_of_append _ (pre ++ "(buffer)".toList) (value ++ rest) _
      (by simp only [List.append_assoc]) rfl
  rw [show prettify_structure_string_loop (fuel + 1) (pre ++ "(buffer)".toList ++ value ++ rest) 0
      = (match strstr ((pre ++ "(buffer)".toList ++ value ++ rest).drop 0) "(buffer)".toList with
        | none => some (some (pre ++ "(buffer)".toList ++ value ++ rest))
        | some i =>
          if ((((pre ++ "(buffer)".toList ++ value ++ rest).drop
              (0 + i + "(buffer)".length)).takeWhile
                (fun c => c ≠ NUL ∧ c ≠ ';' ∧ c ≠ ' ')).length % 2 ^ 32)
              > MAX_BUFFER_DUMP_STRING_LEN then
            match memcpy (pre ++ "(buffer)".toList ++ value ++ rest)
                (0 + i + "(buffer)".length + MAX_BUFFER_DUMP_STRING_LEN - 6) "..".toList with
            | none => some none
            | some str1 =>
              match memcpy_within str1
                  (0 + i + "(buffer)".length + MAX_BUFFER_DUMP_STRING_LEN - 4)
                  (0 + i + "(buffer)".length
                    + (((pre ++ "(buffer)".toList ++ value ++ rest).drop
                        (0 + i + "(buffer)".length)).takeWhile
                          (fun c => c ≠ NUL ∧ c ≠ ';' ∧ c ≠ ' ')).length % 2 ^ 32 - 4) 4 with
              | none => some none
              | some str2 =>
                prettify_structure_string_loop fuel
                  (str2.take (0 + i + "(buffer)".length + MAX_BUFFER_DUMP_STRING_LEN)
                    ++ str2.drop (0 + i + "(buffer)".length
                      + (((pre ++ "(buffer)".toList ++ value ++ rest).drop
                          (0 + i + "(buffer)".length)).takeWhile
                            (fun c => c ≠ NUL ∧ c ≠ ';' ∧ c ≠ ' ')).length % 2 ^ 32))
                  (0 + i + "(buffer)".length + MAX_BUFFER_DUMP_STRING_LEN)
          else
            prettify_structure_string_loop fuel (pre ++ "(buffer)".toList ++ value ++ rest)
              (0 + i + "(buffer)".length)) from rfl]
  rw [List.drop_zero, List.append_assoc (pre ++ "(buffer)".toList) value rest, hf]
  simp only [hpos]
  rw [← List.append_assoc (pre ++ "(buffer)".toList) value rest, hd,
    value_scan value rest hval hrest, Nat.mod_eq_of_lt hlen]
  rfl
/-- The loop of `prettify_structure_string` returns the string when no
`(buffer)` is left behind `pos`. -/
theorem prettify_loop_no_tag (fuel : Nat) (str : List Char) (pos : Nat)
    (h : strstr (str.drop pos) "(buffer)".toList = none) :
    prettify_structure_string_loop (fuel + 1) str pos = some (some str) := by
  unfold prettify_structure_string_loop
  rw [h]

/-- The function `prettify_structure_string` on a string with one `(buffer)`
value: a value of at most 100 characters stays, one of 104 characters or more
becomes its first 94 characters, `..` and its last 4 characters, and for one
of 101 to 103 characters the `memcpy` of the last 4 characters has a source
and a destination that overlap. -/
theorem prettify_single_value (pre value rest : List Char)
    (hpre : strstr (pre ++ "(buffer)".toList) "(buffer)".toList = some pre.length)
    (hval : ∀ c ∈ value, c ≠ NUL ∧ c ≠ ';' ∧ c ≠ ' ')
    (hrest : ∀ c ∈ rest.head?, c = NUL ∨ c = ';' ∨ c = ' ')
    (hlen : value.length < 2 ^ 32)
    (hnone : strstr (value ++ rest) "(buffer)".toList = none) :
    prettify_structure_string (pre ++ "(buffer)".toList ++ value ++ rest)
      = if value.length ≤ 100 then some (some (pre ++ "(buffer)".toList ++ value ++ rest))
        else if value.length < 104 then some none
        else some (some (pre ++ "(buffer)".toList ++ value.take 94 ++ "..".toList
          ++ value.drop (value.length - 4) ++ rest)) := by
  unfold prettify_structure_string
  rw [prettify_round _ pre value rest hpre hval hrest hlen]
  generalize hP : pre ++ "(buffer)".toList = P
  have hP8 : P.length ≥ 8 := by
    rw [← hP, List.length_append]
    show pre.length + 8 ≥ 8
    omega
  obtain ⟨k, hk⟩ : ∃ k, (P ++ value ++ rest).length = k + 1 :=
    ⟨(P ++ value ++ rest).length - 1, by
      simp only [List.length_append]
      omega⟩
  rw [hk]
  by_cases h100 : value.length ≤ 100
  · rw [if_neg (by omega), if_pos h100]
    apply prettify_loop_no_tag
    rw [drop_of_append _ P (value ++ rest) _ (by simp only [List.append_assoc]) rfl]
    exact hnone
  · rw [if_pos (by omega), if_neg h100]
    have hv : value = value.take 94 ++ ((value.drop 94).take 2
        ++ ((value.drop 96).take (value.length - 100) ++ value.drop (value.length - 4))) := by
      have e1 := List.take_append_drop 94 value
      have e2 := List.take_append_drop 2 (value.drop 94)
      have e3 := List.take_append_drop (value.length - 100) (value.drop 96)
      rw [List.drop_drop] at e2 e3
      have e4 : 94 + 2 = 96 := rfl
      have e5 : 96 + (value.length - 100) = value.length - 4 := by omega
      rw [e4] at e2
      rw [e5] at e3
      rw [e3, e2, e1]
    have l1 : (value.take 94).length = 94 := by
      rw [List.length_take]
      omega
    have l2 : ((value.drop 94).take 2).length = 2 := by
      rw [List.length_take, List.length_drop]
      omega
    have l3 : ((value.drop 96).take (value.length - 100)).length = value.length - 100 := by
      rw [List.length_take, List.length_drop]
      omega
    have l4 : (value.drop (value.length - 4)).length = 4 := by
      rw [List.length_drop]
      omega
    generalize value.take 94 = v1 at hv l1 ⊢
    generalize (value.drop 94).take 2 = v2 at hv l2
    generalize (value.drop 96).take (value.length - 100) = v3 at hv l3
    generalize value.drop (value.length - 4) = v4 at hv l4 ⊢
    have hvl : value.length = 94 + 2 + v3.length + 4 := by
      rw [hv]
      simp only [List.length_append, l1, l2, l4]
      omega
    have hstr : P ++ value ++ rest = (P ++ v1) ++ (v2 ++ (v3 ++ (v4 ++ rest))) := by
      rw [hv]
      simp only [List.append_assoc]
    have m1 : memcpy (P ++ value ++ rest) (P.length + 94) "..".toList
        = some ((P ++ v1) ++ ("..".toList ++ (v3 ++ (v4 ++ rest)))) := by
      unfold memcpy
      rw [if_pos (by
        simp only [List.length_append, hvl]
        show P.length + 94 + 2 ≤ _
        omega)]
      rw [take_of_append _ (P ++ v1) (v2 ++ (v3 ++ (v4 ++ rest))) _ hstr
          (by rw [List.length_append, l1]),
        drop_of_append _ (P ++ v1 ++ v2) (v3 ++ (v4 ++ rest)) _
          (by rw [hstr]; simp only [List.append_assoc])
          (by simp only [List.length_append, l1, l2]; rfl)]
      simp only [List.append_assoc]
    rw [m1]
    simp only []
    by_cases h104 : value.length < 104
    · rw [if_pos h104]
      have m2 : memcpy_within ((P ++ v1) ++ ("..".toList ++ (v3 ++ (v4 ++ rest))))
          (P.length + 96) (P.length + value.length - 4) 4 = none := by
        unfold memcpy_within
        rw [if_neg (by omega)]
      rw [m2]
    · rw [if_neg h104]
      have l3b : v3.length ≥ 4 := by omega
      have hv3 := List.take_append_drop 4 v3
      have l3c : (v3.take 4).length = 4 := by
        rw [List.length_take]
        omega
      generalize v3.take 4 = w1 at hv3 l3c
      generalize v3.drop 4 = w2 at hv3
      have l3d : v3.length = 4 + w2.length := by
        rw [← hv3, List.length_append, l3c]
      have hs1 : (P ++ v1) ++ ("..".toList ++ (v3 ++ (v4 ++ rest)))
          = (P ++ v1 ++ "..".toList) ++ (w1 ++ (w2 ++ (v4 ++ rest))) := by
        rw [← hv3]
        simp only [List.append_assoc]
      have m2 : memcpy_within ((P ++ v1) ++ ("..".toList ++ (v3 ++ (v4 ++ rest))))
          (P.length + 96) (P.length + value.length - 4) 4
          = some ((P ++ v1 ++ "..".toList) ++ (v4 ++ (w2 ++ (v4 ++ rest)))) := by
        unfold memcpy_within
        have l5 : "..".toList.length = 2 := rfl
        rw [if_pos (by
          simp only [List.length_append, l1, l4, l5, hvl, l3d]
          refine ⟨?_, ?_, Or.inr ?_⟩ <;> omega)]
        rw [take_of_append _ (P ++ v1 ++ "..".toList) (w1 ++ (w2 ++ (v4 ++ rest))) _ hs1
            (by simp only [List.length_append, l1]; rfl),
          drop_of_append _ (P ++ v1 ++ "..".toList ++ w1 ++ w2) (v4 ++ rest) _
            (by rw [hs1]; simp only [List.append_assoc])
            (by
              simp only [List.length_append, l1, l3c, hvl, l3d]
              show P.length + 94 + 2 + 4 + w2.length = _
              omega),
          take_of_append _ v4 rest 4 rfl l4,
          drop_of_append _ (P ++ v1 ++ "..".toList ++ w1) (w2 ++ (v4 ++ rest)) _
            (by rw [hs1]; simp only [List.append_assoc])
            (by simp only [List.length_append, l1, l3c]; rfl)]
        simp only [List.append_assoc]
      rw [m2]
      simp only []
      rw [take_of_append _ (P ++ v1 ++ "..".toList ++ v4) (w2 ++ (v4 ++ rest)) _
          (by simp only [List.append_assoc])
          (by simp only [List.length_append, l1, l4]; rfl),
        drop_of_append _ (P ++ v1 ++ "..".toList ++ v4 ++ w2 ++ v4) rest _
          (by simp only [List.append_assoc])
          (by
            simp only [List.length_append, l1, l4, hvl, l3d]
            show P.length + 94 + 2 + 4 + w2.length + 4 = _
            omega)]
      apply prettify_loop_no_tag
      rw [drop_of_append _ (P ++ v1 ++ "..".toList ++ v4) rest _ rfl
        (by simp only [List.length_append, l1, l4]; rfl)]
      exact strstr_append_none value rest _ hnone
/-- The loop of `_gst_debug_dump_mem_full` for a length of at most
`2 ^ 32 - 16`: from an offset up to the length it ends and logs one line for
every 16 bytes begun. -/
theorem dump_mem_loop_lines (data : Option (List Nat)) (length : Nat)
    (hlen : length ≤ 2 ^ 32 - 16) (fuel : Nat) :
    ∀ off, off ≤ length → (length - off + 15) / 16 < fuel →
      _gst_debug_dump_mem_full_loop data length fuel off
        = some ((List.range ((length - off + 15) / 16)).map
            (fun k => gst_info_dump_mem_line 128 data (off + 16 * k) (length - (off + 16 * k)))) := by
  induction fuel with
  | zero => intro off _ h; omega
  | succ fuel ih =>
    intro off hoff hf
    unfold _gst_debug_dump_mem_full_loop
    by_cases hlt : off < length
    · rw [if_pos hlt]
      have hw : (off + 16) % 2 ^ 32 = off + 16 := Nat.mod_eq_of_lt (by omega)
      have hs : (length - off) % 2 ^ 32 = length - off := Nat.mod_eq_of_lt (by omega)
      rw [hw, hs]
      by_cases hnext : off + 16 ≤ length
      · rw [ih (off + 16) hnext (by omega)]
        have hn : (length - off + 15) / 16 = (length - (off + 16) + 15) / 16 + 1 := by omega
        rw [hn, List.range_succ_eq_map]
        simp only [Option.map_some', List.map_cons, List.map_map, Nat.mul_zero, Nat.add_zero]
        congr 2
        apply List.map_congr_left
        intro k _
        simp only [Function.comp]
        have e : off + 16 + 16 * k = off + 16 * (k + 1) := by ring
        rw [e]
      · have hz : _gst_debug_dump_mem_full_loop data length fuel (off + 16) = some [] := by
          cases fuel with
          | zero => omega
          | succ f =>
            unfold _gst_debug_dump_mem_full_loop
            rw [if_neg (by omega)]
        rw [hz]
        have hn : (length - off + 15) / 16 = 1 := by omega
        rw [hn]
        rfl
    · rw [if_neg hlt]
      have hn : (length - off + 15) / 16 = 0 := by omega
      rw [hn]
      rfl

/-- The loop of `_gst_debug_dump_mem_full` for the length `2 ^ 32 - 1`: every
offset that is a multiple of 16 and fits a `guint` is below the length, and so
is the offset after it, which has wrapped to 0 behind `2 ^ 32 - 16`. -/
theorem dump_mem_loop_wraps (data : Option (List Nat)) (fuel : Nat) :
    ∀ off, off % 16 = 0 → off < 2 ^ 32 →
      _gst_debug_dump_mem_full_loop data 4294967295 fuel off = none := by
  induction fuel with
  | zero => intro off _ _; rfl
  | succ fuel ih =>
    intro off h16 hlt
    unfold _gst_debug_dump_mem_full_loop
    rw [if_pos (by omega), ih ((off + 16) % 2 ^ 32) (by omega) (Nat.mod_lt _ (by norm_num))]
    rfl

/-- The function `_gst_debug_dump_mem_full` for a length of at most
`2 ^ 32 - 16`: it ends and logs the rule, the message if it is not empty, one
line for every 16 bytes begun, the line `k` made by `gst_info_dump_mem_line`
from the offset `16 * k` and the `length - 16 * k` bytes left, and the rule. -/
theorem dump_mem_full_lines (msg : Option (List Char)) (data : Option (List Nat))
    (length : Nat) (hlen : length ≤ 2 ^ 32 - 16) (fuel : Nat)
    (hf : (length + 15) / 16 < fuel) :
    _gst_debug_dump_mem_full fuel msg data length
      = some (["--------".toList
            ++ "-------------------------------------------------------------------".toList]
          ++ (if msg ≠ none ∧ msg ≠ some [] then [printf_s msg] else [])
          ++ (List.range ((length + 15) / 16)).map
              (fun k => gst_info_dump_mem_line 128 data (16 * k) (length - 16 * k))
          ++ ["--------".toList
            ++ "-------------------------------------------------------------------".toList]) := by
  unfold _gst_debug_dump_mem_full
  rw [dump_mem_loop_lines data length hlen fuel 0 (Nat.zero_le _) hf]
  simp only [Option.map_some', Nat.sub_zero, Nat.zero_add]

/-- Two lines of `gst_info_dump_mem_line` over the 18 bytes of `GStreamer` and
its version, the last of them a line feed. -/
theorem dump_mem_line_at_bytes :
    gst_info_dump_mem_line 128
        (some [71, 83, 116, 114, 101, 97, 109, 101, 114, 32, 49, 46, 50, 52, 46, 48, 33, 10]) 0 18
      = "00000000: 47 53 74 72 65 61 6d 65 72 20 31 2e 32 34 2e 30  GStreamer 1.24.0".toList ∧
    gst_info_dump_mem_line 128
        (some [71, 83, 116, 114, 101, 97, 109, 101, 114, 32, 49, 46, 50, 52, 46, 48, 33, 10]) 16 2
      = ("00000010: 21 0a ".toList ++ List.replicate 43 ' ' ++ "!.".toList
          ++ List.replicate 14 ' ') := by
  decide

/-- On ranges that lie inside the area and do not overlap, the copy from the
first byte on is the copy `memcpy` is defined to make. -/
theorem memcpy_ascending_spec (n : Nat) :
    ∀ (area : List Char) (dst src : Nat), src + n ≤ area.length → dst + n ≤ area.length →
      (src + n ≤ dst ∨ dst + n ≤ src) →
      memcpy_ascending area dst src n
        = area.take dst ++ (area.drop src).take n ++ area.drop (dst + n) := by
  induction n with
  | zero =>
    intro area dst src _ _ _
    simp [memcpy_ascending]
  | succ n ih =>
    intro area dst src hs hd ho
    unfold memcpy_ascending
    rw [ih _ _ _ (by rw [List.length_set]; omega) (by rw [List.length_set]; omega) (by omega)]
    apply List.ext_getElem?
    intro i
    simp only [List.getElem?_append, List.getElem?_take, List.getElem?_drop, List.getElem?_set,
      List.length_take, List.length_drop, List.length_set, List.length_append, List.getD_eq_getElem?_getD]
    have h1 : (dst + 1) ⊓ area.length = dst + 1 := by omega
    have h2 : n ⊓ (area.length - (src + 1)) = n := by omega
    have h3 : dst ⊓ area.length = dst := by omega
    have h4 : (n + 1) ⊓ (area.length - src) = n + 1 := by omega
    have h5 : area[src]? = some (area.get ⟨src, by omega⟩) := List.getElem?_eq_getElem (by omega)
    rw [h1, h2, h3, h4, h5]
    simp only [Option.getD_some]
    by_cases c1 : i < dst
    · rw [if_pos (by omega), if_pos (by omega), if_pos (by omega), if_neg (by omega),
        if_pos (by omega), if_pos c1, if_pos c1]
    · by_cases c2 : i = dst
      · subst c2
        simp only [h5, Nat.sub_self, Nat.add_zero, lt_irrefl, if_false, if_true,
          Nat.lt_add_one, Nat.zero_lt_succ]
        rw [if_pos (by omega), if_pos (show i < area.length by omega),
          if_pos (show i < i + (n + 1) by omega)]
      · by_cases c3 : i < dst + (n + 1)
        · rw [if_pos (by omega), if_neg (by omega), if_pos (by omega), if_neg (by omega),
            if_pos c3, if_neg c1, if_pos (by omega)]
          congr 1
          omega
        · rw [if_neg (by omega), if_neg (by omega), if_neg c3]
          congr 1
          omega

/-- On ranges that lie inside the area and do not overlap, the copy from the
last byte on is the copy `memcpy` is defined to make. -/
theorem memcpy_descending_spec (n : Nat) :
    ∀ (area : List Char) (dst src : Nat), src + n ≤ area.length → dst + n ≤ area.length →
      (src + n ≤ dst ∨ dst + n ≤ src) →
      memcpy_descending area dst src n
        = area.take dst ++ (area.drop src).take n ++ area.drop (dst + n) := by
  induction n with
  | zero =>
    intro area dst src _ _ _
    simp [memcpy_descending]
  | succ n ih =>
    intro area dst src hs hd ho
    unfold memcpy_descending
    rw [ih _ _ _ (by rw [List.length_set]; omega) (by rw [List.length_set]; omega) (by omega)]
    apply List.ext_getElem?
    intro i
    simp only [List.getElem?_append, List.getElem?_take, List.getElem?_drop, List.getElem?_set,
      List.length_take, List.length_drop, List.length_set, List.length_append, List.getD_eq_getElem?_getD]
    have h1 : dst ⊓ area.length = dst := by omega
    have h2 : n ⊓ (area.length - src) = n := by omega
    have h4 : (n + 1) ⊓ (area.length - src) = n + 1 := by omega
    have h5 : area[src + n]? = some (area.get ⟨src + n, by omega⟩) :=
      List.getElem?_eq_getElem (by omega)
    rw [h1, h2, h4, h5]
    simp only [Option.getD_some]
    by_cases c1 : i < dst
    · have a1 : i < dst + n := by omega
      have a2 : ¬ dst + n = i := by omega
      have a3 : i < dst + (n + 1) := by omega
      simp only [a1, a2, a3, c1, if_true, if_false]
    · by_cases c2 : i < dst + n
      · have a1 : i - dst < n := by omega
        have a2 : ¬ dst + n = src + (i - dst) := by omega
        have a3 : i < dst + (n + 1) := by omega
        have a4 : i - dst < n + 1 := by omega
        simp only [a1, a2, a3, a4, c1, c2, if_true, if_false]
      · by_cases c3 : i = dst + n
        · subst c3
          have a1 : dst + n < area.length := by omega
          have a3 : dst + n < dst + (n + 1) := by omega
          have a4 : dst + n - dst < n + 1 := by omega
          have a5 : src + (dst + n - dst) = src + n := by omega
          simp only [a1, a3, a4, a5, c1, c2, h5, Nat.sub_self, Nat.add_zero, if_true, if_false]
        · have a1 : ¬ dst + n = dst + n + (i - (dst + n)) := by omega
          have a3 : ¬ i < dst + (n + 1) := by omega
          simp only [a1, a3, c2, if_false]
          congr 1
          omega

/-- Where `memcpy` between two places of one area has a defined result, the
copies from the first byte on and from the last byte on both give it. -/
theorem memcpy_within_orders (area out : List Char) (dst src n : Nat)
    (h : memcpy_within area dst src n = some out) :
    memcpy_ascending area dst src n = out ∧ memcpy_descending area dst src n = out := by
  unfold memcpy_within at h
  by_cases hb : src + n ≤ area.length ∧ dst + n ≤ area.length ∧ (src + n ≤ dst ∨ dst + n ≤ src)
  · rw [if_pos hb] at h
    simp only [Option.some.injEq] at h
    rw [← h]
    exact ⟨memcpy_ascending_spec n area dst src hb.1 hb.2.1 hb.2.2,
      memcpy_descending_spec n area dst src hb.1 hb.2.1 hb.2.2⟩
  · rw [if_neg hb] at h
    exact absurd h (by simp)

/-! ## The claims -/

/-- C1. Starting from an empty rule list, with every category at the default
threshold, after each step of every sequence of
`gst_debug_set_threshold_for_name`, `gst_debug_unset_threshold_for_name` and
category creations the rule list holds the added rules that were not removed,
most recently added first, and every registered category's threshold is the
level of the first rule of that list whose pattern matches the category name,
and the default threshold when no rule matches. -/
theorem threshold_is_first_matching_rule (P : GPatternOps) (s0 : GstDebugState)
    (h_rules : s0.__level_name = [])
    (h_cats : ∀ c ∈ s0.__categories, c.threshold = s0.__default_level)
    (ops : List RuleOp) (k : Nat) :
    (run_ops P (ops.take k) s0).__level_name = spec_rules P (ops.take k) ∧
    (run_ops P (ops.take k) s0).__default_level = s0.__default_level ∧
    ∀ c ∈ (run_ops P (ops.take k) s0).__categories,
      c.threshold
        = spec_rule_level P (spec_rules P (ops.take k)) s0.__default_level c.name := by
  have h0 : ThresholdsFollowRules P s0 := by
    intro c hc
    rw [h_rules, h_cats c hc]
    rfl
  obtain ⟨h1, h2, h3⟩ := run_ops_follows P (ops.take k) s0 h0
  rw [h_rules] at h2
  refine ⟨h2, h3, ?_⟩
  intro c hc
  have := h1 c hc
  rw [h2, h3] at this
  exact this

/-- C1 at a concrete run: from the initial state, after the first two steps of
`net_ops`. -/
theorem threshold_is_first_matching_rule_witness :
    (gst_debug_initial 0 0 []).__level_name = [] ∧
    (∀ c ∈ (gst_debug_initial 0 0 []).__categories,
      c.threshold = (gst_debug_initial 0 0 []).__default_level) ∧
    ((run_ops glib_pattern (net_ops.take 2) (gst_debug_initial 0 0 [])).__level_name
        = spec_rules glib_pattern (net_ops.take 2) ∧
      (run_ops glib_pattern (net_ops.take 2) (gst_debug_initial 0 0 [])).__default_level
        = (gst_debug_initial 0 0 []).__default_level ∧
      ∀ c ∈ (run_ops glib_pattern (net_ops.take 2) (gst_debug_initial 0 0 [])).__categories,
        c.threshold = spec_rule_level glib_pattern (spec_rules glib_pattern (net_ops.take 2))
          (gst_debug_initial 0 0 []).__default_level c.name) :=
  ⟨rfl, by decide,
    threshold_is_first_matching_rule glib_pattern (gst_debug_initial 0 0 []) rfl (by decide)
      net_ops 2⟩

/-- C2. A log call without a context and with a file, function and format that
are not `NULL` runs every entry of the handler list exactly once, in list
order, when the level is at most the category's threshold, and runs no log
function when the level is above it; this holds for
`gst_debug_log_full_valist` and for `gst_debug_log_literal_full`. -/
theorem log_runs_handlers_iff_level_le_threshold (s : GstDebugState)
    (category : GstDebugCategory) (level : Nat) (file function : List Char) (line : Int)
    (object : Nat) (object_id : Option (List Char)) (format : List Char) (args : List Nat)
    (message_string : List Char) :
    (gst_debug_log_full_valist s (some category) none level (some file) (some function)
        line object object_id (some format) args).map (fun c => (c.func, c.user_data))
      = (if level ≤ gst_debug_category_get_threshold category
          then s.__log_functions.map (fun e => (e.func, e.user_data)) else []) ∧
    (gst_debug_log_literal_full s (some category) none level (some file) (some function)
        line object object_id (some message_string)).map (fun c => (c.func, c.user_data))
      = (if level ≤ gst_debug_category_get_threshold category
          then s.__log_functions.map (fun e => (e.func, e.user_data)) else []) := by
  unfold gst_debug_log_full_valist gst_debug_log_literal_full
  by_cases h : level ≤ gst_debug_category_get_threshold category
  · have h2 : ¬ level > gst_debug_category_get_threshold category := not_lt.mpr h
    simp [h, h2, List.map_map, Function.comp_def]
  · have h2 : level > gst_debug_category_get_threshold category := not_le.mp h
    simp [h, h2]

/-- C3, as stated, fails: the category "net" has the explicit threshold 7;
after `gst_debug_set_threshold_for_name ("src", 3)` the rule list is `src:3`,
which does not match "net", the default threshold is 0, and the threshold of
"net" is still 7. -/
theorem set_threshold_for_name_keeps_override :
    (gst_debug_set_threshold_for_name glib_pattern net_overridden
        (some "src".toList) 3).__level_name = [{ pat := "src".toList, level := 3 }] ∧
    (gst_debug_set_threshold_for_name glib_pattern net_overridden
        (some "src".toList) 3).__categories.map (fun c => (c.name, c.threshold))
      = [("net".toList, 7)] ∧
    spec_rule_level glib_pattern
        (gst_debug_set_threshold_for_name glib_pattern net_overridden
          (some "src".toList) 3).__level_name
        (gst_debug_set_threshold_for_name glib_pattern net_overridden
          (some "src".toList) 3).__default_level "net".toList = 0 ∧
    ¬ (∀ c ∈ (gst_debug_set_threshold_for_name glib_pattern net_overridden
          (some "src".toList) 3).__categories,
        c.threshold = spec_rule_level glib_pattern
          (gst_debug_set_threshold_for_name glib_pattern net_overridden
            (some "src".toList) 3).__level_name
          (gst_debug_set_threshold_for_name glib_pattern net_overridden
            (some "src".toList) 3).__default_level c.name) := by
  decide

/-- C3, amended. After `gst_debug_set_threshold_for_name (pattern, level)` the
new rule is at the head of the rule list, every existing category whose name
the new pattern matches has the threshold `level`, and every other category
keeps the threshold it had; so when every threshold followed the rules before
the call, every threshold follows the full updated list after it. -/
theorem set_threshold_for_name_applies_new_rule (P : GPatternOps) (s : GstDebugState)
    (pattern : List Char) (level : Nat) :
    (gst_debug_set_threshold_for_name P s (some pattern) level).__level_name
      = { pat := pattern, level := level } :: s.__level_name ∧
    (gst_debug_set_threshold_for_name P s (some pattern) level).__categories
      = s.__categories.map (fun c =>
          if P.match_string pattern c.name then { c with threshold := level } else c) ∧
    ((∀ c ∈ s.__categories,
        c.threshold = spec_rule_level P s.__level_name s.__default_level c.name) →
      ∀ c ∈ (gst_debug_set_threshold_for_name P s (some pattern) level).__categories,
        c.threshold = spec_rule_level P
          (gst_debug_set_threshold_for_name P s (some pattern) level).__level_name
          (gst_debug_set_threshold_for_name P s (some pattern) level).__default_level
          c.name) :=
  ⟨(set_for_name_spec P s pattern level).1, (set_for_name_spec P s pattern level).2.1,
    fun h => set_for_name_follows P s (some pattern) level h⟩

/-- C3, amended, at a concrete state: the rule `n*:5` is added after the
category "net" was created. -/
theorem set_threshold_for_name_applies_new_rule_witness :
    (∀ c ∈ (run_ops glib_pattern (net_ops.take 1) (gst_debug_initial 0 0 [])).__categories,
      c.threshold = spec_rule_level glib_pattern
        (run_ops glib_pattern (net_ops.take 1) (gst_debug_initial 0 0 [])).__level_name
        (run_ops glib_pattern (net_ops.take 1) (gst_debug_initial 0 0 [])).__default_level
        c.name) ∧
    (∀ c ∈ (gst_debug_set_threshold_for_name glib_pattern
          (run_ops glib_pattern (net_ops.take 1) (gst_debug_initial 0 0 []))
          (some "n*".toList) 5).__categories,
      c.threshold = spec_rule_level glib_pattern
        (gst_debug_set_threshold_for_name glib_pattern
          (run_ops glib_pattern (net_ops.take 1) (gst_debug_initial 0 0 []))
          (some "n*".toList) 5).__level_name
        (gst_debug_set_threshold_for_name glib_pattern
          (run_ops glib_pattern (net_ops.take 1) (gst_debug_initial 0 0 []))
          (some "n*".toList) 5).__default_level c.name) :=
  ⟨by decide,
    (set_threshold_for_name_applies_new_rule glib_pattern
      (run_ops glib_pattern (net_ops.take 1) (gst_debug_initial 0 0 [])) "n*".toList 5).2.2
      (by decide)⟩

/-- C4. After `gst_debug_unset_threshold_for_name (p)` no rule whose pattern
equals `p` remains, the rule list is the old one without those rules (the
others in their order), the default threshold is unchanged and every
category's threshold is the level of the first remaining rule that matches its
name, or else the default. In the scenario of the specification (no rule, a
default threshold `info` below `debug`, the category "net" created),
`gst_debug_set_threshold_for_name ("net", debug)` gives "net" the threshold
`debug` and a message at `debug` runs every handler, and after
`gst_debug_unset_threshold_for_name ("net")` the threshold is `info` again and
a message at `debug` runs no handler. -/
theorem unset_threshold_for_name_resets (P : GPatternOps) (s : GstDebugState)
    (p : List Char) (s0 : GstDebugState) (info debug : Nat)
    (h_rules : s0.__level_name = []) (h_default : s0.__default_level = info)
    (h_lt : info < debug) :
    ((∀ e ∈ (gst_debug_unset_threshold_for_name P s (some p)).__level_name,
        P.equal e.pat p = false) ∧
      (gst_debug_unset_threshold_for_name P s (some p)).__level_name
        = s.__level_name.filter (fun e => !P.equal e.pat p) ∧
      (gst_debug_unset_threshold_for_name P s (some p)).__default_level
        = s.__default_level ∧
      (gst_debug_unset_threshold_for_name P s (some p)).__categories.map (fun c => c.name)
        = s.__categories.map (fun c => c.name) ∧
      ∀ c ∈ (gst_debug_unset_threshold_for_name P s (some p)).__categories,
        c.threshold = spec_rule_level P
          (gst_debug_unset_threshold_for_name P s (some p)).__level_name
          (gst_debug_unset_threshold_for_name P s (some p)).__default_level c.name) ∧
    ((_gst_debug_get_category_locked (net_raised s0 debug) "net".toList).map
          (fun c => c.threshold) = some debug ∧
      (net_log (net_raised s0 debug) debug).map (fun c => (c.func, c.user_data))
        = s0.__log_functions.map (fun e => (e.func, e.user_data)) ∧
      (_gst_debug_get_category_locked (net_unset s0 debug) "net".toList).map
          (fun c => c.threshold) = some info ∧
      net_log (net_unset s0 debug) debug = []) := by
  obtain ⟨u1, u2, u3, _⟩ := unset_for_name_spec P s p
  have hfollow : ThresholdsFollowRules P (gst_debug_unset_threshold_for_name P s (some p)) :=
    reset_all_follows P _
  refine ⟨⟨?_, u1, u3, ?_, hfollow⟩, net_scenario s0 info debug h_rules h_default h_lt⟩
  · intro e he
    rw [u1] at he
    have := (List.mem_filter.mp he).2
    simpa using this
  · rw [u2, List.map_map]
    rfl

/-- C4 at concrete inputs: the rule `n*` is removed from `net_with_rule`, and
the scenario runs from the initial state with one handler, `info = 4` and
`debug = 5`. -/
theorem unset_threshold_for_name_resets_witness :
    (gst_debug_initial 0 4 [{ func := .user 1, user_data := 0, notify := none }]).__level_name
      = [] ∧
    (gst_debug_initial 0 4
      [{ func := .user 1, user_data := 0, notify := none }]).__default_level = 4 ∧
    4 < 5 ∧
    (gst_debug_unset_threshold_for_name glib_pattern net_with_rule
      (some "n*".toList)).__level_name
      = net_with_rule.__level_name.filter
          (fun e => !glib_pattern.equal e.pat "n*".toList) ∧
    (net_log (net_raised (gst_debug_initial 0 4
        [{ func := .user 1, user_data := 0, notify := none }]) 5) 5).map
        (fun c => (c.func, c.user_data))
      = (gst_debug_initial 0 4
          [{ func := .user 1, user_data := 0, notify := none }]).__log_functions.map
          (fun e => (e.func, e.user_data)) ∧
    net_log (net_unset (gst_debug_initial 0 4
      [{ func := .user 1, user_data := 0, notify := none }]) 5) 5 = [] :=
  ⟨rfl, rfl, by decide,
    (unset_threshold_for_name_resets glib_pattern net_with_rule "n*".toList
      (gst_debug_initial 0 4 [{ func := .user 1, user_data := 0, notify := none }]) 4 5
      rfl rfl (by decide)).1.2.1,
    (unset_threshold_for_name_resets glib_pattern net_with_rule "n*".toList
      (gst_debug_initial 0 4 [{ func := .user 1, user_data := 0, notify := none }]) 4 5
      rfl rfl (by decide)).2.2.1,
    (unset_threshold_for_name_resets glib_pattern net_with_rule "n*".toList
      (gst_debug_initial 0 4 [{ func := .user 1, user_data := 0, notify := none }]) 4 5
      rfl rfl (by decide)).2.2.2.2⟩

/-- C5. `_gst_debug_category_new` is idempotent per name: a second call with
the same name, whatever colour and description it passes, returns the category
the first call returned, adds no entry to the category list and leaves that
category's record (colour, description, threshold) as it was; in any state in
which the name is listed the listed category is returned and the list is left
alone; and when the name is not yet listed, the first call puts in front of the
list a category whose threshold is the level of the first matching rule, or
else the default threshold. -/
theorem category_new_idempotent (P : GPatternOps) (s : GstDebugState) (name : List Char)
    (color : Nat) (description : Option (List Char)) (color2 : Nat)
    (description2 : Option (List Char)) :
    (_gst_debug_category_new P
        (_gst_debug_category_new P s (some name) color description).1
        (some name) color2 description2).2
      = (_gst_debug_category_new P s (some name) color description).2 ∧
    (_gst_debug_category_new P
        (_gst_debug_category_new P s (some name) color description).1
        (some name) color2 description2).1.__categories
      = (_gst_debug_category_new P s (some name) color description).1.__categories ∧
    (∃ cat, (_gst_debug_category_new P s (some name) color description).2 = some cat ∧
      cat.name = name ∧
      cat ∈ (_gst_debug_category_new P s (some name) color description).1.__categories ∧
      _gst_debug_get_category_locked
        (_gst_debug_category_new P
          (_gst_debug_category_new P s (some name) color description).1
          (some name) color2 description2).1 name = some cat) ∧
    (∀ catfound, _gst_debug_get_category_locked s name = some catfound →
      (_gst_debug_category_new P s (some name) color description).2 = some catfound ∧
      (_gst_debug_category_new P s (some name) color description).1.__categories
        = s.__categories) ∧
    (_gst_debug_get_category_locked s name = none →
      (_gst_debug_category_new P s (some name) color description).2
        = some
          { name := name, color := color,
            description := description.getD "no description".toList,
            threshold := spec_rule_level P s.__level_name s.__default_level name } ∧
      (_gst_debug_category_new P s (some name) color description).1.__categories
        = { name := name, color := color,
            description := description.getD "no description".toList,
            threshold := spec_rule_level P s.__level_name s.__default_level name }
          :: s.__categories) := by
  obtain ⟨cat, h1, h2⟩ := category_new_listed P s name color description
  obtain ⟨b0, _⟩ := category_new_spec P
    (_gst_debug_category_new P s (some name) color description).1 name color2 description2
  rw [h2] at b0
  obtain ⟨a0, _⟩ := category_new_spec P s name color description
  refine ⟨by rw [b0.2, h1], b0.1, ⟨cat, h1, (get_category_name _ _ _ h2).1,
    (get_category_name _ _ _ h2).2, ?_⟩, ?_, ?_⟩
  · unfold _gst_debug_get_category_locked at h2 ⊢
    rw [b0.1]
    exact h2
  · intro catfound hf
    rw [hf] at a0
    exact ⟨a0.2, a0.1⟩
  · intro hf
    rw [hf] at a0
    exact ⟨a0.2, a0.1⟩

/-- C5 at a concrete state: "net" is created twice from the initial state, and
once more in a state that lists it. -/
theorem category_new_idempotent_witness :
    _gst_debug_get_category_locked (gst_debug_initial 0 4 []) "net".toList = none ∧
    (_gst_debug_category_new glib_pattern (gst_debug_initial 0 4 []) (some "net".toList) 1
        (some "network".toList)).2
      = some { name := "net".toList, color := 1, description := "network".toList,
               threshold := 4 } ∧
    _gst_debug_get_category_locked net_with_rule "net".toList
      = some { name := "net".toList, color := 0, description := "no description".toList,
               threshold := 5 } ∧
    (_gst_debug_category_new glib_pattern net_with_rule (some "net".toList) 1
        (some "network".toList)).2
      = some { name := "net".toList, color := 0, description := "no description".toList,
               threshold := 5 } :=
  ⟨by decide,
    ((category_new_idempotent glib_pattern (gst_debug_initial 0 4 []) "net".toList 1
      (some "network".toList) 2 none).2.2.2.2 (by decide)).1,
    by decide,
    ((category_new_idempotent glib_pattern net_with_rule "net".toList 1
      (some "network".toList) 2 none).2.2.2.1 _ (by decide)).1⟩

/-- C6. After `gst_debug_category_set_threshold (cat, level)` the category's
threshold is `level` (its name, colour and description are unchanged) and
`_gst_debug_min` is the maximum of its old value and `level`; when `cat` is
the category at position `i` of the list, every other category of the list is
unchanged, and for any category record, listed or not, the category list is
not touched. -/
theorem category_set_threshold_effect (s : GstDebugState) (i : Nat) (level : Nat)
    (cat : GstDebugCategory) (h : s.__categories[i]? = some cat) :
    (gst_debug_category_set_threshold_at s i level).__categories[i]?
      = some { cat with threshold := level } ∧
    (gst_debug_category_set_threshold_at s i level)._gst_debug_min
      = max s._gst_debug_min level ∧
    (∀ j, j ≠ i →
      (gst_debug_category_set_threshold_at s i level).__categories[j]?
        = s.__categories[j]?) ∧
    (gst_debug_category_set_threshold_at s i level).__categories.length
      = s.__categories.length ∧
    (∀ other : GstDebugCategory,
      (gst_debug_category_set_threshold s other level).2 = { other with threshold := level } ∧
      (gst_debug_category_set_threshold s other level).1._gst_debug_min
        = max s._gst_debug_min level ∧
      (gst_debug_category_set_threshold s other level).1.__categories = s.__categories) := by
  obtain ⟨a1, a2, _⟩ := set_threshold_at_spec s i level cat h
  have hi : i < s.__categories.length := by
    by_contra hn
    rw [List.getElem?_eq_none (not_lt.mp hn)] at h
    exact Option.noConfusion h
  refine ⟨?_, a2, ?_, ?_, fun other => ⟨set_threshold_snd s other level,
    set_threshold_min s other level, (set_threshold_raised s other level).2.2.1⟩⟩
  · rw [a1]
    simp [hi]
  · intro j hj
    rw [a1]
    simp [List.getElem?_set, Ne.symm hj]
  · rw [a1]
    simp

/-- C6 at a concrete state: the category "net" of `net_with_rule` (threshold 5,
`_gst_debug_min` 5) is given the threshold 3. -/
theorem category_set_threshold_effect_witness :
    net_with_rule.__categories[0]?
      = some { name := "net".toList, color := 0, description := "no description".toList,
               threshold := 5 } ∧
    (gst_debug_category_set_threshold_at net_with_rule 0 3).__categories[0]?
      = some { name := "net".toList, color := 0, description := "no description".toList,
               threshold := 3 } ∧
    (gst_debug_category_set_threshold_at net_with_rule 0 3)._gst_debug_min
      = max net_with_rule._gst_debug_min 3 :=
  ⟨by decide,
    (category_set_threshold_effect net_with_rule 0 3
      { name := "net".toList, color := 0, description := "no description".toList,
        threshold := 5 } (by decide)).1,
    (category_set_threshold_effect net_with_rule 0 3
      { name := "net".toList, color := 0, description := "no description".toList,
        threshold := 5 } (by decide)).2.1⟩

/-- C7. No run of category operations (creation, an explicit threshold, a
reset, a rule added or removed, a new default threshold), whatever categories,
levels and patterns it uses, changes `_gst_debug_enabled` from `TRUE` to
`FALSE` or decreases `_gst_debug_min`; the same holds for
`gst_debug_category_set_threshold` and `gst_debug_category_reset_threshold` on
any category record, listed or not. -/
theorem tracker_never_lowered (P : GPatternOps) (s : GstDebugState)
    (ops : List CategoryOp) (cat : GstDebugCategory) (level : Nat) :
    ((s._gst_debug_enabled = true →
        (ops.foldl (CategoryOp.run P) s)._gst_debug_enabled = true) ∧
      s._gst_debug_min ≤ (ops.foldl (CategoryOp.run P) s)._gst_debug_min) ∧
    ((s._gst_debug_enabled = true →
        (gst_debug_category_set_threshold s cat level).1._gst_debug_enabled = true) ∧
      s._gst_debug_min ≤ (gst_debug_category_set_threshold s cat level).1._gst_debug_min) ∧
    ((s._gst_debug_enabled = true →
        (gst_debug_category_reset_threshold P s cat).1._gst_debug_enabled = true) ∧
      s._gst_debug_min ≤ (gst_debug_category_reset_threshold P s cat).1._gst_debug_min) :=
  ⟨category_ops_raised P ops s,
    ⟨(set_threshold_raised s cat level).2.2.2.2.1, (set_threshold_raised s cat level).2.2.2.2.2⟩,
    ⟨(reset_threshold_raised P s cat).2.2.2.2.1, (reset_threshold_raised P s cat).2.2.2.2.2⟩⟩

/-- C7 at a concrete run: in `net_with_rule` (enabled, `_gst_debug_min` 5) the
threshold of "net" is lowered to 1, the rule removed and the default threshold
set to 0; the tracker stays enabled and at 5. -/
theorem tracker_never_lowered_witness :
    net_with_rule._gst_debug_enabled = true ∧
    ([CategoryOp.category_set_threshold 0 1, .unset_threshold_for_name (some "n*".toList),
        .set_default_threshold 0].foldl (CategoryOp.run glib_pattern)
        net_with_rule)._gst_debug_enabled = true ∧
    net_with_rule._gst_debug_min ≤
      ([CategoryOp.category_set_threshold 0 1, .unset_threshold_for_name (some "n*".toList),
        .set_default_threshold 0].foldl (CategoryOp.run glib_pattern)
        net_with_rule)._gst_debug_min :=
  ⟨by decide,
    (tracker_never_lowered glib_pattern net_with_rule
      [CategoryOp.category_set_threshold 0 1, .unset_threshold_for_name (some "n*".toList),
        .set_default_threshold 0]
      { name := [], color := 0, description := [], threshold := 0 } 0).1.1 (by decide),
    (tracker_never_lowered glib_pattern net_with_rule
      [CategoryOp.category_set_threshold 0 1, .unset_threshold_for_name (some "n*".toList),
        .set_default_threshold 0]
      { name := [], color := 0, description := [], threshold := 0 } 0).1.2⟩

/-- C8, as stated, fails: in `net_with_rule` the rule `n*:5` matches the
category "net", and after `gst_debug_set_default_threshold (2)` the default
threshold is 2 while the threshold of "net" is 5. -/
theorem set_default_threshold_keeps_rule_level :
    gst_debug_get_default_threshold
        (gst_debug_set_default_threshold glib_pattern net_with_rule 2) = 2 ∧
    (gst_debug_set_default_threshold glib_pattern net_with_rule 2).__categories.map
        (fun c => (c.name, c.threshold)) = [("net".toList, 5)] ∧
    ¬ (∀ c ∈ (gst_debug_set_default_threshold glib_pattern net_with_rule 2).__categories,
        c.threshold = 2) := by
  decide

/-- C8, amended. After `gst_debug_set_default_threshold (level)` the value
returned by `gst_debug_get_default_threshold` is `level`, the rule list is
unchanged, and every existing category's threshold is the level of the first
rule that matches its name, or `level` when no rule matches; so every
category's threshold is `level` when no rule is installed. -/
theorem set_default_threshold_effect (P : GPatternOps) (s : GstDebugState) (level : Nat) :
    gst_debug_get_default_threshold (gst_debug_set_default_threshold P s level) = level ∧
    (gst_debug_set_default_threshold P s level).__level_name = s.__level_name ∧
    (gst_debug_set_default_threshold P s level).__categories
      = s.__categories.map (fun c =>
          { c with threshold := spec_rule_level P s.__level_name level c.name }) ∧
    (s.__level_name = [] →
      ∀ c ∈ (gst_debug_set_default_threshold P s level).__categories,
        c.threshold = level) := by
  obtain ⟨a1, a2, a3, _⟩ := reset_all_spec P { s with __default_level := level }
  refine ⟨a3, a2, a1, ?_⟩
  intro hr c hc
  have hc2 : c ∈ (gst_debug_reset_all_thresholds P
      { s with __default_level := level }).__categories := hc
  rw [a1] at hc2
  obtain ⟨c0, _, rfl⟩ := List.mem_map.mp hc2
  show spec_rule_level P s.__level_name level c0.name = level
  rw [hr]
  rfl

/-- C8, amended, at a concrete state: the category "net" exists and no rule is
installed. -/
theorem set_default_threshold_effect_witness :
    (run_ops glib_pattern (net_ops.take 1) (gst_debug_initial 0 0 [])).__level_name = [] ∧
    ∀ c ∈ (gst_debug_set_default_threshold glib_pattern
        (run_ops glib_pattern (net_ops.take 1) (gst_debug_initial 0 0 [])) 3).__categories,
      c.threshold = 3 :=
  ⟨by decide,
    (set_default_threshold_effect glib_pattern
      (run_ops glib_pattern (net_ops.take 1) (gst_debug_initial 0 0 [])) 3).2.2.2
      (by decide)⟩

/-- C9. After `gst_debug_set_threshold_from_string (list, TRUE)` the category
list is the old one with new thresholds, and each category's threshold is the
level of the rightmost well-formed `pattern:level` element of `list` whose
pattern matches the category name; when no such element matches it is the
level of the last well-formed bare-level element, and otherwise
`GST_LEVEL_DEFAULT`. For the list `foosrc:6,*src:3,*:2` of the documentation
every category gets the threshold 2. -/
theorem threshold_from_string_rightmost_wins (P : GPatternOps) (L : GstDebugLevelDecl)
    (s : GstDebugState) (list : List Char) :
    (gst_debug_set_threshold_from_string P L s list true).__categories
      = s.__categories.map (fun c =>
          { c with threshold := spec_string_level P L list c.name }) ∧
    (∀ c ∈ (gst_debug_set_threshold_from_string P L s list true).__categories,
      c.threshold = spec_string_level P L list c.name) ∧
    (∀ c ∈ (gst_debug_set_threshold_from_string glib_pattern L s
        "foosrc:6,*src:3,*:2".toList true).__categories, c.threshold = 2) := by
  refine ⟨from_string_reset_spec P L s list, ?_, ?_⟩
  · intro c hc
    rw [from_string_reset_spec] at hc
    obtain ⟨c0, _, rfl⟩ := List.mem_map.mp hc
    rfl
  · intro c hc
    rw [from_string_reset_spec] at hc
    obtain ⟨c0, _, rfl⟩ := List.mem_map.mp hc
    exact spec_string_level_example L c0.name

/-- C9 at a concrete state: the list `foosrc:5, *src:3 ,4,bar:x` gives "bar"
(listed first, with the earlier rule `bar:9` cleared) the bare level 4 and
"foosrc" the level 3 of the rightmost matching pattern. -/
theorem threshold_from_string_rightmost_wins_witness :
    (gst_debug_set_threshold_from_string glib_pattern spec_levels src_and_bar
        "foosrc:5, *src:3 ,4,bar:x".toList true).__categories.map
        (fun c => (c.name, c.threshold))
      = [("bar".toList, 4), ("foosrc".toList, 3)] := by
  rw [(threshold_from_string_rightmost_wins glib_pattern spec_levels src_and_bar
    "foosrc:5, *src:3 ,4,bar:x".toList).1]
  decide

/-- C10. `gst_debug_add_log_function (func, data, notify)` puts the new entry
at the head of the handler list, with `gst_debug_log_default` in place of a
`NULL` function, and keeps the existing entries behind it in their order,
whether or not an equal entry is already listed; a dispatch of an accepted
message runs the entries in list order, the new one first, and runs a
function/data pair as many times as the list holds it. -/
theorem add_log_function_prepends (s : GstDebugState) (func : Option GstLogFunction)
    (user_data : Nat) (notify : Option Nat) (category : GstDebugCategory) (level : Nat)
    (file function : List Char) (line : Int) (object : Nat)
    (object_id : Option (List Char)) (format : List Char) (args : List Nat)
    (h : level ≤ gst_debug_category_get_threshold category) :
    (gst_debug_add_log_function s func user_data notify).__log_functions
      = { func := func.getD GstLogFunction.gst_debug_log_default, user_data := user_data,
          notify := notify } :: s.__log_functions ∧
    (gst_debug_log_full_valist (gst_debug_add_log_function s func user_data notify)
        (some category) none level (some file) (some function) line object object_id
        (some format) args).map (fun c => (c.func, c.user_data))
      = (func.getD GstLogFunction.gst_debug_log_default, user_data)
        :: (gst_debug_log_full_valist s (some category) none level (some file)
            (some function) line object object_id (some format) args).map
            (fun c => (c.func, c.user_data)) ∧
    (gst_debug_log_full_valist (gst_debug_add_log_function s func user_data notify)
        (some category) none level (some file) (some function) line object object_id
        (some format) args).map (fun c => (c.func, c.user_data))
      = (gst_debug_add_log_function s func user_data notify).__log_functions.map
          (fun e => (e.func, e.user_data)) ∧
    (∀ (f : GstLogFunction) (d : Nat),
      ((gst_debug_log_full_valist (gst_debug_add_log_function s func user_data notify)
          (some category) none level (some file) (some function) line object object_id
          (some format) args).map (fun c => (c.func, c.user_data))).count (f, d)
        = ((gst_debug_add_log_function s func user_data notify).__log_functions.map
            (fun e => (e.func, e.user_data))).count (f, d)) := by
  have h2 : ¬ level > gst_debug_category_get_threshold category := not_lt.mpr h
  have hl : (gst_debug_add_log_function s func user_data notify).__log_functions
      = { func := func.getD GstLogFunction.gst_debug_log_default, user_data := user_data,
          notify := notify } :: s.__log_functions := by
    unfold gst_debug_add_log_function
    cases func <;> rfl
  have hd : ∀ s1 : GstDebugState,
      (gst_debug_log_full_valist s1 (some category) none level (some file) (some function)
        line object object_id (some format) args).map (fun c => (c.func, c.user_data))
        = s1.__log_functions.map (fun e => (e.func, e.user_data)) := by
    intro s1
    unfold gst_debug_log_full_valist
    simp [h2, List.map_map, Function.comp_def]
  refine ⟨hl, ?_, hd _, fun f d => by rw [hd]⟩
  rw [hd, hd, hl]
  rfl

/-- C10 at a concrete state: the pair (`user 1`, 7) is added twice to the
initial state, and a message at level 3 on a category with threshold 4 runs it
twice. -/
theorem add_log_function_prepends_witness :
    (3 : Nat) ≤ gst_debug_category_get_threshold
      { name := "net".toList, color := 0, description := [], threshold := 4 } ∧
    ((gst_debug_log_full_valist
        (gst_debug_add_log_function
          (gst_debug_add_log_function (gst_debug_initial 0 0 []) (some (.user 1)) 7 none)
          (some (.user 1)) 7 none)
        (some { name := "net".toList, color := 0, description := [], threshold := 4 })
        none 3 (some []) (some []) 0 0 none (some []) []).map
        (fun c => (c.func, c.user_data))).count (GstLogFunction.user 1, 7) = 2 :=
  ⟨by decide,
    ((add_log_function_prepends
      (gst_debug_add_log_function (gst_debug_initial 0 0 []) (some (.user 1)) 7 none)
      (some (.user 1)) 7 none
      { name := "net".toList, color := 0, description := [], threshold := 4 } 3
      [] [] 0 0 none [] [] (by decide)).2.2.2 (.user 1) 7).trans (by decide)⟩

/-- C11. `gst_debug_remove_log_function_by_data (d)` returns the number of
entries whose user data is `d`, leaves exactly the other entries, in their
order, and touches nothing else; it calls the destroy notify of each removed
entry that has one exactly once, with that entry's user data (the calls are
those of the removed entries, last removed first), and so makes no call for an
entry that stays. -/
theorem remove_by_data_removes_matching (s : GstDebugState) (d : Nat) :
    (gst_debug_remove_log_function_by_data s d).2.1
      = (s.__log_functions.filter (fun e => decide (e.user_data = d))).length ∧
    (gst_debug_remove_log_function_by_data s d).1
      = { s with __log_functions :=
            (s.__log_functions.filter (fun e => !decide (e.user_data = d))) } ∧
    (gst_debug_remove_log_function_by_data s d).2.2
      = ((s.__log_functions.filter (fun e => decide (e.user_data = d))).reverse).filterMap
          (fun e => e.notify.map (fun n => (n, e.user_data))) ∧
    (∀ n : Nat, (gst_debug_remove_log_function_by_data s d).2.2.count (n, d)
      = (s.__log_functions.filter
          (fun e => decide (e.notify = some n ∧ e.user_data = d))).length) ∧
    (∀ call ∈ (gst_debug_remove_log_function_by_data s d).2.2, call.2 = d) := by
  have h := remove_with_compare_func_spec s
    (fun entry => gst_debug_compare_log_function_by_data entry d)
  have hr : gst_debug_remove_log_function_by_data s d
      = ({ s with __log_functions :=
            (s.__log_functions.filter (fun e => !decide (e.user_data = d))) },
          (s.__log_functions.filter (fun e => decide (e.user_data = d))).length,
          ((s.__log_functions.filter (fun e => decide (e.user_data = d))).reverse).filterMap
            (fun e => e.notify.map (fun n => (n, e.user_data)))) := h
  rw [hr]
  refine ⟨rfl, rfl, rfl, ?_, ?_⟩
  · intro n
    simp only
    rw [notify_calls_count, List.filter_reverse, List.length_reverse, List.filter_filter]
    congr 1
    apply List.filter_congr
    intro e _
    by_cases h1 : e.user_data = d <;> simp [h1]
  · intro call hc
    simp only [List.mem_filterMap, List.mem_reverse, List.mem_filter] at hc
    obtain ⟨e, ⟨_, he⟩, hm⟩ := hc
    cases hn : e.notify with
    | none => rw [hn] at hm; exact Option.noConfusion hm
    | some n =>
      rw [hn] at hm
      simp only [Option.map_some', Option.some.injEq] at hm
      rw [← hm]
      exact of_decide_eq_true he

/-- C11 at a concrete list: four entries, three with the user data 7, two of
them with a destroy notify. -/
theorem remove_by_data_removes_matching_witness :
    gst_debug_remove_log_function_by_data
        (gst_debug_initial 0 0
          [{ func := .user 1, user_data := 7, notify := some 3 },
           { func := .user 2, user_data := 8, notify := some 4 },
           { func := .user 3, user_data := 7, notify := none },
           { func := .user 4, user_data := 7, notify := some 5 }]) 7
      = (gst_debug_initial 0 0 [{ func := .user 2, user_data := 8, notify := some 4 }],
          3, [(5, 7), (3, 7)]) := by
  have h := remove_by_data_removes_matching
    (gst_debug_initial 0 0
      [{ func := .user 1, user_data := 7, notify := some 3 },
       { func := .user 2, user_data := 8, notify := some 4 },
       { func := .user 3, user_data := 7, notify := none },
       { func := .user 4, user_data := 7, notify := some 5 }]) 7
  refine Prod.ext ?_ (Prod.ext ?_ ?_)
  · rw [h.2.1]; decide
  · rw [h.1]; decide
  · rw [h.2.2.1]; decide

/-- C12, as stated, fails: before the library is initialised, with an empty
handler list, `gst_debug_remove_log_function (NULL)` removes no entry and
returns 1. -/
theorem remove_log_function_counts_default_before_init :
    (gst_debug_initial 0 0 []).__log_functions = [] ∧
    (gst_debug_remove_log_function (gst_debug_initial 0 0 []) false none).1.__log_functions
      = [] ∧
    (gst_debug_remove_log_function (gst_debug_initial 0 0 []) false none).2.1 = 1 := by
  rw [remove_log_function_spec]
  decide

/-- C12, amended. `gst_debug_remove_log_function (f)`, with `NULL` standing for
the default log function, removes all entries registered with `f`, keeps the
others in order, and returns the number of entries removed from the list, plus
one when the library is not initialised and `f` is the default log function;
in that case it also clears `add_default_log_func`, and otherwise leaves it as
it was. -/
theorem remove_log_function_effect (s : GstDebugState) (initialized : Bool)
    (func : Option GstLogFunction) :
    (gst_debug_remove_log_function s initialized func).1.__log_functions
      = s.__log_functions.filter
          (fun e => !decide (e.func = func.getD GstLogFunction.gst_debug_log_default)) ∧
    (gst_debug_remove_log_function s initialized func).2.1
      = (s.__log_functions.filter
          (fun e => decide (e.func = func.getD GstLogFunction.gst_debug_log_default))).length
        + (if initialized = false ∧
            func.getD GstLogFunction.gst_debug_log_default
              = GstLogFunction.gst_debug_log_default then 1 else 0) ∧
    (gst_debug_remove_log_function s initialized func).1.add_default_log_func
      = (if initialized = false ∧
            func.getD GstLogFunction.gst_debug_log_default
              = GstLogFunction.gst_debug_log_default then false
          else s.add_default_log_func) := by
  rw [remove_log_function_spec]
  split <;> exact ⟨rfl, rfl, rfl⟩

/-- C12, amended, at a concrete list: the default log function is listed twice
and removed once before and once after initialisation. -/
theorem remove_log_function_effect_witness :
    (gst_debug_remove_log_function
        (gst_debug_initial 0 0
          [{ func := .gst_debug_log_default, user_data := 1, notify := none },
           { func := .user 2, user_data := 8, notify := none },
           { func := .gst_debug_log_default, user_data := 2, notify := none }])
        false none).2.1 = 3 ∧
    (gst_debug_remove_log_function
        (gst_debug_initial 0 0
          [{ func := .gst_debug_log_default, user_data := 1, notify := none },
           { func := .user 2, user_data := 8, notify := none },
           { func := .gst_debug_log_default, user_data := 2, notify := none }])
        true none).2.1 = 2 :=
  ⟨(remove_log_function_effect _ false none).2.1.trans (by decide),
    (remove_log_function_effect _ true none).2.1.trans (by decide)⟩

/-- C13, as stated, fails: when `__gst_vasprintf` gives a negative length no
text is stored, and a log function that calls `gst_debug_message_get` twice
makes the format be rendered twice. -/
theorem message_rendered_again_after_failure :
    gst_debug_log_full_valist_render (fun _ _ => none) [2]
        (gst_debug_log_full_valist_message 0 none "%".toList [])
      = (gst_debug_log_full_valist_message 0 none "%".toList [], [none, none], 2) := by
  decide

/-- C13, amended. Within one dispatch of a formatted message to any number of
log functions the format is rendered zero times when no log function calls
`gst_debug_message_get`; when some do and the rendering succeeds, it is
rendered exactly once: the first call stores the text and every call of the
dispatch returns that text; when the rendering fails nothing is stored, every
call renders again and returns `NULL`. -/
theorem message_rendered_lazily_once
    (vasprintf : Option (List Char) → List Nat → Option (List Char)) (gets : List Nat)
    (object : Nat) (object_id : Option (List Char)) (format : List Char) (args : List Nat) :
    (gets.sum = 0 →
      gst_debug_log_full_valist_render vasprintf gets
          (gst_debug_log_full_valist_message object object_id format args)
        = (gst_debug_log_full_valist_message object object_id format args, [], 0)) ∧
    (∀ text, vasprintf (some format) args = some text → 0 < gets.sum →
      (gst_debug_log_full_valist_render vasprintf gets
          (gst_debug_log_full_valist_message object object_id format args)).2.2 = 1 ∧
      (gst_debug_log_full_valist_render vasprintf gets
          (gst_debug_log_full_valist_message object object_id format args)).2.1
        = List.replicate gets.sum (some text) ∧
      (gst_debug_log_full_valist_render vasprintf gets
          (gst_debug_log_full_valist_message object object_id format args)).1.message
        = some text) ∧
    (vasprintf (some format) args = none →
      (gst_debug_log_full_valist_render vasprintf gets
          (gst_debug_log_full_valist_message object object_id format args)).2.2 = gets.sum ∧
      (gst_debug_log_full_valist_render vasprintf gets
          (gst_debug_log_full_valist_message object object_id format args)).2.1
        = List.replicate gets.sum none) := by
  refine ⟨fun h => render_no_get vasprintf gets _ h, fun text hv hpos => ?_, fun hv => ?_⟩
  · rw [render_success vasprintf text gets _ rfl hv hpos]
    exact ⟨rfl, rfl, rfl⟩
  · rw [render_failure vasprintf gets _ rfl hv]
    exact ⟨rfl, rfl⟩

/-- C13, amended, at a concrete dispatch: three log functions, the first
calling `gst_debug_message_get` twice, the second not at all, the third once,
with a renderer that returns the format. -/
theorem message_rendered_lazily_once_witness :
    (fun (f : Option (List Char)) (_ : List Nat) => f) (some "x".toList) [] = some "x".toList ∧
    0 < [2, 0, 1].sum ∧
    (gst_debug_log_full_valist_render (fun f _ => f) [2, 0, 1]
        (gst_debug_log_full_valist_message 0 none "x".toList [])).2.2 = 1 ∧
    (gst_debug_log_full_valist_render (fun f _ => f) [2, 0, 1]
        (gst_debug_log_full_valist_message 0 none "x".toList [])).2.1
      = List.replicate [2, 0, 1].sum (some "x".toList) :=
  ⟨rfl, by decide,
    ((message_rendered_lazily_once (fun f _ => f) [2, 0, 1] 0 none "x".toList []).2.1
      "x".toList rfl (by decide)).1,
    ((message_rendered_lazily_once (fun f _ => f) [2, 0, 1] 0 none "x".toList []).2.1
      "x".toList rfl (by decide)).2.1⟩

/-- C14 fails on the code: `ctx_plain_10` has no throttle flag and the reset
interval 10; its first check, at time 100, returns `TRUE` but records the
reset time 100, and its second check, at time 105, returns `FALSE`, for the
literal check and for the formatted one. -/
theorem unthrottled_check_rejected_in_window :
    flag_test ctx_plain_10.flags spec_context_decl.GST_LOG_CONTEXT_FLAG_THROTTLE = false ∧
    ctx_plain_10.last_reset_time = spec_context_decl.GST_CLOCK_TIME_NONE ∧
    (net_check 100 12 "sent").run spec_context_decl ctx_plain_10
      = ({ ctx_plain_10 with last_reset_time := 100 }, true) ∧
    (net_check 105 12 "sent").run spec_context_decl
        ((net_check 100 12 "sent").run spec_context_decl ctx_plain_10).1
      = ({ ctx_plain_10 with last_reset_time := 100 }, false) ∧
    _gst_log_ctx_check_id_valist spec_context_decl
        ((net_check 100 12 "sent").run spec_context_decl ctx_plain_10).1
        105 105 (some "net.c".toList) 12 0 none (some "sent %d".toList) [1]
      = some ({ ctx_plain_10 with last_reset_time := 100 }, false) := by
  decide

/-- C15 fails on the code: `ctx_throttle_10` throttles with the reset
interval 10; after a first check at time 100 (reset time 100, one key in the
table) a check of another message at time 105, five units into the interval
and with a key that is not in the table, returns `FALSE` and leaves the table
as it was, so the key is not in it afterwards. -/
theorem new_key_rejected_in_window :
    flag_test ctx_throttle_10.flags spec_context_decl.GST_LOG_CONTEXT_FLAG_THROTTLE = true ∧
    ((net_check 100 12 "sent").run spec_context_decl ctx_throttle_10).1.last_reset_time
      = 100 ∧
    GST_CLOCK_DIFF 100 105 = 5 ∧
    (net_check 105 13 "received").key spec_context_decl
        ((net_check 100 12 "sent").run spec_context_decl ctx_throttle_10).1
      ∉ ((net_check 100 12 "sent").run spec_context_decl
          ctx_throttle_10).1.logged_messages ∧
    (net_check 105 13 "received").run spec_context_decl
        ((net_check 100 12 "sent").run spec_context_decl ctx_throttle_10).1
      = (((net_check 100 12 "sent").run spec_context_decl ctx_throttle_10).1, false) ∧
    (net_check 105 13 "received").key spec_context_decl
        ((net_check 100 12 "sent").run spec_context_decl ctx_throttle_10).1
      ∉ ((net_check 105 13 "received").run spec_context_decl
          ((net_check 100 12 "sent").run spec_context_decl
            ctx_throttle_10).1).1.logged_messages := by
  decide

/-- C16, as stated, fails: on a fresh context whose hash flags combine
`GST_LOG_CONTEXT_USE_STRING_ARGS` (16) with `GST_LOG_CONTEXT_IGNORE_FORMAT` (4)
the first formatted check stops at the assertion of
`_gst_log_ctx_get_id_valist` and returns nothing. -/
theorem first_formatted_check_asserts :
    _gst_log_ctx_check_id_valist spec_context_decl
        (gst_log_context_builder_build spec_context_decl
          { hash_flags := 20, flags := 0, category := none, interval := 0 })
        100 100 (some "net.c".toList) 12 0 none (some "sent %d".toList) [1]
      = none := by
  decide

/-- C16, amended. On every context freshly produced by
`gst_log_context_builder_build`, whatever its hash flags, throttle flag and
interval, the first literal check of any message returns `TRUE`; the first
formatted check returns `TRUE` too, unless the hash flags combine
`GST_LOG_CONTEXT_USE_STRING_ARGS` with `GST_LOG_CONTEXT_IGNORE_FORMAT`, in which
case it stops at the assertion of `_gst_log_ctx_get_id_valist`. -/
theorem first_check_accepted (D : GstLogContextDecl) (builder : GstLogContextBuilder)
    (now now_reset : Nat) (file : Option (List Char)) (line : Int) (object : Nat)
    (id : Option (List Char)) (message : Option (List Char)) (format : Option (List Char))
    (args : List Nat) :
    (_gst_log_ctx_check_id_literal D (gst_log_context_builder_build D builder) now now_reset
        file line object id message).2 = true ∧
    ((flag_test builder.hash_flags D.GST_LOG_CONTEXT_USE_STRING_ARGS &&
        flag_test builder.hash_flags D.GST_LOG_CONTEXT_IGNORE_FORMAT) = false →
      (_gst_log_ctx_check_id_valist D (gst_log_context_builder_build D builder) now now_reset
        file line object id format args).map (fun r => r.2) = some true) ∧
    ((flag_test builder.hash_flags D.GST_LOG_CONTEXT_USE_STRING_ARGS &&
        flag_test builder.hash_flags D.GST_LOG_CONTEXT_IGNORE_FORMAT) = true →
      _gst_log_ctx_check_id_valist D (gst_log_context_builder_build D builder) now now_reset
        file line object id format args = none) := by
  refine ⟨first_literal_check D _ now now_reset file line object id message rfl rfl,
    fun h => ?_, fun h => ?_⟩
  · rw [check_valist_eq_literal D _ now now_reset file line object id format args h]
    simp only [Option.map_some', Option.some.injEq]
    exact first_literal_check D _ now now_reset file line object id _ rfl rfl
  · exact check_valist_asserts D _ now now_reset file line object id format args h
      (fresh_periodic_reset D _ now now_reset rfl rfl).1

/-- C16, amended, at concrete contexts: a fresh throttling context with the
interval 10 and the default hash flags accepts its first formatted check, and
one with the hash flags 20 stops at the assertion. -/
theorem first_check_accepted_witness :
    (flag_test (0 : Nat) spec_context_decl.GST_LOG_CONTEXT_USE_STRING_ARGS &&
      flag_test (0 : Nat) spec_context_decl.GST_LOG_CONTEXT_IGNORE_FORMAT) = false ∧
    (_gst_log_ctx_check_id_valist spec_context_decl ctx_throttle_10 100 100
      (some "net.c".toList) 12 0 none (some "sent %d".toList) [1]).map (fun r => r.2)
      = some true ∧
    (flag_test (20 : Nat) spec_context_decl.GST_LOG_CONTEXT_USE_STRING_ARGS &&
      flag_test (20 : Nat) spec_context_decl.GST_LOG_CONTEXT_IGNORE_FORMAT) = true ∧
    _gst_log_ctx_check_id_valist spec_context_decl
        (gst_log_context_builder_build spec_context_decl
          { hash_flags := 20, flags := 1, category := none, interval := 10 })
        100 100 (some "net.c".toList) 12 0 none (some "sent %d".toList) [1] = none :=
  ⟨by decide,
    (first_check_accepted spec_context_decl
      { hash_flags := 0, flags := 1, category := none, interval := 10 } 100 100
      (some "net.c".toList) 12 0 none none (some "sent %d".toList) [1]).2.1 (by decide),
    by decide,
    (first_check_accepted spec_context_decl
      { hash_flags := 20, flags := 1, category := none, interval := 10 } 100 100
      (some "net.c".toList) 12 0 none none (some "sent %d".toList) [1]).2.2 (by decide)⟩

/-- C17. The key `_gst_log_ctx_get_id_literal` builds does not depend on a
field the hash flags exclude: two messages give the same key on a context as
soon as they agree in the file unless `GST_LOG_CONTEXT_IGNORE_FILE` is set, in
the line if `GST_LOG_CONTEXT_USE_LINE_NUMBER` is set, in the object pointer and
the object id unless `GST_LOG_CONTEXT_IGNORE_OBJECT` is set, and in the message
text unless `GST_LOG_CONTEXT_IGNORE_FORMAT` is set. The same holds for the key
of `_gst_log_ctx_get_id_valist`, with the format and its arguments as the
message text. -/
theorem key_ignores_excluded_fields (D : GstLogContextDecl) (ctx : GstLogContext)
    (file1 file2 : Option (List Char)) (line1 line2 : Int) (object1 object2 : Nat)
    (id1 id2 : Option (List Char)) (message1 message2 : Option (List Char))
    (args1 args2 : List Nat)
    (h_file : flag_test ctx.hash_flags D.GST_LOG_CONTEXT_IGNORE_FILE = true ∨ file1 = file2)
    (h_line : flag_test ctx.hash_flags D.GST_LOG_CONTEXT_USE_LINE_NUMBER = false ∨
      line1 = line2)
    (h_object : flag_test ctx.hash_flags D.GST_LOG_CONTEXT_IGNORE_OBJECT = true ∨
      (object1 = object2 ∧ id1 = id2)) :
    ((flag_test ctx.hash_flags D.GST_LOG_CONTEXT_IGNORE_FORMAT = true ∨ message1 = message2) →
      _gst_log_ctx_get_id_literal D ctx file1 line1 object1 id1 message1
        = _gst_log_ctx_get_id_literal D ctx file2 line2 object2 id2 message2) ∧
    ((flag_test ctx.hash_flags D.GST_LOG_CONTEXT_IGNORE_FORMAT = true ∨
        (message1 = message2 ∧ args1 = args2)) →
      _gst_log_ctx_get_id_valist D ctx file1 line1 object1 id1 message1 args1
        = _gst_log_ctx_get_id_valist D ctx file2 line2 object2 id2 message2 args2) := by
  have key : ∀ m1 m2 : Option (List Char),
      (flag_test ctx.hash_flags D.GST_LOG_CONTEXT_IGNORE_FORMAT = true ∨ m1 = m2) →
      _gst_log_ctx_get_id_literal D ctx file1 line1 object1 id1 m1
        = _gst_log_ctx_get_id_literal D ctx file2 line2 object2 id2 m2 := by
    intro m1 m2 h_message
    unfold _gst_log_ctx_get_id_literal
    have e1 : (if flag_test ctx.hash_flags D.GST_LOG_CONTEXT_IGNORE_FILE = true
        then some [] else file1)
        = (if flag_test ctx.hash_flags D.GST_LOG_CONTEXT_IGNORE_FILE = true
          then some [] else file2) := by
      rcases h_file with h | h
      · simp [h]
      · rw [h]
    have e2 : (if flag_test ctx.hash_flags D.GST_LOG_CONTEXT_USE_LINE_NUMBER = true
        then line1 else -1)
        = (if flag_test ctx.hash_flags D.GST_LOG_CONTEXT_USE_LINE_NUMBER = true
          then line2 else -1) := by
      rcases h_line with h | h
      · simp [h]
      · rw [h]
    have e3 : (if flag_test ctx.hash_flags D.GST_LOG_CONTEXT_IGNORE_OBJECT = true
        then 0 else object1)
        = (if flag_test ctx.hash_flags D.GST_LOG_CONTEXT_IGNORE_OBJECT = true
          then 0 else object2) := by
      rcases h_object with h | h
      · simp [h]
      · rw [h.1]
    have e4 : (if flag_test ctx.hash_flags D.GST_LOG_CONTEXT_IGNORE_OBJECT = true
        then some [] else id1)
        = (if flag_test ctx.hash_flags D.GST_LOG_CONTEXT_IGNORE_OBJECT = true
          then some [] else id2) := by
      rcases h_object with h | h
      · simp [h]
      · rw [h.2]
    have e5 : (if flag_test ctx.hash_flags D.GST_LOG_CONTEXT_IGNORE_FORMAT = true
        then some [] else m1)
        = (if flag_test ctx.hash_flags D.GST_LOG_CONTEXT_IGNORE_FORMAT = true
          then some [] else m2) := by
      rcases h_message with h | h
      · simp [h]
      · rw [h]
    rw [e1, e2, e3, e4, e5]
  refine ⟨key message1 message2, fun h => ?_⟩
  unfold _gst_log_ctx_get_id_valist
  rcases h with h | h
  · by_cases hu : flag_test ctx.hash_flags D.GST_LOG_CONTEXT_USE_STRING_ARGS = true
    · simp [hu, h]
    · simp only [hu, Bool.false_eq_true, if_false]
      rw [key message1 message2 (Or.inl h)]
  · rw [h.1, h.2]
    by_cases hu : flag_test ctx.hash_flags D.GST_LOG_CONTEXT_USE_STRING_ARGS = true
    · simp only [hu, if_true]
      split
      · rfl
      · cases D.g_strdup_vprintf message2 args2 with
        | some t => simp only; rw [key (some t) (some t) (Or.inr rfl)]
        | none => simp only; rw [key message2 message2 (Or.inr rfl)]
    · simp only [hu, Bool.false_eq_true, if_false]
      rw [key message2 message2 (Or.inr rfl)]

/-- C17 at a concrete context: with the default hash flags the line number is
excluded, and the same message logged from the lines 12 and 40 has one key. -/
theorem key_ignores_excluded_fields_witness :
    (flag_test ctx_throttle_0.hash_flags spec_context_decl.GST_LOG_CONTEXT_IGNORE_FILE = true ∨
      some "net.c".toList = some "net.c".toList) ∧
    (flag_test ctx_throttle_0.hash_flags spec_context_decl.GST_LOG_CONTEXT_USE_LINE_NUMBER
        = false ∨ (12 : Int) = 40) ∧
    (flag_test ctx_throttle_0.hash_flags spec_context_decl.GST_LOG_CONTEXT_IGNORE_OBJECT
        = true ∨ ((0 : Nat) = 0 ∧ (none : Option (List Char)) = none)) ∧
    _gst_log_ctx_get_id_literal spec_context_decl ctx_throttle_0 (some "net.c".toList) 12 0
        none (some "sent".toList)
      = _gst_log_ctx_get_id_literal spec_context_decl ctx_throttle_0 (some "net.c".toList) 40
          0 none (some "sent".toList) :=
  ⟨Or.inr rfl, Or.inl (by decide), Or.inr ⟨rfl, rfl⟩,
    (key_ignores_excluded_fields spec_context_decl ctx_throttle_0 (some "net.c".toList)
      (some "net.c".toList) 12 40 0 0 none none (some "sent".toList) (some "sent".toList)
      [] [] (Or.inr rfl) (Or.inl (by decide)) (Or.inr ⟨rfl, rfl⟩)).1 (Or.inr rfl)⟩

/-- C18. On a throttling context whose key excludes the line number, take the
checks of one reset window: a first check, which may be the one that resets,
and the checks after it up to the next reset. Among those that share file,
object, object id and message text and differ at most in the line number, at
most one returns `TRUE`. With the interval 0, when no reset occurs, such a
check that comes after another such check returns `FALSE`, and such a check
returns `TRUE` when its key is not in the table at the start and no earlier
check of the run has that key; so the one that returns `TRUE` is the first. -/
theorem line_excluded_checks_accept_once (D : GstLogContextDecl) (ctx : GstLogContext)
    (m first : LogCheck) (later : List LogCheck)
    (ht : flag_test ctx.flags D.GST_LOG_CONTEXT_FLAG_THROTTLE = true)
    (hl : flag_test ctx.hash_flags D.GST_LOG_CONTEXT_USE_LINE_NUMBER = false) :
    (in_reset_window D (first.run D ctx).1 later →
      accepted_like m (run_checks D ctx (first :: later)).2 (first :: later) ≤ 1) ∧
    (ctx.interval = 0 →
      accepted_like m (run_checks D ctx (first :: later)).2 (first :: later) ≤ 1 ∧
      (∀ (pre mid : List LogCheck) (p c : LogCheck),
        p.same_but_line m = true → c.same_but_line m = true →
        (c.run D (run_checks D ctx (pre ++ p :: mid)).1).2 = false) ∧
      (∀ (pre : List LogCheck) (c : LogCheck), c.same_but_line m = true →
        (∀ p ∈ pre, p.key D ctx ≠ m.key D ctx) → m.key D ctx ∉ ctx.logged_messages →
        (c.run D (run_checks D ctx pre).1).2 = true)) := by
  constructor
  · intro hw
    obtain ⟨k1, k2, _, _⟩ := run_keeps D ctx first
    have hkey : m.key D (first.run D ctx).1 = m.key D ctx :=
      key_of_hash_flags D _ _ k1 _ _ _ _ _
    simp only [run_checks, accepted_like]
    by_cases hacc : ((first.run D ctx).2 && first.same_but_line m) = true
    · simp only [Bool.and_eq_true] at hacc
      have hin := run_true_inserts D ctx first ht hacc.1
      rw [key_same_but_line D ctx first m hl hacc.2, ← hkey] at hin
      have h0 := (window_after_insert D m later (first.run D ctx).1 (by rw [k2]; exact ht)
        (by rw [k1]; exact hl) hw hin).1
      rw [h0]
      simp [hacc.1, hacc.2]
    · have := window_at_most_one D m later (first.run D ctx).1 (by rw [k2]; exact ht)
        (by rw [k1]; exact hl) hw
      simp only [hacc, Bool.false_eq_true, if_false]
      omega
  · intro h0
    refine ⟨window_at_most_one D m (first :: later) ctx ht hl
      (in_window_of_interval_zero D _ ctx h0), ?_, ?_⟩
    · intro pre mid p c hp hc
      rw [run_checks_append]
      simp only [run_checks]
      obtain ⟨a1, a2, a3, _⟩ := run_checks_keeps D pre ctx
      obtain ⟨b1, b2, b3, _⟩ := run_keeps D (run_checks D ctx pre).1 p
      obtain ⟨c1, c2, c3, _⟩ := run_checks_keeps D mid (p.run D (run_checks D ctx pre).1).1
      have ht1 : flag_test (run_checks D ctx pre).1.flags D.GST_LOG_CONTEXT_FLAG_THROTTLE
          = true := by rw [a2]; exact ht
      have hl1 : flag_test (run_checks D ctx pre).1.hash_flags
          D.GST_LOG_CONTEXT_USE_LINE_NUMBER = false := by rw [a1]; exact hl
      have hin := (run_interval_zero D (run_checks D ctx pre).1 p ht1 (a3.trans h0)).2.1
      rw [key_same_but_line D _ p m hl1 hp] at hin
      have hkey : m.key D (p.run D (run_checks D ctx pre).1).1
          = m.key D (run_checks D ctx pre).1 := key_of_hash_flags D _ _ b1 _ _ _ _ _
      rw [← hkey] at hin
      have hmid := (window_after_insert D m mid (p.run D (run_checks D ctx pre).1).1
        (by rw [b2]; exact ht1) (by rw [b1]; exact hl1)
        (in_window_of_interval_zero D _ _ (b3.trans (a3.trans h0))) hin).2
      have hkey2 : m.key D (run_checks D (p.run D (run_checks D ctx pre).1).1 mid).1
          = m.key D (p.run D (run_checks D ctx pre).1).1 :=
        key_of_hash_flags D _ _ c1 _ _ _ _ _
      rw [← hkey2] at hmid
      have ht3 : flag_test (run_checks D (p.run D (run_checks D ctx pre).1).1 mid).1.flags
          D.GST_LOG_CONTEXT_FLAG_THROTTLE = true := by rw [c2, b2]; exact ht1
      have hl3 : flag_test (run_checks D (p.run D (run_checks D ctx pre).1).1 mid).1.hash_flags
          D.GST_LOG_CONTEXT_USE_LINE_NUMBER = false := by rw [c1, b1]; exact hl1
      rw [(run_interval_zero D _ c ht3 (c3.trans (b3.trans (a3.trans h0)))).1,
        key_same_but_line D _ c m hl3 hc]
      simp [hmid]
    · intro pre c hc hne hk
      obtain ⟨a1, a2, a3, _⟩ := run_checks_keeps D pre ctx
      have ht1 : flag_test (run_checks D ctx pre).1.flags D.GST_LOG_CONTEXT_FLAG_THROTTLE
          = true := by rw [a2]; exact ht
      have hl1 : flag_test (run_checks D ctx pre).1.hash_flags
          D.GST_LOG_CONTEXT_USE_LINE_NUMBER = false := by rw [a1]; exact hl
      have hout := window_other_keys D (m.key D ctx) pre ctx ht
        (in_window_of_interval_zero D _ ctx h0) hne hk
      have hkey : m.key D (run_checks D ctx pre).1 = m.key D ctx :=
        key_of_hash_flags D _ _ a1 _ _ _ _ _
      rw [(run_interval_zero D _ c ht1 (a3.trans h0)).1, key_same_but_line D _ c m hl1 hc,
        hkey]
      simp [hout]

/-- C18 at concrete runs: on `ctx_throttle_10`, whose key excludes the line
number, the message "sent" is checked at the times 100, 103 and 105 from the
lines 12, 40 and 99, within one window, and on `ctx_throttle_0` at the times 1,
2 and 4 with another message in between; in both runs only the first of these
checks returns `TRUE`. -/
theorem line_excluded_checks_accept_once_witness :
    flag_test ctx_throttle_10.flags spec_context_decl.GST_LOG_CONTEXT_FLAG_THROTTLE = true ∧
    flag_test ctx_throttle_10.hash_flags spec_context_decl.GST_LOG_CONTEXT_USE_LINE_NUMBER
      = false ∧
    in_reset_window spec_context_decl
      ((net_check 100 12 "sent").run spec_context_decl ctx_throttle_10).1
      [net_check 103 40 "sent", net_check 105 99 "sent"] ∧
    accepted_like (net_check 0 0 "sent")
        (run_checks spec_context_decl ctx_throttle_10
          (net_check 100 12 "sent" :: [net_check 103 40 "sent", net_check 105 99 "sent"])).2
        (net_check 100 12 "sent" :: [net_check 103 40 "sent", net_check 105 99 "sent"])
      ≤ 1 ∧
    (run_checks spec_context_decl ctx_throttle_10
      [net_check 100 12 "sent", net_check 103 40 "sent", net_check 105 99 "sent"]).2
      = [true, false, false] ∧
    ctx_throttle_0.interval = 0 ∧
    accepted_like (net_check 0 0 "sent")
        (run_checks spec_context_decl ctx_throttle_0
          (net_check 1 12 "sent" ::
            [net_check 2 40 "sent", net_check 3 13 "received", net_check 4 99 "sent"])).2
        (net_check 1 12 "sent" ::
          [net_check 2 40 "sent", net_check 3 13 "received", net_check 4 99 "sent"])
      ≤ 1 ∧
    (run_checks spec_context_decl ctx_throttle_0
      [net_check 1 12 "sent", net_check 2 40 "sent", net_check 3 13 "received",
        net_check 4 99 "sent"]).2
      = [true, false, true, false] :=
  ⟨by decide, by decide, ⟨by decide, by decide, trivial⟩,
    (line_excluded_checks_accept_once spec_context_decl ctx_throttle_10
      (net_check 0 0 "sent") (net_check 100 12 "sent")
      [net_check 103 40 "sent", net_check 105 99 "sent"] (by decide) (by decide)).1
      ⟨by decide, by decide, trivial⟩,
    by decide, rfl,
    ((line_excluded_checks_accept_once spec_context_decl ctx_throttle_0
      (net_check 0 0 "sent") (net_check 1 12 "sent")
      [net_check 2 40 "sent", net_check 3 13 "received", net_check 4 99 "sent"]
      (by decide) (by decide)).2 rfl).1,
    by decide⟩

/-- C19. On a throttling context with an interval `I > 0` and a recorded reset
time, a check made at a time `t` with `t - last_reset >= I` returns `TRUE`,
leaves its key as the only one in the table and sets the reset time to the
clock value read by the reset (`t` itself when the check reads the clock
once); every check made after it at a time `t'` with `t' - t < I`, of that key
or of another, returns `FALSE` and leaves the context as it is. -/
theorem periodic_reset_accepts_once (D : GstLogContextDecl) (ctx : GstLogContext)
    (c : LogCheck) (later : List LogCheck)
    (ht : flag_test ctx.flags D.GST_LOG_CONTEXT_FLAG_THROTTLE = true)
    (hI : 0 < ctx.interval) (hv : ctx.last_reset_time ≠ D.GST_CLOCK_TIME_NONE)
    (hle : ctx.last_reset_time ≤ c.now) (hnow : c.now < 2 ^ 64)
    (helapsed : ctx.interval ≤ c.now - ctx.last_reset_time)
    (hr1 : c.now ≤ c.now_reset) (hr2 : c.now_reset ≠ D.GST_CLOCK_TIME_NONE)
    (hlater : ∀ x ∈ later, c.now_reset ≤ x.now ∧ x.now < 2 ^ 64 ∧
      x.now - c.now < ctx.interval) :
    (c.run D ctx).2 = true ∧
    (c.run D ctx).1.logged_messages = [c.key D ctx] ∧
    (c.run D ctx).1.last_reset_time = c.now_reset ∧
    (run_checks D (c.run D ctx).1 later).2 = List.replicate later.length false ∧
    (∀ x ∈ later, x.same_but_line c = true → (x.run D (c.run D ctx).1).2 = false) ∧
    (run_checks D (c.run D ctx).1 later).1 = (c.run D ctx).1 := by
  have hd := clock_diff_eq ctx.last_reset_time c.now hle hnow
  have hrun : c.run D ctx
      = ({ _gst_log_context_reset_unlocked ctx c.now_reset with
            logged_messages := [c.key D ctx] }, true) := by
    rw [check_literal_unfold]
    rcases periodic_reset_cases D ctx c.now c.now_reset with h | h | h | h
    · omega
    · exact absurd h.2.1 hv
    · rw [h.2]
      simp only [Bool.true_eq_false, if_false]
      unfold _gst_log_ctx_check_id _gst_log_context_reset_unlocked
      simp [ht]
    · rw [hd] at h
      omega
  rw [hrun]
  have hI2 : ({ _gst_log_context_reset_unlocked ctx c.now_reset with
      logged_messages := [c.key D ctx] } : GstLogContext).interval ≠ 0 := by
    show ctx.interval ≠ 0
    omega
  have hall := rejected_in_window_all D
    { _gst_log_context_reset_unlocked ctx c.now_reset with
      logged_messages := [c.key D ctx] } hI2 hr2 later
    (fun x hx => by
      obtain ⟨h1, h2, h3⟩ := hlater x hx
      refine ⟨h1, h2, ?_⟩
      show x.now - c.now_reset < ctx.interval
      omega)
  refine ⟨rfl, rfl, rfl, by rw [hall], ?_, by rw [hall]⟩
  intro x hx _
  obtain ⟨h1, h2, h3⟩ := hlater x hx
  rw [rejected_in_window D _ x hI2 hr2 h1 h2 (by
    show x.now - c.now_reset < ctx.interval
    omega)]

/-- C19 at a concrete run: on `ctx_throttle_10` the message "sent" is accepted
at time 100 and suppressed at time 105; its check at time 112 returns `TRUE`
and the checks at the times 115 and 119 return `FALSE`. -/
theorem periodic_reset_accepts_once_witness :
    (run_checks spec_context_decl ctx_throttle_10
      [net_check 100 12 "sent", net_check 105 12 "sent"]).2 = [true, false] ∧
    ((net_check 112 12 "sent").run spec_context_decl
      (run_checks spec_context_decl ctx_throttle_10
        [net_check 100 12 "sent", net_check 105 12 "sent"]).1).2 = true ∧
    (run_checks spec_context_decl
      ((net_check 112 12 "sent").run spec_context_decl
        (run_checks spec_context_decl ctx_throttle_10
          [net_check 100 12 "sent", net_check 105 12 "sent"]).1).1
      [net_check 115 12 "sent", net_check 119 12 "sent"]).2
      = List.replicate [net_check 115 12 "sent", net_check 119 12 "sent"].length false :=
  ⟨by decide,
    (periodic_reset_accepts_once spec_context_decl
      (run_checks spec_context_decl ctx_throttle_10
        [net_check 100 12 "sent", net_check 105 12 "sent"]).1
      (net_check 112 12 "sent") [net_check 115 12 "sent", net_check 119 12 "sent"]
      (by decide) (by decide) (by decide) (by decide) (by decide) (by decide) (by decide)
      (by decide) (by decide)).1,
    (periodic_reset_accepts_once spec_context_decl
      (run_checks spec_context_decl ctx_throttle_10
        [net_check 100 12 "sent", net_check 105 12 "sent"]).1
      (net_check 112 12 "sent") [net_check 115 12 "sent", net_check 119 12 "sent"]
      (by decide) (by decide) (by decide) (by decide) (by decide) (by decide) (by decide)
      (by decide) (by decide)).2.2.2.1⟩

/-- C20. `gst_log_context_reset` leaves the table of logged messages empty and
the reset time equal to the current time, and leaves the hash flags, the
flags, the interval and the category as they were; on a throttling context
with the interval 0 the next check of any message after a reset returns
`TRUE`, whatever the table held before the reset. -/
theorem context_reset_clears (D : GstLogContextDecl) (ctx : GstLogContext) (now : Nat)
    (c : LogCheck) :
    (gst_log_context_reset ctx now).logged_messages = [] ∧
    (gst_log_context_reset ctx now).last_reset_time = now ∧
    (gst_log_context_reset ctx now).hash_flags = ctx.hash_flags ∧
    (gst_log_context_reset ctx now).flags = ctx.flags ∧
    (gst_log_context_reset ctx now).interval = ctx.interval ∧
    (gst_log_context_reset ctx now).category = ctx.category ∧
    (flag_test ctx.flags D.GST_LOG_CONTEXT_FLAG_THROTTLE = true → ctx.interval = 0 →
      (c.run D (gst_log_context_reset ctx now)).2 = true) := by
  refine ⟨rfl, rfl, rfl, rfl, rfl, rfl, fun ht h0 => ?_⟩
  rw [(run_interval_zero D (gst_log_context_reset ctx now) c ht h0).1]
  show decide (c.key D (gst_log_context_reset ctx now) ∉ ([] : List (List Char))) = true
  simp

/-- C20 at a concrete run: on `ctx_throttle_0` the message "sent" is accepted
and then suppressed; after a reset at time 50 its next check returns `TRUE`. -/
theorem context_reset_clears_witness :
    flag_test (run_checks spec_context_decl ctx_throttle_0
      [net_check 1 12 "sent", net_check 2 12 "sent"]).1.flags
      spec_context_decl.GST_LOG_CONTEXT_FLAG_THROTTLE = true ∧
    (run_checks spec_context_decl ctx_throttle_0
      [net_check 1 12 "sent", net_check 2 12 "sent"]).1.interval = 0 ∧
    (run_checks spec_context_decl ctx_throttle_0
      [net_check 1 12 "sent", net_check 2 12 "sent"]).2 = [true, false] ∧
    ((net_check 60 12 "sent").run spec_context_decl
      (gst_log_context_reset
        (run_checks spec_context_decl ctx_throttle_0
          [net_check 1 12 "sent", net_check 2 12 "sent"]).1 50)).2 = true :=
  ⟨by decide, by decide, by decide,
    (context_reset_clears spec_context_decl
      (run_checks spec_context_decl ctx_throttle_0
        [net_check 1 12 "sent", net_check 2 12 "sent"]).1 50
      (net_check 60 12 "sent")).2.2.2.2.2.2 (by decide) (by decide)⟩

/-- C21. Each operation on a log context leaves the table of logged messages a
superset of what it was or empties it: `_gst_log_ctx_check_id` leaves it or
puts the one new key in front; `_gst_log_ctx_check_periodic_reset` leaves it or
empties it; `_gst_log_context_reset_unlocked` and `gst_log_context_reset` empty
it; a literal or formatted check, which runs the periodic reset and then the
check of the key, ends with the old table, the old table and the key of the
checked message, the empty table, or the key alone after a periodic reset. No
key is taken out while another one stays. -/
theorem seen_set_grows_or_is_emptied (D : GstLogContextDecl) (ctx : GstLogContext)
    (key : List Char) (now now_reset : Nat) (c : LogCheck) (format : Option (List Char))
    (args : List Nat) :
    ((_gst_log_ctx_check_id D ctx key).1.logged_messages = ctx.logged_messages ∨
      (key ∉ ctx.logged_messages ∧
        (_gst_log_ctx_check_id D ctx key).1.logged_messages = key :: ctx.logged_messages)) ∧
    ((_gst_log_ctx_check_periodic_reset D ctx now now_reset).1.logged_messages
        = ctx.logged_messages ∨
      (_gst_log_ctx_check_periodic_reset D ctx now now_reset).1.logged_messages = []) ∧
    (_gst_log_context_reset_unlocked ctx now).logged_messages = [] ∧
    (gst_log_context_reset ctx now).logged_messages = [] ∧
    ((c.run D ctx).1.logged_messages = ctx.logged_messages ∨
      (c.key D ctx ∉ ctx.logged_messages ∧
        (c.run D ctx).1.logged_messages = c.key D ctx :: ctx.logged_messages) ∨
      (c.run D ctx).1.logged_messages = [] ∨
      (c.run D ctx).1.logged_messages = [c.key D ctx]) ∧
    (∀ r, _gst_log_ctx_check_id_valist D ctx c.now c.now_reset c.file c.line c.object c.id
        format args = some r →
      r.1.logged_messages = ctx.logged_messages ∨
      (∃ k, k ∉ ctx.logged_messages ∧ r.1.logged_messages = k :: ctx.logged_messages) ∨
      r.1.logged_messages = [] ∨
      (∃ k, r.1.logged_messages = [k])) :=
  ⟨check_id_set D ctx key, periodic_reset_set D ctx now now_reset, rfl, rfl,
    check_literal_set D ctx c,
    fun r hr => check_valist_set D ctx c.now c.now_reset c.file c.line c.object c.id
      format args r hr⟩

/-- C21 at a concrete context: the first formatted check on `ctx_throttle_10`
returns, and the table after it is the old table with one key in front. -/
theorem seen_set_grows_or_is_emptied_witness :
    ∃ r, _gst_log_ctx_check_id_valist spec_context_decl ctx_throttle_10 100 100
        (some "net.c".toList) 12 0 none (some "sent %d".toList) [1] = some r ∧
      (r.1.logged_messages = ctx_throttle_10.logged_messages ∨
        (∃ k, k ∉ ctx_throttle_10.logged_messages ∧
          r.1.logged_messages = k :: ctx_throttle_10.logged_messages) ∨
        r.1.logged_messages = [] ∨ (∃ k, r.1.logged_messages = [k])) := by
  have hs : (_gst_log_ctx_check_id_valist spec_context_decl ctx_throttle_10 100 100
      (some "net.c".toList) 12 0 none (some "sent %d".toList) [1]).isSome = true := by decide
  obtain ⟨r, hr⟩ := Option.isSome_iff_exists.mp hs
  exact ⟨r, hr,
    (seen_set_grows_or_is_emptied spec_context_decl ctx_throttle_10 [] 100 100
      (net_check 100 12 "sent") (some "sent %d".toList) [1]).2.2.2.2.2 r hr⟩

/-- C22. For every budget `max_size_per_thread` (a `guint`) and every sequence
of calls of `gst_ring_buffer_logger_log` on the logger
`gst_debug_add_ring_buffer_logger` makes, the calls return and afterwards, for
each thread in the queue, the total length of the stored lines is at most the
budget and equal to the recorded `log_size`. As this holds for every sequence,
it holds after each call of a sequence. -/
theorem ring_buffer_within_budget (E : GstLineDecl) (L : GstDebugLevelDecl)
    (G_USEC_PER_SEC max_size_per_thread thread_timeout : Nat)
    (hmax : max_size_per_thread < 2 ^ 32) (calls : List RingLogCall) :
    ∃ logger,
      run_ring_calls E L G_USEC_PER_SEC
        (ring_buffer_logger_new max_size_per_thread thread_timeout) calls = some logger ∧
      ∀ log ∈ logger.threads,
        log.log.flatten.length ≤ max_size_per_thread ∧
        log.log_size = log.log.flatten.length := by
  obtain ⟨h1, h2, _⟩ := ring_buffer_logger_new_ok max_size_per_thread thread_timeout
  obtain ⟨l, e, m, _, s, _⟩ := run_ring_ok E L G_USEC_PER_SEC calls
    (ring_buffer_logger_new max_size_per_thread thread_timeout) hmax h1 h2
  refine ⟨l, e, fun log hl => ?_⟩
  obtain ⟨a, b⟩ := s log hl
  rw [m] at b
  exact ⟨by rw [← a]; exact b, a⟩

/-- C22 at a concrete run: with the budget 200 a thread stores three lines of
92 bytes; two of them stay. -/
theorem ring_buffer_within_budget_witness :
    (200 < 2 ^ 32) ∧
    (∃ logger,
      run_ring_calls unix_line_decl spec_levels 1000000 (ring_buffer_logger_new 200 0)
        [ring_call 1 0 "net.c" "sent", ring_call 1 1 "net.c" "read", ring_call 1 2 "net.c" "done"]
        = some logger ∧
      ∀ log ∈ logger.threads,
        log.log.flatten.length ≤ 200 ∧ log.log_size = log.log.flatten.length) ∧
    (run_ring_calls unix_line_decl spec_levels 1000000 (ring_buffer_logger_new 200 0)
        [ring_call 1 0 "net.c" "sent", ring_call 1 1 "net.c" "read",
          ring_call 1 2 "net.c" "done"]).map
      (fun logger => logger.threads.map (fun log => (log.log.length, log.log_size)))
      = some [(2, 184)] :=
  ⟨by decide,
    ring_buffer_within_budget unix_line_decl spec_levels 1000000 200 0 (by decide)
      [ring_call 1 0 "net.c" "sent", ring_call 1 1 "net.c" "read", ring_call 1 2 "net.c" "done"],
    by decide⟩

/-- C23 fails on the code: with the budget 92 a thread stores a line of 89
bytes and then logs a line of exactly 92 bytes, which is within the budget;
the test `output_len < max_size_per_thread` sends it to the `else` branch, the
queue of the thread is emptied and the line is not stored. -/
theorem line_of_budget_size_dropped :
    (gst_ring_buffer_logger_log_line unix_line_decl spec_levels
      (ring_call 1 0 "net.c" "a")).2.length = 89 ∧
    (gst_ring_buffer_logger_log_line unix_line_decl spec_levels
      (ring_call 1 5 "net.c" "sent")).2.length = 92 ∧
    (run_ring_calls unix_line_decl spec_levels 1000000 (ring_buffer_logger_new 92 0)
        [ring_call 1 0 "net.c" "a"]).map
      (fun logger => logger.threads.map (fun log => (log.thread, log.log.length, log.log_size)))
      = some [(1, 1, 89)] ∧
    run_ring_calls unix_line_decl spec_levels 1000000 (ring_buffer_logger_new 92 0)
        [ring_call 1 0 "net.c" "a", ring_call 1 5 "net.c" "sent"]
      = some { max_size_per_thread := 92, thread_timeout := 0,
               threads := [{ last_use := 5, thread := 1, log := [], log_size := 0 }],
               thread_index := [1] } := by
  decide

/-- C24. On the logger reached from a new one by any sequence of calls of
`gst_ring_buffer_logger_log`, `gst_debug_ring_buffer_logger_get_logs` returns
one string for each record of the thread queue, in the order of the queue. The
queue lists each tracked thread once (the threads of the index), in the order
of their last calls with the latest first, which is also the order of their
times of last use when the monotonic times of the calls do not run backwards.
Each string is the concatenation of the lines of the thread from the oldest to
the newest, and its length is the recorded `log_size`. -/
theorem get_logs_concatenates (E : GstLineDecl) (L : GstDebugLevelDecl)
    (G_USEC_PER_SEC max_size_per_thread thread_timeout : Nat)
    (hmax : max_size_per_thread < 2 ^ 32) (calls : List RingLogCall) :
    ∃ logger,
      run_ring_calls E L G_USEC_PER_SEC
        (ring_buffer_logger_new max_size_per_thread thread_timeout) calls = some logger ∧
      gst_debug_ring_buffer_logger_get_logs (some logger)
        = some (logger.threads.map (fun log => log.log.flatten)) ∧
      (∀ log ∈ logger.threads, log.log.flatten.length = log.log_size) ∧
      (logger.threads.map (fun log => log.thread)).Nodup ∧
      (∀ t, t ∈ logger.thread_index ↔ t ∈ logger.threads.map (fun log => log.thread)) ∧
      (logger.threads.map (fun log => log.thread)).Sublist (threads_by_recency calls []) ∧
      (calls.Pairwise (fun a b => a.now ≤ b.now) →
        logger.threads.Pairwise (fun a b => b.last_use ≤ a.last_use)) := by
  obtain ⟨h1, h2, _⟩ := ring_buffer_logger_new_ok max_size_per_thread thread_timeout
  obtain ⟨l, e, _, _, s, i⟩ := run_ring_ok E L G_USEC_PER_SEC calls
    (ring_buffer_logger_new max_size_per_thread thread_timeout) hmax h1 h2
  obtain ⟨l2, e2, r2⟩ := run_ring_by_recency E L G_USEC_PER_SEC calls
    (ring_buffer_logger_new max_size_per_thread thread_timeout) [] hmax h1 h2
    (List.Sublist.refl _)
  rw [e] at e2
  simp only [Option.some.injEq] at e2
  subst e2
  refine ⟨l, e, ?_, fun log hl => (s log hl).1.symm, i.1, i.2.2, r2, fun hmono => ?_⟩
  · exact get_logs_walk_spec l.threads (fun log hl => (s log hl).1)
  · obtain ⟨l3, e3, _, _, _, _, r3⟩ := run_new_recency E L G_USEC_PER_SEC max_size_per_thread
      thread_timeout hmax calls hmono
    rw [e] at e3
    simp only [Option.some.injEq] at e3
    subst e3
    exact r3

set_option maxRecDepth 4000 in
/-- C24 at a concrete run: thread 1 logs "L1" and then "L2", thread 2 logs
"M1" after that; the strings are those of thread 2 and of thread 1, and the
string of thread 1 is the line of "L1" followed by the line of "L2". -/
theorem get_logs_concatenates_witness :
    (4096 < 2 ^ 32) ∧
    [ring_call 1 0 "net.c" "L1", ring_call 1 1 "net.c" "L2",
      ring_call 2 2 "net.c" "M1"].Pairwise (fun a b => a.now ≤ b.now) ∧
    (∃ logger,
      run_ring_calls unix_line_decl spec_levels 1000000 (ring_buffer_logger_new 4096 0)
        [ring_call 1 0 "net.c" "L1", ring_call 1 1 "net.c" "L2", ring_call 2 2 "net.c" "M1"]
        = some logger ∧
      gst_debug_ring_buffer_logger_get_logs (some logger)
        = some (logger.threads.map (fun log => log.log.flatten)) ∧
      (∀ log ∈ logger.threads, log.log.flatten.length = log.log_size) ∧
      (logger.threads.map (fun log => log.thread)).Nodup ∧
      (∀ t, t ∈ logger.thread_index ↔ t ∈ logger.threads.map (fun log => log.thread)) ∧
      (logger.threads.map (fun log => log.thread)).Sublist
        (threads_by_recency
          [ring_call 1 0 "net.c" "L1", ring_call 1 1 "net.c" "L2", ring_call 2 2 "net.c" "M1"]
          []) ∧
      logger.threads.Pairwise (fun a b => b.last_use ≤ a.last_use)) ∧
    threads_by_recency
      [ring_call 1 0 "net.c" "L1", ring_call 1 1 "net.c" "L2", ring_call 2 2 "net.c" "M1"] []
      = [2, 1] ∧
    gst_debug_ring_buffer_logger_get_logs
        (run_ring_calls unix_line_decl spec_levels 1000000 (ring_buffer_logger_new 4096 0)
          [ring_call 1 0 "net.c" "L1", ring_call 1 1 "net.c" "L2", ring_call 2 2 "net.c" "M1"])
      = some
        [(gst_ring_buffer_logger_log_line unix_line_decl spec_levels
            (ring_call 2 2 "net.c" "M1")).2,
          (gst_ring_buffer_logger_log_line unix_line_decl spec_levels
            (ring_call 1 0 "net.c" "L1")).2
          ++ (gst_ring_buffer_logger_log_line unix_line_decl spec_levels
            (ring_call 1 1 "net.c" "L2")).2] := by
  refine ⟨by decide, by decide, ?_, by decide, by decide⟩
  obtain ⟨logger, h1, h2, h3, h4, h5, h6, h7⟩ :=
    get_logs_concatenates unix_line_decl spec_levels 1000000 4096 0 (by decide)
      [ring_call 1 0 "net.c" "L1", ring_call 1 1 "net.c" "L2", ring_call 2 2 "net.c" "M1"]
  exact ⟨logger, h1, h2, h3, h4, h5, h6, h7 (by decide)⟩

/-- C25. On the logger reached from a new one by calls of
`gst_ring_buffer_logger_log` whose monotonic times do not run backwards,
after every call (here the last one, `call`, of any such sequence) the thread
queue is ordered by the time of last use, the most recent at the head; the
record of the calling thread is at the head with `last_use` equal to the time
of the call; and each tracked thread is once in the queue and once in the
thread index, which list the same threads. -/
theorem ring_threads_in_recency_order (E : GstLineDecl) (L : GstDebugLevelDecl)
    (G_USEC_PER_SEC max_size_per_thread thread_timeout : Nat)
    (hmax : max_size_per_thread < 2 ^ 32) (calls : List RingLogCall) (call : RingLogCall)
    (hmono : (calls ++ [call]).Pairwise (fun a b => a.now ≤ b.now)) :
    ∃ logger,
      run_ring_calls E L G_USEC_PER_SEC
        (ring_buffer_logger_new max_size_per_thread thread_timeout) (calls ++ [call])
        = some logger ∧
      logger.threads.Pairwise (fun a b => b.last_use ≤ a.last_use) ∧
      (∃ log rest, logger.threads = log :: rest ∧ log.thread = call.thread ∧
        log.last_use = call.now) ∧
      (logger.threads.map (fun log => log.thread)).Nodup ∧
      logger.thread_index.Nodup ∧
      (∀ t, t ∈ logger.thread_index ↔ t ∈ logger.threads.map (fun log => log.thread)) := by
  obtain ⟨l, e, _, _, _, i, r⟩ := run_new_recency E L G_USEC_PER_SEC max_size_per_thread
    thread_timeout hmax (calls ++ [call]) hmono
  refine ⟨l, e, r, ?_, i.1, i.2.1, i.2.2⟩
  obtain ⟨h1, h2, _⟩ := ring_buffer_logger_new_ok max_size_per_thread thread_timeout
  obtain ⟨l1, e1, m1, _, s1, i1⟩ := run_ring_ok E L G_USEC_PER_SEC calls
    (ring_buffer_logger_new max_size_per_thread thread_timeout) hmax h1 h2
  obtain ⟨l2, e2, _, _, _, _, log, rest, e3, e4, e5, _⟩ := store_ok G_USEC_PER_SEC l1
    call.thread call.now (gst_ring_buffer_logger_log_line E L call).2
    (by rw [m1]; exact hmax) s1 i1
  rw [run_ring_calls_append, e1] at e
  have e6 : run_ring_calls E L G_USEC_PER_SEC l1 [call] = some l2 := by
    unfold run_ring_calls gst_ring_buffer_logger_log
    rw [e2]
    rfl
  rw [Option.some_bind, e6] at e
  simp only [Option.some.injEq] at e
  subst e
  exact ⟨log, rest, e3, e4, e5⟩

/-- C25 at a concrete run: threads 1, 2 and 1 again log at the times 10, 20
and 30; the queue then holds thread 1 (last use 30) before thread 2 (last use
20), and the index holds both. -/
theorem ring_threads_in_recency_order_witness :
    (4096 < 2 ^ 32) ∧
    ([ring_call 1 10 "net.c" "a", ring_call 2 20 "net.c" "b"]
      ++ [ring_call 1 30 "net.c" "c"]).Pairwise (fun a b => a.now ≤ b.now) ∧
    (∃ logger,
      run_ring_calls unix_line_decl spec_levels 1000000 (ring_buffer_logger_new 4096 60)
        ([ring_call 1 10 "net.c" "a", ring_call 2 20 "net.c" "b"]
          ++ [ring_call 1 30 "net.c" "c"]) = some logger ∧
      logger.threads.Pairwise (fun a b => b.last_use ≤ a.last_use) ∧
      (∃ log rest, logger.threads = log :: rest ∧
        log.thread = (ring_call 1 30 "net.c" "c").thread ∧
        log.last_use = (ring_call 1 30 "net.c" "c").now) ∧
      (logger.threads.map (fun log => log.thread)).Nodup ∧
      logger.thread_index.Nodup ∧
      (∀ t, t ∈ logger.thread_index ↔ t ∈ logger.threads.map (fun log => log.thread))) ∧
    (run_ring_calls unix_line_decl spec_levels 1000000 (ring_buffer_logger_new 4096 60)
        ([ring_call 1 10 "net.c" "a", ring_call 2 20 "net.c" "b"]
          ++ [ring_call 1 30 "net.c" "c"])).map
      (fun logger =>
        (logger.threads.map (fun log => (log.thread, log.last_use)), logger.thread_index))
      = some ([(1, 30), (2, 20)], [2, 1]) :=
  ⟨by decide, by decide,
    ring_threads_in_recency_order unix_line_decl spec_levels 1000000 4096 60 (by decide)
      [ring_call 1 10 "net.c" "a", ring_call 2 20 "net.c" "b"] (ring_call 1 30 "net.c" "c")
      (by decide),
    by decide⟩

/-- C26 fails on the code: with `thread_timeout` 4295 the product
`thread_timeout * G_USEC_PER_SEC` is computed in 32 bits and comes to 32704
microseconds; thread 1 logs at the time 0 and thread 2 at the time 1000000,
one second later, and the record of thread 1 is dropped. With a timeout of
4294 seconds, whose product fits, the same calls keep it. -/
theorem thread_dropped_before_timeout :
    4295 * 1000000 % 2 ^ 32 = 32704 ∧
    (gst_ring_buffer_logger_log_drop 1000000
        { max_size_per_thread := 4096, thread_timeout := 4295,
          threads := [{ last_use := 0, thread := 1, log := [], log_size := 0 }],
          thread_index := [1] } 1000000) = ([], []) ∧
    (run_ring_calls unix_line_decl spec_levels 1000000 (ring_buffer_logger_new 4096 4295)
        [ring_call 1 0 "net.c" "sent", ring_call 2 1000000 "net.c" "sent"]).map
      (fun logger => (logger.threads.map (fun log => log.thread), logger.thread_index))
      = some ([2], [2]) ∧
    (run_ring_calls unix_line_decl spec_levels 1000000 (ring_buffer_logger_new 4096 4294)
        [ring_call 1 0 "net.c" "sent", ring_call 2 1000000 "net.c" "sent"]).map
      (fun logger => (logger.threads.map (fun log => log.thread), logger.thread_index))
      = some ([2, 1], [2, 1]) := by
  decide

/-- When the message of `gst_debug_add_log_function` runs no log function (the
library is not initialised, or `GST_LEVEL_DEBUG` is above `_gst_debug_min`, or
`GST_CAT_DEFAULT` is `NULL` or has a threshold below `GST_LEVEL_DEBUG`),
`gst_debug_add_ring_buffer_logger` without a logger in place returns with the
new entry at the head of the handler list and the new, empty logger. -/
theorem add_ring_buffer_logger_quiet (L : GstDebugLevelDecl) (address free_notify : Nat)
    (s : GstDebugState) (max_size_per_thread thread_timeout : Nat) (initialized : Bool)
    (cat : Option GstDebugCategory) (file : List Char) (line : Int) (func : Nat)
    (hq : initialized = false ∨ ¬ L.GST_LEVEL_DEBUG ≤ s._gst_debug_min ∨ cat = none
      ∨ ∃ c, cat = some c ∧ L.GST_LEVEL_DEBUG > gst_debug_category_get_threshold c) :
    gst_debug_add_ring_buffer_logger L address free_notify s none max_size_per_thread
        thread_timeout initialized cat file line func
      = some ({ s with
            __log_functions :=
              ({ func := GstLogFunction.gst_ring_buffer_logger_log, user_data := address,
                 notify := some free_notify } :: s.__log_functions) },
          some (address, ring_buffer_logger_new max_size_per_thread thread_timeout)) := by
  have hruns : gst_debug_add_log_function_message L
      (gst_debug_add_log_function s (some GstLogFunction.gst_ring_buffer_logger_log) address
        (some free_notify)) initialized cat file line func address = [] := by
    unfold gst_debug_add_log_function_message GST_DEBUG
    rcases hq with h | h | h | ⟨c, h, hc⟩
    · rw [h]
      rfl
    · have h2 : ¬ L.GST_LEVEL_DEBUG ≤ (gst_debug_add_log_function s
          (some GstLogFunction.gst_ring_buffer_logger_log) address
          (some free_notify))._gst_debug_min := h
      rw [if_neg h2]
      simp
    · rw [h]
      simp [gst_debug_log_full_valist]
    · rw [h]
      simp [gst_debug_log_full_valist, hc]
  unfold gst_debug_add_ring_buffer_logger
  simp only [hruns, List.any_nil, Bool.false_eq_true, if_false]
  rfl

/-- When the library is initialised and the category `GST_CAT_DEFAULT` and
`_gst_debug_min` let a message of level `GST_LEVEL_DEBUG` through,
`gst_debug_add_ring_buffer_logger` without a logger in place does not return:
the message of `gst_debug_add_log_function` runs the log functions, first the
one just prepended, which takes the lock its caller holds. -/
theorem add_ring_buffer_logger_locks_twice (L : GstDebugLevelDecl)
    (address free_notify : Nat) (s : GstDebugState)
    (max_size_per_thread thread_timeout : Nat) (c : GstDebugCategory) (file : List Char)
    (line : Int) (func : Nat) (hmin : L.GST_LEVEL_DEBUG ≤ s._gst_debug_min)
    (hc : L.GST_LEVEL_DEBUG ≤ gst_debug_category_get_threshold c) :
    ((gst_debug_add_log_function_message L
        (gst_debug_add_log_function s (some GstLogFunction.gst_ring_buffer_logger_log) address
          (some free_notify)) true (some c) file line func address).head?.map
      (fun run => (run.func, run.user_data))
      = some (GstLogFunction.gst_ring_buffer_logger_log, address)) ∧
    gst_debug_add_ring_buffer_logger L address free_notify s none max_size_per_thread
        thread_timeout true (some c) file line func
      = none := by
  have hmin2 : L.GST_LEVEL_DEBUG ≤ (gst_debug_add_log_function s
      (some GstLogFunction.gst_ring_buffer_logger_log) address
      (some free_notify))._gst_debug_min := hmin
  have hc2 : ¬ L.GST_LEVEL_DEBUG > gst_debug_category_get_threshold c := by omega
  constructor
  · unfold gst_debug_add_log_function_message GST_DEBUG
    rw [if_pos rfl, if_pos hmin2]
    simp [gst_debug_log_full_valist, hc2, gst_debug_add_log_function]
  · unfold gst_debug_add_ring_buffer_logger
    simp only []
    unfold gst_debug_add_log_function_message GST_DEBUG
    rw [if_pos rfl, if_pos hmin2]
    simp [gst_debug_log_full_valist, hc2, gst_debug_add_log_function]

/-- The function `gst_debug_remove_ring_buffer_logger` on a handler list whose
only entry of `gst_ring_buffer_logger_log` is the one of the logger at its
head: the entry leaves the list and its destroy notify frees the logger. -/
theorem remove_ring_buffer_logger_restores (address free_notify : Nat) (s : GstDebugState)
    (logger : GstRingBufferLogger) (initialized : Bool)
    (hs : ∀ e ∈ s.__log_functions, e.func ≠ GstLogFunction.gst_ring_buffer_logger_log) :
    gst_debug_remove_ring_buffer_logger free_notify
        ({ s with
            __log_functions :=
              ({ func := GstLogFunction.gst_ring_buffer_logger_log, user_data := address,
                 notify := some free_notify } :: s.__log_functions) } : GstDebugState)
        (some (address, logger)) initialized
      = (s, none) := by
  have hf1 : s.__log_functions.filter
      (fun e => !decide (e.func = GstLogFunction.gst_ring_buffer_logger_log))
      = s.__log_functions :=
    List.filter_eq_self.mpr (fun e he => by simp [hs e he])
  have hf2 : s.__log_functions.filter
      (fun e => decide (e.func = GstLogFunction.gst_ring_buffer_logger_log)) = [] :=
    List.filter_eq_nil_iff.mpr (fun e he => by simp [hs e he])
  unfold gst_debug_remove_ring_buffer_logger
  rw [remove_log_function_spec]
  simp only [Option.getD_some,
    List.filter_cons, decide_True, Bool.not_true, Bool.false_eq_true, if_false, if_true,
    hf1, hf2, reduceCtorEq, and_false, List.reverse_cons, List.reverse_nil, List.nil_append,
    List.filterMap_cons, List.filterMap_nil, Option.map_some', run_notify_calls,
    gst_ring_buffer_logger_free]

/-- From a state whose handler list has no entry of
`gst_ring_buffer_logger_log` and in which no ring buffer logger exists, when
the message of `gst_debug_add_log_function` runs no log function,
`gst_debug_add_ring_buffer_logger` makes the logger with the given budget and
timeout and prepends its one entry. While a logger exists, whatever it has
stored since and whatever the thresholds are, a further
`gst_debug_add_ring_buffer_logger` changes neither the handler list nor the
logger. `gst_debug_remove_ring_buffer_logger` then removes the entry, whose
destroy notify frees the logger, which gives back the state before the first
call with no logger; and a call of `gst_debug_add_ring_buffer_logger` after it
is the call it would have been in that state. -/
theorem ring_buffer_logger_single (L : GstDebugLevelDecl) (address address2 free_notify : Nat)
    (s : GstDebugState) (max_size_per_thread thread_timeout max2 timeout2 : Nat)
    (logger : GstRingBufferLogger) (initialized initialized2 : Bool)
    (cat cat2 : Option GstDebugCategory) (file : List Char) (line : Int) (func : Nat)
    (hs : ∀ e ∈ s.__log_functions, e.func ≠ GstLogFunction.gst_ring_buffer_logger_log)
    (hq : initialized = false ∨ ¬ L.GST_LEVEL_DEBUG ≤ s._gst_debug_min ∨ cat = none
      ∨ ∃ c, cat = some c ∧ L.GST_LEVEL_DEBUG > gst_debug_category_get_threshold c) :
    ∃ s1,
      gst_debug_add_ring_buffer_logger L address free_notify s none max_size_per_thread
          thread_timeout initialized cat file line func
        = some (s1, some (address, ring_buffer_logger_new max_size_per_thread thread_timeout)) ∧
      s1.__log_functions
        = { func := GstLogFunction.gst_ring_buffer_logger_log, user_data := address,
            notify := some free_notify } :: s.__log_functions ∧
      (∀ s2, gst_debug_add_ring_buffer_logger L address2 free_notify s2
          (some (address, logger)) max2 timeout2 initialized2 cat2 file line func
        = some (s2, some (address, logger))) ∧
      gst_debug_remove_ring_buffer_logger free_notify s1 (some (address, logger)) initialized2
        = (s, none) ∧
      gst_debug_add_ring_buffer_logger L address2 free_notify
          (gst_debug_remove_ring_buffer_logger free_notify s1 (some (address, logger))
            initialized2).1
          (gst_debug_remove_ring_buffer_logger free_notify s1 (some (address, logger))
            initialized2).2 max2 timeout2 initialized2 cat2 file line func
        = gst_debug_add_ring_buffer_logger L address2 free_notify s none max2 timeout2
            initialized2 cat2 file line func := by
  have hrem := remove_ring_buffer_logger_restores address free_notify s logger initialized2 hs
  refine ⟨_, add_ring_buffer_logger_quiet L address free_notify s max_size_per_thread
    thread_timeout initialized cat file line func hq, rfl, fun s2 => rfl, hrem, ?_⟩
  rw [hrem]

set_option maxRecDepth 8000 in
/-- C27, the code in an initialised library whose category "GST_DEBUG" lets
messages of the level DEBUG through. The first part of the claim holds: with a
logger in place a further `gst_debug_add_ring_buffer_logger` returns without a
change, and `gst_debug_remove_ring_buffer_logger` removes the entry and frees
the logger. But the call that then adds a new logger does not return:
`gst_debug_add_log_function`, called with `G_LOCK (ring_buffer_logger)` held,
logs its message "prepended log function", the first log function run for it
is the `gst_ring_buffer_logger_log` just prepended, and that function takes
the same lock. With the threshold of the category at INFO the same call
returns with the new logger. -/
theorem new_ring_buffer_logger_waits_for_itself :
    gst_debug_add_ring_buffer_logger spec_levels 100 9 debug_category_state none 4096 60 true
        debug_category_state.__categories.head? "gstinfo.c".toList 1951 77
      = some ({ debug_category_state with
            __log_functions :=
              [{ func := GstLogFunction.gst_ring_buffer_logger_log, user_data := 100,
                 notify := some 9 },
               { func := GstLogFunction.gst_debug_log_default, user_data := 0,
                 notify := none }] },
          some (100, ring_buffer_logger_new 4096 60)) ∧
    (CategoryOp.run glib_pattern
        { debug_category_state with
          __log_functions :=
            [{ func := GstLogFunction.gst_ring_buffer_logger_log, user_data := 100,
               notify := some 9 },
             { func := GstLogFunction.gst_debug_log_default, user_data := 0,
               notify := none }] }
        (.category_set_threshold 0 spec_levels.GST_LEVEL_DEBUG))._gst_debug_min
      = spec_levels.GST_LEVEL_DEBUG ∧
    gst_debug_add_ring_buffer_logger spec_levels 200 9
        (CategoryOp.run glib_pattern
          { debug_category_state with
            __log_functions :=
              [{ func := GstLogFunction.gst_ring_buffer_logger_log, user_data := 100,
                 notify := some 9 },
               { func := GstLogFunction.gst_debug_log_default, user_data := 0,
                 notify := none }] }
          (.category_set_threshold 0 spec_levels.GST_LEVEL_DEBUG))
        (some (100, logger_with_line)) 512 5 true
        (CategoryOp.run glib_pattern debug_category_state
          (.category_set_threshold 0 spec_levels.GST_LEVEL_DEBUG)).__categories.head?
        "gstinfo.c".toList 1951 77
      = some (CategoryOp.run glib_pattern
          { debug_category_state with
            __log_functions :=
              [{ func := GstLogFunction.gst_ring_buffer_logger_log, user_data := 100,
                 notify := some 9 },
               { func := GstLogFunction.gst_debug_log_default, user_data := 0,
                 notify := none }] }
          (.category_set_threshold 0 spec_levels.GST_LEVEL_DEBUG),
        some (100, logger_with_line)) ∧
    gst_debug_remove_ring_buffer_logger 9
        (CategoryOp.run glib_pattern
          { debug_category_state with
            __log_functions :=
              [{ func := GstLogFunction.gst_ring_buffer_logger_log, user_data := 100,
                 notify := some 9 },
               { func := GstLogFunction.gst_debug_log_default, user_data := 0,
                 notify := none }] }
          (.category_set_threshold 0 spec_levels.GST_LEVEL_DEBUG))
        (some (100, logger_with_line)) true
      = (CategoryOp.run glib_pattern debug_category_state
          (.category_set_threshold 0 spec_levels.GST_LEVEL_DEBUG), none) ∧
    (gst_debug_add_log_function_message spec_levels
        (gst_debug_add_log_function
          (CategoryOp.run glib_pattern debug_category_state
            (.category_set_threshold 0 spec_levels.GST_LEVEL_DEBUG))
          (some GstLogFunction.gst_ring_buffer_logger_log) 200 (some 9))
        true
        (CategoryOp.run glib_pattern debug_category_state
          (.category_set_threshold 0 spec_levels.GST_LEVEL_DEBUG)).__categories.head?
        "gstinfo.c".toList 1951 77 200).map (fun run => (run.func, run.user_data))
      = [(GstLogFunction.gst_ring_buffer_logger_log, 200),
         (GstLogFunction.gst_debug_log_default, 0)] ∧
    gst_debug_add_ring_buffer_logger spec_levels 200 9
        (CategoryOp.run glib_pattern debug_category_state
          (.category_set_threshold 0 spec_levels.GST_LEVEL_DEBUG))
        none 512 5 true
        (CategoryOp.run glib_pattern debug_category_state
          (.category_set_threshold 0 spec_levels.GST_LEVEL_DEBUG)).__categories.head?
        "gstinfo.c".toList 1951 77
      = none ∧
    (gst_debug_add_ring_buffer_logger spec_levels 200 9
        (CategoryOp.run glib_pattern
          (CategoryOp.run glib_pattern debug_category_state
            (.category_set_threshold 0 spec_levels.GST_LEVEL_DEBUG))
          (.category_set_threshold 0 spec_levels.GST_LEVEL_INFO))
        none 512 5 true
        (CategoryOp.run glib_pattern
          (CategoryOp.run glib_pattern debug_category_state
            (.category_set_threshold 0 spec_levels.GST_LEVEL_DEBUG))
          (.category_set_threshold 0 spec_levels.GST_LEVEL_INFO)).__categories.head?
        "gstinfo.c".toList 1951 77).map (fun r => r.2)
      = some (some (200, ring_buffer_logger_new 512 5)) := by
  refine ⟨by decide, by decide, by decide, ?_, by decide, by decide, by decide⟩
  exact remove_ring_buffer_logger_restores 100 9
    (CategoryOp.run glib_pattern debug_category_state
      (.category_set_threshold 0 spec_levels.GST_LEVEL_DEBUG))
    logger_with_line true (by decide)

/-- C28. For the same category, level, file, function, line, object and
message, the same value of `gst_util_get_timestamp ()`, the same process and
the same thread, the text `gst_debug_log_default` writes when the colour mode
is off and the line `gst_ring_buffer_logger_log` builds, and stores as the
newest line of the thread when it is shorter than the budget, are the string
`gst_debug_log_get_line` returns. That string ends with a newline and has,
between the function name with its colon and the blank before the message, the
tag `<id>` when `gst_debug_message_get_id` gives an object id and nothing
otherwise. -/
theorem log_line_same_in_three_renderers (E : GstLineDecl) (L : GstDebugLevelDecl)
    (G_USEC_PER_SEC : Nat) (logger : GstRingBufferLogger) (call : RingLogCall) :
    gst_debug_log_default E L E.GST_DEBUG_COLOR_MODE_OFF call.category call.level call.file
        call.function call.line call.object call.message call.timestamp call.pid call.thread
      = gst_debug_log_get_line E L call.category call.level call.file call.function call.line
          call.object call.message call.timestamp call.pid call.thread ∧
    (gst_ring_buffer_logger_log_line E L call).2
      = gst_debug_log_get_line E L call.category call.level call.file call.function call.line
          call.object call.message call.timestamp call.pid call.thread ∧
    (logger.max_size_per_thread < 2 ^ 32 → ring_sizes_ok logger → ring_index_ok logger →
      (gst_debug_log_get_line E L call.category call.level call.file call.function call.line
          call.object call.message call.timestamp call.pid call.thread).length
        < logger.max_size_per_thread →
      ∃ logger1 log rest,
        gst_ring_buffer_logger_log E L G_USEC_PER_SEC logger call = some logger1 ∧
        logger1.threads = log :: rest ∧ log.thread = call.thread ∧
        log.log.getLast? = some
          (gst_debug_log_get_line E L call.category call.level call.file call.function
            call.line call.object call.message call.timestamp call.pid call.thread)) ∧
    (∃ head,
      gst_debug_log_get_line E L call.category call.level call.file call.function call.line
          call.object call.message call.timestamp call.pid call.thread
        = head ++ call.function ++ ":".toList
          ++ (match (gst_debug_message_get_id E._get_object_id
                (gst_debug_message_get E.__gst_vasprintf call.message).1).2 with
              | some object_id => "<".toList ++ object_id ++ ">".toList
              | none => [])
          ++ " ".toList ++ printf_s (gst_debug_message_get E.__gst_vasprintf call.message).2.1
          ++ "\n".toList) := by
  have h1 : gst_debug_log_default E L E.GST_DEBUG_COLOR_MODE_OFF call.category call.level
        call.file call.function call.line call.object call.message call.timestamp call.pid
        call.thread
      = gst_debug_log_get_line E L call.category call.level call.file call.function call.line
          call.object call.message call.timestamp call.pid call.thread := by
    unfold gst_debug_log_default gst_debug_log_get_line
    simp only [ne_eq, not_true_eq_false, if_false]
  have h2 : (gst_ring_buffer_logger_log_line E L call).2
      = gst_debug_log_get_line E L call.category call.level call.file call.function call.line
          call.object call.message call.timestamp call.pid call.thread := by
    unfold gst_ring_buffer_logger_log_line gst_debug_log_get_line
    simp only [_gst_debug_log_preamble]
    cases (gst_debug_message_get_id E._get_object_id
        (gst_debug_message_get E.__gst_vasprintf call.message).1).2 <;> rfl
  refine ⟨h1, h2, ?_, ?_⟩
  · intro hmax hs hi hlen
    rw [← h2] at hlen ⊢
    obtain ⟨old, lines, rest, idx, e, _, _, _, _, _, _, a, _⟩ := store_shape G_USEC_PER_SEC
      logger call.thread call.now (gst_ring_buffer_logger_log_line E L call).2 hmax hs hi
    obtain ⟨q1, q2, _, e2, _⟩ := a hlen
    refine ⟨_, _, rest, e, rfl, rfl, ?_⟩
    show lines.getLast? = _
    rw [e2]
    simp
  · rw [get_line_closed]
    unfold NOCOLOR_PRINT_FMT CAT_FMT
    refine ⟨E.GST_TIME (GST_CLOCK_DIFF E._priv_gst_start_time call.timestamp) ++ " ".toList
      ++ printf_width 5 ' ' (printf_d call.pid) ++ " ".toList
      ++ printf_width 14 ' ' (E.printf_p call.thread) ++ " ".toList
      ++ gst_debug_level_get_name L call.level ++ " ".toList
      ++ printf_width 20 ' ' (gst_debug_category_get_name call.category) ++ " ".toList
      ++ (_gst_debug_log_preamble E call.message call.file call.timestamp).2.1 ++ ":".toList
      ++ printf_d call.line ++ ":".toList, ?_⟩
    simp only [List.append_assoc]

/-- C28 at a concrete call: a message with the object id `pad0`, logged from
`C:net.c` by thread 255 an hour, two minutes and three seconds after the
start; the line is the same in the three renderers and is stored by the ring
buffer logger. -/
theorem log_line_same_in_three_renderers_witness :
    (4096 < 2 ^ 32) ∧ ring_sizes_ok (ring_buffer_logger_new 4096 0) ∧
    ring_index_ok (ring_buffer_logger_new 4096 0) ∧
    gst_debug_log_get_line unix_line_decl spec_levels net_category 3 "C:net.c".toList
        "net_send".toList 12 0 (net_message (some "pad0") "sent") 3723000000005 7 255
      = "1:02:03.000000005     7           0xff INFO                     net net.c:12:net_send:<pad0> sent\n".toList ∧
    (∃ logger1 log rest,
      gst_ring_buffer_logger_log unix_line_decl spec_levels 1000000
          (ring_buffer_logger_new 4096 0)
          { category := net_category, level := 3, file := "C:net.c".toList,
            function := "net_send".toList, line := 12, object := 0,
            message := net_message (some "pad0") "sent", now := 0,
            timestamp := 3723000000005, pid := 7, thread := 255 } = some logger1 ∧
      logger1.threads = log :: rest ∧ log.thread = 255 ∧
      log.log.getLast? = some
        (gst_debug_log_get_line unix_line_decl spec_levels net_category 3 "C:net.c".toList
          "net_send".toList 12 0 (net_message (some "pad0") "sent") 3723000000005 7 255)) :=
  ⟨by decide, (ring_buffer_logger_new_ok 4096 0).1, (ring_buffer_logger_new_ok 4096 0).2.1,
    by decide,
    (log_line_same_in_three_renderers unix_line_decl spec_levels 1000000
      (ring_buffer_logger_new 4096 0)
      { category := net_category, level := 3, file := "C:net.c".toList,
        function := "net_send".toList, line := 12, object := 0,
        message := net_message (some "pad0") "sent", now := 0,
        timestamp := 3723000000005, pid := 7, thread := 255 }).2.2.1
      (by decide) (ring_buffer_logger_new_ok 4096 0).1 (ring_buffer_logger_new_ok 4096 0).2.1
      (by decide)⟩

/-- C29, as stated, fails: in a build with the unwinder and with `backtrace`,
a call without `GST_STACK_TRACE_SHOW_FULL` in its flags returns the trace of
the backtrace backend, not that of the unwinder. -/
theorem minimal_trace_uses_backtrace :
    unwind_and_backtrace.HAVE_UNWIND = true ∧ unwind_and_backtrace.HAVE_BACKTRACE = true ∧
    gst_debug_get_stack_trace unwind_and_backtrace 0
      = generate_backtrace_trace unwind_and_backtrace ∧
    gst_debug_get_stack_trace unwind_and_backtrace 0
      = some "./app(+0x10) [0x400010]\n./app(+0x4) [0x400004]\n".toList ∧
    generate_unwind_trace unwind_and_backtrace 0 = "main (0x16)\nstart (0x4)\n".toList := by
  decide

/-- C29, amended. When both the unwinder and the backtrace backend are
available, `gst_debug_get_stack_trace` returns the trace of the unwinder for
flags that contain `GST_STACK_TRACE_SHOW_FULL` and the trace of the backtrace
backend for flags that do not; with the unwinder and without the backtrace
backend it returns the trace of the unwinder for all flags; without the
unwinder the backtrace backend is used when the debug-help backend is absent or
gives nothing; and `NULL` is returned when no backend is available. -/
theorem stack_trace_backend_by_flags (T : GstStackTraceDecl) (flags : Nat) :
    (T.HAVE_UNWIND = true → T.HAVE_BACKTRACE = true →
      (flag_test flags T.GST_STACK_TRACE_SHOW_FULL = true →
        gst_debug_get_stack_trace T flags = some (generate_unwind_trace T flags)) ∧
      (flag_test flags T.GST_STACK_TRACE_SHOW_FULL = false →
        gst_debug_get_stack_trace T flags = generate_backtrace_trace T)) ∧
    (T.HAVE_UNWIND = true → T.HAVE_BACKTRACE = false →
      gst_debug_get_stack_trace T flags = some (generate_unwind_trace T flags)) ∧
    (T.HAVE_UNWIND = false → T.HAVE_BACKTRACE = true →
      (T.HAVE_DBGHELP = false ∨ T.generate_dbghelp_trace = none) →
      gst_debug_get_stack_trace T flags = generate_backtrace_trace T) ∧
    (T.HAVE_UNWIND = false → T.HAVE_DBGHELP = false → T.HAVE_BACKTRACE = false →
      gst_debug_get_stack_trace T flags = none) := by
  refine ⟨fun hu hb => ⟨fun hf => ?_, fun hf => ?_⟩, fun hu hb => ?_, fun hu hb hd => ?_,
    fun hu hd hb => ?_⟩
  · simp [gst_debug_get_stack_trace, hu, hb, hf]
  · simp [gst_debug_get_stack_trace, hu, hb, hf]
  · simp [gst_debug_get_stack_trace, hu, hb]
  · rcases hd with hd | hd
    · simp [gst_debug_get_stack_trace, hu, hb, hd]
    · by_cases h : T.HAVE_DBGHELP = true
      · simp [gst_debug_get_stack_trace, hu, hb, hd, h]
      · simp [gst_debug_get_stack_trace, hu, hb, h]
  · simp [gst_debug_get_stack_trace, hu, hb, hd]

/-- C29, amended, at concrete builds. With both backends the flags 1
(`GST_STACK_TRACE_SHOW_FULL`) give the trace of the unwinder and the flags 0
that of the backtrace backend; without the backtrace backend the flags 0 give
the trace of the unwinder; without the unwinder they give that of the backtrace
backend; and without any backend the result is `NULL`. -/
theorem stack_trace_backend_by_flags_witness :
    gst_debug_get_stack_trace unwind_and_backtrace 1
      = some (generate_unwind_trace unwind_and_backtrace 1) ∧
    generate_unwind_trace unwind_and_backtrace 1 = "main (0x16)\nstart (0x4)\n".toList ∧
    gst_debug_get_stack_trace unwind_and_backtrace 0
      = generate_backtrace_trace unwind_and_backtrace ∧
    gst_debug_get_stack_trace { unwind_and_backtrace with HAVE_BACKTRACE := false } 0
      = some (generate_unwind_trace { unwind_and_backtrace with HAVE_BACKTRACE := false } 0) ∧
    gst_debug_get_stack_trace { unwind_and_backtrace with HAVE_UNWIND := false } 1
      = generate_backtrace_trace { unwind_and_backtrace with HAVE_UNWIND := false } ∧
    gst_debug_get_stack_trace
        { unwind_and_backtrace with HAVE_UNWIND := false, HAVE_BACKTRACE := false } 1
      = none :=
  ⟨((stack_trace_backend_by_flags unwind_and_backtrace 1).1 (by decide) (by decide)).1
      (by decide),
    by decide,
    ((stack_trace_backend_by_flags unwind_and_backtrace 0).1 (by decide) (by decide)).2
      (by decide),
    (stack_trace_backend_by_flags { unwind_and_backtrace with HAVE_BACKTRACE := false } 0).2.1
      (by decide) (by decide),
    (stack_trace_backend_by_flags { unwind_and_backtrace with HAVE_UNWIND := false }
      1).2.2.1 (by decide) (by decide) (Or.inl (by decide)),
    (stack_trace_backend_by_flags
      { unwind_and_backtrace with HAVE_UNWIND := false, HAVE_BACKTRACE := false } 1).2.2.2
      (by decide) (by decide) (by decide)⟩

/-- C35. The key is not injective on the fields it includes: on the throttling
context `ctx_throttle_0`, whose hash flags are the default ones, the message
with the object id `a/b` and the text `c` and the message with the object id
`a` and the text `b/c`, logged from the same file with the same object
pointer, have the same key, and the check of the second, made after that of
the first, returns `FALSE`. -/
theorem key_collision_suppresses_other_message :
    ctx_throttle_0.hash_flags = spec_context_decl.GST_LOG_CONTEXT_DEFAULT ∧
    flag_test ctx_throttle_0.flags spec_context_decl.GST_LOG_CONTEXT_FLAG_THROTTLE = true ∧
    ((some "a/b".toList, some "c".toList) : Option (List Char) × Option (List Char))
      ≠ (some "a".toList, some "b/c".toList) ∧
    _gst_log_ctx_get_id_literal spec_context_decl ctx_throttle_0 (some "net.c".toList) 12 0
        (some "a/b".toList) (some "c".toList)
      = _gst_log_ctx_get_id_literal spec_context_decl ctx_throttle_0 (some "net.c".toList) 12 0
        (some "a".toList) (some "b/c".toList) ∧
    _gst_log_ctx_get_id_literal spec_context_decl ctx_throttle_0 (some "net.c".toList) 12 0
        (some "a/b".toList) (some "c".toList) = "net.c:-1/(nil)/a/b/c".toList ∧
    (run_checks spec_context_decl ctx_throttle_0
      [{ now := 1, now_reset := 1, file := some "net.c".toList, line := 12, object := 0,
         id := some "a/b".toList, message := some "c".toList },
       { now := 2, now_reset := 2, file := some "net.c".toList, line := 12, object := 0,
         id := some "a".toList, message := some "b/c".toList }]).2 = [true, false] ∧
    (_gst_log_ctx_check_id_literal spec_context_decl ctx_throttle_0 2 2 (some "net.c".toList)
      12 0 (some "a".toList) (some "b/c".toList)).2 = true := by
  decide

/-- C39. When the enumerators of `GstDebugLevel` are pairwise distinct, each of
the levels ERROR, WARNING, FIXME, INFO, DEBUG, LOG, TRACE and MEMDUMP is read
back by `parse_debug_level` from the name `gst_debug_level_get_name` gives it;
the eight names are 7 characters wide and pairwise distinct. -/
theorem level_names_round_trip (L : GstDebugLevelDecl)
    (hd : [L.GST_LEVEL_NONE, L.GST_LEVEL_ERROR, L.GST_LEVEL_WARNING, L.GST_LEVEL_INFO,
      L.GST_LEVEL_DEBUG, L.GST_LEVEL_LOG, L.GST_LEVEL_FIXME, L.GST_LEVEL_TRACE,
      L.GST_LEVEL_MEMDUMP].Nodup) :
    (∀ level ∈ [L.GST_LEVEL_ERROR, L.GST_LEVEL_WARNING, L.GST_LEVEL_FIXME, L.GST_LEVEL_INFO,
        L.GST_LEVEL_DEBUG, L.GST_LEVEL_LOG, L.GST_LEVEL_TRACE, L.GST_LEVEL_MEMDUMP],
      parse_debug_level L (some (gst_debug_level_get_name L level)) = some level ∧
      (gst_debug_level_get_name L level).length = 7) ∧
    ([L.GST_LEVEL_ERROR, L.GST_LEVEL_WARNING, L.GST_LEVEL_FIXME, L.GST_LEVEL_INFO,
        L.GST_LEVEL_DEBUG, L.GST_LEVEL_LOG, L.GST_LEVEL_TRACE, L.GST_LEVEL_MEMDUMP].map
      (gst_debug_level_get_name L)).Nodup ∧
    [L.GST_LEVEL_ERROR, L.GST_LEVEL_WARNING, L.GST_LEVEL_FIXME, L.GST_LEVEL_INFO,
        L.GST_LEVEL_DEBUG, L.GST_LEVEL_LOG, L.GST_LEVEL_TRACE, L.GST_LEVEL_MEMDUMP].map
      (gst_debug_level_get_name L)
      = ["ERROR  ".toList, "WARN   ".toList, "FIXME  ".toList, "INFO   ".toList,
          "DEBUG  ".toList, "LOG    ".toList, "TRACE  ".toList, "MEMDUMP".toList] := by
  simp only [List.nodup_cons, List.mem_cons, List.mem_singleton, not_or, List.not_mem_nil,
    not_false_eq_true, List.nodup_nil, and_true] at hd
  obtain ⟨⟨n1, n2, n3, n4, n5, n6, n7, n8⟩, ⟨e2, e3, e4, e5, e6, e7, e8⟩,
    ⟨w3, w4, w5, w6, w7, w8⟩, ⟨i4, i5, i6, i7, i8⟩, ⟨d5, d6, d7, d8⟩, ⟨l6, l7, l8⟩,
    ⟨f7, f8⟩, t8⟩ := hd
  have hE : gst_debug_level_get_name L L.GST_LEVEL_ERROR = "ERROR  ".toList := by
    unfold gst_debug_level_get_name
    rw [if_neg (Ne.symm n1), if_pos rfl]
  have hW : gst_debug_level_get_name L L.GST_LEVEL_WARNING = "WARN   ".toList := by
    unfold gst_debug_level_get_name
    rw [if_neg (Ne.symm n2), if_neg (Ne.symm e2), if_pos rfl]
  have hI : gst_debug_level_get_name L L.GST_LEVEL_INFO = "INFO   ".toList := by
    unfold gst_debug_level_get_name
    rw [if_neg (Ne.symm n3), if_neg (Ne.symm e3), if_neg (Ne.symm w3), if_pos rfl]
  have hD : gst_debug_level_get_name L L.GST_LEVEL_DEBUG = "DEBUG  ".toList := by
    unfold gst_debug_level_get_name
    rw [if_neg (Ne.symm n4), if_neg (Ne.symm e4), if_neg (Ne.symm w4), if_neg (Ne.symm i4),
      if_pos rfl]
  have hL : gst_debug_level_get_name L L.GST_LEVEL_LOG = "LOG    ".toList := by
    unfold gst_debug_level_get_name
    rw [if_neg (Ne.symm n5), if_neg (Ne.symm e5), if_neg (Ne.symm w5), if_neg (Ne.symm i5),
      if_neg (Ne.symm d5), if_pos rfl]
  have hF : gst_debug_level_get_name L L.GST_LEVEL_FIXME = "FIXME  ".toList := by
    unfold gst_debug_level_get_name
    rw [if_neg (Ne.symm n6), if_neg (Ne.symm e6), if_neg (Ne.symm w6), if_neg (Ne.symm i6),
      if_neg (Ne.symm d6), if_neg (Ne.symm l6), if_pos rfl]
  have hT : gst_debug_level_get_name L L.GST_LEVEL_TRACE = "TRACE  ".toList := by
    unfold gst_debug_level_get_name
    rw [if_neg (Ne.symm n7), if_neg (Ne.symm e7), if_neg (Ne.symm w7), if_neg (Ne.symm i7),
      if_neg (Ne.symm d7), if_neg (Ne.symm l7), if_neg (Ne.symm f7), if_pos rfl]
  have hM : gst_debug_level_get_name L L.GST_LEVEL_MEMDUMP = "MEMDUMP".toList := by
    unfold gst_debug_level_get_name
    rw [if_neg (Ne.symm n8), if_neg (Ne.symm e8), if_neg (Ne.symm w8), if_neg (Ne.symm i8),
      if_neg (Ne.symm d8), if_neg (Ne.symm l8), if_neg (Ne.symm f8), if_neg (Ne.symm t8),
      if_pos rfl]
  refine ⟨?_, ?_, ?_⟩
  · intro level hl
    simp only [List.mem_cons, List.mem_singleton, List.not_mem_nil, or_false] at hl
    rcases hl with h | h | h | h | h | h | h | h <;> subst h
    · rw [hE]; exact ⟨rfl, rfl⟩
    · rw [hW]; exact ⟨rfl, rfl⟩
    · rw [hF]; exact ⟨rfl, rfl⟩
    · rw [hI]; exact ⟨rfl, rfl⟩
    · rw [hD]; exact ⟨rfl, rfl⟩
    · rw [hL]; exact ⟨rfl, rfl⟩
    · rw [hT]; exact ⟨rfl, rfl⟩
    · rw [hM]; exact ⟨rfl, rfl⟩
  · simp only [List.map_cons, List.map_nil, hE, hW, hF, hI, hD, hL, hT, hM]
    decide
  · simp only [List.map_cons, List.map_nil, hE, hW, hF, hI, hD, hL, hT, hM]

/-- C39 at the levels of `spec_levels`: the enumerators are distinct, and the
name of WARNING, `WARN` with three blanks, is read back as WARNING. -/
theorem level_names_round_trip_witness :
    [spec_levels.GST_LEVEL_NONE, spec_levels.GST_LEVEL_ERROR, spec_levels.GST_LEVEL_WARNING,
      spec_levels.GST_LEVEL_INFO, spec_levels.GST_LEVEL_DEBUG, spec_levels.GST_LEVEL_LOG,
      spec_levels.GST_LEVEL_FIXME, spec_levels.GST_LEVEL_TRACE,
      spec_levels.GST_LEVEL_MEMDUMP].Nodup ∧
    gst_debug_level_get_name spec_levels spec_levels.GST_LEVEL_WARNING = "WARN   ".toList ∧
    parse_debug_level spec_levels
        (some (gst_debug_level_get_name spec_levels spec_levels.GST_LEVEL_WARNING))
      = some spec_levels.GST_LEVEL_WARNING ∧
    (gst_debug_level_get_name spec_levels spec_levels.GST_LEVEL_WARNING).length = 7 :=
  ⟨by decide, by decide,
    ((level_names_round_trip spec_levels (by decide)).1 spec_levels.GST_LEVEL_WARNING
      (by decide)).1,
    ((level_names_round_trip spec_levels (by decide)).1 spec_levels.GST_LEVEL_WARNING
      (by decide)).2⟩

/-- C33. From a state in which every registered category has a threshold within
`_gst_debug_min`, as the initial state without categories is, every sequence of
category operations (creation, an explicit threshold, a reset, a rule set or
unset, a new default threshold) and calls of
`gst_debug_set_threshold_from_string` leads to a state in which every
registered category has a threshold within `_gst_debug_min`; so a level that is
within the threshold of a category is within `_gst_debug_min`. -/
theorem thresholds_within_tracker (P : GPatternOps) (L : GstDebugLevelDecl)
    (ops : List ThresholdOp) (s : GstDebugState)
    (h : ∀ c ∈ s.__categories, c.threshold ≤ s._gst_debug_min) :
    ∀ c ∈ (ops.foldl (ThresholdOp.run P L) s).__categories,
      c.threshold ≤ (ops.foldl (ThresholdOp.run P L) s)._gst_debug_min ∧
      ∀ level, level ≤ gst_debug_category_get_threshold c →
        level ≤ (ops.foldl (ThresholdOp.run P L) s)._gst_debug_min := by
  have key : ∀ (ops : List ThresholdOp) (s1 : GstDebugState),
      (∀ c ∈ s1.__categories, c.threshold ≤ s1._gst_debug_min) →
      ∀ c ∈ (ops.foldl (ThresholdOp.run P L) s1).__categories,
        c.threshold ≤ (ops.foldl (ThresholdOp.run P L) s1)._gst_debug_min := by
    intro ops
    induction ops with
    | nil => intro s1 h1; exact h1
    | cons op rest ih =>
      intro s1 h1
      apply ih
      cases op with
      | category op => exact category_op_within P s1 op h1
      | set_threshold_from_string list reset => exact from_string_within P L s1 list reset h1
  intro c hc
  exact ⟨key ops s h c hc, fun level hl => le_trans hl (key ops s h c hc)⟩

/-- C33 at a concrete run from the initial state: the category "net" is
created, the string `net:5,2` is applied, the threshold of "net" is set to 7
and then to 1, and the default threshold is set to 0; the threshold of "net"
is within `_gst_debug_min` at the end. -/
theorem thresholds_within_tracker_witness :
    (∀ c ∈ (gst_debug_initial 0 0 []).__categories,
      c.threshold ≤ (gst_debug_initial 0 0 [])._gst_debug_min) ∧
    (∀ c ∈ ([ThresholdOp.category (.category_new (some "net".toList) 0 none),
          ThresholdOp.set_threshold_from_string "net:5,2".toList false,
          ThresholdOp.category (.category_set_threshold 0 7),
          ThresholdOp.category (.category_set_threshold 0 1),
          ThresholdOp.category (.set_default_threshold 0)].foldl
          (ThresholdOp.run glib_pattern spec_levels) (gst_debug_initial 0 0 [])).__categories,
      c.threshold
        ≤ ([ThresholdOp.category (.category_new (some "net".toList) 0 none),
          ThresholdOp.set_threshold_from_string "net:5,2".toList false,
          ThresholdOp.category (.category_set_threshold 0 7),
          ThresholdOp.category (.category_set_threshold 0 1),
          ThresholdOp.category (.set_default_threshold 0)].foldl
          (ThresholdOp.run glib_pattern spec_levels) (gst_debug_initial 0 0 []))._gst_debug_min ∧
      ∀ level, level ≤ gst_debug_category_get_threshold c →
        level ≤ ([ThresholdOp.category (.category_new (some "net".toList) 0 none),
          ThresholdOp.set_threshold_from_string "net:5,2".toList false,
          ThresholdOp.category (.category_set_threshold 0 7),
          ThresholdOp.category (.category_set_threshold 0 1),
          ThresholdOp.category (.set_default_threshold 0)].foldl
          (ThresholdOp.run glib_pattern spec_levels)
          (gst_debug_initial 0 0 []))._gst_debug_min) :=
  ⟨fun _ hc => absurd hc (List.not_mem_nil _),
    thresholds_within_tracker glib_pattern spec_levels
      [ThresholdOp.category (.category_new (some "net".toList) 0 none),
        ThresholdOp.set_threshold_from_string "net:5,2".toList false,
        ThresholdOp.category (.category_set_threshold 0 7),
        ThresholdOp.category (.category_set_threshold 0 1),
        ThresholdOp.category (.set_default_threshold 0)]
      (gst_debug_initial 0 0 []) (fun _ hc => absurd hc (List.not_mem_nil _))⟩

/-- C36. On the logger reached from a new one by any sequence of calls of
`gst_ring_buffer_logger_log`, for every budget (a `guint`) and whatever the
lengths of the lines, the calls return and the `log_size` recorded for each
tracked thread is the sum of the lengths of the lines in its queue. So the
eviction loop, run for a line shorter than the budget on the record of a
tracked thread or on a new record, comes to its end without popping from an
empty queue, and a further call returns. -/
theorem log_size_is_sum_of_lines (E : GstLineDecl) (L : GstDebugLevelDecl)
    (G_USEC_PER_SEC max_size_per_thread thread_timeout : Nat)
    (hmax : max_size_per_thread < 2 ^ 32) (calls : List RingLogCall) (call : RingLogCall) :
    ∃ logger,
      run_ring_calls E L G_USEC_PER_SEC
        (ring_buffer_logger_new max_size_per_thread thread_timeout) calls = some logger ∧
      (∀ log ∈ logger.threads, log.log_size = (log.log.map List.length).sum) ∧
      (∀ log ∈ logger.threads, ∀ output_len, output_len < max_size_per_thread →
        ∃ r, gst_ring_buffer_logger_log_evict max_size_per_thread output_len log.log
          log.log_size = some r) ∧
      (∀ output_len, output_len < max_size_per_thread →
        gst_ring_buffer_logger_log_evict max_size_per_thread output_len [] 0 = some ([], 0)) ∧
      (∃ logger1, gst_ring_buffer_logger_log E L G_USEC_PER_SEC logger call = some logger1) := by
  obtain ⟨h1, h2, _⟩ := ring_buffer_logger_new_ok max_size_per_thread thread_timeout
  obtain ⟨l, e, m, _, s, i⟩ := run_ring_ok E L G_USEC_PER_SEC calls
    (ring_buffer_logger_new max_size_per_thread thread_timeout) hmax h1 h2
  refine ⟨l, e, fun log hl => ?_, fun log hl n hn => ?_, fun n hn => ?_, ?_⟩
  · rw [(s log hl).1, List.length_flatten]
  · obtain ⟨a, b⟩ := s log hl
    rw [m] at b
    obtain ⟨q1, q2, _, e2, _⟩ := evict_spec max_size_per_thread n hmax hn log.log
      log.log_size a b
    exact ⟨_, e2⟩
  · unfold gst_ring_buffer_logger_log_evict
    have : ¬ ((0 + n) % 2 ^ 64 > max_size_per_thread) := by omega
    rw [if_neg this]
  · obtain ⟨l1, e1, _⟩ := store_ok G_USEC_PER_SEC l call.thread call.now
      (gst_ring_buffer_logger_log_line E L call).2 (by rw [m]; exact hmax) s i
    exact ⟨l1, e1⟩

/-- C36 at a concrete run: with the budget 200 a thread stores three lines of
92 bytes; the size recorded at the end is 184, the sum for the two lines that
stay; the eviction loop for a further line of 92 bytes returns, and so does a
fourth call. -/
theorem log_size_is_sum_of_lines_witness :
    (200 < 2 ^ 32) ∧ (92 < 200) ∧
    (∃ logger,
      run_ring_calls unix_line_decl spec_levels 1000000 (ring_buffer_logger_new 200 0)
        [ring_call 1 0 "net.c" "sent", ring_call 1 1 "net.c" "read", ring_call 1 2 "net.c" "done"]
        = some logger ∧
      (∀ log ∈ logger.threads, log.log_size = (log.log.map List.length).sum) ∧
      (∀ log ∈ logger.threads,
        ∃ r, gst_ring_buffer_logger_log_evict 200 92 log.log log.log_size = some r) ∧
      gst_ring_buffer_logger_log_evict 200 92 [] 0 = some ([], 0) ∧
      (∃ logger1, gst_ring_buffer_logger_log unix_line_decl spec_levels 1000000 logger
        (ring_call 1 3 "net.c" "more") = some logger1)) ∧
    (run_ring_calls unix_line_decl spec_levels 1000000 (ring_buffer_logger_new 200 0)
        [ring_call 1 0 "net.c" "sent", ring_call 1 1 "net.c" "read",
          ring_call 1 2 "net.c" "done"]).map
      (fun logger => logger.threads.map
        (fun log => (log.log_size, (log.log.map List.length).sum)))
      = some [(184, 184)] := by
  refine ⟨by decide, by decide, ?_, by decide⟩
  obtain ⟨logger, h1, h2, h3, h4, h5⟩ :=
    log_size_is_sum_of_lines unix_line_decl spec_levels 1000000 200 0 (by decide)
      [ring_call 1 0 "net.c" "sent", ring_call 1 1 "net.c" "read", ring_call 1 2 "net.c" "done"]
      (ring_call 1 3 "net.c" "more")
  exact ⟨logger, h1, h2, fun log hl => h3 log hl 92 (by decide), h4 92 (by decide), h5⟩

/-- What the code does for a caller whose record has timed out. On the logger
reached from a new one by calls of `gst_ring_buffer_logger_log` whose monotonic
times do not run backwards, with a `thread_timeout` above 0: when the calling
thread has a record whose last use is older than the timeout at the time of
the call, the timeout loop, which runs before the record of the thread is
looked up, drops that record with its lines; the call returns, and after it
the record of the thread, at the head of the queue, holds the new line only
when the line is shorter than the budget, and no line when it is not, a line
of exactly the budget included. -/
theorem stale_caller_starts_afresh (E : GstLineDecl) (L : GstDebugLevelDecl)
    (G_USEC_PER_SEC max_size_per_thread thread_timeout : Nat)
    (hmax : max_size_per_thread < 2 ^ 32) (ht : thread_timeout > 0)
    (calls : List RingLogCall) (call : RingLogCall)
    (hmono : (calls ++ [call]).Pairwise (fun a b => a.now ≤ b.now)) :
    ∃ logger,
      run_ring_calls E L G_USEC_PER_SEC
        (ring_buffer_logger_new max_size_per_thread thread_timeout) calls = some logger ∧
      ∀ log0 ∈ logger.threads, log0.thread = call.thread →
        log0.last_use + ((thread_timeout * G_USEC_PER_SEC : Nat) : Int) < call.now →
        ∃ rest idx,
          gst_ring_buffer_logger_log E L G_USEC_PER_SEC logger call
            = some { logger with
                threads :=
                  ({ last_use := call.now, thread := call.thread,
                     log :=
                       (if (gst_ring_buffer_logger_log_line E L call).2.length
                          < max_size_per_thread
                        then [(gst_ring_buffer_logger_log_line E L call).2] else []),
                     log_size :=
                       (if (gst_ring_buffer_logger_log_line E L call).2.length
                          < max_size_per_thread
                        then (gst_ring_buffer_logger_log_line E L call).2.length else 0) }
                    :: rest)
                thread_index := idx } ∧
          ∀ log ∈ rest, log.thread ≠ call.thread := by
  have hm2 : calls.Pairwise (fun a b => a.now ≤ b.now) :=
    (List.pairwise_append.mp hmono).1
  obtain ⟨l, e, m, t, _, i, r⟩ := run_new_recency E L G_USEC_PER_SEC max_size_per_thread
    thread_timeout hmax calls hm2
  subst m
  refine ⟨l, e, fun log0 h0 h1 hs => ?_⟩
  obtain ⟨h, hn⟩ := stale_caller_store G_USEC_PER_SEC l call.thread call.now
    (gst_ring_buffer_logger_log_line E L call).2 log0 hmax i r
    (by rw [t]; exact ht) h0 h1 (by rw [t]; exact hs)
  exact ⟨_, _, h, fun log hl he => hn (List.mem_map.mpr ⟨log, hl, he⟩)⟩

set_option maxRecDepth 4000 in
/-- The caller whose record has timed out, at a concrete run: with a timeout
of 1 second and the budget 4096, thread 1 stores two lines at the times 0 and
10 and logs again at the time 2000000; its record then holds the third line
only. -/
theorem stale_caller_starts_afresh_witness :
    (4096 < 2 ^ 32) ∧ (1 > 0) ∧
    ([ring_call 1 0 "net.c" "sent", ring_call 1 10 "net.c" "read"]
      ++ [ring_call 1 2000000 "net.c" "done"]).Pairwise (fun a b => a.now ≤ b.now) ∧
    (∃ logger,
      run_ring_calls unix_line_decl spec_levels 1000000 (ring_buffer_logger_new 4096 1)
        [ring_call 1 0 "net.c" "sent", ring_call 1 10 "net.c" "read"] = some logger ∧
      logger.threads.map (fun log => (log.thread, log.last_use, log.log.length))
        = [(1, 10, 2)] ∧
      gst_ring_buffer_logger_log unix_line_decl spec_levels 1000000 logger
          (ring_call 1 2000000 "net.c" "done")
        = some { max_size_per_thread := 4096, thread_timeout := 1,
                 threads :=
                   [{ last_use := 2000000, thread := 1,
                      log := [(gst_ring_buffer_logger_log_line unix_line_decl spec_levels
                        (ring_call 1 2000000 "net.c" "done")).2],
                      log_size := 92 }],
                 thread_index := [1] }) := by
  refine ⟨by decide, by decide, by decide, ?_⟩
  obtain ⟨logger, h1, h2⟩ :=
    stale_caller_starts_afresh unix_line_decl spec_levels 1000000 4096 1 (by decide)
      (by decide) [ring_call 1 0 "net.c" "sent", ring_call 1 10 "net.c" "read"]
      (ring_call 1 2000000 "net.c" "done") (by decide)
  have hv : run_ring_calls unix_line_decl spec_levels 1000000 (ring_buffer_logger_new 4096 1)
      [ring_call 1 0 "net.c" "sent", ring_call 1 10 "net.c" "read"]
      = some { max_size_per_thread := 4096, thread_timeout := 1,
               threads :=
                 [{ last_use := 10, thread := 1,
                    log := [(gst_ring_buffer_logger_log_line unix_line_decl spec_levels
                        (ring_call 1 0 "net.c" "sent")).2,
                      (gst_ring_buffer_logger_log_line unix_line_decl spec_levels
                        (ring_call 1 10 "net.c" "read")).2],
                    log_size := 184 }],
               thread_index := [1] } := by decide
  rw [hv] at h1
  simp only [Option.some.injEq] at h1
  subst h1
  obtain ⟨rest, idx, h3, _⟩ := h2 _ (List.mem_singleton.mpr rfl) rfl (by decide)
  refine ⟨_, hv, by decide, by decide⟩

set_option maxRecDepth 8000 in
/-- C37, the code at a line of exactly the budget: with the budget 92 and a
timeout of 1 second, thread 1 stores a line of 89 bytes at the time 0 and logs
a line of 92 bytes two seconds later. Its record has timed out and is dropped
before the lookup, as the claim says, but the new line, which is within the
budget, is not stored: the test `output_len < max_size_per_thread` sends it to
the `else` branch and the log of the thread is empty. With the budget 93 the
log consists of the new line only. -/
theorem stale_caller_line_of_budget_size_dropped :
    (gst_ring_buffer_logger_log_line unix_line_decl spec_levels
      (ring_call 1 0 "net.c" "a")).2.length = 89 ∧
    (gst_ring_buffer_logger_log_line unix_line_decl spec_levels
      (ring_call 1 2000000 "net.c" "sent")).2.length = 92 ∧
    (run_ring_calls unix_line_decl spec_levels 1000000 (ring_buffer_logger_new 92 1)
        [ring_call 1 0 "net.c" "a"]).map
      (fun logger =>
        logger.threads.map (fun log => (log.thread, log.last_use, log.log.length, log.log_size)))
      = some [(1, 0, 1, 89)] ∧
    run_ring_calls unix_line_decl spec_levels 1000000 (ring_buffer_logger_new 92 1)
        [ring_call 1 0 "net.c" "a", ring_call 1 2000000 "net.c" "sent"]
      = some { max_size_per_thread := 92, thread_timeout := 1,
               threads := [{ last_use := 2000000, thread := 1, log := [], log_size := 0 }],
               thread_index := [1] } ∧
    run_ring_calls unix_line_decl spec_levels 1000000 (ring_buffer_logger_new 93 1)
        [ring_call 1 0 "net.c" "a", ring_call 1 2000000 "net.c" "sent"]
      = some { max_size_per_thread := 93, thread_timeout := 1,
               threads :=
                 [{ last_use := 2000000, thread := 1,
                    log := [(gst_ring_buffer_logger_log_line unix_line_decl spec_levels
                      (ring_call 1 2000000 "net.c" "sent")).2],
                    log_size := 92 }],
               thread_index := [1] } := by
  decide

/-- C38. Whatever the 20 bytes of the work area hold on entry, with a
foreground mask inside the four low bits and a background mask inside the four
bits above them: `gst_debug_construct_term_color` returns ESC `[00`, `;01` if
the bold bit is set, `;04` if the underline bit is set, `;3` and the character
`'0' + fg` if the foreground field is not 0, `;4` and the character `'0' + bg`
if the background field is not 0, and `m`; the string is at most 17 characters
long, and the writes stay inside the area, which holds the string and its
terminator on return. -/
theorem term_color_fits_work_area (E : GstLineDecl) (colorinfo : Nat)
    (tmp_color : List Char) (hlen : tmp_color.length = 20)
    (hfg : E.GST_DEBUG_FG_MASK ≤ 15) (hbg : E.GST_DEBUG_BG_MASK ≤ 255)
    (hlow : E.GST_DEBUG_BG_MASK % 16 = 0) :
    gst_debug_construct_term_color E colorinfo tmp_color
      = some (term_color_spec (decide (colorinfo &&& E.GST_DEBUG_BOLD ≠ 0))
          (decide (colorinfo &&& E.GST_DEBUG_UNDERLINE ≠ 0))
          (colorinfo &&& E.GST_DEBUG_FG_MASK) ((colorinfo &&& E.GST_DEBUG_BG_MASK) >>> 4)) ∧
    (term_color_spec (decide (colorinfo &&& E.GST_DEBUG_BOLD ≠ 0))
      (decide (colorinfo &&& E.GST_DEBUG_UNDERLINE ≠ 0))
      (colorinfo &&& E.GST_DEBUG_FG_MASK)
      ((colorinfo &&& E.GST_DEBUG_BG_MASK) >>> 4)).length ≤ 17 ∧
    ∃ rest,
      _construct_term_color_write_area E colorinfo tmp_color
        = some (term_color_spec (decide (colorinfo &&& E.GST_DEBUG_BOLD ≠ 0))
            (decide (colorinfo &&& E.GST_DEBUG_UNDERLINE ≠ 0))
            (colorinfo &&& E.GST_DEBUG_FG_MASK) ((colorinfo &&& E.GST_DEBUG_BG_MASK) >>> 4)
            ++ NUL :: rest) ∧
      (term_color_spec (decide (colorinfo &&& E.GST_DEBUG_BOLD ≠ 0))
        (decide (colorinfo &&& E.GST_DEBUG_UNDERLINE ≠ 0))
        (colorinfo &&& E.GST_DEBUG_FG_MASK) ((colorinfo &&& E.GST_DEBUG_BG_MASK) >>> 4)
        ++ NUL :: rest).length = 20 := by
  obtain ⟨hs, hn⟩ := construct_term_color_spec E colorinfo hfg hbg hlow
  have hw := construct_term_color_write_area_closed E colorinfo tmp_color hlen
  have hl := construct_term_color_length E colorinfo
  rw [← hs]
  refine ⟨?_, hl, _, hw, ?_⟩
  · unfold gst_debug_construct_term_color
    rw [hw]
    exact g_strdup_terminated _ _ hn
  · rw [List.length_append, List.length_cons, List.length_drop, hlen]
    omega

/-- C38 at a concrete value: with the masks 15 and 240, the bold bit 256 and
the underline bit 512, the colour 0x3ff gives the longest sequence, of 17
characters, in a work area that held 20 times `x`. -/
theorem term_color_fits_work_area_witness :
    (List.replicate 20 'x').length = 20 ∧ unix_line_decl.GST_DEBUG_FG_MASK ≤ 15 ∧
    unix_line_decl.GST_DEBUG_BG_MASK ≤ 255 ∧ unix_line_decl.GST_DEBUG_BG_MASK % 16 = 0 ∧
    gst_debug_construct_term_color unix_line_decl 1023 (List.replicate 20 'x')
      = some (Char.ofNat 27 :: "[00;01;04;3?;4?m".toList) ∧
    _construct_term_color_write_area unix_line_decl 1023 (List.replicate 20 'x')
      = some (Char.ofNat 27 :: "[00;01;04;3?;4?m".toList ++ [NUL, 'x', 'x']) ∧
    gst_debug_construct_term_color unix_line_decl 39 (List.replicate 20 'x')
      = some (Char.ofNat 27 :: "[00;37;42m".toList) :=
  ⟨by decide, by decide, by decide, by decide,
    (term_color_fits_work_area unix_line_decl 1023 (List.replicate 20 'x') (by decide)
      (by decide) (by decide) (by decide)).1,
    by decide, by decide⟩

set_option maxRecDepth 8000 in
/-- C31, the code at a value of 102 characters: in
`data=(buffer)aaa...awxyz;n=1` with 98 times `a` the loop finds the value at
index 13 and counts 102 characters, writes `..` at 13 + 94 and then calls
`memcpy (pos + 96, pos + 98, 4)`, whose source and destination overlap in two
bytes, so that C gives the call no defined result: a copy from the first byte
on leaves `wxyz` behind the two dots, a copy from the last byte on leaves
`yzyz`. With 100 times `a` the value has 104 characters and becomes 94 times
`a`, `..` and `wxyz`; with 96 times `a` it has 100 characters and stays. -/
theorem buffer_value_of_102_characters_overlaps :
    prettify_structure_string
        ("data=(buffer)".toList ++ List.replicate 98 'a' ++ "wxyz;n=1".toList)
      = some none ∧
    memcpy ("data=(buffer)".toList ++ List.replicate 98 'a' ++ "wxyz;n=1".toList)
        (13 + MAX_BUFFER_DUMP_STRING_LEN - 6) "..".toList
      = some ("data=(buffer)".toList ++ List.replicate 94 'a' ++ "..aawxyz;n=1".toList) ∧
    memcpy_within ("data=(buffer)".toList ++ List.replicate 94 'a' ++ "..aawxyz;n=1".toList)
        (13 + MAX_BUFFER_DUMP_STRING_LEN - 4) (13 + 102 - 4) 4
      = none ∧
    memcpy_ascending ("data=(buffer)".toList ++ List.replicate 94 'a' ++ "..aawxyz;n=1".toList)
        (13 + MAX_BUFFER_DUMP_STRING_LEN - 4) (13 + 102 - 4) 4
      = "data=(buffer)".toList ++ List.replicate 94 'a' ++ "..wxyzyz;n=1".toList ∧
    memcpy_descending ("data=(buffer)".toList ++ List.replicate 94 'a' ++ "..aawxyz;n=1".toList)
        (13 + MAX_BUFFER_DUMP_STRING_LEN - 4) (13 + 102 - 4) 4
      = "data=(buffer)".toList ++ List.replicate 94 'a' ++ "..yzyzyz;n=1".toList ∧
    prettify_structure_string
        ("data=(buffer)".toList ++ List.replicate 100 'a' ++ "wxyz;n=1".toList)
      = some (some ("data=(buffer)".toList ++ List.replicate 94 'a'
          ++ "..wxyz;n=1".toList)) ∧
    prettify_structure_string
        ("data=(buffer)".toList ++ List.replicate 96 'a' ++ "wxyz;n=1".toList)
      = some (some ("data=(buffer)".toList ++ List.replicate 96 'a'
          ++ "wxyz;n=1".toList)) := by
  decide

/-- C40, the code at the length `2 ^ 32 - 1`: however many rounds the loop of
`_gst_debug_dump_mem_full` is given, it has not ended, and the closing rule is
not logged: `off` is a `guint`, so `off += 16` takes it from `2 ^ 32 - 16`,
which is below the length, back to 0. For the length 40 the same function
ends after three rounds and logs three data lines between the two rules. -/
theorem dump_mem_never_ends_at_length_max (msg : Option (List Char))
    (data : Option (List Nat)) (fuel : Nat) :
    _gst_debug_dump_mem_full fuel msg data 4294967295 = none ∧
    _gst_debug_dump_mem_full 4 none data 40
      = some ["--------".toList
            ++ "-------------------------------------------------------------------".toList,
          gst_info_dump_mem_line 128 data 0 40, gst_info_dump_mem_line 128 data 16 24,
          gst_info_dump_mem_line 128 data 32 8,
          "--------".toList
            ++ "-------------------------------------------------------------------".toList] := by
  constructor
  · unfold _gst_debug_dump_mem_full
    rw [dump_mem_loop_wraps data fuel 0 rfl (by norm_num)]
    rfl
  · rw [dump_mem_full_lines none data 40 (by norm_num) 4 (by norm_num)]
    rfl

end GstInfo
